import Mathlib

/-!
# Attention engine and rotary cache writer of cpu_extensions

A shallow embedding of `src/mha_gpt_amx.cpp` (the attention engine) and of
`src/emb_gpt_avx512.cpp` (the rotary cache writer), with theorems about both.

Conventions of the embedding:

* sizes and offsets are natural numbers (`size_t`); the two subtractions that can wrap on
  small inputs, `key_seq_len - query_seq_len` of the attention engine and
  `_size_per_head - _rotary_dim` of the cache writer, are taken modulo `2 ^ 64`;
* the definitions take the arithmetic on tensor elements from any type `F` with an addition,
  a multiplication and a division; the theorems take `F` a field, where the arithmetic is
  exact, unless they name a weaker structure, and `flt` adds a NaN to the rationals; the
  conversions between `float`, `bfloat16` and `int32_t` are the identity there, the two
  saturating roundings of the quantized pipeline and the exponential are parameters;
* memory of the attention engine is a map from the byte offset at which an element starts
  to that element; memory of the cache writer is a heap of byte buffers.
-/

namespace llmdnn

/-! ## Types shared by the two engines -/

/-- Modelled from the spec: the element datatype tag of a tensor view (the enumeration of
`llm_types.hpp`, which is not among the sources); the members named in the sources are
`dnnl_data_type_undef`, `dnnl_bf16`, `dnnl_f32` and `dnnl_s8`. -/
inductive data_type_t
  | dnnl_data_type_undef
  | dnnl_f16
  | dnnl_bf16
  | dnnl_f32
  | dnnl_s32
  | dnnl_s8
  | dnnl_u8
  deriving DecidableEq, Repr

open data_type_t

/-- Modelled from the spec: `get_precision_size` of `common/utility.hpp` (not among the
sources), the width in bytes of one element of a precision. -/
def get_precision_size : data_type_t → Nat
  | dnnl_f16 => 2
  | dnnl_bf16 => 2
  | dnnl_f32 => 4
  | dnnl_s32 => 4
  | dnnl_s8 => 1
  | dnnl_u8 => 1
  | dnnl_data_type_undef => 0

/-- Modelled from the spec: `rndup` of `common/utility.hpp` (not among the sources), which
pads `x` up to the next multiple of `n`. -/
def rndup (x n : Nat) : Nat := (x + n - 1) / n * n

/-! ## The rotary cache writer (`emb_gpt_avx512.cpp`) -/

namespace emb_gpt

/-- The configuration handed to `create` (`emb_gpt::create_param`). -/
structure create_param where
  num_heads : Nat
  head_size : Nat
  head_size_aligned : Nat
  qkv_precision : data_type_t
  dst_precision : data_type_t
  max_seq_len : Nat
  rotary_dims : Nat
  use_position2d : Bool
  deriving DecidableEq, Repr

/-- A `uint8_t*`: a caller-owned buffer and a byte offset into it. -/
structure ptr where
  buf : Nat
  off : Nat
  deriving DecidableEq, Repr

/-- Pointer arithmetic on a `uint8_t*`. -/
def ptr.add (p : ptr) (n : Nat) : ptr := ⟨p.buf, p.off + n⟩

/-- The byte memory the writer works on: buffer, byte offset, byte. -/
abbrev heap := Nat → Nat → Nat

/-- One `bfloat16`, as its two bytes. -/
abbrev bf16 := Nat × Nat

/-- The per-call parameters (`emb_gpt::exec_param`); `C` is the type of the `float` entries
of the cosine and sine tables. A null `layer_past_key_src` is `none`. -/
structure exec_param (C : Type) where
  batch : Nat
  query_seq_len : Nat
  past_seq_len : Nat
  q : ptr
  k : ptr
  v : ptr
  ldq : Nat
  ldk : Nat
  ldv : Nat
  query_dst : ptr
  layer_past_key_src : Option (Nat → ptr)
  layer_past_value_src : Nat → ptr
  layer_past_key_dst : Nat → ptr
  layer_past_value_dst : Nat → ptr
  position2d_ids : Nat → Int
  head_stride_in_kv : Nat
  cos : Nat → C
  sin : Nat → C

end emb_gpt

open emb_gpt in
/-- The writer object (`emb_gpt_impl_avx512`), with the defaults of its member
initialisers. -/
structure emb_gpt_impl_avx512 where
  _create_param : emb_gpt.create_param
  _head_num : Nat := 32
  _size_per_head : Nat := 80
  _hidden_size : Nat := 32 * 80
  _rotary_dim : Nat := 20
  _size_per_head_aligned : Nat := 80
  _input_type_size : Nat := 1
  _output_type_size : Nat := 1
  _use_position2d : Bool := false
  deriving DecidableEq, Repr

namespace emb_gpt_impl_avx512

open emb_gpt

/-- The writer's `create`: the returned flag and the object after the call. -/
def create (self : emb_gpt_impl_avx512) (param : create_param) : Bool × emb_gpt_impl_avx512 :=
  if param.qkv_precision ≠ dnnl_bf16 then
    (false, self)
  else
    (true,
      { _create_param := param
        _head_num := param.num_heads
        _size_per_head := param.head_size
        _size_per_head_aligned := param.head_size_aligned
        _hidden_size := param.head_size * param.num_heads
        _rotary_dim := param.rotary_dims
        _input_type_size := 2
        _output_type_size := if param.dst_precision = dnnl_s8 then 1 else 2
        _use_position2d := param.use_position2d })

/-- The library `memcpy`: `n` bytes from `src` to `dst`, the source read before any byte is
written. -/
def memcpy (m : heap) (dst src : ptr) (n : Nat) : heap :=
  fun b o =>
    if b = dst.buf ∧ dst.off ≤ o ∧ o < dst.off + n then m src.buf (src.off + (o - dst.off))
    else m b o

/-- Modelled from the spec: `parallel_for3d` of `common/simple_parallel.hpp` (not among the
sources) runs the body once for every index triple; here in lexicographic order. -/
def parallel_for3d {σ : Type} (D0 D1 D2 : Nat) (body : Nat → Nat → Nat → σ → σ) (init : σ) : σ :=
  (List.range D0).foldl
    (fun m0 b => (List.range D1).foldl
      (fun m1 h => (List.range D2).foldl (fun m2 s => body b h s m2) m1) m0) init

/-- The carry-forward copy `memcpyPastKV`. -/
def memcpyPastKV (self : emb_gpt_impl_avx512) (pastk_src pastv_src pastk_dst pastv_dst : Nat → ptr)
    (batch past_seq_len head_stride_in_kv : Nat) (m : heap) : heap :=
  parallel_for3d batch self._head_num past_seq_len (fun b h s m =>
    let k_dst_batch := pastk_dst b
    let v_dst_batch := pastv_dst b
    let k_src_batch := pastk_src b
    let v_src_batch := pastv_src b
    let k_dst_seq := k_dst_batch.add (s * self._size_per_head_aligned * self._output_type_size)
    let v_dst_seq := v_dst_batch.add (s * self._size_per_head_aligned * self._output_type_size)
    let k_src_seq := k_src_batch.add (s * self._size_per_head_aligned * self._output_type_size)
    let v_src_seq := v_src_batch.add (s * self._size_per_head_aligned * self._output_type_size)
    let k_src_f := k_src_seq.add
      (h * past_seq_len * self._size_per_head_aligned * self._output_type_size)
    let k_dst_f := k_dst_seq.add (h * head_stride_in_kv * self._output_type_size)
    let v_src_f := v_src_seq.add
      (h * past_seq_len * self._size_per_head_aligned * self._output_type_size)
    let v_dst_f := v_dst_seq.add (h * head_stride_in_kv * self._output_type_size)
    let m1 := memcpy m k_dst_f k_src_f (self._output_type_size * self._size_per_head)
    memcpy m1 v_dst_f v_src_f (self._output_type_size * self._size_per_head)) m

/-- Element `i` of a `bfloat16*`. -/
def load_bf16 (m : heap) (p : ptr) (i : Nat) : bf16 :=
  (m p.buf (p.off + 2 * i), m p.buf (p.off + 2 * i + 1))

/-- Store of `n` consecutive `bfloat16` elements at `dst`. -/
def store_bf16 (m : heap) (dst : ptr) (n : Nat) (vals : Nat → bf16) : heap :=
  fun b o =>
    if b = dst.buf ∧ dst.off ≤ o ∧ o < dst.off + 2 * n then
      (if (o - dst.off) % 2 = 0 then (vals ((o - dst.off) / 2)).1
       else (vals ((o - dst.off) / 2)).2)
    else m b o

/-- The call `rotary_avx512(N, cos, sin, q_src, k_src, q_dst, k_dst)`. The kernel itself
(`rotary_kernel_avx512.hpp`) is not among the sources and is the parameter `rot`:
`rot N cos sin src i` is element `i` of the rotation of the `N` elements `src` by the table
rows `cos` and `sin`. Both sources are read before the destinations are written. -/
def rotary_avx512 {C : Type} (rot : Nat → (Nat → C) → (Nat → C) → (Nat → bf16) → Nat → bf16)
    (N : Nat) (cos sin : Nat → C) (q_src k_src q_dst k_dst : ptr) (m : heap) : heap :=
  let q := rot N cos sin (load_bf16 m q_src)
  let k := rot N cos sin (load_bf16 m k_src)
  store_bf16 (store_bf16 m q_dst N q) k_dst N k

/-- The difference `a - b` of two `size_t`. -/
def size_sub (a b : Nat) : Nat := (a + 2 ^ 64 - b) % 2 ^ 64

/-- The body of the lambda of `applyRotaryPosEmbMemcpy` at the index triple `(b, h, s)`;
`key_offset`, `cos_cached` and `sin_cached` are the locals it captures. -/
def applyRotaryPosEmbMemcpy_body {C : Type} (self : emb_gpt_impl_avx512)
    (rot : Nat → (Nat → C) → (Nat → C) → (Nat → bf16) → Nat → bf16)
    (q_src k_src v_src : ptr) (ldq ldk ldv : Nat) (q_dst : ptr) (k_dst v_dst : Nat → ptr)
    (q_seq_len head_stride_in_kv key_offset : Nat) (cos_cached sin_cached : Nat → C)
    (b h s : Nat) (m : heap) : heap :=
  let q_dst_batch := q_dst.add
    (b * self._head_num * q_seq_len * self._size_per_head_aligned * self._output_type_size)
  let k_dst_batch := (k_dst b).add key_offset
  let v_dst_batch := (v_dst b).add key_offset
  let q_src_batch := q_src.add (b * self._head_num * ldq * q_seq_len * self._input_type_size)
  let k_src_batch := k_src.add (b * self._head_num * ldk * q_seq_len * self._input_type_size)
  let v_src_batch := v_src.add (b * self._head_num * ldv * q_seq_len * self._input_type_size)
  let q_dst_seq := q_dst_batch.add (s * self._size_per_head_aligned * self._output_type_size)
  let k_dst_seq := k_dst_batch.add (s * self._size_per_head_aligned * self._output_type_size)
  let v_dst_seq := v_dst_batch.add (s * self._size_per_head_aligned * self._output_type_size)
  let q_src_seq := q_src_batch.add (s * self._head_num * ldq * self._input_type_size)
  let k_src_seq := k_src_batch.add (s * self._head_num * ldk * self._input_type_size)
  let v_src_seq := v_src_batch.add (s * self._head_num * ldv * self._input_type_size)
  let q_src_f := q_src_seq.add (h * ldq * self._input_type_size)
  let k_src_f := k_src_seq.add (h * ldk * self._input_type_size)
  let q_dst_f := q_dst_seq.add
    (h * q_seq_len * self._size_per_head_aligned * self._output_type_size)
  let k_dst_f := k_dst_seq.add (h * head_stride_in_kv * self._output_type_size)
  let m1 := rotary_avx512 rot self._rotary_dim
    (fun i => cos_cached (s * self._rotary_dim + i))
    (fun i => sin_cached (s * self._rotary_dim + i)) q_src_f k_src_f q_dst_f k_dst_f m
  let m2 := memcpy m1 (q_dst_f.add (self._rotary_dim * self._output_type_size))
    (q_src_f.add (self._rotary_dim * self._input_type_size))
    (self._output_type_size * size_sub self._size_per_head self._rotary_dim)
  let m3 := memcpy m2 (k_dst_f.add (self._rotary_dim * self._output_type_size))
    (k_src_f.add (self._rotary_dim * self._input_type_size))
    (self._output_type_size * size_sub self._size_per_head self._rotary_dim)
  memcpy m3 (v_dst_seq.add (h * head_stride_in_kv * self._output_type_size))
    (v_src_seq.add (h * ldv * self._input_type_size))
    (self._size_per_head * self._output_type_size)

/-- The one-track writer `applyRotaryPosEmbMemcpy`. -/
def applyRotaryPosEmbMemcpy {C : Type} (self : emb_gpt_impl_avx512)
    (rot : Nat → (Nat → C) → (Nat → C) → (Nat → bf16) → Nat → bf16)
    (q_src k_src v_src : ptr) (ldq ldk ldv : Nat) (q_dst : ptr) (k_dst v_dst : Nat → ptr)
    (batch q_seq_len past_seq_len head_stride_in_kv : Nat) (cos sin : Nat → C) (m : heap) :
    heap :=
  let key_offset := self._output_type_size * past_seq_len * self._size_per_head_aligned
  let cos_cached := fun i => cos (past_seq_len * self._rotary_dim + i)
  let sin_cached := fun i => sin (past_seq_len * self._rotary_dim + i)
  parallel_for3d batch self._head_num q_seq_len
    (applyRotaryPosEmbMemcpy_body self rot q_src k_src v_src ldq ldk ldv q_dst k_dst v_dst
      q_seq_len head_stride_in_kv key_offset cos_cached sin_cached) m

/-- The conversion of an `int` position id to the `size_t` it is multiplied as. -/
def id_to_size_t (i : Int) : Nat := (i % (2 : Int) ^ 64).toNat

/-- The body of the lambda of `applyRotaryPosEmbMemcpyWithPosition2d` at the index triple
`(b, h, s)`; `key_offset`, `cos_cached` and `sin_cached` are the locals it captures. -/
def applyRotaryPosEmbMemcpyWithPosition2d_body {C : Type} (self : emb_gpt_impl_avx512)
    (rot : Nat → (Nat → C) → (Nat → C) → (Nat → bf16) → Nat → bf16)
    (q_src k_src v_src : ptr) (ldq ldk ldv : Nat) (q_dst : ptr) (k_dst v_dst : Nat → ptr)
    (q_seq_len : Nat) (position2d_ids : Nat → Int) (head_stride_in_kv key_offset : Nat)
    (cos_cached sin_cached : Nat → C) (b h s : Nat) (m : heap) : heap :=
  let q_dst_batch := q_dst.add
    (b * self._head_num * q_seq_len * self._size_per_head_aligned * self._output_type_size)
  let k_dst_batch := (k_dst b).add key_offset
  let v_dst_batch := (v_dst b).add key_offset
  let pos_batch := fun i => position2d_ids (b * 2 * q_seq_len + i)
  let block_batch := fun i => pos_batch (q_seq_len + i)
  let q_src_batch := q_src.add (b * self._head_num * ldq * q_seq_len * self._input_type_size)
  let k_src_batch := k_src.add (b * self._head_num * ldk * q_seq_len * self._input_type_size)
  let v_src_batch := v_src.add (b * self._head_num * ldv * q_seq_len * self._input_type_size)
  let q_dst_seq := q_dst_batch.add (s * self._size_per_head_aligned * self._output_type_size)
  let k_dst_seq := k_dst_batch.add (s * self._size_per_head_aligned * self._output_type_size)
  let v_dst_seq := v_dst_batch.add (s * self._size_per_head_aligned * self._output_type_size)
  let q_src_seq := q_src_batch.add (s * self._head_num * ldq * self._input_type_size)
  let k_src_seq := k_src_batch.add (s * self._head_num * ldk * self._input_type_size)
  let v_src_seq := v_src_batch.add (s * self._head_num * ldv * self._input_type_size)
  let q_src_f := q_src_seq.add (h * ldq * self._input_type_size)
  let k_src_f := k_src_seq.add (h * ldk * self._input_type_size)
  let q_dst_f := q_dst_seq.add
    (h * q_seq_len * self._size_per_head_aligned * self._output_type_size)
  let k_dst_f := k_dst_seq.add (h * head_stride_in_kv * self._output_type_size)
  let m1 := rotary_avx512 rot self._rotary_dim
    (fun i => cos_cached (id_to_size_t (pos_batch s) * self._rotary_dim + i))
    (fun i => sin_cached (id_to_size_t (pos_batch s) * self._rotary_dim + i))
    q_src_f k_src_f q_dst_f k_dst_f m
  let m2 := rotary_avx512 rot self._rotary_dim
    (fun i => cos_cached (id_to_size_t (block_batch s) * self._rotary_dim + i))
    (fun i => sin_cached (id_to_size_t (block_batch s) * self._rotary_dim + i))
    (q_src_f.add (2 * self._rotary_dim)) (k_src_f.add (2 * self._rotary_dim))
    (q_dst_f.add (2 * self._rotary_dim)) (k_dst_f.add (2 * self._rotary_dim)) m1
  memcpy m2 (v_dst_seq.add (h * head_stride_in_kv * self._output_type_size))
    (v_src_seq.add (h * ldv * self._input_type_size))
    (self._size_per_head * self._output_type_size)

/-- The two-track writer `applyRotaryPosEmbMemcpyWithPosition2d`. -/
def applyRotaryPosEmbMemcpyWithPosition2d {C : Type} (self : emb_gpt_impl_avx512)
    (rot : Nat → (Nat → C) → (Nat → C) → (Nat → bf16) → Nat → bf16)
    (q_src k_src v_src : ptr) (ldq ldk ldv : Nat) (q_dst : ptr) (k_dst v_dst : Nat → ptr)
    (batch q_seq_len past_seq_len : Nat) (position2d_ids : Nat → Int)
    (head_stride_in_kv : Nat) (cos sin : Nat → C) (m : heap) : heap :=
  let key_offset := self._output_type_size * past_seq_len * self._size_per_head_aligned
  let cos_cached := cos
  let sin_cached := sin
  parallel_for3d batch self._head_num q_seq_len
    (applyRotaryPosEmbMemcpyWithPosition2d_body self rot q_src k_src v_src ldq ldk ldv q_dst
      k_dst v_dst q_seq_len position2d_ids head_stride_in_kv key_offset cos_cached
      sin_cached) m

/-- Where a call of the writer's `exec` ends. -/
inductive exec_path
  | assert_false
  | position2d
  | rotary
  deriving DecidableEq, Repr

/-- The test of `exec` that starts the carry-forward copy. -/
def copies_past {C : Type} (param : exec_param C) : Bool :=
  match param.layer_past_key_src with
  | none => false
  | some key_src =>
    decide (key_src 0 ≠ param.layer_past_key_dst 0) && decide (param.past_seq_len ≠ 0)

/-- The first statement of `exec`: the carry-forward copy, when its test holds. -/
def exec_copy {C : Type} (self : emb_gpt_impl_avx512) (param : exec_param C) (m : heap) : heap :=
  match param.layer_past_key_src with
  | none => m
  | some key_src =>
    if copies_past param then
      memcpyPastKV self key_src param.layer_past_value_src param.layer_past_key_dst
        param.layer_past_value_dst param.batch param.past_seq_len param.head_stride_in_kv m
    else m

/-- The writer's `exec`: where the call ends and the memory it leaves. -/
def exec {C : Type} (self : emb_gpt_impl_avx512)
    (rot : Nat → (Nat → C) → (Nat → C) → (Nat → bf16) → Nat → bf16)
    (param : exec_param C) (m : heap) : exec_path × heap :=
  let query := param.q
  let key := param.k
  let value := param.v
  let query_dst := param.query_dst
  let key_dst := param.layer_past_key_dst
  let value_dst := param.layer_past_value_dst
  let batch := param.batch
  let query_seq_len := param.query_seq_len
  let past_seq_len := param.past_seq_len
  let head_stride_in_kv := param.head_stride_in_kv
  let m1 := exec_copy self param m
  if self._create_param.dst_precision = dnnl_s8 then
    (exec_path.assert_false, m1)
  else if self._use_position2d then
    (exec_path.position2d,
      applyRotaryPosEmbMemcpyWithPosition2d self rot query key value param.ldq param.ldk
        param.ldv query_dst key_dst value_dst batch query_seq_len past_seq_len
        param.position2d_ids head_stride_in_kv param.cos param.sin m1)
  else
    (exec_path.rotary,
      applyRotaryPosEmbMemcpy self rot query key value param.ldq param.ldk param.ldv
        query_dst key_dst value_dst batch query_seq_len past_seq_len head_stride_in_kv
        param.cos param.sin m1)

end emb_gpt_impl_avx512

/-! ### Notions used to state the theorems about the cache writer -/

namespace emb_gpt_impl_avx512

open emb_gpt

/-- Row `row` of a cosine or sine table whose rows have `rotary_dim` entries. -/
def table_row {C : Type} (table : Nat → C) (rotary_dim row : Nat) : Nat → C :=
  fun i => table (row * rotary_dim + i)

/-- The writes of one index triple of the one-track writer with two-byte elements, in terms
of the pointers of the triple: the rotation of `rd` elements of the query and key head
vectors, the copies of `n_copy` bytes after them and the copy of `n_value` bytes of the
value head vector. -/
def rotary_writes {C : Type} (rot : Nat → (Nat → C) → (Nat → C) → (Nat → bf16) → Nat → bf16)
    (rd n_copy n_value : Nat) (cos_row sin_row : Nat → C)
    (q_src_f k_src_f v_src_f q_dst_f k_dst_f v_dst_f : ptr) (m : heap) : heap :=
  let m1 := rotary_avx512 rot rd cos_row sin_row q_src_f k_src_f q_dst_f k_dst_f m
  let m2 := memcpy m1 (q_dst_f.add (2 * rd)) (q_src_f.add (2 * rd)) n_copy
  let m3 := memcpy m2 (k_dst_f.add (2 * rd)) (k_src_f.add (2 * rd)) n_copy
  memcpy m3 v_dst_f v_src_f n_value

/-- The writes of one index triple of the two-track writer with two-byte elements, in terms
of the pointers of the triple: two rotations of `rd` elements each, the second `rd` elements
after the first, and the copy of `n_value` bytes of the value head vector. -/
def rotary_writes2d {C : Type}
    (rot : Nat → (Nat → C) → (Nat → C) → (Nat → bf16) → Nat → bf16)
    (rd n_value : Nat) (cos_row0 sin_row0 cos_row1 sin_row1 : Nat → C)
    (q_src_f k_src_f v_src_f q_dst_f k_dst_f v_dst_f : ptr) (m : heap) : heap :=
  let m1 := rotary_avx512 rot rd cos_row0 sin_row0 q_src_f k_src_f q_dst_f k_dst_f m
  let m2 := rotary_avx512 rot rd cos_row1 sin_row1 (q_src_f.add (2 * rd))
    (k_src_f.add (2 * rd)) (q_dst_f.add (2 * rd)) (k_dst_f.add (2 * rd)) m1
  memcpy m2 v_dst_f v_src_f n_value

/-- The destination buffers of a call are separate allocations: the query destination, the
key caches and the value caches of the batch elements lie in pairwise different buffers. -/
def dst_separate (batch : Nat) (q_dst : ptr) (k_dst v_dst : Nat → ptr) : Prop :=
  (∀ b, b < batch → q_dst.buf ≠ (k_dst b).buf ∧ q_dst.buf ≠ (v_dst b).buf) ∧
  (∀ b, b < batch → ∀ b2, b2 < batch → (k_dst b).buf ≠ (v_dst b2).buf) ∧
  (∀ b, b < batch → ∀ b2, b2 < batch → (k_dst b).buf = (k_dst b2).buf → b = b2) ∧
  (∀ b, b < batch → ∀ b2, b2 < batch → (v_dst b).buf = (v_dst b2).buf → b = b2)

/-- The buffer `x` is none of the destination buffers of a call. -/
def src_separate (batch : Nat) (x : Nat) (q_dst : ptr) (k_dst v_dst : Nat → ptr) : Prop :=
  x ≠ q_dst.buf ∧ ∀ b, b < batch → x ≠ (k_dst b).buf ∧ x ≠ (v_dst b).buf

/-- The byte `o` of buffer `x` lies in the range the index triple `(b, h, s)` may write:
the first `n_qk` bytes of its slot of the query destination or of the key cache of `b`, or
the first `n_value` bytes of its slot of the value cache of `b`. -/
def in_slots (q_dst : ptr) (k_dst v_dst : Nat → ptr) (nh hsa n past stride n_qk n_value : Nat)
    (b h s x o : Nat) : Prop :=
  (x = q_dst.buf ∧ q_dst.off + 2 * (((b * nh + h) * n + s) * hsa) ≤ o ∧
      o < q_dst.off + 2 * (((b * nh + h) * n + s) * hsa) + n_qk) ∨
  (x = (k_dst b).buf ∧ (k_dst b).off + 2 * (h * stride + (past + s) * hsa) ≤ o ∧
      o < (k_dst b).off + 2 * (h * stride + (past + s) * hsa) + n_qk) ∨
  (x = (v_dst b).buf ∧ (v_dst b).off + 2 * (h * stride + (past + s) * hsa) ≤ o ∧
      o < (v_dst b).off + 2 * (h * stride + (past + s) * hsa) + n_value)

/-- The call parameters with a null array of previous key caches. -/
def without_past {C : Type} (param : exec_param C) : exec_param C :=
  { batch := param.batch
    query_seq_len := param.query_seq_len
    past_seq_len := param.past_seq_len
    q := param.q
    k := param.k
    v := param.v
    ldq := param.ldq
    ldk := param.ldk
    ldv := param.ldv
    query_dst := param.query_dst
    layer_past_key_src := none
    layer_past_value_src := param.layer_past_value_src
    layer_past_key_dst := param.layer_past_key_dst
    layer_past_value_dst := param.layer_past_value_dst
    position2d_ids := param.position2d_ids
    head_stride_in_kv := param.head_stride_in_kv
    cos := param.cos
    sin := param.sin }

end emb_gpt_impl_avx512

/-! ## The attention engine (`mha_gpt_amx.cpp`) -/

namespace mha_gpt

/-- Memory of the attention engine: the element that starts at a byte offset. -/
abbrev Mem (F : Type) := Nat → F

/-- The configuration handed to `create` (`mha_gpt::create_param`). -/
structure create_param (F : Type) where
  num_heads : Nat
  head_size : Nat
  head_size_aligned : Nat
  normal_factor : F
  qkv_precision : data_type_t
  dst_precision : data_type_t
  max_seq_len : Nat
  is_bloom : Bool

/-- Modelled from the spec: the tensor view of `llm_types.hpp` (not among the sources): rank,
per-dimension extents, per-dimension byte strides and the memory it points to. -/
structure tensor (F : Type) where
  m_rank : Nat
  m_dims : Nat → Nat
  m_strides : Nat → Nat
  m_ptr : Mem F

/-- Modelled from the spec: the byte offset of `&t.at<uint8_t>({i0, i1})`. -/
def tensor.at2 {F : Type} (t : tensor F) (i0 i1 : Nat) : Nat :=
  i0 * t.m_strides 0 + i1 * t.m_strides 1

/-- Modelled from the spec: the byte offset of `&t.at<uint8_t>({i0, i1, i2})`. -/
def tensor.at3 {F : Type} (t : tensor F) (i0 i1 i2 : Nat) : Nat :=
  i0 * t.m_strides 0 + i1 * t.m_strides 1 + i2 * t.m_strides 2

/-- Modelled from the spec: the element `t.at<T>({i0, i1, i2, i3})` of a rank 4 view. -/
def tensor.at4 {F : Type} (t : tensor F) (i0 i1 i2 i3 : Nat) : F :=
  t.m_ptr (i0 * t.m_strides 0 + i1 * t.m_strides 1 + i2 * t.m_strides 2 + i3 * t.m_strides 3)

/-- The per-call parameters (`mha_gpt::exec_param`). The memory of `attn_output` is the
content of the output tensor before the call. -/
structure exec_param (F : Type) where
  batch : Nat
  query_seq_len : Nat
  key_seq_len : Nat
  is_causal_in_attention : Bool
  q : tensor F
  k : tensor F
  v : tensor F
  attention_mask : tensor F
  alibi : tensor F
  attn_output : tensor F
  q_dequant : F
  k_dequant : F
  v_dequant : F
  qk_quant : F
  qkv_quant : List F

/-- The numeric primitives that exact arithmetic leaves open: the exponential of the softmax
kernel and the saturating roundings to `uint8_t` and to `int8_t`. -/
structure numerics (F : Type) where
  expf : F → F
  round_u8 : F → F
  round_s8 : F → F

/-- Modelled from the spec: what the engine takes from the work partitioner of
`common/simple_parallel.hpp` (not among the sources): the thread count `getTotalThreads()`,
the range `splitter n team tid` of work items of a thread, and the thread on which
`parallel_for2d D0 D1` runs the item `(i0, i1)`. -/
structure parallel_env where
  getTotalThreads : Nat
  splitter : Nat → Nat → Nat → Nat × Nat
  thread2d : Nat → Nat → Nat → Nat → Nat

/-- Modelled from the spec: `parallel_it_init(start, i0, D0, i1, D1, seq, D2)`, the
coordinates of work item `start`, the last coordinate running fastest; `parallel_it_step`
moves to the coordinates of the next work item. -/
def parallel_it_init (start D0 D1 D2 : Nat) : Nat × Nat × Nat :=
  (start / D2 / D1 % D0, start / D2 % D1, start % D2)

/-- Modelled from the spec: a two-dimensional window `tensor2D<T>(dims0, dims1, data, stride)`
of `common/tensor2d.hpp` (not among the sources): `stride` is the byte distance of two rows,
`elt` is `sizeof(T)`. -/
structure tensor2D (F : Type) where
  dims0 : Nat
  dims1 : Nat
  mem : Mem F
  data : Nat
  stride : Nat
  elt : Nat

/-- Element `(r, c)` of a window. -/
def tensor2D.get {F : Type} (t : tensor2D F) (r c : Nat) : F :=
  t.mem (t.data + r * t.stride + c * t.elt)

/-- Store of `n` elements of width `elt` at `base`, `base + elt`, ... -/
def storeRow {F : Type} (m : Mem F) (base elt n : Nat) (vals : Nat → F) : Mem F :=
  fun a =>
    if base ≤ a ∧ (a - base) % elt = 0 ∧ (a - base) / elt < n then vals ((a - base) / elt)
    else m a

/-- Store of `rows` rows of `cols` elements, row `r` at `base + r * stride`, in row order. -/
def store2d {F : Type} (m : Mem F) (base stride elt rows cols : Nat) (vals : Nat → Nat → F) :
    Mem F :=
  (List.range rows).foldl (fun acc r => storeRow acc (base + r * stride) elt cols (vals r)) m

/-- The library `memset(p, 0, n)`. -/
def memset0 {F : Type} [Zero F] (m : Mem F) (p n : Nat) : Mem F :=
  fun a => if p ≤ a ∧ a < p + n then 0 else m a

/-- A kernel object `amx_kernel::Matmul<TA, TB>(constB, transposeB)`. -/
structure Matmul where
  constB : Bool
  transposeB : Bool
  deriving DecidableEq, Repr

/-- A kernel object `amx_kernel::MatmulVector<TA, TB>()`. -/
structure MatmulVector where
  deriving DecidableEq, Repr

/-- Modelled from the spec: the matrix-vector kernel of `mm_kernel_common_amx.hpp` (not among
the sources), `dst[n] = sum_k matB(n, k) * vecA[k]`, the result stored as 4-byte elements. -/
def MatmulVector.call {F : Type} [AddCommMonoid F] [Mul F] [Div F] (_op : MatmulVector)
    (matB : tensor2D F) (vecmem : Mem F) (vecA : Nat) (dstmem : Mem F) (dst : Nat) : Mem F :=
  storeRow dstmem dst 4 matB.dims0
    (fun n => ∑ k in Finset.range matB.dims1, matB.get n k * vecmem (vecA + k * matB.elt))

/-- Modelled from the spec: the tiled matrix multiply of `mm_kernel_common_amx.hpp` (not
among the sources) with the store `PP::BiasGeluStore<float, NONE>(matC)`: for the columns
`n0 ≤ n < n1`, `matC(m, n) = sum_k matA(m, k) * B(k, n)`, where `B(k, n)` is `matB(n, k)`
for a kernel built with `transposeB` and `matB(k, n)` otherwise. The flag that lets the
kernel keep the repacked `matB` of its previous call does not change the product. -/
def Matmul.call {F : Type} [AddCommMonoid F] [Mul F] [Div F] (op : Matmul)
    (matA matB : tensor2D F) (n0 n1 : Nat) (cmem : Mem F) (cdata cstride : Nat) : Mem F :=
  store2d cmem (cdata + n0 * 4) cstride 4 matA.dims0 (n1 - n0)
    (fun m j => ∑ k in Finset.range matA.dims1,
      matA.get m k * (if op.transposeB then matB.get (n0 + j) k else matB.get k (n0 + j)))

/-- Modelled from the spec: `cvt_i32_f32_avx512(dst, src, len)` of
`utility_kernel_avx512.hpp` (not among the sources), exact on integers. -/
def cvt_i32_f32_avx512 {F : Type} (m : Mem F) (dst src len : Nat) : Mem F :=
  storeRow m dst 4 len (fun i => m (src + i * 4))

/-- Modelled from the spec: `mul_add_f32_avx512(dst, src, mul, add, len)` of
`utility_kernel_avx512.hpp` (not among the sources): `dst[i] = src[i] * mul + add[i]`. -/
def mul_add_f32_avx512 {F : Type} [AddCommMonoid F] [Mul F] [Div F] (m : Mem F)
    (dst src : Nat) (mul : F) (addmem : Mem F) (add len : Nat) : Mem F :=
  storeRow m dst 4 len (fun i => m (src + i * 4) * mul + addmem (add + i * 4))

/-- Modelled from the spec: `mul_add2_f32_avx512(dst, src, mul, add1, add2, len)` of
`utility_kernel_avx512.hpp` (not among the sources):
`dst[i] = src[i] * mul + add1[i] + add2[i]`. -/
def mul_add2_f32_avx512 {F : Type} [AddCommMonoid F] [Mul F] [Div F] (m : Mem F)
    (dst src : Nat) (mul : F) (add1mem : Mem F) (add1 : Nat) (add2mem : Mem F)
    (add2 len : Nat) : Mem F :=
  storeRow m dst 4 len
    (fun i => m (src + i * 4) * mul + add1mem (add1 + i * 4) + add2mem (add2 + i * 4))

/-- The softmax of the first `n` entries of `x`. -/
def softmax {F : Type} [AddCommMonoid F] [Mul F] [Div F] (expf : F → F) (n : Nat)
    (x : Nat → F) (i : Nat) : F :=
  expf (x i) / ∑ j in Finset.range n, expf (x j)

/-- Modelled from the spec: `softmax_avx512<T>(dst, src, len, quant)` of
`softmax_kernel_avx512.hpp` (not among the sources): the softmax of the `len` floats at `src`,
each entry converted by `cvt` to a `T` of `elt` bytes; the source row is read before the
destination row is written. -/
def softmax_avx512 {F : Type} [AddCommMonoid F] [Mul F] [Div F] (expf : F → F)
    (cvt : F → F) (elt : Nat) (m : Mem F) (dst src len : Nat) : Mem F :=
  storeRow m dst elt len (fun i => cvt (softmax expf len (fun j => m (src + j * 4)) i))

/-- Modelled from the spec: `memcpy2d_stride_avx512<T>(dst, src, height, width, src_stride,
dst_stride, quant)` of `utility_kernel_avx512.hpp` (not among the sources): row `i`, column
`j` of the float block at `src` converted by `cvt j` to a `T` of `elt` bytes. -/
def memcpy2d_stride_avx512 {F : Type} (cvt : Nat → F → F) (elt : Nat) (dstmem : Mem F)
    (dst : Nat) (srcmem : Mem F) (src height width src_stride dst_stride : Nat) : Mem F :=
  store2d dstmem dst dst_stride elt height width
    (fun i j => cvt j (srcmem (src + i * src_stride + j * 4)))

end mha_gpt

open mha_gpt in
/-- The engine object (`mha_gpt_impl_amx`). -/
structure mha_gpt_impl_amx (F : Type) where
  _create_param : mha_gpt.create_param F
  head_size_aligned : Nat
  bufferMatMul0OutSize : Nat
  bufferMatMul1OutSize : Nat
  bufferMatMul0Out : Mem F
  bufferMatMul1Out : Mem F
  qkvQuantBuf : Nat → F
  gemAvB_BF16xBF16 : List MatmulVector
  qKtrGemm_BF16xBF16 : List Matmul
  qKVGemm_BF16xBF16 : List Matmul
  qKtrGemm_i8xi8 : List Matmul
  qKVGemm_u8xi8 : List Matmul
  gemAvB_i8xi8 : List MatmulVector

namespace mha_gpt_impl_amx

open mha_gpt

variable {F : Type} [AddCommMonoid F] [Mul F] [Div F]

/-- The engine's `create`: the returned flag and the object after the call. `numThreads` is
the value of `getTotalThreads()` during the call, `fresh` the content of the memory that
`aligned_alloc` returns for the requantization vector. -/
def create (self : mha_gpt_impl_amx F) (param : create_param F) (numThreads : Nat)
    (fresh : Nat → F) : Bool × mha_gpt_impl_amx F :=
  if param.qkv_precision ≠ dnnl_bf16 ∧ param.qkv_precision ≠ dnnl_s8 then
    (false, self)
  else if param.dst_precision ≠ dnnl_bf16 ∧ param.dst_precision ≠ dnnl_s8 then
    (false, self)
  else
    let _create_param := param
    let self1 : mha_gpt_impl_amx F :=
      if _create_param.qkv_precision = dnnl_s8 then
        { self with
          _create_param := _create_param
          head_size_aligned := rndup _create_param.head_size 64
          qKtrGemm_i8xi8 := List.replicate numThreads ⟨false, !param.is_bloom⟩
          qKVGemm_u8xi8 := List.replicate numThreads ⟨false, false⟩
          gemAvB_i8xi8 := List.replicate numThreads ⟨⟩
          qkvQuantBuf := fun i => if i * 4 < 8 then 0 else fresh i }
      else
        { self with
          _create_param := _create_param
          head_size_aligned := rndup _create_param.head_size 32
          gemAvB_BF16xBF16 := List.replicate numThreads ⟨⟩
          qKtrGemm_BF16xBF16 := List.replicate numThreads ⟨false, !param.is_bloom⟩
          qKVGemm_BF16xBF16 := List.replicate numThreads ⟨false, false⟩ }
    let bufferMatMul0OutSize := _create_param.max_seq_len * rndup (_create_param.max_seq_len * 4) 64
    let bufferMatMul1OutSize := _create_param.max_seq_len * self1.head_size_aligned * 4
    (true,
      { self1 with
        bufferMatMul0OutSize := bufferMatMul0OutSize
        bufferMatMul1OutSize := bufferMatMul1OutSize
        bufferMatMul0Out := memset0 self1.bufferMatMul0Out 0 (numThreads * bufferMatMul0OutSize)
        bufferMatMul1Out := memset0 self1.bufferMatMul1Out 0 (numThreads * bufferMatMul1OutSize) })

/-- The memories a work item writes: the two scratch buffers and the output tensor. -/
structure bufs (F : Type) where
  bufferMatMul0Out : Mem F
  bufferMatMul1Out : Mem F
  pout : Mem F

/-- The test `is_vector` of `mha_bf16` for the decode strategy. -/
def is_vector_bf16 (self : mha_gpt_impl_amx F) (param : exec_param F) : Bool :=
  decide (param.query_seq_len = 1) && decide (self._create_param.head_size ≥ 32) &&
    decide (self._create_param.head_size ≤ 32 * 6) && !self._create_param.is_bloom

/-- The test `is_vector` of `mha_i8` for the decode strategy. -/
def is_vector_i8 (self : mha_gpt_impl_amx F) (param : exec_param F) : Bool :=
  decide (param.query_seq_len = 1) && decide (self._create_param.head_size ≥ 64) &&
    decide (self._create_param.head_size ≤ 64 * 6) && !self._create_param.is_bloom

/-- The `size_t` difference `key_seq_len - query_seq_len`. -/
def causal_mask_offset_start (param : exec_param F) : Nat :=
  (param.key_seq_len + 2 ^ 64 - param.query_seq_len) % 2 ^ 64

/-- The body of the `parallel_for2d` of `mha_bf16` (decode strategy) for batch `i0` and head
`i1` on thread `threadNum`; `none` when the thread has no kernel object. -/
def mha_bf16_vector_body (nm : numerics F) (self : mha_gpt_impl_amx F) (param : exec_param F)
    (threadNum i0 i1 : Nat) (w : bufs F) : Option (bufs F) :=
  match self.gemAvB_BF16xBF16[threadNum]?, self.qKVGemm_BF16xBF16[threadNum]? with
  | some gemAvB, some qKVGemm =>
    let q := param.q
    let k := param.k
    let v := param.v
    let outPrcSize := get_precision_size self._create_param.qkv_precision
    let head_stride_in_attn := self._create_param.head_size
    let batch_stride_in_attn :=
      self._create_param.head_size * self._create_param.num_heads * param.query_seq_len
    let pQIn0_aux := q.at2 i0 i1
    let pKIn0_aux := k.at2 i0 i1
    let pVIn0_aux := v.at2 i0 i1
    let pAddIn1_aux := (i0 * param.key_seq_len) * 4
    let bufferMatMul0Out_local := threadNum * self.bufferMatMul0OutSize
    let bufferMatMul1Out_local := threadNum * self.bufferMatMul1OutSize
    let matK : tensor2D F :=
      ⟨param.key_seq_len, self._create_param.head_size, k.m_ptr, pKIn0_aux, k.m_strides 2, 2⟩
    let b0 := gemAvB.call matK q.m_ptr pQIn0_aux w.bufferMatMul0Out bufferMatMul0Out_local
    let pMatMul0Out := bufferMatMul0Out_local
    let b1 := mul_add_f32_avx512 b0 pMatMul0Out pMatMul0Out self._create_param.normal_factor
      param.attention_mask.m_ptr pAddIn1_aux param.key_seq_len
    let b2 := softmax_avx512 nm.expf id 2 b1 pMatMul0Out pMatMul0Out param.key_seq_len
    let pOut_aux := (i0 * batch_stride_in_attn + i1 * head_stride_in_attn) * outPrcSize
    let matQK : tensor2D F :=
      ⟨param.query_seq_len, param.key_seq_len, b2, bufferMatMul0Out_local,
        rndup (param.key_seq_len * 2) 64, 2⟩
    let matV : tensor2D F :=
      ⟨param.key_seq_len, self._create_param.head_size, v.m_ptr, pVIn0_aux, v.m_strides 2, 2⟩
    let c1 := qKVGemm.call matQK matV 0 self._create_param.head_size w.bufferMatMul1Out
      bufferMatMul1Out_local (self.head_size_aligned * 4)
    let o1 := memcpy2d_stride_avx512 (fun _ x => x) 2 w.pout pOut_aux c1 bufferMatMul1Out_local
      param.query_seq_len self._create_param.head_size (self.head_size_aligned * 4)
      (self._create_param.num_heads * self._create_param.head_size * 2)
    some ⟨b2, c1, o1⟩
  | _, _ => none

/-- The first matrix multiply of a block of the blocked strategy: the query block against
the key matrix, stored as the float score block at `bufferMatMul0Out_local`. -/
def block_scores (self : mha_gpt_impl_amx F) (param : exec_param F) (qKtrGemm : Matmul)
    (elt i0 i1 seq_start seq_cout bufferMatMul0Out_local : Nat) (buf : Mem F) : Mem F :=
  let q := param.q
  let k := param.k
  let pQIn0_aux := q.at3 i0 i1 seq_start
  let pKIn0_aux := k.at2 i0 i1
  let matQ : tensor2D F :=
    ⟨seq_cout, self._create_param.head_size, q.m_ptr, pQIn0_aux, q.m_strides 2, elt⟩
  if !self._create_param.is_bloom then
    let matK : tensor2D F :=
      ⟨param.key_seq_len, self._create_param.head_size, k.m_ptr, pKIn0_aux, k.m_strides 2, elt⟩
    qKtrGemm.call matQ matK 0 param.key_seq_len buf bufferMatMul0Out_local
      (rndup (param.key_seq_len * 4) 64)
  else
    let matK : tensor2D F :=
      ⟨self._create_param.head_size, param.key_seq_len, k.m_ptr, pKIn0_aux, k.m_strides 3, elt⟩
    qKtrGemm.call matQ matK 0 param.key_seq_len buf bufferMatMul0Out_local
      (rndup (param.key_seq_len * 4) 64)

/-- The row loop of `mha_bf16` for `is_causal_in_attention`: every row of the block is
scaled, gets its own row of the mask (and the alibi row of the head in the bloom scheme)
and is normalised over all `key_seq_len` columns. -/
def mha_bf16_mask_rows (nm : numerics F) (self : mha_gpt_impl_amx F) (param : exec_param F)
    (i0 i1 seq_start seq_cout pMatMul0Out : Nat) (buf : Mem F) : Mem F :=
  let pAddIn1_aux := (i0 * param.key_seq_len * param.query_seq_len) * 4
  (List.range seq_cout).foldl (fun buf m =>
    let src := pMatMul0Out + m * rndup (param.key_seq_len * 4) 64
    let dst := pMatMul0Out + m * rndup (param.key_seq_len * 2) 64
    let buf1 :=
      if !self._create_param.is_bloom then
        mul_add_f32_avx512 buf src src self._create_param.normal_factor
          param.attention_mask.m_ptr (pAddIn1_aux + ((m + seq_start) * param.key_seq_len) * 4)
          param.key_seq_len
      else
        mul_add2_f32_avx512 buf src src self._create_param.normal_factor
          param.alibi.m_ptr
          ((i0 * self._create_param.num_heads * param.key_seq_len + i1 * param.key_seq_len) * 4)
          param.attention_mask.m_ptr (pAddIn1_aux + ((m + seq_start) * param.key_seq_len) * 4)
          param.key_seq_len
    softmax_avx512 nm.expf id 2 buf1 dst src param.key_seq_len) buf

/-- One turn of the row loop of `mha_bf16` without `is_causal_in_attention`, on the scratch
memory and the running `valid_softmax_items`. -/
def mha_bf16_window_row (nm : numerics F) (self : mha_gpt_impl_amx F) (param : exec_param F)
    (i0 i1 pMatMul0Out : Nat) (st : Mem F × Nat) (m : Nat) : Mem F × Nat :=
  let buf := st.1
  let valid_softmax_items := st.2
  let pAddIn1_aux := (i0 * param.key_seq_len) * 4
  let src := pMatMul0Out + m * rndup (param.key_seq_len * 4) 64
  let dst := pMatMul0Out + m * rndup (param.key_seq_len * 2) 64
  let buf1 :=
    if !self._create_param.is_bloom then
      mul_add_f32_avx512 buf src src self._create_param.normal_factor
        param.attention_mask.m_ptr pAddIn1_aux valid_softmax_items
    else
      mul_add2_f32_avx512 buf src src self._create_param.normal_factor
        param.alibi.m_ptr
        ((i0 * self._create_param.num_heads * param.key_seq_len + i1 * param.key_seq_len) * 4)
        param.attention_mask.m_ptr pAddIn1_aux valid_softmax_items
  let buf2 := softmax_avx512 nm.expf id 2 buf1 dst src valid_softmax_items
  if param.key_seq_len > valid_softmax_items then
    let invalidPtr := dst + valid_softmax_items * 2
    (memset0 buf2 invalidPtr ((param.key_seq_len - valid_softmax_items) *
        get_precision_size self._create_param.qkv_precision),
      min (valid_softmax_items + 1) param.key_seq_len)
  else (buf2, valid_softmax_items)

/-- The row loop of `mha_bf16` without `is_causal_in_attention`. -/
def mha_bf16_window_rows (nm : numerics F) (self : mha_gpt_impl_amx F) (param : exec_param F)
    (i0 i1 seq_start seq_cout pMatMul0Out : Nat) (buf : Mem F) : Mem F :=
  let valid_softmax_items := causal_mask_offset_start param + seq_start + 1
  ((List.range seq_cout).foldl (mha_bf16_window_row nm self param i0 i1 pMatMul0Out)
    (buf, valid_softmax_items)).1

/-- The body of the work loop of `mha_bf16` (blocked strategy) for batch `i0`, head `i1` and
query block `seq` on thread `threadNum`; `none` when the thread has no kernel object. -/
def mha_bf16_block_body (nm : numerics F) (self : mha_gpt_impl_amx F) (param : exec_param F)
    (threadNum i0 i1 seq : Nat) (w : bufs F) : Option (bufs F) :=
  match self.qKtrGemm_BF16xBF16[threadNum]?, self.qKVGemm_BF16xBF16[threadNum]? with
  | some qKtrGemm, some qKVGemm =>
    let v := param.v
    let outPrcSize := get_precision_size self._create_param.qkv_precision
    let head_stride_in_attn := self._create_param.head_size
    let batch_stride_in_attn :=
      self._create_param.head_size * self._create_param.num_heads * param.query_seq_len
    let seq_start := seq * 32
    let seq_end := min (seq_start + 32) param.query_seq_len
    let seq_cout := seq_end - seq_start
    let pVIn0_aux := v.at2 i0 i1
    let bufferMatMul0Out_local := threadNum * self.bufferMatMul0OutSize
    let bufferMatMul1Out_local := threadNum * self.bufferMatMul1OutSize
    let b0 := block_scores self param qKtrGemm 2 i0 i1 seq_start seq_cout
      bufferMatMul0Out_local w.bufferMatMul0Out
    let pMatMul0Out := bufferMatMul0Out_local
    let b1 :=
      if param.is_causal_in_attention then
        mha_bf16_mask_rows nm self param i0 i1 seq_start seq_cout pMatMul0Out b0
      else
        mha_bf16_window_rows nm self param i0 i1 seq_start seq_cout pMatMul0Out b0
    let pOut_aux := (i0 * batch_stride_in_attn + i1 * head_stride_in_attn +
      seq_start * head_stride_in_attn * self._create_param.num_heads) * outPrcSize
    let matQKBF16 : tensor2D F :=
      ⟨seq_cout, param.key_seq_len, b1, bufferMatMul0Out_local,
        rndup (param.key_seq_len * 2) 64, 2⟩
    let matV : tensor2D F :=
      ⟨param.key_seq_len, self._create_param.head_size, v.m_ptr, pVIn0_aux, v.m_strides 2, 2⟩
    let c1 := qKVGemm.call matQKBF16 matV 0 self._create_param.head_size w.bufferMatMul1Out
      bufferMatMul1Out_local (self.head_size_aligned * 4)
    let o1 := memcpy2d_stride_avx512 (fun _ x => x) 2 w.pout pOut_aux c1 bufferMatMul1Out_local
      seq_cout self._create_param.head_size (self.head_size_aligned * 4)
      (self._create_param.num_heads * self._create_param.head_size * 2)
    some ⟨b1, c1, o1⟩
  | _, _ => none

/-- Modelled from the spec: `parallel_for2d(D0, D1, body)` of `common/simple_parallel.hpp`
(not among the sources) runs the body once for every index pair, on the thread the
partitioner picks; here in lexicographic order. -/
def parallel_for2d {σ : Type} (env : parallel_env) (D0 D1 : Nat)
    (body : Nat → Nat → Nat → σ → Option σ) (init : σ) : Option σ :=
  (List.range (D0 * D1)).foldlM
    (fun w n => body (env.thread2d D0 D1 (n / D1) (n % D1)) (n / D1) (n % D1) w) init

/-- Modelled from the spec: `parallel_for(numThreads, body)` of `common/simple_parallel.hpp`
(not among the sources) runs the body once for every thread index; here in index order. -/
def parallel_for {σ : Type} (numThreads : Nat) (body : Nat → σ → Option σ) (init : σ) :
    Option σ :=
  (List.range numThreads).foldlM (fun w t => body t w) init

/-- The blocked strategy common to `mha_bf16` and `mha_i8`: every thread takes its range of
the `batch * num_heads * seq_cout_all` work items from the splitter and runs `body` on the
coordinates of each. -/
def blocked_loop {σ : Type} (env : parallel_env) (batch num_heads query_seq_len : Nat)
    (body : Nat → Nat → Nat → Nat → σ → Option σ) (init : σ) : Option σ :=
  let numThreads := env.getTotalThreads
  let seq_cout_all := rndup query_seq_len 32 / 32
  let work_amount := batch * num_heads * seq_cout_all
  parallel_for numThreads (fun threadNum w =>
    let se := env.splitter work_amount numThreads threadNum
    let start := se.1
    let end_ := se.2
    if start ≥ work_amount then some w
    else
      (List.range' start (end_ - start)).foldlM (fun w iwork =>
        let it := parallel_it_init iwork batch num_heads seq_cout_all
        body threadNum it.1 it.2.1 it.2.2 w) w) init

/-- The bf16 pipeline `mha_bf16`: the engine object and the output memory after the call,
`none` when a thread index has no kernel object. -/
def mha_bf16 (nm : numerics F) (env : parallel_env) (self : mha_gpt_impl_amx F)
    (param : exec_param F) : Option (mha_gpt_impl_amx F × Mem F) :=
  let w0 : bufs F := ⟨self.bufferMatMul0Out, self.bufferMatMul1Out, param.attn_output.m_ptr⟩
  let r :=
    if is_vector_bf16 self param then
      parallel_for2d env param.batch self._create_param.num_heads
        (mha_bf16_vector_body nm self param) w0
    else
      blocked_loop env param.batch self._create_param.num_heads param.query_seq_len
        (mha_bf16_block_body nm self param) w0
  r.map (fun w =>
    ({ self with bufferMatMul0Out := w.bufferMatMul0Out, bufferMatMul1Out := w.bufferMatMul1Out },
      w.pout))

/-- The per-call preparation of the requantization vector in `mha_i8`: one entry per entry
of `qkv_quant`, and the first entry spread over `head_size` channels when there is only one.
The `assert` on the length of `qkv_quant` is not part of the embedding. -/
def prepare_qkvQuantBuf (self : mha_gpt_impl_amx F) (param : exec_param F) : Nat → F :=
  let q1 : Nat → F := fun i =>
    if i < param.qkv_quant.length then
      param.qkv_quant.getD i 0 * param.v_dequant / param.qk_quant
    else self.qkvQuantBuf i
  if param.qkv_quant.length = 1 then
    fun i => if 1 ≤ i ∧ i < self._create_param.head_size then q1 0 else q1 i
  else q1

/-- The body of the `parallel_for2d` of `mha_i8` (decode strategy) for batch `i0` and head
`i1` on thread `threadNum`; `none` when the thread has no kernel object. -/
def mha_i8_vector_body (nm : numerics F) (self : mha_gpt_impl_amx F) (param : exec_param F)
    (qkvQuantBuf : Nat → F) (threadNum i0 i1 : Nat) (w : bufs F) : Option (bufs F) :=
  match self.gemAvB_i8xi8[threadNum]?, self.qKVGemm_u8xi8[threadNum]? with
  | some gemAvB, some qKVGemm =>
    let q := param.q
    let k := param.k
    let v := param.v
    let outPrcSize := get_precision_size self._create_param.dst_precision
    let mul_scales := self._create_param.normal_factor * param.q_dequant * param.k_dequant
    let head_stride_in_attn := self._create_param.head_size
    let batch_stride_in_attn :=
      self._create_param.head_size * self._create_param.num_heads * param.query_seq_len
    let pQIn0_aux := q.at2 i0 i1
    let pKIn0_aux := k.at2 i0 i1
    let pVIn0_aux := v.at2 i0 i1
    let pAddIn1_aux := (i0 * param.key_seq_len) * 4
    let bufferMatMul0Out_local := threadNum * self.bufferMatMul0OutSize
    let bufferMatMul1Out_local := threadNum * self.bufferMatMul1OutSize
    let matK : tensor2D F :=
      ⟨param.key_seq_len, self._create_param.head_size, k.m_ptr, pKIn0_aux, k.m_strides 2, 1⟩
    let a0 := gemAvB.call matK q.m_ptr pQIn0_aux w.bufferMatMul0Out bufferMatMul0Out_local
    let b0 := cvt_i32_f32_avx512 a0 bufferMatMul0Out_local bufferMatMul0Out_local
      param.key_seq_len
    let pMatMul0Out := bufferMatMul0Out_local
    let b1 := mul_add_f32_avx512 b0 pMatMul0Out pMatMul0Out mul_scales
      param.attention_mask.m_ptr pAddIn1_aux param.key_seq_len
    let b2 := softmax_avx512 nm.expf (fun p => nm.round_u8 (p * param.qk_quant)) 1 b1
      pMatMul0Out pMatMul0Out param.key_seq_len
    let pOut_aux := (i0 * batch_stride_in_attn + i1 * head_stride_in_attn) * outPrcSize
    let matQK : tensor2D F :=
      ⟨param.query_seq_len, param.key_seq_len, b2, bufferMatMul0Out_local,
        rndup (param.key_seq_len * 1) 64, 1⟩
    let matV : tensor2D F :=
      ⟨param.key_seq_len, self._create_param.head_size, v.m_ptr, pVIn0_aux, v.m_strides 2, 1⟩
    let c1 := qKVGemm.call matQK matV 0 self._create_param.head_size w.bufferMatMul1Out
      bufferMatMul1Out_local (self.head_size_aligned * 4)
    let o1 := memcpy2d_stride_avx512 (fun j x => nm.round_s8 (x * qkvQuantBuf j)) 1 w.pout
      pOut_aux c1 bufferMatMul1Out_local param.query_seq_len self._create_param.head_size
      (self.head_size_aligned * 4) (self._create_param.num_heads * self._create_param.head_size)
    some ⟨b2, c1, o1⟩
  | _, _ => none

/-- The row loop of `mha_i8` for `is_causal_in_attention`: every row is first scaled and
masked by one call of `mul_add_f32_avx512`, then scaled and masked again by the call of the
branch on `is_bloom`, and normalised over all `key_seq_len` columns. -/
def mha_i8_mask_rows (nm : numerics F) (self : mha_gpt_impl_amx F) (param : exec_param F)
    (i0 i1 seq_start seq_cout pMatMul0Out : Nat) (buf : Mem F) : Mem F :=
  let mul_scales := self._create_param.normal_factor * param.q_dequant * param.k_dequant
  let pAddIn1_aux := (i0 * param.key_seq_len * param.query_seq_len) * 4
  (List.range seq_cout).foldl (fun buf m =>
    let src := pMatMul0Out + m * rndup (param.key_seq_len * 4) 64
    let dst := pMatMul0Out + m * rndup (param.key_seq_len * 1) 64
    let buf0 := mul_add_f32_avx512 buf src src mul_scales
      param.attention_mask.m_ptr (pAddIn1_aux + ((m + seq_start) * param.key_seq_len) * 4)
      param.key_seq_len
    let buf1 :=
      if !self._create_param.is_bloom then
        mul_add_f32_avx512 buf0 src src mul_scales
          param.attention_mask.m_ptr (pAddIn1_aux + ((m + seq_start) * param.key_seq_len) * 4)
          param.key_seq_len
      else
        mul_add2_f32_avx512 buf0 src src mul_scales
          param.alibi.m_ptr
          ((i0 * self._create_param.num_heads * param.key_seq_len + i1 * param.key_seq_len) * 4)
          param.attention_mask.m_ptr (pAddIn1_aux + ((m + seq_start) * param.key_seq_len) * 4)
          param.key_seq_len
    softmax_avx512 nm.expf (fun p => nm.round_u8 (p * param.qk_quant)) 1 buf1 dst src
      param.key_seq_len) buf

/-- One turn of the row loop of `mha_i8` without `is_causal_in_attention`, on the scratch
memory and the running `valid_softmax_items`. -/
def mha_i8_window_row (nm : numerics F) (self : mha_gpt_impl_amx F) (param : exec_param F)
    (i0 i1 pMatMul0Out : Nat) (st : Mem F × Nat) (m : Nat) : Mem F × Nat :=
  let buf := st.1
  let valid_softmax_items := st.2
  let mul_scales := self._create_param.normal_factor * param.q_dequant * param.k_dequant
  let pAddIn1_aux := (i0 * param.key_seq_len) * 4
  let src := pMatMul0Out + m * rndup (param.key_seq_len * 4) 64
  let dst := pMatMul0Out + m * rndup (param.key_seq_len * 1) 64
  let buf1 :=
    if !self._create_param.is_bloom then
      mul_add_f32_avx512 buf src src mul_scales
        param.attention_mask.m_ptr pAddIn1_aux valid_softmax_items
    else
      mul_add2_f32_avx512 buf src src mul_scales
        param.alibi.m_ptr
        ((i0 * self._create_param.num_heads * param.key_seq_len + i1 * param.key_seq_len) * 4)
        param.attention_mask.m_ptr pAddIn1_aux valid_softmax_items
  let buf2 := softmax_avx512 nm.expf (fun p => nm.round_u8 (p * param.qk_quant)) 1 buf1 dst src
    valid_softmax_items
  if param.key_seq_len > valid_softmax_items then
    let invalidPtr := dst + valid_softmax_items * 1
    (memset0 buf2 invalidPtr ((param.key_seq_len - valid_softmax_items) *
        get_precision_size self._create_param.qkv_precision),
      min (valid_softmax_items + 1) param.key_seq_len)
  else (buf2, valid_softmax_items)

/-- The row loop of `mha_i8` without `is_causal_in_attention`. -/
def mha_i8_window_rows (nm : numerics F) (self : mha_gpt_impl_amx F) (param : exec_param F)
    (i0 i1 seq_start seq_cout pMatMul0Out : Nat) (buf : Mem F) : Mem F :=
  let valid_softmax_items := causal_mask_offset_start param + seq_start + 1
  ((List.range seq_cout).foldl (mha_i8_window_row nm self param i0 i1 pMatMul0Out)
    (buf, valid_softmax_items)).1

/-- The body of the work loop of `mha_i8` (blocked strategy) for batch `i0`, head `i1` and
query block `seq` on thread `threadNum`; `none` when the thread has no kernel object. -/
def mha_i8_block_body (nm : numerics F) (self : mha_gpt_impl_amx F) (param : exec_param F)
    (qkvQuantBuf : Nat → F) (threadNum i0 i1 seq : Nat) (w : bufs F) : Option (bufs F) :=
  match self.qKtrGemm_i8xi8[threadNum]?, self.qKVGemm_u8xi8[threadNum]? with
  | some qKtrGemm, some qKVGemm =>
    let v := param.v
    let outPrcSize := get_precision_size self._create_param.dst_precision
    let head_stride_in_attn := self._create_param.head_size
    let batch_stride_in_attn :=
      self._create_param.head_size * self._create_param.num_heads * param.query_seq_len
    let seq_start := seq * 32
    let seq_end := min (seq_start + 32) param.query_seq_len
    let seq_cout := seq_end - seq_start
    let pVIn0_aux := v.at2 i0 i1
    let bufferMatMul0Out_local := threadNum * self.bufferMatMul0OutSize
    let bufferMatMul1Out_local := threadNum * self.bufferMatMul1OutSize
    let b0 := block_scores self param qKtrGemm 1 i0 i1 seq_start seq_cout
      bufferMatMul0Out_local w.bufferMatMul0Out
    let pMatMul0Out := bufferMatMul0Out_local
    let b1 :=
      if param.is_causal_in_attention then
        mha_i8_mask_rows nm self param i0 i1 seq_start seq_cout pMatMul0Out b0
      else
        mha_i8_window_rows nm self param i0 i1 seq_start seq_cout pMatMul0Out b0
    let pOut_aux := (i0 * batch_stride_in_attn + i1 * head_stride_in_attn +
      seq_start * head_stride_in_attn * self._create_param.num_heads) * outPrcSize
    let matQKI8 : tensor2D F :=
      ⟨seq_cout, param.key_seq_len, b1, bufferMatMul0Out_local,
        rndup (param.key_seq_len * 1) 64, 1⟩
    let matV : tensor2D F :=
      ⟨param.key_seq_len, self._create_param.head_size, v.m_ptr, pVIn0_aux, v.m_strides 2, 1⟩
    let c1 := qKVGemm.call matQKI8 matV 0 self._create_param.head_size w.bufferMatMul1Out
      bufferMatMul1Out_local (self.head_size_aligned * 4)
    let o1 := memcpy2d_stride_avx512 (fun j x => nm.round_s8 (x * qkvQuantBuf j)) 1 w.pout
      pOut_aux c1 bufferMatMul1Out_local seq_cout self._create_param.head_size
      (self.head_size_aligned * 4) (self._create_param.num_heads * self._create_param.head_size)
    some ⟨b1, c1, o1⟩
  | _, _ => none

/-- The quantized pipeline `mha_i8`: the engine object and the output memory after the call,
`none` when a thread index has no kernel object. -/
def mha_i8 (nm : numerics F) (env : parallel_env) (self : mha_gpt_impl_amx F)
    (param : exec_param F) : Option (mha_gpt_impl_amx F × Mem F) :=
  let qkvQuantBuf := prepare_qkvQuantBuf self param
  let w0 : bufs F := ⟨self.bufferMatMul0Out, self.bufferMatMul1Out, param.attn_output.m_ptr⟩
  let r :=
    if is_vector_i8 self param then
      parallel_for2d env param.batch self._create_param.num_heads
        (mha_i8_vector_body nm self param qkvQuantBuf) w0
    else
      blocked_loop env param.batch self._create_param.num_heads param.query_seq_len
        (mha_i8_block_body nm self param qkvQuantBuf) w0
  r.map (fun w =>
    ({ self with
        bufferMatMul0Out := w.bufferMatMul0Out
        bufferMatMul1Out := w.bufferMatMul1Out
        qkvQuantBuf := qkvQuantBuf },
      w.pout))

/-- Where a call of the engine's `exec` ends: at one of the two early returns of the shape
checks, in one of the two pipelines, or at one of the two `assert(false)` of the dispatch. -/
inductive exec_path
  | rank_mismatch
  | dim_mismatch
  | assert_f32
  | run_bf16
  | run_i8
  | assert_unsupported
  deriving DecidableEq, Repr

/-- The first shape check of `exec`: one of `q`, `k`, `v` is not of rank 4. -/
def rank_mismatch (param : exec_param F) : Bool :=
  decide (param.q.m_rank ≠ 4) || decide (param.k.m_rank ≠ 4) || decide (param.v.m_rank ≠ 4)

/-- The condition of the second shape check of `exec`, on the extents of `q`, `k`, `v`. -/
def dims_match (param : exec_param F) : Bool :=
  let b := param.q.m_dims 0
  let hn := param.q.m_dims 1
  let hs := param.q.m_dims 3
  let ks := param.k.m_dims 2
  decide (b = param.k.m_dims 0) && decide (b = param.v.m_dims 0) &&
    decide (hn = param.k.m_dims 1) && decide (hn = param.v.m_dims 1) &&
    decide (ks = param.v.m_dims 2) &&
    decide (hs = param.k.m_dims 3) && decide (hs = param.v.m_dims 3)

/-- The precision dispatch at the end of `exec`. -/
def dispatch (nm : numerics F) (env : parallel_env) (self : mha_gpt_impl_amx F)
    (param : exec_param F) : exec_path × Option (mha_gpt_impl_amx F × Mem F) :=
  if self._create_param.qkv_precision = dnnl_f32 then
    (exec_path.assert_f32, some (self, param.attn_output.m_ptr))
  else if self._create_param.qkv_precision = dnnl_bf16 then
    (exec_path.run_bf16, mha_bf16 nm env self param)
  else if self._create_param.qkv_precision = dnnl_s8 then
    (exec_path.run_i8, mha_i8 nm env self param)
  else
    (exec_path.assert_unsupported, some (self, param.attn_output.m_ptr))

/-- The engine's `exec`: where the call ends, and the engine object and the output memory
after it (`none` when a pipeline indexes a kernel object that does not exist). -/
def exec (nm : numerics F) (env : parallel_env) (self : mha_gpt_impl_amx F)
    (param : exec_param F) : exec_path × Option (mha_gpt_impl_amx F × Mem F) :=
  if rank_mismatch param then
    (exec_path.rank_mismatch, some (self, param.attn_output.m_ptr))
  else if !dims_match param then
    (exec_path.dim_mismatch, some (self, param.attn_output.m_ptr))
  else
    dispatch nm env self param

end mha_gpt_impl_amx

namespace mha_gpt
variable {F : Type} [AddCommMonoid F] [Mul F] [Div F]

/-- Entry `c` of a probability row of the blocked strategy: the softmax over the first `len`
logits, converted by `cvt`, and zero from column `len` on. -/
def block_prob (expf cvt : F → F) (len : Nat) (x : Nat → F) (c : Nat) : F :=
  if c < len then cvt (softmax expf len x c) else 0

/-- The common shape of one turn of the four row loops of the blocked strategy: the first
`len m` scores of row `m` are replaced by their images under `g m`, normalised into
elements of `w` bytes, and the rest of the probability row is cleared. -/
def row_gen (expf cvt : F → F) (w prec ksl base : Nat) (len : Nat → Nat)
    (g : Nat → Nat → F → F) (buf : Mem F) (m : Nat) : Mem F :=
  let src := base + m * rndup (ksl * 4) 64
  let dst := base + m * rndup (ksl * w) 64
  let buf1 := storeRow buf src 4 (len m) (fun j => g m j (buf (src + j * 4)))
  let buf2 := softmax_avx512 expf cvt w buf1 dst src (len m)
  memset0 buf2 (dst + len m * w) ((ksl - len m) * prec)

/-- The common shape of the four row loops of the blocked strategy. -/
def rows_gen (expf cvt : F → F) (w prec ksl base : Nat) (len : Nat → Nat)
    (g : Nat → Nat → F → F) (n : Nat) (buf : Mem F) : Mem F :=
  (List.range n).foldl (row_gen expf cvt w prec ksl base len g) buf
end mha_gpt

namespace mha_gpt
variable {F : Type} [AddCommMonoid F] [Mul F] [Div F]

/-- One entry of the attention output: the probability row of `len` valid logits against a
column of the value matrix. -/
def attn_row (expf cvt : F → F) (ksl len : Nat) (logit : Nat → F) (vcol : Nat → F) : F :=
  ∑ c in Finset.range ksl, block_prob expf cvt len logit c * vcol c

/-- The raw score of query row `r` against key `c` for batch `b` and head `h`. -/
def raw_score (param : exec_param F) (head_size b h r c : Nat) : F :=
  ∑ d in Finset.range head_size, param.q.at4 b h r d * param.k.at4 b h c d

/-- Element `i` of the array `t.data<float>()`. -/
def tensor.data_f32 (t : tensor F) (i : Nat) : F := t.m_ptr (i * 4)

/-- The view `t` over another memory content. -/
def tensor.with_mem (t : tensor F) (mem : Mem F) : tensor F :=
  { m_rank := t.m_rank, m_dims := t.m_dims, m_strides := t.m_strides, m_ptr := mem }

/-- The call parameters `param` with another rank, other extents and other strides recorded
for the attention mask, over the same mask memory. -/
def exec_param.with_mask_shape (param : exec_param F) (rank : Nat) (dims strides : Nat → Nat) :
    exec_param F :=
  { batch := param.batch
    query_seq_len := param.query_seq_len
    key_seq_len := param.key_seq_len
    is_causal_in_attention := param.is_causal_in_attention
    q := param.q
    k := param.k
    v := param.v
    attention_mask :=
      { m_rank := rank, m_dims := dims, m_strides := strides,
        m_ptr := param.attention_mask.m_ptr }
    alibi := param.alibi
    attn_output := param.attn_output
    q_dequant := param.q_dequant
    k_dequant := param.k_dequant
    v_dequant := param.v_dequant
    qk_quant := param.qk_quant
    qkv_quant := param.qkv_quant }

/-- The call parameters `param` with other contents of the key and value memories. -/
def exec_param.with_kv (param : exec_param F) (kmem vmem : Mem F) : exec_param F :=
  { batch := param.batch
    query_seq_len := param.query_seq_len
    key_seq_len := param.key_seq_len
    is_causal_in_attention := param.is_causal_in_attention
    q := param.q
    k := param.k.with_mem kmem
    v := param.v.with_mem vmem
    attention_mask := param.attention_mask
    alibi := param.alibi
    attn_output := param.attn_output
    q_dequant := param.q_dequant
    k_dequant := param.k_dequant
    v_dequant := param.v_dequant
    qk_quant := param.qk_quant
    qkv_quant := param.qkv_quant }

end mha_gpt

namespace mha_gpt_impl_amx
open mha_gpt
variable {F : Type} [AddCommMonoid F] [Mul F] [Div F]

/-- The logit of key `c` in a row of batch `b` and head `h` without `is_causal_in_attention`:
the raw score `x` scaled by `mul`, plus entry `b * key_seq_len + c` of the mask, plus entry
`(b * num_heads + h) * key_seq_len + c` of the alibi tensor in the bloom scheme. -/
def window_logit (self : mha_gpt_impl_amx F) (param : exec_param F) (mul : F) (b h c : Nat)
    (x : F) : F :=
  if !self._create_param.is_bloom then
    x * mul + param.attention_mask.data_f32 (b * param.key_seq_len + c)
  else
    x * mul +
      param.alibi.data_f32 ((b * self._create_param.num_heads + h) * param.key_seq_len + c) +
      param.attention_mask.data_f32 (b * param.key_seq_len + c)

/-- The logit of key `c` in query row `r` of batch `b` and head `h` with
`is_causal_in_attention`: the raw score `x` scaled by `mul`, plus entry
`b * query_seq_len * key_seq_len + r * key_seq_len + c` of the mask, plus the alibi entry of
the head in the bloom scheme. -/
def mask_logit (self : mha_gpt_impl_amx F) (param : exec_param F) (mul : F) (b h r c : Nat)
    (x : F) : F :=
  if !self._create_param.is_bloom then
    x * mul + param.attention_mask.data_f32
      (b * param.query_seq_len * param.key_seq_len + r * param.key_seq_len + c)
  else
    x * mul +
      param.alibi.data_f32 ((b * self._create_param.num_heads + h) * param.key_seq_len + c) +
      param.attention_mask.data_f32
        (b * param.query_seq_len * param.key_seq_len + r * param.key_seq_len + c)

/-- The number of logits the softmax of query row `r` runs over. -/
def row_len (param : exec_param F) (r : Nat) : Nat :=
  if param.is_causal_in_attention then param.key_seq_len
  else causal_mask_offset_start param + r + 1

/-- The logit of key `c` in query row `r` from the raw score `x`, in either mask mode. -/
def row_logit (self : mha_gpt_impl_amx F) (param : exec_param F) (mul : F) (b h r c : Nat)
    (x : F) : F :=
  if param.is_causal_in_attention then mask_logit self param mul b h r c x
  else window_logit self param mul b h c x

/-- The naive attention of query row `r` of batch `b` and head `h`, channel `d`: the
probabilities of the row (softmax of its logits, converted by `cvt`) as weights of the value
rows. -/
def naive_row (nm : numerics F) (self : mha_gpt_impl_amx F) (param : exec_param F)
    (cvt : F → F) (mul : F) (b h r d : Nat) : F :=
  attn_row nm.expf cvt param.key_seq_len (row_len param r)
    (fun c => row_logit self param mul b h r c
      (raw_score param self._create_param.head_size b h r c))
    (fun c => param.v.at4 b h c d)

end mha_gpt_impl_amx

/-! ## Numbers with a NaN -/

/-- The element types `float` and `bfloat16` of the source as far as a NaN matters: a finite
value, on which the arithmetic is taken exact, or NaN, which every operation hands on, also
the product with zero (IEEE 754); infinities and rounding are left out. -/
inductive flt
  | num (q : ℚ)
  | nan
  deriving DecidableEq

namespace flt

/-- The sum: NaN when an operand is NaN. -/
def add : flt → flt → flt
  | num a, num b => num (a + b)
  | _, _ => nan

/-- The product: NaN when an operand is NaN. -/
def mul : flt → flt → flt
  | num a, num b => num (a * b)
  | _, _ => nan

/-- The quotient: NaN when an operand is NaN. -/
def div : flt → flt → flt
  | num a, num b => num (a / b)
  | _, _ => nan

instance instMul : Mul flt := ⟨mul⟩

instance instDiv : Div flt := ⟨div⟩

instance instAddCommMonoid : AddCommMonoid flt where
  add := add
  zero := num 0
  nsmul := fun n x => Nat.rec (num 0) (fun _ acc => add acc x) n
  nsmul_zero := fun _ => rfl
  nsmul_succ := fun _ _ => rfl
  add_assoc := by
    intro a b c
    change add (add a b) c = add a (add b c)
    cases a <;> cases b <;> cases c <;> simp [add, add_assoc]
  zero_add := by
    intro a
    change add (num 0) a = a
    cases a <;> simp [add]
  add_zero := by
    intro a
    change add a (num 0) = a
    cases a <;> simp [add]
  add_comm := by
    intro a b
    change add a b = add b a
    cases a <;> cases b <;> simp [add, add_comm]

end flt

/-! ## Concrete inputs -/

namespace examples

open mha_gpt

/-- A bf16 configuration of the attention engine: one head of size 4. -/
def cfg_bf16 : create_param ℚ :=
  { num_heads := 1, head_size := 4, head_size_aligned := 4, normal_factor := 1,
    qkv_precision := dnnl_bf16, dst_precision := dnnl_bf16, max_seq_len := 8,
    is_bloom := false }

/-- A configuration the attention engine rejects: the destination precision is f32. -/
def cfg_dst_f32 : create_param ℚ := { cfg_bf16 with dst_precision := dnnl_f32 }

/-- An engine object on which `create` has not run. -/
def engine0 : mha_gpt_impl_amx ℚ :=
  { _create_param := { cfg_bf16 with qkv_precision := dnnl_data_type_undef }
    head_size_aligned := 0
    bufferMatMul0OutSize := 0
    bufferMatMul1OutSize := 0
    bufferMatMul0Out := fun _ => 0
    bufferMatMul1Out := fun _ => 0
    qkvQuantBuf := fun _ => 0
    gemAvB_BF16xBF16 := []
    qKtrGemm_BF16xBF16 := []
    qKVGemm_BF16xBF16 := []
    qKtrGemm_i8xi8 := []
    qKVGemm_u8xi8 := []
    gemAvB_i8xi8 := [] }

/-- A dense rank 4 view of extents `d0 × d1 × d2 × d3` with elements of `elt` bytes. -/
def dense4 (d0 d1 d2 d3 elt : Nat) (mem : Mem ℚ) : tensor ℚ :=
  { m_rank := 4
    m_dims := fun i => [d0, d1, d2, d3].getD i 0
    m_strides := fun i => [d1 * d2 * d3 * elt, d2 * d3 * elt, d3 * elt, elt].getD i 0
    m_ptr := mem }

/-- Call parameters for `cfg_bf16`: one batch, three query rows, three keys, a zero mask of
extents `1 × 1 × 1 × 3`. -/
def param3 : exec_param ℚ :=
  { batch := 1, query_seq_len := 3, key_seq_len := 3, is_causal_in_attention := false
    q := dense4 1 1 3 4 2 (fun a => (a : ℚ))
    k := dense4 1 1 3 4 2 (fun _ => 1)
    v := dense4 1 1 3 4 2 (fun a => (a : ℚ))
    attention_mask := dense4 1 1 1 3 4 (fun _ => 0)
    alibi := dense4 1 1 1 3 4 (fun _ => 0)
    attn_output := { m_rank := 3, m_dims := fun i => [1, 3, 4].getD i 0,
                     m_strides := fun i => [24, 8, 2].getD i 0, m_ptr := fun _ => 0 }
    q_dequant := 1, k_dequant := 1, v_dequant := 1, qk_quant := 1, qkv_quant := [1] }

/-- A bf16 configuration for the decode strategy: one head of size 32. -/
def cfg_decode : create_param ℚ := { cfg_bf16 with head_size := 32, head_size_aligned := 32 }

/-- Call parameters for `cfg_decode`: one batch, one query row, two keys, a zero mask. -/
def param_decode : exec_param ℚ :=
  { batch := 1, query_seq_len := 1, key_seq_len := 2, is_causal_in_attention := false
    q := dense4 1 1 1 32 2 (fun a => (a : ℚ))
    k := dense4 1 1 2 32 2 (fun a => (a : ℚ))
    v := dense4 1 1 2 32 2 (fun a => (a : ℚ))
    attention_mask := dense4 1 1 1 2 4 (fun _ => 0)
    alibi := dense4 1 1 1 2 4 (fun _ => 0)
    attn_output := { m_rank := 3, m_dims := fun i => [1, 1, 32].getD i 0,
                     m_strides := fun i => [64, 64, 2].getD i 0, m_ptr := fun _ => 0 }
    q_dequant := 1, k_dequant := 1, v_dequant := 1, qk_quant := 1, qkv_quant := [1] }

/-- A key memory that agrees with that of `param3` on key row 0 only. -/
def kmem_late : Mem ℚ := fun a => if a < 8 then 1 else 7

/-- A value memory that agrees with that of `param3` on value row 0 only. -/
def vmem_late : Mem ℚ := fun a => if a < 8 then (a : ℚ) else 0

/-- The parameters `param3` with a mask recorded as a rank 2 view of extents `5 × 7`. -/
def param3_bad_mask : exec_param ℚ :=
  param3.with_mask_shape 2 (fun i => [5, 7].getD i 0) (fun i => [28, 4].getD i 0)

/-- The parameters `param3` with a key tensor of rank 3. -/
def param3_bad_rank : exec_param ℚ := { param3 with k := { param3.k with m_rank := 3 } }

/-- The numeric primitives used on concrete inputs: a positive stand-in for the exponential
and the identity for the two roundings. -/
def nm0 : numerics ℚ :=
  { expf := fun x => 1 + x + x ^ 2 / 2, round_u8 := fun x => x, round_s8 := fun x => x }

/-- A partitioner with two threads: thread 0 takes every work item. -/
def env2 : parallel_env :=
  { getTotalThreads := 2
    splitter := fun n _ tid => if tid = 0 then (0, n) else (n, n)
    thread2d := fun _ _ _ _ => 0 }

/-- A configuration of the cache writer with an int8 destination. -/
def emb_cfg_s8 : emb_gpt.create_param :=
  { num_heads := 2, head_size := 4, head_size_aligned := 4, qkv_precision := dnnl_bf16,
    dst_precision := dnnl_s8, max_seq_len := 8, rotary_dims := 2, use_position2d := false }

/-- A configuration the cache writer rejects: the input precision is int8. -/
def emb_cfg_qkv_s8 : emb_gpt.create_param := { emb_cfg_s8 with qkv_precision := dnnl_s8 }

/-- Call parameters of the cache writer: two batches, one cached position, one new position,
previous caches in buffers 10.. and 20.., destination caches in buffers 30.. and 40... -/
def emb_param : emb_gpt.exec_param ℚ :=
  { batch := 2, query_seq_len := 1, past_seq_len := 1
    q := ⟨0, 0⟩, k := ⟨0, 8⟩, v := ⟨0, 16⟩, ldq := 12, ldk := 12, ldv := 12
    query_dst := ⟨1, 0⟩
    layer_past_key_src := some (fun b => ⟨10 + b, 0⟩)
    layer_past_value_src := fun b => ⟨20 + b, 0⟩
    layer_past_key_dst := fun b => ⟨30 + b, 0⟩
    layer_past_value_dst := fun b => ⟨40 + b, 0⟩
    position2d_ids := fun _ => 0
    head_stride_in_kv := 8
    cos := fun _ => 1
    sin := fun _ => 0 }

/-- A writer object on which `create` has not run. -/
def writer0 : emb_gpt_impl_avx512 := { _create_param := emb_cfg_qkv_s8 }

/-- A configuration of the cache writer with a bf16 destination and the one-track writer. -/
def emb_cfg_bf16 : emb_gpt.create_param := { emb_cfg_s8 with dst_precision := dnnl_bf16 }

/-- A configuration with the two-track writer: two segments of two elements fill the head
vector of four. -/
def emb_cfg_2d : emb_gpt.create_param := { emb_cfg_bf16 with use_position2d := true }

/-- A configuration with the two-track writer and `rotary_dims = head_size`. -/
def emb_cfg_2d_full : emb_gpt.create_param := { emb_cfg_2d with rotary_dims := 4 }

/-- A configuration with the two-track writer and head vectors of eight elements, of which
the two segments cover the first four. -/
def emb_cfg_2d_wide : emb_gpt.create_param :=
  { emb_cfg_2d with head_size := 8, head_size_aligned := 8 }

/-- The one-track configuration with head vectors of eight elements. -/
def emb_cfg_wide : emb_gpt.create_param := { emb_cfg_2d_wide with use_position2d := false }

/-- The call parameters `emb_param` without previous caches. -/
def emb_param_fresh : emb_gpt.exec_param ℚ :=
  { emb_param with layer_past_key_src := none }

/-- Previous key caches of which that of batch element 0 is its destination cache. -/
def emb_key_src_alias : Nat → emb_gpt.ptr := fun b => if b = 0 then ⟨30, 0⟩ else ⟨10 + b, 0⟩

/-- The call parameters `emb_param` where batch element 0 has the same previous and
destination caches and batch element 1 has different ones. -/
def emb_param_alias : emb_gpt.exec_param ℚ :=
  { emb_param with
    layer_past_key_src := some emb_key_src_alias
    layer_past_value_src := fun b => if b = 0 then ⟨40, 0⟩ else ⟨20 + b, 0⟩ }

/-- The call parameters `emb_param` with both position ids of every new position equal to
`past_seq_len + s`. -/
def emb_param_seq : emb_gpt.exec_param ℚ := { emb_param with position2d_ids := fun _ => 1 }

/-- Call parameters for head vectors of eight elements: rows of `q`, `k` and `v` side by
side in buffer 0, a head stride of two slots. -/
def emb_param_wide : emb_gpt.exec_param ℚ :=
  { emb_param_seq with
    k := ⟨0, 16⟩, v := ⟨0, 32⟩, ldq := 24, ldk := 24, ldv := 24, head_stride_in_kv := 16 }

/-- A memory: byte `o` of the source buffer 0 is `o + 1`, byte `o` of a previous cache is
`100 + o`, every other byte is `0`. -/
def emb_heap : emb_gpt.heap :=
  fun x o => if x = 0 then o + 1 else if 10 ≤ x ∧ x < 30 then 100 + o else 0

/-- A kernel that leaves every element as it is. -/
def rot_id : Nat → (Nat → ℚ) → (Nat → ℚ) → (Nat → emb_gpt.bf16) → Nat → emb_gpt.bf16 :=
  fun _ _ _ src i => src i

/-- A kernel that adds one to the first byte of every element. -/
def rot_mark : Nat → (Nat → ℚ) → (Nat → ℚ) → (Nat → emb_gpt.bf16) → Nat → emb_gpt.bf16 :=
  fun _ _ _ src i => ((src i).1 + 1, (src i).2)

/-- Call parameters with tables of natural numbers: entry `j` of the cosine table is `j`,
the first position id of every new position is `3` and the second one `5`. -/
def emb_param_tracks : emb_gpt.exec_param Nat :=
  { batch := 2, query_seq_len := 1, past_seq_len := 1
    q := ⟨0, 0⟩, k := ⟨0, 8⟩, v := ⟨0, 16⟩, ldq := 12, ldk := 12, ldv := 12
    query_dst := ⟨1, 0⟩
    layer_past_key_src := some (fun b => ⟨10 + b, 0⟩)
    layer_past_value_src := fun b => ⟨20 + b, 0⟩
    layer_past_key_dst := fun b => ⟨30 + b, 0⟩
    layer_past_value_dst := fun b => ⟨40 + b, 0⟩
    position2d_ids := fun i => if i % 2 = 0 then 3 else 5
    head_stride_in_kv := 8
    cos := fun j => j
    sin := fun _ => 0 }

/-- A kernel that adds the first entry of the cosine row it is handed to the first byte of
every element. -/
def rot_tag : Nat → (Nat → Nat) → (Nat → Nat) → (Nat → emb_gpt.bf16) → Nat → emb_gpt.bf16 :=
  fun _ cos _ src i => ((src i).1 + cos 0, (src i).2)

/-- The configuration `cfg_decode` with the bloom flag on. -/
def cfg_bloom_decode : create_param ℚ := { cfg_decode with is_bloom := true }

/-- An int8 configuration of the attention engine: one head of size 4. -/
def cfg_s8 : create_param ℚ :=
  { cfg_bf16 with qkv_precision := dnnl_s8, dst_precision := dnnl_s8 }

/-- Call parameters for `cfg_s8` with a materialized mask: one batch, one query row of ones,
two keys (the rows `0 1 2 3` and `4 5 6 7`), mask entries `1`, dequantization scale `2` for
the query. -/
def param_mask_s8 : exec_param ℚ :=
  { batch := 1, query_seq_len := 1, key_seq_len := 2, is_causal_in_attention := true
    q := dense4 1 1 1 4 1 (fun _ => 1)
    k := dense4 1 1 2 4 1 (fun a => (a : ℚ))
    v := dense4 1 1 2 4 1 (fun a => (a : ℚ))
    attention_mask := dense4 1 1 1 2 4 (fun _ => 1)
    alibi := dense4 1 1 1 2 4 (fun _ => 0)
    attn_output := { m_rank := 3, m_dims := fun i => [1, 1, 4].getD i 0,
                     m_strides := fun i => [4, 4, 1].getD i 0, m_ptr := fun _ => 0 }
    q_dequant := 2, k_dequant := 1, v_dequant := 1, qk_quant := 1, qkv_quant := [1] }

/-- The parameters `param3` with a materialized mask of extents `1 × 1 × 3 × 3`, entry `i`
of which is `i`. -/
def param3_mask : exec_param ℚ :=
  { param3 with
    is_causal_in_attention := true
    attention_mask := dense4 1 1 3 3 4 (fun a => (a : ℚ)) }

/-- Call parameters for `cfg_bf16` with two batches of three query rows and three keys: two
work items of the blocked strategy. -/
def param3_batch2 : exec_param ℚ :=
  { batch := 2, query_seq_len := 3, key_seq_len := 3, is_causal_in_attention := false
    q := dense4 2 1 3 4 2 (fun a => (a : ℚ))
    k := dense4 2 1 3 4 2 (fun _ => 1)
    v := dense4 2 1 3 4 2 (fun a => (a : ℚ))
    attention_mask := dense4 2 1 1 3 4 (fun _ => 0)
    alibi := dense4 1 1 1 3 4 (fun _ => 0)
    attn_output := { m_rank := 3, m_dims := fun i => [2, 3, 4].getD i 0,
                     m_strides := fun i => [24, 8, 2].getD i 0, m_ptr := fun _ => 0 }
    q_dequant := 1, k_dequant := 1, v_dequant := 1, qk_quant := 1, qkv_quant := [1] }

/-- A partitioner that splits the work items evenly: thread `tid` of `team` threads takes
the items from `tid * n / team` up to `(tid + 1) * n / team`. -/
def env_even (threads : Nat) : parallel_env :=
  { getTotalThreads := threads
    splitter := fun n team tid => (tid * n / team, (tid + 1) * n / team)
    thread2d := fun _ _ _ _ => 0 }

/-- Scratch buffers and an output memory that hold zeros. -/
def bufs0 : mha_gpt_impl_amx.bufs ℚ := ⟨fun _ => 0, fun _ => 0, fun _ => 0⟩

/-- The view `t` with its rational entries as finite numbers. -/
def lift_tensor (t : tensor ℚ) : tensor flt :=
  { m_rank := t.m_rank, m_dims := t.m_dims, m_strides := t.m_strides,
    m_ptr := fun a => flt.num (t.m_ptr a) }

/-- The call parameters `p` with their rational entries as finite numbers. -/
def lift_param (p : exec_param ℚ) : exec_param flt :=
  { batch := p.batch
    query_seq_len := p.query_seq_len
    key_seq_len := p.key_seq_len
    is_causal_in_attention := p.is_causal_in_attention
    q := lift_tensor p.q
    k := lift_tensor p.k
    v := lift_tensor p.v
    attention_mask := lift_tensor p.attention_mask
    alibi := lift_tensor p.alibi
    attn_output := lift_tensor p.attn_output
    q_dequant := flt.num p.q_dequant
    k_dequant := flt.num p.k_dequant
    v_dequant := flt.num p.v_dequant
    qk_quant := flt.num p.qk_quant
    qkv_quant := p.qkv_quant.map flt.num }

/-- The configuration `cfg_bf16` over numbers with a NaN. -/
def cfg_bf16_flt : create_param flt :=
  { num_heads := 1, head_size := 4, head_size_aligned := 4, normal_factor := flt.num 1,
    qkv_precision := dnnl_bf16, dst_precision := dnnl_bf16, max_seq_len := 8,
    is_bloom := false }

/-- An engine object over numbers with a NaN on which `create` has not run. -/
def engine0_flt : mha_gpt_impl_amx flt :=
  { _create_param := { cfg_bf16_flt with qkv_precision := dnnl_data_type_undef }
    head_size_aligned := 0
    bufferMatMul0OutSize := 0
    bufferMatMul1OutSize := 0
    bufferMatMul0Out := fun _ => flt.num 0
    bufferMatMul1Out := fun _ => flt.num 0
    qkvQuantBuf := fun _ => flt.num 0
    gemAvB_BF16xBF16 := []
    qKtrGemm_BF16xBF16 := []
    qKVGemm_BF16xBF16 := []
    qKtrGemm_i8xi8 := []
    qKVGemm_u8xi8 := []
    gemAvB_i8xi8 := [] }

/-- The numeric primitives `nm0` over numbers with a NaN: the stand-in for the exponential
on finite values, NaN on NaN. -/
def nm0_flt : numerics flt :=
  { expf := fun x => match x with
      | flt.num q => flt.num (1 + q + q ^ 2 / 2)
      | flt.nan => flt.nan
    round_u8 := fun x => x
    round_s8 := fun x => x }

/-- A value memory that agrees with that of `param3` on value row 0 and holds NaN in the
value rows 1 and 2. -/
def vmem_nan : Mem flt := fun a => if a < 8 then flt.num (a : ℚ) else flt.nan

end examples

/-! ## Theorems -/

/-! ### Memory, loops and work items of the attention engine -/

namespace mha_gpt

section memory

variable {F : Type}

open mha_gpt_impl_amx

theorem storeRow_get (m : Mem F) (base elt n : Nat) (vals : Nat → F) (i : Nat)
    (helt : 0 < elt) (hi : i < n) : storeRow m base elt n vals (base + i * elt) = vals i := by
  unfold storeRow
  have h1 : base + i * elt - base = i * elt := by omega
  rw [h1, Nat.mul_mod_left, Nat.mul_div_cancel _ helt]
  simp [hi]

theorem storeRow_outside (m : Mem F) (base elt n : Nat) (vals : Nat → F) (a : Nat)
    (helt : 0 < elt) (h : a < base ∨ base + n * elt ≤ a) :
    storeRow m base elt n vals a = m a := by
  unfold storeRow
  rw [if_neg]
  rintro ⟨h1, _, h3⟩
  rw [Nat.div_lt_iff_lt_mul helt] at h3
  omega

theorem storeRow_congr (m : Mem F) (base elt n : Nat) (vals vals2 : Nat → F)
    (h : ∀ i, i < n → vals i = vals2 i) :
    storeRow m base elt n vals = storeRow m base elt n vals2 := by
  funext a
  unfold storeRow
  by_cases hc : base ≤ a ∧ (a - base) % elt = 0 ∧ (a - base) / elt < n
  · rw [if_pos hc, if_pos hc]; exact h _ hc.2.2
  · rw [if_neg hc, if_neg hc]

theorem store2d_succ (m : Mem F) (base stride elt rows cols : Nat) (vals : Nat → Nat → F) :
    store2d m base stride elt (rows + 1) cols vals =
      storeRow (store2d m base stride elt rows cols vals) (base + rows * stride) elt cols
        (vals rows) := by
  unfold store2d
  rw [List.range_succ, List.foldl_append]
  rfl

theorem store2d_unwritten (m : Mem F) (base stride elt rows cols : Nat) (vals : Nat → Nat → F)
    (a : Nat) (helt : 0 < elt)
    (h : ∀ r, r < rows → a < base + r * stride ∨ base + r * stride + cols * elt ≤ a) :
    store2d m base stride elt rows cols vals a = m a := by
  induction rows with
  | zero => rfl
  | succ k ih =>
    rw [store2d_succ, storeRow_outside _ _ _ _ _ _ helt (h k (Nat.lt_succ_self k))]
    exact ih (fun r hr => h r (Nat.lt_succ_of_lt hr))

theorem store2d_get (m : Mem F) (base stride elt rows cols : Nat) (vals : Nat → Nat → F)
    (r c : Nat) (helt : 0 < elt) (hst : cols * elt ≤ stride) (hr : r < rows) (hc : c < cols) :
    store2d m base stride elt rows cols vals (base + r * stride + c * elt) = vals r c := by
  induction rows with
  | zero => omega
  | succ k ih =>
    rw [store2d_succ]
    by_cases hrk : r = k
    · subst hrk
      exact storeRow_get _ _ _ _ _ _ helt hc
    · have hrk2 : r < k := by omega
      have h1 : (r + 1) * stride ≤ k * stride := Nat.mul_le_mul_right _ hrk2
      have h2 : c * elt < cols * elt := Nat.mul_lt_mul_of_pos_right hc helt
      rw [Nat.add_mul, Nat.one_mul] at h1
      rw [storeRow_outside _ _ _ _ _ _ helt (Or.inl (by omega))]
      exact ih hrk2

theorem store2d_congr (m : Mem F) (base stride elt rows cols : Nat) (vals vals2 : Nat → Nat → F)
    (h : ∀ r, r < rows → ∀ c, c < cols → vals r c = vals2 r c) :
    store2d m base stride elt rows cols vals = store2d m base stride elt rows cols vals2 := by
  induction rows with
  | zero => rfl
  | succ k ih =>
    rw [store2d_succ, store2d_succ, ih (fun r hr => h r (Nat.lt_succ_of_lt hr))]
    exact storeRow_congr _ _ _ _ _ _ (h k (Nat.lt_succ_self k))

theorem memset0_outside [Zero F] (m : Mem F) (p n a : Nat) (h : a < p ∨ p + n ≤ a) :
    memset0 m p n a = m a := by
  unfold memset0
  rw [if_neg]
  omega

theorem memset0_inside [Zero F] (m : Mem F) (p n a : Nat) (h1 : p ≤ a) (h2 : a < p + n) :
    memset0 m p n a = 0 := by
  unfold memset0
  rw [if_pos ⟨h1, h2⟩]

theorem rndup_ge (x : Nat) : x ≤ rndup x 64 := by
  unfold rndup; omega

theorem rndup_mono (x y : Nat) (h : x ≤ y) : rndup x 64 ≤ rndup y 64 := by
  unfold rndup; omega

theorem storeRow_not_written (m : Mem F) (base elt n : Nat) (vals : Nat → F) (a : Nat)
    (h : ∀ i, i < n → a ≠ base + i * elt) : storeRow m base elt n vals a = m a := by
  unfold storeRow
  rw [if_neg]
  rintro ⟨h1, h2, h3⟩
  apply h _ h3
  rw [Nat.div_mul_cancel (Nat.dvd_of_mod_eq_zero h2)]
  omega

theorem store2d_not_written (m : Mem F) (base stride elt rows cols : Nat)
    (vals : Nat → Nat → F) (a : Nat)
    (h : ∀ r, r < rows → ∀ c, c < cols → a ≠ base + r * stride + c * elt) :
    store2d m base stride elt rows cols vals a = m a := by
  induction rows with
  | zero => rfl
  | succ k ih =>
    rw [store2d_succ, storeRow_not_written _ _ _ _ _ _ (h k (Nat.lt_succ_self k))]
    exact ih (fun r hr => h r (Nat.lt_succ_of_lt hr))

theorem storeRow_agree (m m2 : Mem F) (base elt n : Nat) (vals vals2 : Nat → F) (a : Nat)
    (hm : m a = m2 a) (hv : ∀ i, i < n → a = base + i * elt → vals i = vals2 i) :
    storeRow m base elt n vals a = storeRow m2 base elt n vals2 a := by
  unfold storeRow
  by_cases hc : base ≤ a ∧ (a - base) % elt = 0 ∧ (a - base) / elt < n
  · rw [if_pos hc, if_pos hc]
    apply hv _ hc.2.2
    rw [Nat.div_mul_cancel (Nat.dvd_of_mod_eq_zero hc.2.1)]
    omega
  · rw [if_neg hc, if_neg hc]
    exact hm

theorem store2d_agree (m m2 : Mem F) (base stride elt rows cols : Nat)
    (vals vals2 : Nat → Nat → F) (a : Nat) (hm : m a = m2 a)
    (hv : ∀ r, r < rows → ∀ c, c < cols → a = base + r * stride + c * elt →
      vals r c = vals2 r c) :
    store2d m base stride elt rows cols vals a = store2d m2 base stride elt rows cols vals2 a := by
  induction rows with
  | zero => exact hm
  | succ k ih =>
    rw [store2d_succ, store2d_succ]
    exact storeRow_agree _ _ _ _ _ _ _ _ (ih (fun r hr => hv r (Nat.lt_succ_of_lt hr)))
      (hv k (Nat.lt_succ_self k))

/-- A fold of fallible steps each of which either sets the observed value to `v` (when it
covers) or keeps it. -/
theorem foldlM_target {σ ι : Type} (step : σ → ι → Option σ) (val : σ → F) (v : F)
    (covers : ι → Prop) (items : List ι)
    (h : ∀ x, x ∈ items → ∀ w, ∃ w1, step w x = some w1 ∧ (covers x → val w1 = v) ∧
      (¬ covers x → val w1 = val w)) :
    ∀ w0, ∃ wf, items.foldlM step w0 = some wf ∧
      ((∃ x, x ∈ items ∧ covers x) → val wf = v) ∧
      ((∀ x, x ∈ items → ¬ covers x) → val wf = val w0) ∧
      (val w0 = v → val wf = v) := by
  induction items with
  | nil =>
    intro w0
    exact ⟨w0, rfl, fun ⟨x, hx, _⟩ => absurd hx (List.not_mem_nil x), fun _ => rfl, fun e => e⟩
  | cons x xs ih =>
    intro w0
    obtain ⟨w1, hs1, hc1, hn1⟩ := h x (List.mem_cons_self x xs) w0
    obtain ⟨wf, hf, hfc, hfn, hfv⟩ := ih (fun y hy => h y (List.mem_cons_of_mem x hy)) w1
    refine ⟨wf, ?_, ?_, ?_, ?_⟩
    · rw [List.foldlM_cons, hs1]
      exact hf
    · rintro ⟨y, hy, hcy⟩
      by_cases hex : ∃ z, z ∈ xs ∧ covers z
      · exact hfc hex
      · rcases List.mem_cons.mp hy with rfl | hy2
        · exact hfv (hc1 hcy)
        · exact absurd ⟨y, hy2, hcy⟩ hex
    · intro hall
      rw [hfn (fun y hy => hall y (List.mem_cons_of_mem x hy)),
        hn1 (hall x (List.mem_cons_self x xs))]
    · intro e
      by_cases hcx : covers x
      · exact hfv (hc1 hcx)
      · exact hfv ((hn1 hcx).trans e)

/-- Two folds of fallible steps over the same items that keep the observed values equal. -/
theorem foldlM_sim {σ ι : Type} (step step2 : σ → ι → Option σ) (val : σ → F)
    (items : List ι)
    (h : ∀ x, x ∈ items → ∀ w w2, val w = val w2 →
      (step w x).map val = (step2 w2 x).map val) :
    ∀ w0 w02, val w0 = val w02 →
      (items.foldlM step w0).map val = (items.foldlM step2 w02).map val := by
  induction items with
  | nil =>
    intro w0 w02 e
    simp only [List.foldlM_nil, Option.pure_def, Option.map_some', e]
  | cons x xs ih =>
    intro w0 w02 e
    have hx := h x (List.mem_cons_self x xs) w0 w02 e
    rw [List.foldlM_cons, List.foldlM_cons]
    cases h1 : step w0 x with
    | none =>
      cases h2 : step2 w02 x with
      | none => rfl
      | some w2 => rw [h1, h2] at hx; exact absurd hx (by simp)
    | some w1 =>
      cases h2 : step2 w02 x with
      | none => rw [h1, h2] at hx; exact absurd hx (by simp)
      | some w2 =>
        rw [h1, h2] at hx
        simp only [Option.map_some', Option.some.injEq] at hx
        exact ih (fun y hy => h y (List.mem_cons_of_mem x hy)) w1 w2 hx

theorem radix_inj (H x d x2 d2 : Nat) (hd : d < H) (hd2 : d2 < H)
    (h : x * H + d = x2 * H + d2) : x = x2 ∧ d = d2 := by
  have hH : 0 < H := by omega
  have e1 : (x * H + d) / H = x := by
    rw [Nat.add_comm, Nat.add_mul_div_right _ _ hH, Nat.div_eq_of_lt hd, Nat.zero_add]
  have e2 : (x2 * H + d2) / H = x2 := by
    rw [Nat.add_comm, Nat.add_mul_div_right _ _ hH, Nat.div_eq_of_lt hd2, Nat.zero_add]
  have e3 : x = x2 := by rw [← e1, ← e2, h]
  subst e3
  exact ⟨rfl, by omega⟩

theorem work_pos (batch nh sca : Nat) (h : 0 < batch * nh * sca) :
    0 < batch ∧ 0 < nh ∧ 0 < sca := by
  refine ⟨?_, ?_, ?_⟩
  · rcases Nat.eq_zero_or_pos batch with h0 | h0
    · rw [h0] at h; simp at h
    · exact h0
  · rcases Nat.eq_zero_or_pos nh with h0 | h0
    · rw [h0] at h; simp at h
    · exact h0
  · rcases Nat.eq_zero_or_pos sca with h0 | h0
    · rw [h0] at h; simp at h
    · exact h0

theorem parallel_it_init_of (batch nh sca b h seq : Nat) (hb : b < batch) (hh : h < nh)
    (hs : seq < sca) :
    parallel_it_init ((b * nh + h) * sca + seq) batch nh sca = (b, h, seq) := by
  unfold parallel_it_init
  have e1 : ((b * nh + h) * sca + seq) / sca = b * nh + h := by
    rw [Nat.add_comm, Nat.add_mul_div_right _ _ (by omega), Nat.div_eq_of_lt hs, Nat.zero_add]
  have e2 : ((b * nh + h) * sca + seq) % sca = seq := by
    rw [Nat.add_comm, Nat.add_mul_mod_self_right, Nat.mod_eq_of_lt hs]
  have e3 : (b * nh + h) / nh = b := by
    rw [Nat.add_comm, Nat.add_mul_div_right _ _ (by omega), Nat.div_eq_of_lt hh, Nat.zero_add]
  have e4 : (b * nh + h) % nh = h := by
    rw [Nat.add_comm, Nat.add_mul_mod_self_right, Nat.mod_eq_of_lt hh]
  rw [e1, e2, e3, e4, Nat.mod_eq_of_lt hb]

theorem work_index_lt (batch nh sca b h seq : Nat) (hb : b < batch) (hh : h < nh)
    (hs : seq < sca) : (b * nh + h) * sca + seq < batch * nh * sca := by
  have h1 : b * nh + h + 1 ≤ batch * nh := by
    have : (b + 1) * nh ≤ batch * nh := Nat.mul_le_mul_right _ hb
    rw [Nat.add_mul, Nat.one_mul] at this
    omega
  have h2 : (b * nh + h + 1) * sca ≤ batch * nh * sca := Nat.mul_le_mul_right _ h1
  rw [Nat.add_mul, Nat.one_mul] at h2
  omega

theorem attn_offset_inj (Q N H b r h d b2 r2 h2 d2 : Nat) (hr : r < Q) (hr2 : r2 < Q)
    (hh : h < N) (hh2 : h2 < N) (hd : d < H) (hd2 : d2 < H)
    (e : ((b * Q + r) * N + h) * H + d = ((b2 * Q + r2) * N + h2) * H + d2) :
    b = b2 ∧ r = r2 ∧ h = h2 ∧ d = d2 := by
  obtain ⟨e1, e2⟩ := radix_inj H _ d _ d2 hd hd2 e
  obtain ⟨e3, e4⟩ := radix_inj N _ h _ h2 hh hh2 e1
  obtain ⟨e5, e6⟩ := radix_inj Q b r b2 r2 hr hr2 e3
  exact ⟨e5, e6, e4, e2⟩

theorem blocked_loop_target {σ : Type} (env : parallel_env) (batch nh qsl : Nat)
    (body : Nat → Nat → Nat → Nat → σ → Option σ) (val : σ → F) (v : F)
    (covers : Nat → Nat → Nat → Prop)
    (hbody : ∀ t, t < env.getTotalThreads → ∀ i0, i0 < batch → ∀ i1, i1 < nh →
      ∀ seq, seq < rndup qsl 32 / 32 → ∀ w, ∃ w1, body t i0 i1 seq w = some w1 ∧
        (covers i0 i1 seq → val w1 = v) ∧ (¬ covers i0 i1 seq → val w1 = val w)) :
    ∀ w0, ∃ wf, blocked_loop env batch nh qsl body w0 = some wf ∧
      ((∃ b, b < batch ∧ ∃ h, h < nh ∧ ∃ seq, seq < rndup qsl 32 / 32 ∧ covers b h seq ∧
          ∃ t, t < env.getTotalThreads ∧
            (env.splitter (batch * nh * (rndup qsl 32 / 32)) env.getTotalThreads t).1 ≤
              (b * nh + h) * (rndup qsl 32 / 32) + seq ∧
            (b * nh + h) * (rndup qsl 32 / 32) + seq <
              (env.splitter (batch * nh * (rndup qsl 32 / 32)) env.getTotalThreads t).2) →
        val wf = v) ∧
      ((∀ i0, i0 < batch → ∀ i1, i1 < nh → ∀ seq, seq < rndup qsl 32 / 32 →
          ¬ covers i0 i1 seq) → val wf = val w0) := by
  intro w0
  unfold blocked_loop parallel_for
  simp only
  generalize hsca : rndup qsl 32 / 32 = sca at *
  obtain ⟨wf, hf, hfc, hfn, _⟩ := foldlM_target
    (fun w t =>
      if (env.splitter (batch * nh * sca) env.getTotalThreads t).1 ≥ batch * nh * sca then some w
      else
        (List.range' (env.splitter (batch * nh * sca) env.getTotalThreads t).1
          ((env.splitter (batch * nh * sca) env.getTotalThreads t).2 -
            (env.splitter (batch * nh * sca) env.getTotalThreads t).1)).foldlM
          (fun w iwork =>
            body t (parallel_it_init iwork batch nh sca).1
              (parallel_it_init iwork batch nh sca).2.1
              (parallel_it_init iwork batch nh sca).2.2 w) w)
    val v
    (fun t => (env.splitter (batch * nh * sca) env.getTotalThreads t).1 < batch * nh * sca ∧
      ∃ iwork, iwork ∈ List.range' (env.splitter (batch * nh * sca) env.getTotalThreads t).1
          ((env.splitter (batch * nh * sca) env.getTotalThreads t).2 -
            (env.splitter (batch * nh * sca) env.getTotalThreads t).1) ∧
        covers (parallel_it_init iwork batch nh sca).1
          (parallel_it_init iwork batch nh sca).2.1
          (parallel_it_init iwork batch nh sca).2.2)
    (List.range env.getTotalThreads)
    (by
      intro t ht w
      have ht2 : t < env.getTotalThreads := List.mem_range.mp ht
      by_cases hst : (env.splitter (batch * nh * sca) env.getTotalThreads t).1 ≥ batch * nh * sca
      · refine ⟨w, by simp only [if_pos hst], ?_, fun _ => rfl⟩
        rintro ⟨hlt, _⟩
        omega
      · have hpos := work_pos batch nh sca (by omega)
        obtain ⟨w1, h1, h1c, h1n, _⟩ := foldlM_target
          (fun w iwork =>
            body t (parallel_it_init iwork batch nh sca).1
              (parallel_it_init iwork batch nh sca).2.1
              (parallel_it_init iwork batch nh sca).2.2 w)
          val v
          (fun iwork => covers (parallel_it_init iwork batch nh sca).1
            (parallel_it_init iwork batch nh sca).2.1
            (parallel_it_init iwork batch nh sca).2.2)
          (List.range' (env.splitter (batch * nh * sca) env.getTotalThreads t).1
            ((env.splitter (batch * nh * sca) env.getTotalThreads t).2 -
              (env.splitter (batch * nh * sca) env.getTotalThreads t).1))
          (fun iwork _ w => hbody t ht2 _ (Nat.mod_lt _ hpos.1) _ (Nat.mod_lt _ hpos.2.1) _
            (Nat.mod_lt _ hpos.2.2) w) w
        refine ⟨w1, by simp only [if_neg hst]; exact h1, fun hc => h1c hc.2, ?_⟩
        intro hnc
        apply h1n
        intro x hx hcx
        exact hnc ⟨by omega, x, hx, hcx⟩) w0
  refine ⟨wf, hf, ?_, ?_⟩
  · rintro ⟨b, hb, h, hh, seq, hseq, hcov, t, ht, hlo, hhi⟩
    apply hfc
    refine ⟨t, List.mem_range.mpr ht, ?_, (b * nh + h) * sca + seq, ?_, ?_⟩
    · have := work_index_lt batch nh sca b h seq hb hh hseq
      omega
    · rw [List.mem_range'_1]
      omega
    · rw [parallel_it_init_of batch nh sca b h seq hb hh hseq]
      exact hcov
  · intro hnc
    apply hfn
    rintro t _ ⟨hlt, x, _, hcx⟩
    have hpos := work_pos batch nh sca (by omega)
    exact hnc _ (Nat.mod_lt _ hpos.1) _ (Nat.mod_lt _ hpos.2.1) _ (Nat.mod_lt _ hpos.2.2) hcx

theorem blocked_loop_sim {σ : Type} (env : parallel_env) (batch nh qsl : Nat)
    (body body2 : Nat → Nat → Nat → Nat → σ → Option σ) (val : σ → F)
    (h : ∀ t i0 i1 seq, i0 < batch → i1 < nh → seq < rndup qsl 32 / 32 →
      ∀ w w2, val w = val w2 →
        (body t i0 i1 seq w).map val = (body2 t i0 i1 seq w2).map val) :
    ∀ w0 w02, val w0 = val w02 →
      (blocked_loop env batch nh qsl body w0).map val =
        (blocked_loop env batch nh qsl body2 w02).map val := by
  unfold blocked_loop parallel_for
  simp only
  generalize hsca : rndup qsl 32 / 32 = sca at *
  apply foldlM_sim
  intro t _ w w2 e
  by_cases hst : (env.splitter (batch * nh * sca) env.getTotalThreads t).1 ≥ batch * nh * sca
  · simp only [if_pos hst, Option.map_some', e]
  · simp only [if_neg hst]
    have hpos := work_pos batch nh sca (by omega)
    apply foldlM_sim _ _ _ _ _ w w2 e
    intro iwork _ w w2 e2
    exact h t _ _ _ (Nat.mod_lt _ hpos.1) (Nat.mod_lt _ hpos.2.1) (Nat.mod_lt _ hpos.2.2) w w2 e2

theorem cmos_eq (param : exec_param F) (h1 : param.query_seq_len ≤ param.key_seq_len)
    (h2 : param.key_seq_len < 2 ^ 64) :
    causal_mask_offset_start param = param.key_seq_len - param.query_seq_len := by
  unfold causal_mask_offset_start
  have e : (2 : Nat) ^ 64 = 18446744073709551616 := by norm_num
  rw [e] at h2 ⊢
  omega

theorem window_bounds (param : exec_param F) (seq : Nat)
    (h1 : param.query_seq_len ≤ param.key_seq_len) (h2 : param.key_seq_len < 2 ^ 64)
    (hseq : seq < rndup param.query_seq_len 32 / 32) :
    causal_mask_offset_start param + seq * 32 + 1 ≤ param.key_seq_len ∧
      causal_mask_offset_start param + seq * 32 + 1 +
        (min (seq * 32 + 32) param.query_seq_len - seq * 32) ≤ param.key_seq_len + 1 := by
  rw [cmos_eq param h1 h2]
  unfold rndup at hseq
  omega

theorem seq_lt_of_row (qsl r : Nat) (hr : r < qsl) : r / 32 < rndup qsl 32 / 32 := by
  unfold rndup
  omega

theorem row_of_seq (qsl seq : Nat) (hseq : seq < rndup qsl 32 / 32) : seq * 32 < qsl := by
  unfold rndup at hseq
  omega

theorem memset0_zero_len [Zero F] (m : Mem F) (p : Nat) : memset0 m p 0 = m := by
  funext a
  exact memset0_outside m p 0 a (by omega)

end memory

section engine_state

variable {F : Type} [AddCommMonoid F]

open mha_gpt_impl_amx

theorem create_bf16_state (self0 : mha_gpt_impl_amx F) (cp : create_param F) (n : Nat)
    (fresh : Nat → F) (hc : (self0.create cp n fresh).1 = true)
    (hq : cp.qkv_precision = dnnl_bf16) :
    (self0.create cp n fresh).2._create_param = cp ∧
    (self0.create cp n fresh).2.head_size_aligned = rndup cp.head_size 32 ∧
    (self0.create cp n fresh).2.gemAvB_BF16xBF16 = List.replicate n ⟨⟩ ∧
    (self0.create cp n fresh).2.qKtrGemm_BF16xBF16 = List.replicate n ⟨false, !cp.is_bloom⟩ ∧
    (self0.create cp n fresh).2.qKVGemm_BF16xBF16 = List.replicate n ⟨false, false⟩ := by
  revert hc
  unfold mha_gpt_impl_amx.create
  by_cases h2 : cp.dst_precision ≠ dnnl_bf16 ∧ cp.dst_precision ≠ dnnl_s8
  · simp [hq, h2]
  · simp [hq, h2]

theorem create_s8_state (self0 : mha_gpt_impl_amx F) (cp : create_param F) (n : Nat)
    (fresh : Nat → F) (hc : (self0.create cp n fresh).1 = true)
    (hq : cp.qkv_precision = dnnl_s8) :
    (self0.create cp n fresh).2._create_param = cp ∧
    (self0.create cp n fresh).2.head_size_aligned = rndup cp.head_size 64 ∧
    (self0.create cp n fresh).2.gemAvB_i8xi8 = List.replicate n ⟨⟩ ∧
    (self0.create cp n fresh).2.qKtrGemm_i8xi8 = List.replicate n ⟨false, !cp.is_bloom⟩ ∧
    (self0.create cp n fresh).2.qKVGemm_u8xi8 = List.replicate n ⟨false, false⟩ ∧
    (cp.dst_precision = dnnl_bf16 ∨ cp.dst_precision = dnnl_s8) := by
  revert hc
  unfold mha_gpt_impl_amx.create
  by_cases h2 : cp.dst_precision ≠ dnnl_bf16 ∧ cp.dst_precision ≠ dnnl_s8
  · simp [hq, h2]
  · simp only [hq, h2]
    simp
    by_contra hne
    exact h2 ⟨fun h => hne (Or.inl h), fun h => hne (Or.inr h)⟩

end engine_state

section pipelines

variable {F : Type} [AddCommMonoid F] [Mul F] [Div F]

open mha_gpt_impl_amx

theorem softmax_congr (expf : F → F) (n : Nat) (x y : Nat → F) (c : Nat)
    (h : ∀ j, j < n → x j = y j) (hc : c < n) : softmax expf n x c = softmax expf n y c := by
  unfold softmax
  rw [h c hc]
  congr 1
  exact Finset.sum_congr rfl (fun j hj => by rw [h j (Finset.mem_range.mp hj)])

theorem rows_gen_succ (expf cvt : F → F) (w prec ksl base : Nat) (len : Nat → Nat)
    (g : Nat → Nat → F → F) (n : Nat) (buf : Mem F) :
    rows_gen expf cvt w prec ksl base len g (n + 1) buf =
      row_gen expf cvt w prec ksl base len g (rows_gen expf cvt w prec ksl base len g n buf) n := by
  unfold rows_gen
  rw [List.range_succ, List.foldl_append]
  rfl

theorem rows_gen_spec (expf cvt : F → F) (w prec ksl base : Nat) (len : Nat → Nat)
    (g : Nat → Nat → F → F) (buf : Mem F) (n : Nat)
    (hw : w = 1 ∨ w = 2) (hprec : prec = w) (hlen : ∀ m, m < n → len m ≤ ksl) :
    (∀ m, m < n → ∀ c, c < ksl →
      rows_gen expf cvt w prec ksl base len g n buf (base + m * rndup (ksl * w) 64 + c * w) =
        block_prob expf cvt (len m)
          (fun j => g m j (buf (base + m * rndup (ksl * 4) 64 + j * 4))) c) ∧
    (∀ a, base + n * rndup (ksl * 4) 64 ≤ a →
      rows_gen expf cvt w prec ksl base len g n buf a = buf a) := by
  rw [hprec]
  clear hprec
  have hSs : ksl * 4 ≤ rndup (ksl * 4) 64 := rndup_ge _
  have hSp : ksl * w ≤ rndup (ksl * w) 64 := rndup_ge _
  have hps : rndup (ksl * w) 64 ≤ rndup (ksl * 4) 64 :=
    rndup_mono _ _ (by rcases hw with rfl | rfl <;> omega)
  have hw0 : 0 < w := by omega
  induction n with
  | zero =>
    exact ⟨fun m hm => absurd hm (Nat.not_lt_zero m), fun a _ => rfl⟩
  | succ n ih =>
    obtain ⟨iha, ihb⟩ := ih (fun m hm => hlen m (Nat.lt_succ_of_lt hm))
    have hl : len n ≤ ksl := hlen n (Nat.lt_succ_self n)
    have hnps : n * rndup (ksl * w) 64 ≤ n * rndup (ksl * 4) 64 := Nat.mul_le_mul_left _ hps
    have hlw : len n * w + (ksl - len n) * w = ksl * w := by
      rw [← Nat.add_mul]; congr 1; omega
    have hlw4 : len n * 4 ≤ ksl * 4 := by omega
    have hlw2 : len n * w ≤ ksl * w := Nat.mul_le_mul_right _ hl
    constructor
    · intro m hm c hc
      have hcw : c * w < ksl * w := Nat.mul_lt_mul_of_pos_right hc hw0
      rw [rows_gen_succ]
      unfold row_gen softmax_avx512
      by_cases hmn : m = n
      · subst hmn
        by_cases hcl : c < len m
        · have hcw2 : c * w < len m * w := Nat.mul_lt_mul_of_pos_right hcl hw0
          rw [memset0_outside _ _ _ _ (Or.inl (by omega)), storeRow_get _ _ _ _ _ _ hw0 hcl]
          unfold block_prob
          rw [if_pos hcl]
          congr 1
          apply softmax_congr _ _ _ _ _ _ hcl
          intro j hj
          rw [storeRow_get _ _ _ _ _ _ (by omega) hj, ihb _ (by omega)]
        · have hcw2 : len m * w ≤ c * w := Nat.mul_le_mul_right _ (by omega)
          rw [memset0_inside _ _ _ _ (by omega) (by omega)]
          unfold block_prob
          rw [if_neg hcl]
      · have hmn2 : m < n := by omega
        have h1 : (m + 1) * rndup (ksl * w) 64 ≤ n * rndup (ksl * w) 64 := Nat.mul_le_mul_right _ hmn2
        rw [Nat.add_mul, Nat.one_mul] at h1
        rw [memset0_outside _ _ _ _ (Or.inl (by omega)),
          storeRow_outside _ _ _ _ _ _ hw0 (Or.inl (by omega)),
          storeRow_outside _ _ _ _ _ _ (by omega) (Or.inl (by omega))]
        exact iha m hmn2 c hc
    · intro a ha
      rw [Nat.add_mul, Nat.one_mul] at ha
      rw [rows_gen_succ]
      unfold row_gen softmax_avx512
      rw [memset0_outside _ _ _ _ (Or.inr (by omega)),
        storeRow_outside _ _ _ _ _ _ hw0 (Or.inr (by omega)),
        storeRow_outside _ _ _ _ _ _ (by omega) (Or.inr (by omega))]
      exact ihb a (by omega)

theorem block_prob_congr (expf cvt : F → F) (len : Nat) (x y : Nat → F) (c : Nat)
    (h : ∀ j, j < len → x j = y j) : block_prob expf cvt len x c = block_prob expf cvt len y c := by
  unfold block_prob
  by_cases hc : c < len
  · rw [if_pos hc, if_pos hc, softmax_congr expf len x y c h hc]
  · rw [if_neg hc, if_neg hc]

theorem window_rows_fold (expf cvt : F → F) (w prec ksl base : Nat) (g : Nat → F → F)
    (step : Mem F × Nat → Nat → Mem F × Nat) (v0 : Nat)
    (hstep : ∀ buf valid m, step (buf, valid) m =
      if ksl > valid then
        (memset0 (softmax_avx512 expf cvt w
            (storeRow buf (base + m * rndup (ksl * 4) 64) 4 valid
              (fun j => g j (buf (base + m * rndup (ksl * 4) 64 + j * 4))))
            (base + m * rndup (ksl * w) 64) (base + m * rndup (ksl * 4) 64) valid)
          (base + m * rndup (ksl * w) 64 + valid * w) ((ksl - valid) * prec),
          min (valid + 1) ksl)
      else
        (softmax_avx512 expf cvt w
            (storeRow buf (base + m * rndup (ksl * 4) 64) 4 valid
              (fun j => g j (buf (base + m * rndup (ksl * 4) 64 + j * 4))))
            (base + m * rndup (ksl * w) 64) (base + m * rndup (ksl * 4) 64) valid, valid))
    (n : Nat) (buf : Mem F) (hv0 : v0 ≤ ksl) (hn : v0 + n ≤ ksl + 1) :
    (List.range n).foldl step (buf, v0) =
      (rows_gen expf cvt w prec ksl base (fun m => v0 + m) (fun _ => g) n buf,
        min (v0 + n) ksl) := by
  induction n with
  | zero =>
    simp only [List.range_zero, List.foldl_nil, rows_gen, Nat.add_zero]
    congr 1
    omega
  | succ n ih =>
    rw [List.range_succ, List.foldl_append, ih (by omega), rows_gen_succ]
    have hv : min (v0 + n) ksl = v0 + n := by omega
    simp only [List.foldl_cons, List.foldl_nil, hv]
    rw [hstep]
    unfold row_gen
    by_cases hk : ksl > v0 + n
    · rw [if_pos hk]
      rfl
    · rw [if_neg hk]
      have hz : ksl - (v0 + n) = 0 := by omega
      have hm : min (v0 + (n + 1)) ksl = v0 + n := by omega
      simp only [hz, Nat.zero_mul, memset0_zero_len, hm]

theorem mha_bf16_window_rows_eq (nm : numerics F) (self : mha_gpt_impl_amx F)
    (param : exec_param F) (i0 i1 seq_start seq_cout base : Nat) (buf : Mem F)
    (hv0 : causal_mask_offset_start param + seq_start + 1 ≤ param.key_seq_len)
    (hn : causal_mask_offset_start param + seq_start + 1 + seq_cout ≤ param.key_seq_len + 1) :
    mha_bf16_window_rows nm self param i0 i1 seq_start seq_cout base buf =
      rows_gen nm.expf id 2 (get_precision_size self._create_param.qkv_precision)
        param.key_seq_len base (fun m => causal_mask_offset_start param + seq_start + 1 + m)
        (fun _ => window_logit self param self._create_param.normal_factor i0 i1)
        seq_cout buf := by
  unfold mha_bf16_window_rows
  simp only
  rw [window_rows_fold nm.expf id 2 (get_precision_size self._create_param.qkv_precision)
    param.key_seq_len base (window_logit self param self._create_param.normal_factor i0 i1)
    (mha_bf16_window_row nm self param i0 i1 base) _ _ seq_cout buf hv0 hn]
  intro b valid m
  unfold mha_bf16_window_row mul_add_f32_avx512 mul_add2_f32_avx512 window_logit
    tensor.data_f32
  cases hb : self._create_param.is_bloom <;>
    simp only [Bool.not_false, Bool.not_true, if_true, if_false, Nat.add_mul, Nat.mul_assoc,
      Bool.false_eq_true]

theorem mha_i8_window_rows_eq (nm : numerics F) (self : mha_gpt_impl_amx F)
    (param : exec_param F) (i0 i1 seq_start seq_cout base : Nat) (buf : Mem F)
    (hv0 : causal_mask_offset_start param + seq_start + 1 ≤ param.key_seq_len)
    (hn : causal_mask_offset_start param + seq_start + 1 + seq_cout ≤ param.key_seq_len + 1) :
    mha_i8_window_rows nm self param i0 i1 seq_start seq_cout base buf =
      rows_gen nm.expf (fun p => nm.round_u8 (p * param.qk_quant)) 1
        (get_precision_size self._create_param.qkv_precision)
        param.key_seq_len base (fun m => causal_mask_offset_start param + seq_start + 1 + m)
        (fun _ => window_logit self param
          (self._create_param.normal_factor * param.q_dequant * param.k_dequant) i0 i1)
        seq_cout buf := by
  unfold mha_i8_window_rows
  simp only
  rw [window_rows_fold nm.expf (fun p => nm.round_u8 (p * param.qk_quant)) 1
    (get_precision_size self._create_param.qkv_precision)
    param.key_seq_len base (window_logit self param
      (self._create_param.normal_factor * param.q_dequant * param.k_dequant) i0 i1)
    (mha_i8_window_row nm self param i0 i1 base) _ _ seq_cout buf hv0 hn]
  intro b valid m
  unfold mha_i8_window_row mul_add_f32_avx512 mul_add2_f32_avx512 window_logit
    tensor.data_f32
  cases hb : self._create_param.is_bloom <;>
    simp only [Bool.not_false, Bool.not_true, if_true, if_false, Nat.add_mul, Nat.mul_assoc,
      Bool.false_eq_true]

theorem mha_bf16_mask_rows_eq (nm : numerics F) (self : mha_gpt_impl_amx F)
    (param : exec_param F) (i0 i1 seq_start seq_cout base : Nat) (buf : Mem F) :
    mha_bf16_mask_rows nm self param i0 i1 seq_start seq_cout base buf =
      rows_gen nm.expf id 2 (get_precision_size self._create_param.qkv_precision)
        param.key_seq_len base (fun _ => param.key_seq_len)
        (fun m => mask_logit self param self._create_param.normal_factor i0 i1 (seq_start + m))
        seq_cout buf := by
  unfold mha_bf16_mask_rows rows_gen
  simp only
  congr 1
  funext b m
  unfold row_gen mul_add_f32_avx512 mul_add2_f32_avx512 mask_logit tensor.data_f32
  simp only [Nat.sub_self, Nat.zero_mul, memset0_zero_len]
  cases hb : self._create_param.is_bloom <;>
    simp only [Bool.not_false, Bool.not_true, if_true, if_false, Nat.add_mul, Nat.mul_assoc,
      Bool.false_eq_true, Nat.add_comm m seq_start, Nat.mul_comm param.key_seq_len,
      Nat.add_assoc]

theorem block_scores_get (self : mha_gpt_impl_amx F) (param : exec_param F) (op : Matmul)
    (elt i0 i1 seq_start seq_cout base : Nat) (buf : Mem F)
    (hop : op.transposeB = !self._create_param.is_bloom)
    (hq : param.q.m_strides 3 = elt)
    (hk : if self._create_param.is_bloom then param.k.m_strides 2 = elt
      else param.k.m_strides 3 = elt)
    (m j : Nat) (hm : m < seq_cout) (hj : j < param.key_seq_len) :
    block_scores self param op elt i0 i1 seq_start seq_cout base buf
        (base + m * rndup (param.key_seq_len * 4) 64 + j * 4) =
      raw_score param self._create_param.head_size i0 i1 (seq_start + m) j := by
  have hS : param.key_seq_len * 4 ≤ rndup (param.key_seq_len * 4) 64 := rndup_ge _
  have hget := fun vals => store2d_get buf (base + 0 * 4) (rndup (param.key_seq_len * 4) 64) 4
    seq_cout (param.key_seq_len - 0) vals m j (by omega) (by omega) hm (by omega)
  simp only [Nat.zero_mul, Nat.add_zero, Nat.sub_zero] at hget
  unfold block_scores Matmul.call raw_score
  simp only [Nat.zero_mul, Nat.add_zero, Nat.sub_zero]
  cases hb : self._create_param.is_bloom
  · rw [hb] at hop hk
    simp only [Bool.not_false, if_true, Bool.false_eq_true, if_false] at hop hk ⊢
    rw [hget, hop]
    simp only [if_true, Nat.zero_add]
    apply Finset.sum_congr rfl
    intro d _
    unfold tensor2D.get tensor.at4 tensor.at3 tensor.at2
    simp only [hq, hk]
    congr 2
    ring
  · rw [hb] at hop hk
    simp only [Bool.not_true, if_true, Bool.false_eq_true, if_false] at hop hk ⊢
    rw [hget, hop]
    simp only [if_false, Nat.zero_add, Bool.false_eq_true]
    apply Finset.sum_congr rfl
    intro d _
    unfold tensor2D.get tensor.at4 tensor.at3 tensor.at2
    simp only [hq, hk]
    congr 2 <;> ring

/-- The second half of a work item of the blocked strategy: the probability block times the
value matrix, converted and scattered into the output. -/
theorem block_tail (expf cvtP : F → F) (cvtO : Nat → F → F) (w eo ksl hs hsa base base1 : Nat)
    (len : Nat → Nat) (g : Nat → Nat → F → F) (score : Nat → Nat → F) (n : Nat)
    (b0 cbuf pout vmem : Mem F) (pV vstride pOut dstride : Nat) (op : Matmul)
    (hw : w = 1 ∨ w = 2) (hlen : ∀ m, m < n → len m ≤ ksl) (hhs : hs ≤ hsa)
    (hop : op.transposeB = false)
    (hb0 : ∀ m, m < n → ∀ j, j < ksl → b0 (base + m * rndup (ksl * 4) 64 + j * 4) = score m j) :
    memcpy2d_stride_avx512 cvtO eo pout pOut
        (Matmul.call op
          ⟨n, ksl, rows_gen expf cvtP w w ksl base len g n b0, base, rndup (ksl * w) 64, w⟩
          ⟨ksl, hs, vmem, pV, vstride, w⟩ 0 hs cbuf base1 (hsa * 4))
        base1 n hs (hsa * 4) dstride =
      store2d pout pOut dstride eo n hs (fun m d =>
        cvtO d (attn_row expf cvtP ksl (len m) (fun j => g m j (score m j))
          (fun c => vmem (pV + c * vstride + d * w)))) := by
  unfold memcpy2d_stride_avx512
  apply store2d_congr
  intro r hr c hc
  congr 1
  unfold Matmul.call
  have hget := fun vals => store2d_get cbuf (base1 + 0 * 4) (hsa * 4) 4 n (hs - 0) vals r c
    (by omega) (by omega) hr (by omega)
  simp only [Nat.zero_mul, Nat.add_zero, Nat.sub_zero] at hget
  simp only [Nat.zero_mul, Nat.add_zero, Nat.sub_zero]
  rw [hget, hop]
  unfold attn_row
  apply Finset.sum_congr rfl
  intro k hk
  have hk2 : k < ksl := Finset.mem_range.mp hk
  simp only [tensor2D.get, Bool.false_eq_true, if_false, Nat.zero_add]
  rw [(rows_gen_spec expf cvtP w w ksl base len g b0 n hw rfl hlen).1 r hr k hk2]
  congr 1
  apply block_prob_congr
  intro j hj
  rw [hb0 r hr j (by have := hlen r hr; omega)]

theorem mha_bf16_block_body_pout (nm : numerics F) (self : mha_gpt_impl_amx F)
    (param : exec_param F) (t i0 i1 seq : Nat) (w : bufs F) (op1 op2 : Matmul)
    (h1 : self.qKtrGemm_BF16xBF16[t]? = some op1) (h2 : self.qKVGemm_BF16xBF16[t]? = some op2)
    (hop1 : op1.transposeB = !self._create_param.is_bloom) (hop2 : op2.transposeB = false)
    (hprec : self._create_param.qkv_precision = dnnl_bf16)
    (hhs : self._create_param.head_size ≤ self.head_size_aligned)
    (hq : param.q.m_strides 3 = 2)
    (hk : if self._create_param.is_bloom then param.k.m_strides 2 = 2
      else param.k.m_strides 3 = 2)
    (hv : param.v.m_strides 3 = 2)
    (hwin : param.is_causal_in_attention = false →
      causal_mask_offset_start param + seq * 32 + 1 ≤ param.key_seq_len ∧
      causal_mask_offset_start param + seq * 32 + 1 +
        (min (seq * 32 + 32) param.query_seq_len - seq * 32) ≤ param.key_seq_len + 1) :
    ∃ w1, mha_bf16_block_body nm self param t i0 i1 seq w = some w1 ∧
      w1.pout = store2d w.pout
        ((i0 * (self._create_param.head_size * self._create_param.num_heads *
            param.query_seq_len) + i1 * self._create_param.head_size +
          seq * 32 * self._create_param.head_size * self._create_param.num_heads) * 2)
        (self._create_param.num_heads * self._create_param.head_size * 2) 2
        (min (seq * 32 + 32) param.query_seq_len - seq * 32) self._create_param.head_size
        (fun m d => naive_row nm self param id self._create_param.normal_factor i0 i1
          (seq * 32 + m) d) := by
  unfold mha_bf16_block_body
  rw [h1, h2]
  refine ⟨_, rfl, ?_⟩
  simp only [hprec, get_precision_size]
  have hsc := block_scores_get self param op1 2 i0 i1 (seq * 32)
    (min (seq * 32 + 32) param.query_seq_len - seq * 32) (t * self.bufferMatMul0OutSize)
    w.bufferMatMul0Out hop1 hq hk
  cases hci : param.is_causal_in_attention
  · obtain ⟨hv0, hn⟩ := hwin hci
    simp only [Bool.false_eq_true, if_false]
    rw [mha_bf16_window_rows_eq nm self param i0 i1 (seq * 32) _ _ _ hv0 hn]
    simp only [hprec, get_precision_size]
    rw [block_tail nm.expf id (fun _ x => x) 2 2 param.key_seq_len
      self._create_param.head_size self.head_size_aligned _ _ _ _ _ _ _ _ _ _ _ _ _ _ op2
      (Or.inr rfl) (fun m hm => by omega) hhs hop2
      (fun m hm j hj => hsc m j hm hj)]
    apply store2d_congr
    intro m _ d _
    unfold naive_row row_len row_logit tensor.at4 tensor.at2
    simp only [hci, hv, Bool.false_eq_true, if_false]
    have e : causal_mask_offset_start param + seq * 32 + 1 + m =
        causal_mask_offset_start param + (seq * 32 + m) + 1 := by omega
    rw [e]
  · simp only [if_true]
    rw [mha_bf16_mask_rows_eq nm self param i0 i1 (seq * 32)]
    simp only [hprec, get_precision_size]
    rw [block_tail nm.expf id (fun _ x => x) 2 2 param.key_seq_len
      self._create_param.head_size self.head_size_aligned _ _ _ _ _ _ _ _ _ _ _ _ _ _ op2
      (Or.inr rfl) (fun m _ => le_refl _) hhs hop2
      (fun m hm j hj => hsc m j hm hj)]
    apply store2d_congr
    intro m _ d _
    unfold naive_row row_len row_logit tensor.at4 tensor.at2
    simp only [hci, hv, if_true]

theorem attn_row_congr (expf cvt : F → F) (ksl len : Nat) (logit logit2 vcol vcol2 : Nat → F)
    (hl : ∀ c, c < len → logit c = logit2 c)
    (hv : ∀ c, c < len → c < ksl → vcol c = vcol2 c)
    (hz : ∀ c, len ≤ c → c < ksl → (0 : F) * vcol c = 0 * vcol2 c) :
    attn_row expf cvt ksl len logit vcol = attn_row expf cvt ksl len logit2 vcol2 := by
  unfold attn_row
  apply Finset.sum_congr rfl
  intro c hc
  rw [block_prob_congr expf cvt len logit logit2 c hl]
  by_cases hcl : c < len
  · rw [hv c hcl (Finset.mem_range.mp hc)]
  · unfold block_prob
    rw [if_neg hcl]
    exact hz c (by omega) (Finset.mem_range.mp hc)

theorem mha_i8_block_body_pout (nm : numerics F) (self : mha_gpt_impl_amx F)
    (param : exec_param F) (qbuf : Nat → F) (t i0 i1 seq : Nat) (w : bufs F) (op1 op2 : Matmul)
    (h1 : self.qKtrGemm_i8xi8[t]? = some op1) (h2 : self.qKVGemm_u8xi8[t]? = some op2)
    (hop1 : op1.transposeB = !self._create_param.is_bloom) (hop2 : op2.transposeB = false)
    (hprec : self._create_param.qkv_precision = dnnl_s8)
    (hhs : self._create_param.head_size ≤ self.head_size_aligned)
    (hq : param.q.m_strides 3 = 1)
    (hk : if self._create_param.is_bloom then param.k.m_strides 2 = 1
      else param.k.m_strides 3 = 1)
    (hv : param.v.m_strides 3 = 1)
    (hci : param.is_causal_in_attention = false)
    (hv0 : causal_mask_offset_start param + seq * 32 + 1 ≤ param.key_seq_len)
    (hn : causal_mask_offset_start param + seq * 32 + 1 +
        (min (seq * 32 + 32) param.query_seq_len - seq * 32) ≤ param.key_seq_len + 1) :
    ∃ w1, mha_i8_block_body nm self param qbuf t i0 i1 seq w = some w1 ∧
      w1.pout = store2d w.pout
        ((i0 * (self._create_param.head_size * self._create_param.num_heads *
            param.query_seq_len) + i1 * self._create_param.head_size +
          seq * 32 * self._create_param.head_size * self._create_param.num_heads) *
          get_precision_size self._create_param.dst_precision)
        (self._create_param.num_heads * self._create_param.head_size) 1
        (min (seq * 32 + 32) param.query_seq_len - seq * 32) self._create_param.head_size
        (fun m d => nm.round_s8 (naive_row nm self param
          (fun p => nm.round_u8 (p * param.qk_quant))
          (self._create_param.normal_factor * param.q_dequant * param.k_dequant) i0 i1
          (seq * 32 + m) d * qbuf d)) := by
  unfold mha_i8_block_body
  rw [h1, h2]
  refine ⟨_, rfl, ?_⟩
  have hsc := block_scores_get self param op1 1 i0 i1 (seq * 32)
    (min (seq * 32 + 32) param.query_seq_len - seq * 32) (t * self.bufferMatMul0OutSize)
    w.bufferMatMul0Out hop1 hq hk
  simp only [hci, Bool.false_eq_true, if_false]
  rw [mha_i8_window_rows_eq nm self param i0 i1 (seq * 32) _ _ _ hv0 hn]
  simp only [hprec, get_precision_size]
  rw [block_tail nm.expf (fun p => nm.round_u8 (p * param.qk_quant))
    (fun j x => nm.round_s8 (x * qbuf j)) 1 1 param.key_seq_len
    self._create_param.head_size self.head_size_aligned _ _ _ _ _ _ _ _ _ _ _ _ _ _ op2
    (Or.inl rfl) (fun m hm => by omega) hhs hop2
    (fun m hm j hj => hsc m j hm hj)]
  apply store2d_congr
  intro m _ d _
  unfold naive_row row_len row_logit tensor.at4 tensor.at2
  simp only [hci, hv, Bool.false_eq_true, if_false]
  have e : causal_mask_offset_start param + seq * 32 + 1 + m =
      causal_mask_offset_start param + (seq * 32 + m) + 1 := by omega
  rw [e]

theorem mha_bf16_block_body_target (nm : numerics F) (self : mha_gpt_impl_amx F)
    (param : exec_param F) (t i0 i1 seq : Nat) (w : bufs F) (op1 op2 : Matmul)
    (h1 : self.qKtrGemm_BF16xBF16[t]? = some op1) (h2 : self.qKVGemm_BF16xBF16[t]? = some op2)
    (hop1 : op1.transposeB = !self._create_param.is_bloom) (hop2 : op2.transposeB = false)
    (hprec : self._create_param.qkv_precision = dnnl_bf16)
    (hhs : self._create_param.head_size ≤ self.head_size_aligned)
    (hq : param.q.m_strides 3 = 2)
    (hk : if self._create_param.is_bloom then param.k.m_strides 2 = 2
      else param.k.m_strides 3 = 2)
    (hv : param.v.m_strides 3 = 2)
    (hwin : param.is_causal_in_attention = false →
      causal_mask_offset_start param + seq * 32 + 1 ≤ param.key_seq_len ∧
      causal_mask_offset_start param + seq * 32 + 1 +
        (min (seq * 32 + 32) param.query_seq_len - seq * 32) ≤ param.key_seq_len + 1)
    (b h r d : Nat) (hr : r < param.query_seq_len) (hh : h < self._create_param.num_heads)
    (hd : d < self._create_param.head_size) (hi1 : i1 < self._create_param.num_heads)
    (hseq : seq * 32 < param.query_seq_len) :
    ∃ w1, mha_bf16_block_body nm self param t i0 i1 seq w = some w1 ∧
      ((i0 = b ∧ i1 = h ∧ seq = r / 32) →
        w1.pout ((((b * param.query_seq_len + r) * self._create_param.num_heads + h) *
          self._create_param.head_size + d) * 2) =
          naive_row nm self param id self._create_param.normal_factor b h r d) ∧
      (¬ (i0 = b ∧ i1 = h ∧ seq = r / 32) →
        w1.pout ((((b * param.query_seq_len + r) * self._create_param.num_heads + h) *
          self._create_param.head_size + d) * 2) =
        w.pout ((((b * param.query_seq_len + r) * self._create_param.num_heads + h) *
          self._create_param.head_size + d) * 2)) := by
  obtain ⟨w1, hw1, hp⟩ := mha_bf16_block_body_pout nm self param t i0 i1 seq w op1 op2 h1 h2
    hop1 hop2 hprec hhs hq hk hv hwin
  refine ⟨w1, hw1, ?_, ?_⟩
  · rintro ⟨rfl, rfl, rfl⟩
    rw [hp]
    have hA : (((i0 * param.query_seq_len + r) * self._create_param.num_heads + i1) *
          self._create_param.head_size + d) * 2 =
        (i0 * (self._create_param.head_size * self._create_param.num_heads *
            param.query_seq_len) + i1 * self._create_param.head_size +
          r / 32 * 32 * self._create_param.head_size * self._create_param.num_heads) * 2 +
        (r % 32) * (self._create_param.num_heads * self._create_param.head_size * 2) + d * 2 := by
      have hr2 : r = r / 32 * 32 + r % 32 := by omega
      generalize r / 32 = a at *
      generalize r % 32 = c at *
      subst hr2
      ring
    rw [hA, store2d_get _ _ _ _ _ _ _ _ _ (by omega) _ (by omega) hd]
    · congr 1
      omega
    · have : self._create_param.head_size ≤
          self._create_param.num_heads * self._create_param.head_size :=
        Nat.le_mul_of_pos_left _ (by omega)
      omega
  · intro hnc
    rw [hp]
    apply store2d_not_written
    intro m hm c hc heq
    apply hnc
    have hB : (i0 * (self._create_param.head_size * self._create_param.num_heads *
            param.query_seq_len) + i1 * self._create_param.head_size +
          seq * 32 * self._create_param.head_size * self._create_param.num_heads) * 2 +
        m * (self._create_param.num_heads * self._create_param.head_size * 2) + c * 2 =
        (((i0 * param.query_seq_len + (seq * 32 + m)) * self._create_param.num_heads + i1) *
          self._create_param.head_size + c) * 2 := by ring
    rw [hB] at heq
    have heq2 := Nat.eq_of_mul_eq_mul_right (by omega : 0 < 2) heq
    obtain ⟨e1, e2, e3, _⟩ := attn_offset_inj _ _ _ _ _ _ _ _ _ _ _ hr (by omega) hh hi1 hd hc
      heq2
    exact ⟨e1.symm, e3.symm, by omega⟩

theorem mha_bf16_block_body_frame (nm : numerics F) (self : mha_gpt_impl_amx F)
    (param : exec_param F) (t i0 i1 seq : Nat) (w : bufs F) (op1 op2 : Matmul)
    (h1 : self.qKtrGemm_BF16xBF16[t]? = some op1) (h2 : self.qKVGemm_BF16xBF16[t]? = some op2)
    (hop1 : op1.transposeB = !self._create_param.is_bloom) (hop2 : op2.transposeB = false)
    (hprec : self._create_param.qkv_precision = dnnl_bf16)
    (hhs : self._create_param.head_size ≤ self.head_size_aligned)
    (hq : param.q.m_strides 3 = 2)
    (hk : if self._create_param.is_bloom then param.k.m_strides 2 = 2
      else param.k.m_strides 3 = 2)
    (hv : param.v.m_strides 3 = 2)
    (hwin : param.is_causal_in_attention = false →
      causal_mask_offset_start param + seq * 32 + 1 ≤ param.key_seq_len ∧
      causal_mask_offset_start param + seq * 32 + 1 +
        (min (seq * 32 + 32) param.query_seq_len - seq * 32) ≤ param.key_seq_len + 1)
    (hi0 : i0 < param.batch) (hi1 : i1 < self._create_param.num_heads) (a : Nat)
    (ha : ∀ b, b < param.batch → ∀ h, h < self._create_param.num_heads →
      ∀ r, r < param.query_seq_len → ∀ d, d < self._create_param.head_size →
        a ≠ (((b * param.query_seq_len + r) * self._create_param.num_heads + h) *
          self._create_param.head_size + d) * 2) :
    ∃ w1, mha_bf16_block_body nm self param t i0 i1 seq w = some w1 ∧ w1.pout a = w.pout a := by
  obtain ⟨w1, hw1, hp⟩ := mha_bf16_block_body_pout nm self param t i0 i1 seq w op1 op2 h1 h2
    hop1 hop2 hprec hhs hq hk hv hwin
  refine ⟨w1, hw1, ?_⟩
  rw [hp]
  apply store2d_not_written
  intro m hm c hc heq
  have hB : (i0 * (self._create_param.head_size * self._create_param.num_heads *
          param.query_seq_len) + i1 * self._create_param.head_size +
        seq * 32 * self._create_param.head_size * self._create_param.num_heads) * 2 +
      m * (self._create_param.num_heads * self._create_param.head_size * 2) + c * 2 =
      (((i0 * param.query_seq_len + (seq * 32 + m)) * self._create_param.num_heads + i1) *
        self._create_param.head_size + c) * 2 := by ring
  rw [hB] at heq
  exact ha i0 hi0 i1 hi1 (seq * 32 + m) (by omega) c hc heq

/-- The blocked strategy of `mha_bf16` on an engine left by `create`: every work item the
splitter hands out runs, every output element is the naive attention of its row, and no
other cell of the output memory changes. -/
theorem mha_bf16_blocked_run (nm : numerics F) (env : parallel_env)
    (self0 : mha_gpt_impl_amx F) (cp : create_param F) (n : Nat) (fresh : Nat → F)
    (param : exec_param F) (hc : (self0.create cp n fresh).1 = true)
    (hq : cp.qkv_precision = dnnl_bf16)
    (hblk : is_vector_bf16 (self0.create cp n fresh).2 param = false)
    (hwin : param.is_causal_in_attention = false →
      param.query_seq_len ≤ param.key_seq_len ∧ param.key_seq_len < 2 ^ 64)
    (hthr : env.getTotalThreads ≤ n)
    (hqs : param.q.m_strides 3 = 2)
    (hks : if cp.is_bloom then param.k.m_strides 2 = 2 else param.k.m_strides 3 = 2)
    (hvs : param.v.m_strides 3 = 2) :
    ∃ st out, mha_bf16 nm env (self0.create cp n fresh).2 param = some (st, out) ∧
      (∀ b, b < param.batch → ∀ h, h < cp.num_heads → ∀ r, r < param.query_seq_len →
        ∀ d, d < cp.head_size →
        (∃ t, t < env.getTotalThreads ∧
          (env.splitter (param.batch * cp.num_heads * (rndup param.query_seq_len 32 / 32))
            env.getTotalThreads t).1 ≤
            (b * cp.num_heads + h) * (rndup param.query_seq_len 32 / 32) + r / 32 ∧
          (b * cp.num_heads + h) * (rndup param.query_seq_len 32 / 32) + r / 32 <
            (env.splitter (param.batch * cp.num_heads * (rndup param.query_seq_len 32 / 32))
              env.getTotalThreads t).2) →
        out ((((b * param.query_seq_len + r) * cp.num_heads + h) * cp.head_size + d) * 2) =
          naive_row nm (self0.create cp n fresh).2 param id cp.normal_factor b h r d) ∧
      (∀ a, (∀ b, b < param.batch → ∀ h, h < cp.num_heads → ∀ r, r < param.query_seq_len →
          ∀ d, d < cp.head_size →
          a ≠ (((b * param.query_seq_len + r) * cp.num_heads + h) * cp.head_size + d) * 2) →
        out a = param.attn_output.m_ptr a) := by
  obtain ⟨hcp, hhsa, _, hg1, hg2⟩ := create_bf16_state self0 cp n fresh hc hq
  generalize (self0.create cp n fresh).2 = st at *
  have hhs : st._create_param.head_size ≤ st.head_size_aligned := by
    rw [hhsa, hcp]; unfold rndup; omega
  have hprec : st._create_param.qkv_precision = dnnl_bf16 := by rw [hcp]; exact hq
  have hks2 : if st._create_param.is_bloom then param.k.m_strides 2 = 2
      else param.k.m_strides 3 = 2 := by rw [hcp]; exact hks
  have hop1 : ∀ t, t < env.getTotalThreads →
      st.qKtrGemm_BF16xBF16[t]? = some ⟨false, !st._create_param.is_bloom⟩ := by
    intro t ht
    rw [hg1, hcp, List.getElem?_replicate, if_pos (by omega)]
  have hop2 : ∀ t, t < env.getTotalThreads →
      st.qKVGemm_BF16xBF16[t]? = some ⟨false, false⟩ := by
    intro t ht
    rw [hg2, List.getElem?_replicate, if_pos (by omega)]
  have hwb : ∀ seq, seq < rndup param.query_seq_len 32 / 32 →
      param.is_causal_in_attention = false →
      causal_mask_offset_start param + seq * 32 + 1 ≤ param.key_seq_len ∧
      causal_mask_offset_start param + seq * 32 + 1 +
        (min (seq * 32 + 32) param.query_seq_len - seq * 32) ≤ param.key_seq_len + 1 :=
    fun seq hseq hci => window_bounds param seq (hwin hci).1 (hwin hci).2 hseq
  -- the run is defined
  obtain ⟨wf, hwf, -, -⟩ := blocked_loop_target env param.batch st._create_param.num_heads
    param.query_seq_len (mha_bf16_block_body nm st param) (fun _ => (0 : F)) 0
    (fun _ _ _ => False)
    (fun t ht i0 _ i1 _ seq hseq w => by
      obtain ⟨w1, hw1, _⟩ := mha_bf16_block_body_pout nm st param t i0 i1 seq w _ _
        (hop1 t ht) (hop2 t ht) rfl rfl hprec hhs hqs hks2 hvs (hwb seq hseq)
      exact ⟨w1, hw1, fun _ => rfl, fun _ => rfl⟩)
    ⟨st.bufferMatMul0Out, st.bufferMatMul1Out, param.attn_output.m_ptr⟩
  have hrun : mha_bf16 nm env st param =
      some ({ st with bufferMatMul0Out := wf.bufferMatMul0Out,
                      bufferMatMul1Out := wf.bufferMatMul1Out }, wf.pout) := by
    unfold mha_bf16
    simp only [hblk, Bool.false_eq_true, if_false, hwf, Option.map_some']
  refine ⟨_, _, hrun, ?_, ?_⟩
  · intro b hb h hh r hr d hd hcov
    rw [hcp] at hwf
    obtain ⟨wf2, hwf2, htar, -⟩ := blocked_loop_target env param.batch cp.num_heads
      param.query_seq_len (mha_bf16_block_body nm st param)
      (fun w => w.pout ((((b * param.query_seq_len + r) * cp.num_heads + h) *
        cp.head_size + d) * 2))
      (naive_row nm st param id cp.normal_factor b h r d)
      (fun i0 i1 seq => i0 = b ∧ i1 = h ∧ seq = r / 32)
      (fun t ht i0 _ i1 hi1 seq hseq w => by
        have := mha_bf16_block_body_target nm st param t i0 i1 seq w _ _
          (hop1 t ht) (hop2 t ht) rfl rfl hprec hhs hqs hks2 hvs (hwb seq hseq) b h r d hr
          (by rw [hcp]; exact hh) (by rw [hcp]; exact hd) (by rw [hcp]; exact hi1)
          (row_of_seq _ _ hseq)
        rw [hcp] at this
        exact this)
      ⟨st.bufferMatMul0Out, st.bufferMatMul1Out, param.attn_output.m_ptr⟩
    rw [hwf] at hwf2
    cases hwf2
    exact htar ⟨b, hb, h, hh, r / 32, seq_lt_of_row _ _ hr, ⟨rfl, rfl, rfl⟩, hcov⟩
  · intro a ha
    rw [hcp] at hwf
    obtain ⟨wf2, hwf2, -, hfr⟩ := blocked_loop_target env param.batch cp.num_heads
      param.query_seq_len (mha_bf16_block_body nm st param) (fun w => w.pout a) 0
      (fun _ _ _ => False)
      (fun t ht i0 hi0 i1 hi1 seq hseq w => by
        obtain ⟨w1, hw1, hfr1⟩ := mha_bf16_block_body_frame nm st param t i0 i1 seq w _ _
          (hop1 t ht) (hop2 t ht) rfl rfl hprec hhs hqs hks2 hvs (hwb seq hseq) hi0
          (by rw [hcp]; exact hi1) a (by rw [hcp]; exact ha)
        exact ⟨w1, hw1, fun hf => absurd hf id, fun _ => hfr1⟩)
      ⟨st.bufferMatMul0Out, st.bufferMatMul1Out, param.attn_output.m_ptr⟩
    rw [hwf] at hwf2
    cases hwf2
    exact hfr (fun _ _ _ _ _ _ hf => hf)

/-- Without `is_causal_in_attention`, the naive attention of a row reads the key and value
rows of its window only. -/
theorem naive_row_agree (nm : numerics F) (self : mha_gpt_impl_amx F) (param : exec_param F)
    (kmem2 vmem2 : Mem F) (cvt : F → F) (mul : F) (i0 i1 r2 d : Nat)
    (hci : param.is_causal_in_attention = false)
    (hd : d < self._create_param.head_size)
    (hK : ∀ c, c < causal_mask_offset_start param + r2 + 1 →
      ∀ e, e < self._create_param.head_size →
        (param.k.with_mem kmem2).at4 i0 i1 c e = param.k.at4 i0 i1 c e)
    (hV : ∀ c, c < causal_mask_offset_start param + r2 + 1 →
      ∀ e, e < self._create_param.head_size →
        (param.v.with_mem vmem2).at4 i0 i1 c e = param.v.at4 i0 i1 c e)
    (hZ : ∀ c, causal_mask_offset_start param + r2 + 1 ≤ c → c < param.key_seq_len →
      ∀ e, e < self._create_param.head_size →
        (0 : F) * (param.v.with_mem vmem2).at4 i0 i1 c e = 0 * param.v.at4 i0 i1 c e) :
    naive_row nm self (param.with_kv kmem2 vmem2) cvt mul i0 i1 r2 d =
      naive_row nm self param cvt mul i0 i1 r2 d := by
  have e0 : (param.with_kv kmem2 vmem2).is_causal_in_attention = false := hci
  have e1 : causal_mask_offset_start (param.with_kv kmem2 vmem2) =
      causal_mask_offset_start param := rfl
  have e3 : (param.with_kv kmem2 vmem2).key_seq_len = param.key_seq_len := rfl
  unfold naive_row row_len row_logit
  simp only [hci, e0, e1, e3, Bool.false_eq_true, if_false]
  apply attn_row_congr
  · intro c hc
    have e2 : raw_score (param.with_kv kmem2 vmem2) self._create_param.head_size i0 i1 r2 c =
        raw_score param self._create_param.head_size i0 i1 r2 c := by
      unfold raw_score
      apply Finset.sum_congr rfl
      intro e he
      have e4 : (param.with_kv kmem2 vmem2).k = param.k.with_mem kmem2 := rfl
      have e5 : (param.with_kv kmem2 vmem2).q = param.q := rfl
      rw [e4, e5, hK c hc e (Finset.mem_range.mp he)]
    rw [e2]
    rfl
  · intro c hc _
    exact hV c hc d hd
  · intro c hc hc2
    exact hZ c hc hc2 d hd

theorem mha_bf16_block_body_none (nm : numerics F) (self : mha_gpt_impl_amx F)
    (param : exec_param F) (t i0 i1 seq : Nat) (w : bufs F)
    (h : self.qKtrGemm_BF16xBF16[t]? = none ∨ self.qKVGemm_BF16xBF16[t]? = none) :
    mha_bf16_block_body nm self param t i0 i1 seq w = none := by
  unfold mha_bf16_block_body
  rcases h with h | h
  · rw [h]
  · rw [h]
    cases self.qKtrGemm_BF16xBF16[t]? <;> rfl

theorem mha_i8_block_body_none (nm : numerics F) (self : mha_gpt_impl_amx F)
    (param : exec_param F) (qbuf : Nat → F) (t i0 i1 seq : Nat) (w : bufs F)
    (h : self.qKtrGemm_i8xi8[t]? = none ∨ self.qKVGemm_u8xi8[t]? = none) :
    mha_i8_block_body nm self param qbuf t i0 i1 seq w = none := by
  unfold mha_i8_block_body
  rcases h with h | h
  · rw [h]
  · rw [h]
    cases self.qKtrGemm_i8xi8[t]? <;> rfl

theorem mha_bf16_block_body_sim (nm : numerics F) (self : mha_gpt_impl_amx F)
    (param : exec_param F) (kmem2 vmem2 : Mem F) (n t i0 i1 seq : Nat) (w w2 : bufs F)
    (hg1 : self.qKtrGemm_BF16xBF16 = List.replicate n ⟨false, !self._create_param.is_bloom⟩)
    (hg2 : self.qKVGemm_BF16xBF16 = List.replicate n ⟨false, false⟩)
    (hprec : self._create_param.qkv_precision = dnnl_bf16)
    (hhs : self._create_param.head_size ≤ self.head_size_aligned)
    (hq : param.q.m_strides 3 = 2)
    (hk : if self._create_param.is_bloom then param.k.m_strides 2 = 2
      else param.k.m_strides 3 = 2)
    (hv : param.v.m_strides 3 = 2)
    (hci : param.is_causal_in_attention = false)
    (hwb : causal_mask_offset_start param + seq * 32 + 1 ≤ param.key_seq_len ∧
      causal_mask_offset_start param + seq * 32 + 1 +
        (min (seq * 32 + 32) param.query_seq_len - seq * 32) ≤ param.key_seq_len + 1)
    (hi1 : i1 < self._create_param.num_heads)
    (b h r d : Nat) (hh : h < self._create_param.num_heads) (hr : r < param.query_seq_len)
    (hd : d < self._create_param.head_size)
    (hK : ∀ c, c < causal_mask_offset_start param + r + 1 →
      ∀ e, e < self._create_param.head_size →
        (param.k.with_mem kmem2).at4 b h c e = param.k.at4 b h c e)
    (hV : ∀ c, c < causal_mask_offset_start param + r + 1 →
      ∀ e, e < self._create_param.head_size →
        (param.v.with_mem vmem2).at4 b h c e = param.v.at4 b h c e)
    (hZ : ∀ c, causal_mask_offset_start param + r + 1 ≤ c → c < param.key_seq_len →
      ∀ e, e < self._create_param.head_size →
        (0 : F) * (param.v.with_mem vmem2).at4 b h c e = 0 * param.v.at4 b h c e)
    (hw : w.pout ((((b * param.query_seq_len + r) * self._create_param.num_heads + h) *
        self._create_param.head_size + d) * 2) =
      w2.pout ((((b * param.query_seq_len + r) * self._create_param.num_heads + h) *
        self._create_param.head_size + d) * 2)) :
    (mha_bf16_block_body nm self param t i0 i1 seq w).map
        (fun x => x.pout ((((b * param.query_seq_len + r) * self._create_param.num_heads + h) *
          self._create_param.head_size + d) * 2)) =
      (mha_bf16_block_body nm self (param.with_kv kmem2 vmem2) t i0 i1 seq w2).map
        (fun x => x.pout ((((b * param.query_seq_len + r) * self._create_param.num_heads + h) *
          self._create_param.head_size + d) * 2)) := by
  by_cases ht : t < n
  · have h1 : self.qKtrGemm_BF16xBF16[t]? = some ⟨false, !self._create_param.is_bloom⟩ := by
      rw [hg1, List.getElem?_replicate, if_pos ht]
    have h2 : self.qKVGemm_BF16xBF16[t]? = some ⟨false, false⟩ := by
      rw [hg2, List.getElem?_replicate, if_pos ht]
    obtain ⟨w1, hw1, hp⟩ := mha_bf16_block_body_pout nm self param t i0 i1 seq w _ _ h1 h2
      rfl rfl hprec hhs hq hk hv (fun _ => hwb)
    obtain ⟨w3, hw3, hp3⟩ := mha_bf16_block_body_pout nm self (param.with_kv kmem2 vmem2)
      t i0 i1 seq w2 _ _ h1 h2 rfl rfl hprec hhs hq hk hv (fun _ => hwb)
    rw [hw1, hw3, Option.map_some', Option.map_some', hp, hp3]
    congr 1
    apply store2d_agree _ _ _ _ _ _ _ _ _ _ hw
    intro m hm c hc heq
    have hB : (i0 * (self._create_param.head_size * self._create_param.num_heads *
            param.query_seq_len) + i1 * self._create_param.head_size +
          seq * 32 * self._create_param.head_size * self._create_param.num_heads) * 2 +
        m * (self._create_param.num_heads * self._create_param.head_size * 2) + c * 2 =
        (((i0 * param.query_seq_len + (seq * 32 + m)) * self._create_param.num_heads + i1) *
          self._create_param.head_size + c) * 2 := by ring
    rw [hB] at heq
    have heq2 := Nat.eq_of_mul_eq_mul_right (by omega : 0 < 2) heq
    obtain ⟨e1, e2, e3, e4⟩ := attn_offset_inj _ _ _ _ _ _ _ _ _ _ _ hr (by omega) hh hi1 hd hc
      heq2
    subst e1 e3 e4
    rw [← e2]
    exact (naive_row_agree nm self param kmem2 vmem2 id _ b h r d hci hd hK hV hZ).symm
  · have h1 : self.qKtrGemm_BF16xBF16[t]? = none := by
      rw [hg1, List.getElem?_replicate, if_neg ht]
    rw [mha_bf16_block_body_none _ _ _ _ _ _ _ _ (Or.inl h1),
      mha_bf16_block_body_none _ _ _ _ _ _ _ _ (Or.inl h1)]

theorem mha_i8_block_body_sim (nm : numerics F) (self : mha_gpt_impl_amx F)
    (param : exec_param F) (kmem2 vmem2 : Mem F) (qbuf : Nat → F) (n t i0 i1 seq : Nat)
    (w w2 : bufs F)
    (hg1 : self.qKtrGemm_i8xi8 = List.replicate n ⟨false, !self._create_param.is_bloom⟩)
    (hg2 : self.qKVGemm_u8xi8 = List.replicate n ⟨false, false⟩)
    (hprec : self._create_param.qkv_precision = dnnl_s8)
    (hdst : get_precision_size self._create_param.dst_precision = 1 ∨
      get_precision_size self._create_param.dst_precision = 2)
    (hhs : self._create_param.head_size ≤ self.head_size_aligned)
    (hq : param.q.m_strides 3 = 1)
    (hk : if self._create_param.is_bloom then param.k.m_strides 2 = 1
      else param.k.m_strides 3 = 1)
    (hv : param.v.m_strides 3 = 1)
    (hci : param.is_causal_in_attention = false)
    (hwb : causal_mask_offset_start param + seq * 32 + 1 ≤ param.key_seq_len ∧
      causal_mask_offset_start param + seq * 32 + 1 +
        (min (seq * 32 + 32) param.query_seq_len - seq * 32) ≤ param.key_seq_len + 1)
    (hi0 : i0 < param.batch) (hi1 : i1 < self._create_param.num_heads)
    (b h r d : Nat) (hh : h < self._create_param.num_heads) (hr : r < param.query_seq_len)
    (hd : d < self._create_param.head_size)
    (hrl : causal_mask_offset_start param + r + 1 ≤ param.key_seq_len)
    (hK : ∀ b2, b2 < param.batch → ∀ h2, h2 < self._create_param.num_heads →
      ∀ c, c < param.key_seq_len → ∀ e, e < self._create_param.head_size →
        (b2 ≠ b ∨ h2 ≠ h ∨ c < causal_mask_offset_start param + r + 1) →
        (param.k.with_mem kmem2).at4 b2 h2 c e = param.k.at4 b2 h2 c e)
    (hV : ∀ b2, b2 < param.batch → ∀ h2, h2 < self._create_param.num_heads →
      ∀ c, c < param.key_seq_len → ∀ e, e < self._create_param.head_size →
        (b2 ≠ b ∨ h2 ≠ h ∨ c < causal_mask_offset_start param + r + 1) →
        (param.v.with_mem vmem2).at4 b2 h2 c e = param.v.at4 b2 h2 c e)
    (hZ : ∀ c, causal_mask_offset_start param + r + 1 ≤ c → c < param.key_seq_len →
      ∀ e, e < self._create_param.head_size →
        (0 : F) * (param.v.with_mem vmem2).at4 b h c e = 0 * param.v.at4 b h c e)
    (hw : w.pout ((b * (self._create_param.head_size * self._create_param.num_heads *
            param.query_seq_len) + h * self._create_param.head_size +
          r / 32 * 32 * self._create_param.head_size * self._create_param.num_heads) *
          get_precision_size self._create_param.dst_precision +
        r % 32 * (self._create_param.num_heads * self._create_param.head_size) + d * 1) =
      w2.pout ((b * (self._create_param.head_size * self._create_param.num_heads *
            param.query_seq_len) + h * self._create_param.head_size +
          r / 32 * 32 * self._create_param.head_size * self._create_param.num_heads) *
          get_precision_size self._create_param.dst_precision +
        r % 32 * (self._create_param.num_heads * self._create_param.head_size) + d * 1)) :
    (mha_i8_block_body nm self param qbuf t i0 i1 seq w).map
        (fun x => x.pout ((b * (self._create_param.head_size * self._create_param.num_heads *
            param.query_seq_len) + h * self._create_param.head_size +
          r / 32 * 32 * self._create_param.head_size * self._create_param.num_heads) *
          get_precision_size self._create_param.dst_precision +
        r % 32 * (self._create_param.num_heads * self._create_param.head_size) + d * 1)) =
      (mha_i8_block_body nm self (param.with_kv kmem2 vmem2) qbuf t i0 i1 seq w2).map
        (fun x => x.pout ((b * (self._create_param.head_size * self._create_param.num_heads *
            param.query_seq_len) + h * self._create_param.head_size +
          r / 32 * 32 * self._create_param.head_size * self._create_param.num_heads) *
          get_precision_size self._create_param.dst_precision +
        r % 32 * (self._create_param.num_heads * self._create_param.head_size) + d * 1)) := by
  by_cases ht : t < n
  · have h1 : self.qKtrGemm_i8xi8[t]? = some ⟨false, !self._create_param.is_bloom⟩ := by
      rw [hg1, List.getElem?_replicate, if_pos ht]
    have h2 : self.qKVGemm_u8xi8[t]? = some ⟨false, false⟩ := by
      rw [hg2, List.getElem?_replicate, if_pos ht]
    obtain ⟨w1, hw1, hp⟩ := mha_i8_block_body_pout nm self param qbuf t i0 i1 seq w _ _ h1 h2
      rfl rfl hprec hhs hq hk hv hci hwb.1 hwb.2
    obtain ⟨w3, hw3, hp3⟩ := mha_i8_block_body_pout nm self (param.with_kv kmem2 vmem2) qbuf
      t i0 i1 seq w2 _ _ h1 h2 rfl rfl hprec hhs hq hk hv hci hwb.1 hwb.2
    rw [hw1, hw3, Option.map_some', Option.map_some', hp, hp3]
    congr 1
    apply store2d_agree _ _ _ _ _ _ _ _ _ _ hw
    intro m hm c hc heq
    have hlen : causal_mask_offset_start param + (seq * 32 + m) + 1 ≤ param.key_seq_len := by
      have := hwb.2
      omega
    have hqk : (param.with_kv kmem2 vmem2).qk_quant = param.qk_quant := rfl
    have hqd : (param.with_kv kmem2 vmem2).q_dequant = param.q_dequant := rfl
    have hkd : (param.with_kv kmem2 vmem2).k_dequant = param.k_dequant := rfl
    rw [hqk, hqd, hkd]
    congr 2
    symm
    by_cases hsame : i0 = b ∧ i1 = h
    · obtain ⟨rfl, rfl⟩ := hsame
      have hnh : self._create_param.head_size ≤
          self._create_param.num_heads * self._create_param.head_size :=
        Nat.le_mul_of_pos_left _ (by omega)
      have hL : (i0 * (self._create_param.head_size * self._create_param.num_heads *
              param.query_seq_len) + i1 * self._create_param.head_size +
            r / 32 * 32 * self._create_param.head_size * self._create_param.num_heads) *
            get_precision_size self._create_param.dst_precision +
          r % 32 * (self._create_param.num_heads * self._create_param.head_size) + d * 1 =
          (i0 * (self._create_param.head_size * self._create_param.num_heads *
              param.query_seq_len) + i1 * self._create_param.head_size) *
            get_precision_size self._create_param.dst_precision +
          ((r / 32 * 32 * get_precision_size self._create_param.dst_precision + r % 32) *
            (self._create_param.num_heads * self._create_param.head_size) + d) := by ring
      have hR : (i0 * (self._create_param.head_size * self._create_param.num_heads *
              param.query_seq_len) + i1 * self._create_param.head_size +
            seq * 32 * self._create_param.head_size * self._create_param.num_heads) *
            get_precision_size self._create_param.dst_precision +
          m * (self._create_param.num_heads * self._create_param.head_size) + c * 1 =
          (i0 * (self._create_param.head_size * self._create_param.num_heads *
              param.query_seq_len) + i1 * self._create_param.head_size) *
            get_precision_size self._create_param.dst_precision +
          ((seq * 32 * get_precision_size self._create_param.dst_precision + m) *
            (self._create_param.num_heads * self._create_param.head_size) + c) := by ring
      rw [hL, hR] at heq
      obtain ⟨e1, e2⟩ := radix_inj _ _ _ _ _ (by omega) (by omega) (Nat.add_left_cancel heq)
      have e3 : seq * 32 + m = r := by
        rcases hdst with hP | hP <;> rw [hP] at e1 <;> omega
      subst e2
      rw [e3]
      exact naive_row_agree nm self param kmem2 vmem2 _ _ i0 i1 r d hci hd
        (fun c2 hc2 e he => hK i0 hi0 i1 hi1 c2 (by omega) e he
          (Or.inr (Or.inr hc2)))
        (fun c2 hc2 e he => hV i0 hi0 i1 hi1 c2 (by omega) e he
          (Or.inr (Or.inr hc2)))
        hZ
    · have hne : i0 ≠ b ∨ i1 ≠ h := by
        by_contra hcon
        exact hsame ⟨by omega, by omega⟩
      exact naive_row_agree nm self param kmem2 vmem2 _ _ i0 i1 (seq * 32 + m) c hci hc
        (fun c2 hc2 e he => hK i0 hi0 i1 hi1 c2
          (by omega) e he
          (hne.elim Or.inl (fun x => Or.inr (Or.inl x))))
        (fun c2 hc2 e he => hV i0 hi0 i1 hi1 c2
          (by omega) e he
          (hne.elim Or.inl (fun x => Or.inr (Or.inl x))))
        (fun c2 _ hc3 e he => by
          rw [hV i0 hi0 i1 hi1 c2 hc3 e he (hne.elim Or.inl (fun x => Or.inr (Or.inl x)))])
  · have h1 : self.qKtrGemm_i8xi8[t]? = none := by
      rw [hg1, List.getElem?_replicate, if_neg ht]
    rw [mha_i8_block_body_none _ _ _ _ _ _ _ _ _ (Or.inl h1),
      mha_i8_block_body_none _ _ _ _ _ _ _ _ _ (Or.inl h1)]

end pipelines

section pipelines_exact

variable {F : Type} [Field F]

open mha_gpt_impl_amx

theorem attn_row_uniform [CharZero F] (expf : F → F) (ksl len : Nat) (logit vcol : Nat → F)
    (x0 : F) (hlen : len ≤ ksl) (hpos : 0 < len) (hx : ∀ c, c < len → logit c = x0)
    (he : expf x0 ≠ 0) :
    attn_row expf id ksl len logit vcol = (∑ c in Finset.range len, vcol c) / (len : F) := by
  unfold attn_row
  have h1 : ∑ c in Finset.range len, block_prob expf id len logit c * vcol c =
      ∑ c in Finset.range ksl, block_prob expf id len logit c * vcol c := by
    apply Finset.sum_subset (Finset.range_subset.mpr hlen)
    intro c _ hc
    unfold block_prob
    rw [if_neg (by simpa using hc), zero_mul]
  rw [← h1, Finset.sum_div]
  apply Finset.sum_congr rfl
  intro c hc
  have hc2 : c < len := Finset.mem_range.mp hc
  have hsum : ∑ j in Finset.range len, expf (logit j) = (len : F) * expf x0 := by
    rw [Finset.sum_congr rfl (fun j hj => by rw [hx j (Finset.mem_range.mp hj)]),
      Finset.sum_const, Finset.card_range, nsmul_eq_mul]
  have hlen0 : (len : F) ≠ 0 := Nat.cast_ne_zero.mpr (by omega)
  unfold block_prob softmax
  rw [if_pos hc2, hsum, hx c hc2]
  simp only [id]
  field_simp
  ring

theorem mha_bf16_vector_body_pout (nm : numerics F) (self : mha_gpt_impl_amx F)
    (param : exec_param F) (t i0 i1 : Nat) (w : bufs F) (op1 : MatmulVector) (op2 : Matmul)
    (h1 : self.gemAvB_BF16xBF16[t]? = some op1) (h2 : self.qKVGemm_BF16xBF16[t]? = some op2)
    (hop2 : op2.transposeB = false)
    (hprec : self._create_param.qkv_precision = dnnl_bf16)
    (hhs : self._create_param.head_size ≤ self.head_size_aligned)
    (hq : param.q.m_strides 3 = 2) (hk : param.k.m_strides 3 = 2)
    (hv : param.v.m_strides 3 = 2) (hqsl : param.query_seq_len = 1) :
    ∃ w1, mha_bf16_vector_body nm self param t i0 i1 w = some w1 ∧
      w1.pout = store2d w.pout
        ((i0 * (self._create_param.head_size * self._create_param.num_heads *
            param.query_seq_len) + i1 * self._create_param.head_size) * 2)
        (self._create_param.num_heads * self._create_param.head_size * 2) 2
        param.query_seq_len self._create_param.head_size
        (fun _ d => ∑ c in Finset.range param.key_seq_len,
          softmax nm.expf param.key_seq_len
            (fun j => self._create_param.normal_factor *
                raw_score param self._create_param.head_size i0 i1 0 j +
              param.attention_mask.data_f32 (i0 * param.key_seq_len + j)) c *
            param.v.at4 i0 i1 c d) := by
  unfold mha_bf16_vector_body
  rw [h1, h2]
  refine ⟨_, rfl, ?_⟩
  simp only [hprec, get_precision_size]
  unfold memcpy2d_stride_avx512
  apply store2d_congr
  intro r hr c hc
  have hr0 : r = 0 := by omega
  subst hr0
  unfold Matmul.call
  have hget := fun cbuf vals => store2d_get (F := F) cbuf (t * self.bufferMatMul1OutSize + 0 * 4)
    (self.head_size_aligned * 4) 4 param.query_seq_len (self._create_param.head_size - 0)
    vals 0 c (by omega) (by omega) hr (by omega)
  simp only [Nat.zero_mul, Nat.add_zero, Nat.sub_zero] at hget
  simp only [Nat.zero_mul, Nat.add_zero, Nat.sub_zero]
  rw [hget, hop2]
  apply Finset.sum_congr rfl
  intro k hk2
  have hk3 : k < param.key_seq_len := Finset.mem_range.mp hk2
  simp only [tensor2D.get, Bool.false_eq_true, if_false, Nat.zero_add, Nat.zero_mul,
    Nat.add_zero]
  congr 1
  · unfold softmax_avx512
    rw [storeRow_get _ _ _ _ _ _ (by omega) hk3]
    simp only [id]
    apply softmax_congr _ _ _ _ _ _ hk3
    intro j hj
    unfold mul_add_f32_avx512
    rw [storeRow_get _ _ _ _ _ _ (by omega) hj]
    unfold MatmulVector.call
    rw [storeRow_get _ _ _ _ _ _ (by omega) hj, mul_comm]
    unfold raw_score tensor.data_f32
    simp only [Nat.add_mul]
    congr 2
    apply Finset.sum_congr rfl
    intro d _
    unfold tensor2D.get tensor.at4 tensor.at2
    simp only [hq, hk, Nat.zero_mul, Nat.add_zero]
    rw [mul_comm]
  · unfold tensor.at4 tensor.at2
    rw [hv]

theorem mha_bf16_vector_run (nm : numerics F) (env : parallel_env)
    (self0 : mha_gpt_impl_amx F) (cp : create_param F) (n : Nat) (fresh : Nat → F)
    (param : exec_param F) (hc : (self0.create cp n fresh).1 = true)
    (hq : cp.qkv_precision = dnnl_bf16)
    (hvec : is_vector_bf16 (self0.create cp n fresh).2 param = true)
    (hthr : ∀ i0, i0 < param.batch → ∀ i1, i1 < cp.num_heads →
      env.thread2d param.batch cp.num_heads i0 i1 < n)
    (hqs : param.q.m_strides 3 = 2) (hks : param.k.m_strides 3 = 2)
    (hvs : param.v.m_strides 3 = 2) :
    ∃ st out, mha_bf16 nm env (self0.create cp n fresh).2 param = some (st, out) ∧
      ∀ b, b < param.batch → ∀ h, h < cp.num_heads → ∀ d, d < cp.head_size →
        out (((b * cp.num_heads + h) * cp.head_size + d) * 2) =
          ∑ c in Finset.range param.key_seq_len,
            softmax nm.expf param.key_seq_len
              (fun j => cp.normal_factor * raw_score param cp.head_size b h 0 j +
                param.attention_mask.data_f32 (b * param.key_seq_len + j)) c *
              param.v.at4 b h c d := by
  obtain ⟨hcp, hhsa, hg0, _, hg2⟩ := create_bf16_state self0 cp n fresh hc hq
  generalize (self0.create cp n fresh).2 = st at *
  have hhs : st._create_param.head_size ≤ st.head_size_aligned := by
    rw [hhsa, hcp]; unfold rndup; omega
  have hprec : st._create_param.qkv_precision = dnnl_bf16 := by rw [hcp]; exact hq
  have hqsl : param.query_seq_len = 1 := by
    unfold is_vector_bf16 at hvec
    simp only [Bool.and_eq_true, decide_eq_true_eq] at hvec
    exact hvec.1.1.1
  have hbody : ∀ x, x ∈ List.range (param.batch * cp.num_heads) → ∀ w : bufs F,
      ∃ w1, mha_bf16_vector_body nm st param
          (env.thread2d param.batch cp.num_heads (x / cp.num_heads) (x % cp.num_heads))
          (x / cp.num_heads) (x % cp.num_heads) w = some w1 ∧
        w1.pout = store2d w.pout
          ((x / cp.num_heads * (cp.head_size * cp.num_heads * param.query_seq_len) +
            x % cp.num_heads * cp.head_size) * 2)
          (cp.num_heads * cp.head_size * 2) 2 param.query_seq_len cp.head_size
          (fun _ d => ∑ c in Finset.range param.key_seq_len,
            softmax nm.expf param.key_seq_len
              (fun j => cp.normal_factor *
                  raw_score param cp.head_size (x / cp.num_heads) (x % cp.num_heads) 0 j +
                param.attention_mask.data_f32 (x / cp.num_heads * param.key_seq_len + j)) c *
              param.v.at4 (x / cp.num_heads) (x % cp.num_heads) c d) := by
    intro x hx w
    have hx2 : x < param.batch * cp.num_heads := List.mem_range.mp hx
    have hnh : 0 < cp.num_heads := by
      rcases Nat.eq_zero_or_pos cp.num_heads with h0 | h0
      · rw [h0] at hx2; simp at hx2
      · exact h0
    have hi0 : x / cp.num_heads < param.batch := (Nat.div_lt_iff_lt_mul hnh).mpr hx2
    have ht := hthr _ hi0 _ (Nat.mod_lt x hnh)
    have := mha_bf16_vector_body_pout nm st param
      (env.thread2d param.batch cp.num_heads (x / cp.num_heads) (x % cp.num_heads))
      (x / cp.num_heads) (x % cp.num_heads) w ⟨⟩ ⟨false, false⟩
      (by rw [hg0, List.getElem?_replicate, if_pos ht])
      (by rw [hg2, List.getElem?_replicate, if_pos ht]) rfl hprec hhs hqs hks hvs hqsl
    rw [hcp] at this
    exact this
  -- the run is defined
  obtain ⟨wf, hwf, -, -⟩ := foldlM_target
    (fun (w : bufs F) x => mha_bf16_vector_body nm st param
      (env.thread2d param.batch cp.num_heads (x / cp.num_heads) (x % cp.num_heads))
      (x / cp.num_heads) (x % cp.num_heads) w)
    (fun _ => (0 : F)) 0 (fun _ => False) (List.range (param.batch * cp.num_heads))
    (fun x hx w => by
      obtain ⟨w1, hw1, _⟩ := hbody x hx w
      exact ⟨w1, hw1, fun _ => rfl, fun _ => rfl⟩)
    ⟨st.bufferMatMul0Out, st.bufferMatMul1Out, param.attn_output.m_ptr⟩
  have hrun : mha_bf16 nm env st param =
      some ({ st with bufferMatMul0Out := wf.bufferMatMul0Out,
                      bufferMatMul1Out := wf.bufferMatMul1Out }, wf.pout) := by
    unfold mha_bf16 parallel_for2d
    simp only [hvec, if_true, hcp, hwf, Option.map_some']
  refine ⟨_, _, hrun, ?_⟩
  intro b hb h hh d hd
  obtain ⟨wf2, hwf2, htar, -⟩ := foldlM_target
    (fun (w : bufs F) x => mha_bf16_vector_body nm st param
      (env.thread2d param.batch cp.num_heads (x / cp.num_heads) (x % cp.num_heads))
      (x / cp.num_heads) (x % cp.num_heads) w)
    (fun w => w.pout (((b * cp.num_heads + h) * cp.head_size + d) * 2))
    (∑ c in Finset.range param.key_seq_len,
      softmax nm.expf param.key_seq_len
        (fun j => cp.normal_factor * raw_score param cp.head_size b h 0 j +
          param.attention_mask.data_f32 (b * param.key_seq_len + j)) c *
        param.v.at4 b h c d)
    (fun x => x = b * cp.num_heads + h) (List.range (param.batch * cp.num_heads))
    (fun x hx w => by
      obtain ⟨w1, hw1, hp⟩ := hbody x hx w
      refine ⟨w1, hw1, ?_, ?_⟩
      · intro hxe
        have e1 : x / cp.num_heads = b := by
          rw [hxe, Nat.add_comm, Nat.add_mul_div_right _ _ (by omega), Nat.div_eq_of_lt hh,
            Nat.zero_add]
        have e2 : x % cp.num_heads = h := by
          rw [hxe, Nat.add_comm, Nat.add_mul_mod_self_right, Nat.mod_eq_of_lt hh]
        beta_reduce
        rw [hp, e1, e2, hqsl]
        have hA : ((b * cp.num_heads + h) * cp.head_size + d) * 2 =
            (b * (cp.head_size * cp.num_heads * 1) + h * cp.head_size) * 2 +
              0 * (cp.num_heads * cp.head_size * 2) + d * 2 := by ring
        rw [hA, store2d_get _ _ _ _ _ _ _ _ _ (by omega) _ (by omega) hd]
        have : cp.head_size ≤ cp.num_heads * cp.head_size :=
          Nat.le_mul_of_pos_left _ (by omega)
        omega
      · intro hxe
        beta_reduce
        rw [hp, hqsl]
        apply store2d_not_written
        intro m hm c hc2 heq
        apply hxe
        have hm0 : m = 0 := by omega
        subst hm0
        have hnh : 0 < cp.num_heads := by omega
        have hB : (x / cp.num_heads * (cp.head_size * cp.num_heads * 1) +
              x % cp.num_heads * cp.head_size) * 2 +
            0 * (cp.num_heads * cp.head_size * 2) + c * 2 =
            ((x / cp.num_heads * cp.num_heads + x % cp.num_heads) * cp.head_size + c) * 2 := by
          ring
        rw [hB] at heq
        have heq2 := Nat.eq_of_mul_eq_mul_right (by omega : 0 < 2) heq
        obtain ⟨e1, _⟩ := radix_inj _ _ _ _ _ hd hc2 heq2
        rw [e1, Nat.mul_comm]
        exact (Nat.div_add_mod x cp.num_heads).symm)
    ⟨st.bufferMatMul0Out, st.bufferMatMul1Out, param.attn_output.m_ptr⟩
  rw [hwf] at hwf2
  cases hwf2
  apply htar
  refine ⟨b * cp.num_heads + h, List.mem_range.mpr ?_, rfl⟩
  have : (b + 1) * cp.num_heads ≤ param.batch * cp.num_heads := Nat.mul_le_mul_right _ hb
  rw [Nat.add_mul, Nat.one_mul] at this
  omega

end pipelines_exact

end mha_gpt

/-! ### Scratch layout, row loops and worker indices of the attention engine -/

namespace mha_gpt

section layout

open mha_gpt_impl_amx

variable {F : Type}

theorem rndup32_div (x : Nat) : rndup x 32 / 32 = (x + 31) / 32 := by
  unfold rndup
  omega

theorem rndup_ge_any (x n : Nat) (hn : 0 < n) : x ≤ rndup x n := by
  unfold rndup
  have h := Nat.div_add_mod (x + n - 1) n
  have h2 := Nat.mod_lt (x + n - 1) hn
  rw [Nat.mul_comm] at h
  omega

theorem parallel_it_init_lt (batch nh sca i : Nat) (hi : i < batch * nh * sca) :
    (parallel_it_init i batch nh sca).1 < batch ∧
    (parallel_it_init i batch nh sca).2.1 < nh ∧
    (parallel_it_init i batch nh sca).2.2 < sca ∧
    ((parallel_it_init i batch nh sca).1 * nh + (parallel_it_init i batch nh sca).2.1) * sca +
      (parallel_it_init i batch nh sca).2.2 = i := by
  obtain ⟨hb, hn, hs⟩ := work_pos batch nh sca (by omega)
  have h1 : i / sca < batch * nh := by
    rw [Nat.div_lt_iff_lt_mul hs]
    exact hi
  have h2 : i / sca / nh < batch := by
    rw [Nat.div_lt_iff_lt_mul hn]
    exact h1
  unfold parallel_it_init
  simp only
  rw [Nat.mod_eq_of_lt h2]
  refine ⟨h2, Nat.mod_lt _ hn, Nat.mod_lt _ hs, ?_⟩
  rw [Nat.div_add_mod', Nat.div_add_mod']

theorem slice_fits (t size rows stride total : Nat) (h : rows * stride ≤ size)
    (ht : t < total) :
    t * size + rows * stride ≤ (t + 1) * size ∧ (t + 1) * size ≤ total * size := by
  constructor
  · rw [Nat.add_mul, one_mul]
    omega
  · exact Nat.mul_le_mul_right _ ht

theorem slices_disjoint (t t2 size : Nat) (h : t2 ≠ t) :
    (t + 1) * size ≤ t2 * size ∨ (t2 + 1) * size ≤ t * size := by
  rcases Nat.lt_or_gt_of_ne h with h1 | h1
  · right
    exact Nat.mul_le_mul_right _ h1
  · left
    exact Nat.mul_le_mul_right _ h1

theorem window_row_bounds (param : exec_param F) (seq m : Nat)
    (hle : param.query_seq_len ≤ param.key_seq_len) (h64 : param.key_seq_len < 2 ^ 64)
    (hm : m < min (seq * 32 + 32) param.query_seq_len - seq * 32) :
    causal_mask_offset_start param + seq * 32 + 1 + m =
      param.key_seq_len - param.query_seq_len + (32 * seq + m) + 1 ∧
    param.key_seq_len - param.query_seq_len + (32 * seq + m) + 1 ≤ param.key_seq_len := by
  rw [cmos_eq param hle h64]
  omega

theorem storeRow_overwrite (m : Mem F) (base elt n : Nat) (f g : Nat → F) :
    storeRow (storeRow m base elt n f) base elt n g = storeRow m base elt n g := by
  funext a
  unfold storeRow
  split <;> rfl

theorem storeRow_twice (m : Mem F) (base elt n : Nat) (f : Nat → F) (g : Nat → F → F)
    (helt : 0 < elt) :
    storeRow (storeRow m base elt n f) base elt n
        (fun j => g j (storeRow m base elt n f (base + j * elt))) =
      storeRow m base elt n (fun j => g j (f j)) := by
  rw [storeRow_congr (storeRow m base elt n f) base elt n _ (fun j => g j (f j))
    (fun j hj => by rw [storeRow_get m base elt n f j helt hj]), storeRow_overwrite]

theorem foldlM_ext {σ ι : Type} (f g : σ → ι → Option σ) (items : List ι)
    (h : ∀ x, x ∈ items → ∀ w, f w x = g w x) :
    ∀ w0, items.foldlM f w0 = items.foldlM g w0 := by
  induction items with
  | nil => intro w0; rfl
  | cons x xs ih =>
    intro w0
    simp only [List.foldlM_cons]
    rw [h x (List.mem_cons_self _ _) w0]
    cases g w0 x with
    | none => rfl
    | some w1 =>
      exact ih (fun y hy w => h y (List.mem_cons_of_mem _ hy) w) w1

theorem foldlM_some {σ ι : Type} (f : σ → ι → Option σ) (items : List ι)
    (h : ∀ x, x ∈ items → ∀ w, ∃ w1, f w x = some w1) :
    ∀ w0, ∃ wf, items.foldlM f w0 = some wf := by
  induction items with
  | nil => intro w0; exact ⟨w0, rfl⟩
  | cons x xs ih =>
    intro w0
    obtain ⟨w1, h1⟩ := h x (List.mem_cons_self _ _) w0
    simp only [List.foldlM_cons, h1]
    exact ih (fun y hy => h y (List.mem_cons_of_mem _ hy)) w1

theorem blocked_loop_ext {σ : Type} (env : parallel_env) (batch nh qsl : Nat)
    (body body2 : Nat → Nat → Nat → Nat → σ → Option σ)
    (h : ∀ t, t < env.getTotalThreads → body t = body2 t) (w0 : σ) :
    blocked_loop env batch nh qsl body w0 = blocked_loop env batch nh qsl body2 w0 := by
  unfold blocked_loop parallel_for
  simp only
  apply foldlM_ext
  intro t ht w
  rw [h t (List.mem_range.mp ht)]

theorem blocked_loop_congr {σ : Type} (env : parallel_env) (batch nh qsl : Nat)
    (body body2 : Nat → Nat → Nat → Nat → σ → Option σ)
    (h : ∀ t i0 i1 seq, i0 < batch → i1 < nh → seq < rndup qsl 32 / 32 →
      body t i0 i1 seq = body2 t i0 i1 seq) (w0 : σ) :
    blocked_loop env batch nh qsl body w0 = blocked_loop env batch nh qsl body2 w0 := by
  unfold blocked_loop parallel_for
  simp only
  apply foldlM_ext
  intro t _ w
  split
  · rfl
  · rename_i hs
    have hpos := work_pos batch nh (rndup qsl 32 / 32) (by omega)
    apply foldlM_ext
    intro iwork _ w2
    unfold parallel_it_init
    simp only
    rw [h t _ _ _ (Nat.mod_lt _ hpos.1) (Nat.mod_lt _ hpos.2.1) (Nat.mod_lt _ hpos.2.2)]

theorem blocked_loop_some {σ : Type} (env : parallel_env) (batch nh qsl : Nat)
    (body : Nat → Nat → Nat → Nat → σ → Option σ)
    (h : ∀ t, t < env.getTotalThreads → ∀ i0 i1 seq w, ∃ w1, body t i0 i1 seq w = some w1)
    (w0 : σ) : ∃ wf, blocked_loop env batch nh qsl body w0 = some wf := by
  unfold blocked_loop parallel_for
  simp only
  apply foldlM_some
  intro t ht w
  split
  · exact ⟨w, rfl⟩
  · apply foldlM_some
    intro iwork _ w2
    exact h t (List.mem_range.mp ht) _ _ _ w2

end layout

section row_loops

open mha_gpt_impl_amx

variable {F : Type} [Field F]

theorem create_sizes (self0 : mha_gpt_impl_amx F) (cp : create_param F) (n : Nat)
    (fresh : Nat → F) (hc : (self0.create cp n fresh).1 = true) :
    (self0.create cp n fresh).2._create_param = cp ∧
    (self0.create cp n fresh).2.bufferMatMul0OutSize =
      cp.max_seq_len * rndup (cp.max_seq_len * 4) 64 ∧
    (self0.create cp n fresh).2.bufferMatMul1OutSize =
      cp.max_seq_len * (self0.create cp n fresh).2.head_size_aligned * 4 ∧
    (self0.create cp n fresh).2.head_size_aligned =
      rndup cp.head_size (if cp.qkv_precision = dnnl_s8 then 64 else 32) := by
  revert hc
  unfold mha_gpt_impl_amx.create
  by_cases h2 : cp.dst_precision ≠ dnnl_bf16 ∧ cp.dst_precision ≠ dnnl_s8
  · simp [h2]
  · by_cases h3 : cp.qkv_precision = dnnl_s8
    · simp [h2, h3]
    · by_cases h4 : cp.qkv_precision = dnnl_bf16
      · simp [h2, h4]
      · simp [h2, h3, h4]

theorem rows_gen_full_len (expf cvt : F → F) (w prec ksl base : Nat) (g : Nat → Nat → F → F)
    (n : Nat) (buf : Mem F) :
    rows_gen expf cvt w prec ksl base (fun _ => ksl) g n buf =
      rows_gen expf cvt w w ksl base (fun _ => ksl) g n buf := by
  unfold rows_gen
  congr 1
  funext b m
  unfold row_gen
  simp only [Nat.sub_self, Nat.zero_mul, memset0_zero_len]

theorem mha_i8_mask_rows_eq (nm : numerics F) (self : mha_gpt_impl_amx F)
    (param : exec_param F) (i0 i1 seq_start seq_cout base : Nat) (buf : Mem F) :
    mha_i8_mask_rows nm self param i0 i1 seq_start seq_cout base buf =
      rows_gen nm.expf (fun p => nm.round_u8 (p * param.qk_quant)) 1
        (get_precision_size self._create_param.qkv_precision)
        param.key_seq_len base (fun _ => param.key_seq_len)
        (fun m j x => mask_logit self param
          (self._create_param.normal_factor * param.q_dequant * param.k_dequant) i0 i1
          (seq_start + m) j
          (x * (self._create_param.normal_factor * param.q_dequant * param.k_dequant) +
            param.attention_mask.data_f32 (i0 * param.query_seq_len * param.key_seq_len +
              (seq_start + m) * param.key_seq_len + j)))
        seq_cout buf := by
  unfold mha_i8_mask_rows rows_gen
  simp only
  congr 1
  funext b m
  unfold row_gen mul_add_f32_avx512 mul_add2_f32_avx512
  simp only [Nat.sub_self, Nat.zero_mul, memset0_zero_len]
  cases hb : self._create_param.is_bloom
  · simp only [Bool.not_false, if_true]
    rw [storeRow_twice b _ 4 param.key_seq_len _
      (fun i x => x * (self._create_param.normal_factor * param.q_dequant * param.k_dequant) +
        param.attention_mask.m_ptr (i0 * param.key_seq_len * param.query_seq_len * 4 +
          (m + seq_start) * param.key_seq_len * 4 + i * 4)) (by decide)]
    unfold mask_logit tensor.data_f32
    simp only [hb, Bool.not_false, if_true, Nat.add_mul, Nat.mul_assoc,
      Nat.add_comm m seq_start, Nat.mul_comm param.key_seq_len, Nat.add_assoc]
  · simp only [Bool.not_true, Bool.false_eq_true, if_false]
    rw [storeRow_twice b _ 4 param.key_seq_len _
      (fun i x => x * (self._create_param.normal_factor * param.q_dequant * param.k_dequant) +
        param.alibi.m_ptr ((i0 * self._create_param.num_heads * param.key_seq_len +
          i1 * param.key_seq_len) * 4 + i * 4) +
        param.attention_mask.m_ptr (i0 * param.key_seq_len * param.query_seq_len * 4 +
          (m + seq_start) * param.key_seq_len * 4 + i * 4)) (by decide)]
    unfold mask_logit tensor.data_f32
    simp only [hb, Bool.not_true, Bool.false_eq_true, if_false, Nat.add_mul, Nat.mul_assoc,
      Nat.add_comm m seq_start, Nat.mul_comm param.key_seq_len, Nat.add_assoc]

theorem mha_bf16_window_counter (nm : numerics F) (self : mha_gpt_impl_amx F)
    (param : exec_param F) (i0 i1 base v0 n : Nat) (buf : Mem F)
    (hv0 : v0 ≤ param.key_seq_len) (hn : v0 + n ≤ param.key_seq_len + 1) :
    ((List.range n).foldl (mha_bf16_window_row nm self param i0 i1 base) (buf, v0)).2 =
      min (v0 + n) param.key_seq_len := by
  rw [window_rows_fold nm.expf id 2 (get_precision_size self._create_param.qkv_precision)
    param.key_seq_len base (window_logit self param self._create_param.normal_factor i0 i1)
    (mha_bf16_window_row nm self param i0 i1 base) _ _ n buf hv0 hn]
  intro b valid m
  unfold mha_bf16_window_row mul_add_f32_avx512 mul_add2_f32_avx512 window_logit
    tensor.data_f32
  cases hb : self._create_param.is_bloom <;>
    simp only [Bool.not_false, Bool.not_true, if_true, if_false, Nat.add_mul, Nat.mul_assoc,
      Bool.false_eq_true]

theorem mha_i8_window_counter (nm : numerics F) (self : mha_gpt_impl_amx F)
    (param : exec_param F) (i0 i1 base v0 n : Nat) (buf : Mem F)
    (hv0 : v0 ≤ param.key_seq_len) (hn : v0 + n ≤ param.key_seq_len + 1) :
    ((List.range n).foldl (mha_i8_window_row nm self param i0 i1 base) (buf, v0)).2 =
      min (v0 + n) param.key_seq_len := by
  rw [window_rows_fold nm.expf (fun p => nm.round_u8 (p * param.qk_quant)) 1
    (get_precision_size self._create_param.qkv_precision)
    param.key_seq_len base (window_logit self param
      (self._create_param.normal_factor * param.q_dequant * param.k_dequant) i0 i1)
    (mha_i8_window_row nm self param i0 i1 base) _ _ n buf hv0 hn]
  intro b valid m
  unfold mha_i8_window_row mul_add_f32_avx512 mul_add2_f32_avx512 window_logit
    tensor.data_f32
  cases hb : self._create_param.is_bloom <;>
    simp only [Bool.not_false, Bool.not_true, if_true, if_false, Nat.add_mul, Nat.mul_assoc,
      Bool.false_eq_true]

theorem mha_bf16_block_body_some (nm : numerics F) (self0 : mha_gpt_impl_amx F)
    (cp : create_param F) (n : Nat) (fresh : Nat → F) (param : exec_param F)
    (hc : (self0.create cp n fresh).1 = true) (hq : cp.qkv_precision = dnnl_bf16)
    (t : Nat) (ht : t < n) (i0 i1 seq : Nat) (w : bufs F) :
    ∃ w1, mha_bf16_block_body nm (self0.create cp n fresh).2 param t i0 i1 seq w = some w1 := by
  obtain ⟨-, -, -, hg1, hg2⟩ := create_bf16_state self0 cp n fresh hc hq
  unfold mha_bf16_block_body
  rw [hg1, hg2, List.getElem?_replicate, if_pos ht, List.getElem?_replicate, if_pos ht]
  exact ⟨_, rfl⟩

theorem mha_i8_block_body_some (nm : numerics F) (self0 : mha_gpt_impl_amx F)
    (cp : create_param F) (n : Nat) (fresh : Nat → F) (param : exec_param F) (qbuf : Nat → F)
    (hc : (self0.create cp n fresh).1 = true) (hq : cp.qkv_precision = dnnl_s8)
    (t : Nat) (ht : t < n) (i0 i1 seq : Nat) (w : bufs F) :
    ∃ w1, mha_i8_block_body nm (self0.create cp n fresh).2 param qbuf t i0 i1 seq w =
      some w1 := by
  obtain ⟨-, -, -, hg1, hg2, -⟩ := create_s8_state self0 cp n fresh hc hq
  unfold mha_i8_block_body
  rw [hg1, hg2, List.getElem?_replicate, if_pos ht, List.getElem?_replicate, if_pos ht]
  exact ⟨_, rfl⟩

end row_loops

end mha_gpt

/-! ### The work loop of the blocked strategy -/

namespace mha_gpt

section work_items

open mha_gpt_impl_amx

theorem chunk_mono (s : Nat → Nat) (T : Nat) (hmono : ∀ t, t < T → s t ≤ s (t + 1)) :
    ∀ k, k ≤ T → ∀ j, j ≤ k → s j ≤ s k := by
  intro k
  induction k with
  | zero =>
    intro _ j hj
    have : j = 0 := by omega
    rw [this]
  | succ k ih =>
    intro hk j hj
    rcases Nat.eq_or_lt_of_le hj with h | h
    · rw [h]
    · exact le_trans (ih (by omega) j (by omega)) (hmono k (by omega))

theorem chunk_owner (s : Nat → Nat) (T : Nat) (hs0 : s 0 = 0)
    (hmono : ∀ t, t < T → s t ≤ s (t + 1)) :
    ∃ own : Nat → Nat,
      (∀ i, i < s T → own i < T ∧ s (own i) ≤ i ∧ i < s (own i + 1)) ∧
      (∀ t, t < T → ∀ i, s t ≤ i → i < s (t + 1) → own i = t) := by
  refine ⟨fun i => Nat.findGreatest (fun t => s t ≤ i) T, ?_, ?_⟩
  · intro i hi
    show Nat.findGreatest (fun t => s t ≤ i) T < T ∧
      s (Nat.findGreatest (fun t => s t ≤ i) T) ≤ i ∧
      i < s (Nat.findGreatest (fun t => s t ≤ i) T + 1)
    have h0 : (fun t => s t ≤ i) 0 := by
      show s 0 ≤ i
      omega
    have hs : s (Nat.findGreatest (fun t => s t ≤ i) T) ≤ i :=
      @Nat.findGreatest_spec 0 (fun t => s t ≤ i) _ T (Nat.zero_le T) h0
    have hle : Nat.findGreatest (fun t => s t ≤ i) T ≤ T := Nat.findGreatest_le T
    have hgr : ∀ k, Nat.findGreatest (fun t => s t ≤ i) T < k → k ≤ T → ¬ s k ≤ i :=
      fun k hk1 hk2 => @Nat.findGreatest_is_greatest k (fun t => s t ≤ i) _ T hk1 hk2
    generalize Nat.findGreatest (fun t => s t ≤ i) T = m at hs hle hgr ⊢
    have hlt : m < T := by
      rcases Nat.eq_or_lt_of_le hle with h | h
      · rw [h] at hs
        omega
      · exact h
    have := hgr (m + 1) (by omega) (by omega)
    exact ⟨hlt, hs, by omega⟩
  · intro t ht i h1 h2
    show Nat.findGreatest (fun t => s t ≤ i) T = t
    rw [Nat.findGreatest_eq_iff]
    refine ⟨by omega, fun _ => h1, ?_⟩
    intro n hn hnT hcon
    have := chunk_mono s T hmono n hnT (t + 1) hn
    omega

theorem foldlM_chunks_owner {σ : Type} (g : Nat → σ → Nat → Option σ) (s : Nat → Nat)
    (own : Nat → Nat) (W T : Nat)
    (hs0 : s 0 = 0) (hmono : ∀ t, t < T → s t ≤ s (t + 1)) (hsT : s T = W)
    (hown : ∀ t, t < T → ∀ i, s t ≤ i → i < s (t + 1) → own i = t) :
    ∀ k, k ≤ T → ∀ w0,
      (List.range k).foldlM (fun w t =>
        if s t ≥ W then some w else (List.range' (s t) (s (t + 1) - s t)).foldlM (g t) w) w0 =
        (List.range (s k)).foldlM (fun w i => g (own i) w i) w0 := by
  intro k
  induction k with
  | zero =>
    intro _ w0
    rw [hs0]
    rfl
  | succ k ih =>
    intro hk w0
    have h1 : s k ≤ s (k + 1) := hmono k (by omega)
    have h2 : s (k + 1) ≤ W := by
      rw [← hsT]
      exact chunk_mono s T hmono T (le_refl T) (k + 1) hk
    have hr : List.range (s (k + 1)) =
        List.range (s k) ++ List.range' (s k) (s (k + 1) - s k) := by
      rw [List.range_eq_range', List.range_eq_range']
      have h := List.range'_append 0 (s k) (s (k + 1) - s k) 1
      simp only [Nat.zero_add, Nat.one_mul] at h
      rw [h]
      congr 1
      omega
    rw [List.range_succ, List.foldlM_append, ih (by omega) w0, hr, List.foldlM_append]
    congr 1
    funext w
    simp only [List.foldlM_cons, List.foldlM_nil]
    have hch : (List.range' (s k) (s (k + 1) - s k)).foldlM (g k) w =
        (List.range' (s k) (s (k + 1) - s k)).foldlM (fun w i => g (own i) w i) w := by
      apply foldlM_ext
      intro i hi w2
      rw [List.mem_range'_1] at hi
      rw [hown k (by omega) i hi.1 (by omega)]
    by_cases hge : s k ≥ W
    · have h0 : s (k + 1) - s k = 0 := by omega
      rw [if_pos hge, h0]
      rfl
    · rw [if_neg hge, hch]
      cases (List.range' (s k) (s (k + 1) - s k)).foldlM (fun w i => g (own i) w i) w <;> rfl

theorem blocked_loop_owner {σ : Type} (env : parallel_env) (batch nh qsl : Nat)
    (body : Nat → Nat → Nat → Nat → σ → Option σ) (s : Nat → Nat) (own : Nat → Nat)
    (hs0 : s 0 = 0)
    (hmono : ∀ t, t < env.getTotalThreads → s t ≤ s (t + 1))
    (hsT : s env.getTotalThreads = batch * nh * (rndup qsl 32 / 32))
    (hsplit : ∀ t, t < env.getTotalThreads →
      env.splitter (batch * nh * (rndup qsl 32 / 32)) env.getTotalThreads t =
        (s t, s (t + 1)))
    (hown : ∀ t, t < env.getTotalThreads → ∀ i, s t ≤ i → i < s (t + 1) → own i = t)
    (w0 : σ) :
    blocked_loop env batch nh qsl body w0 =
      (List.range (batch * nh * (rndup qsl 32 / 32))).foldlM (fun w i =>
        body (own i) (parallel_it_init i batch nh (rndup qsl 32 / 32)).1
          (parallel_it_init i batch nh (rndup qsl 32 / 32)).2.1
          (parallel_it_init i batch nh (rndup qsl 32 / 32)).2.2 w) w0 := by
  rw [← hsT, ← foldlM_chunks_owner
    (fun t w i => body t (parallel_it_init i batch nh (rndup qsl 32 / 32)).1
      (parallel_it_init i batch nh (rndup qsl 32 / 32)).2.1
      (parallel_it_init i batch nh (rndup qsl 32 / 32)).2.2 w)
    s own _ env.getTotalThreads hs0 hmono rfl hown env.getTotalThreads (le_refl _) w0]
  unfold blocked_loop parallel_for
  simp only
  apply foldlM_ext
  intro t ht w
  rw [hsT, hsplit t (List.mem_range.mp ht)]

theorem foldlM_record {ι κ : Type} (f : ι → κ) (items : List ι) :
    ∀ acc : List κ,
      items.foldlM (fun (a : List κ) i => some (a ++ [f i])) acc = some (acc ++ items.map f) := by
  induction items with
  | nil => intro acc; simp
  | cons x xs ih =>
    intro acc
    simp only [List.foldlM_cons, List.map_cons]
    rw [show (some (acc ++ [f x]) >>= fun a => List.foldlM
      (fun (a : List κ) i => some (a ++ [f i])) a xs) =
      List.foldlM (fun (a : List κ) i => some (a ++ [f i])) (acc ++ [f x]) xs from rfl, ih]
    simp

theorem work_items_nodup (batch nh sca : Nat) :
    ((List.range (batch * nh * sca)).map (fun i => parallel_it_init i batch nh sca)).Nodup := by
  apply List.Nodup.map_on _ (List.nodup_range _)
  intro x hx y hy e
  have h1 := (parallel_it_init_lt batch nh sca x (List.mem_range.mp hx)).2.2.2
  have h2 := (parallel_it_init_lt batch nh sca y (List.mem_range.mp hy)).2.2.2
  simp only at e
  rw [e] at h1
  omega

theorem work_items_mem (batch nh sca b h seq : Nat) :
    (b, h, seq) ∈ (List.range (batch * nh * sca)).map
        (fun i => parallel_it_init i batch nh sca) ↔
      b < batch ∧ h < nh ∧ seq < sca := by
  rw [List.mem_map]
  constructor
  · rintro ⟨i, hi, e⟩
    have h1 := parallel_it_init_lt batch nh sca i (List.mem_range.mp hi)
    rw [e] at h1
    exact ⟨h1.1, h1.2.1, h1.2.2.1⟩
  · rintro ⟨hb, hh, hs⟩
    exact ⟨(b * nh + h) * sca + seq, List.mem_range.mpr (work_index_lt _ _ _ b h seq hb hh hs),
      parallel_it_init_of _ _ _ b h seq hb hh hs⟩

end work_items

end mha_gpt

/-! ### Arithmetic with a NaN -/

section nan_arith

theorem flt_zero : (0 : flt) = flt.num 0 := rfl

theorem flt_num_add (a b : ℚ) : flt.num a + flt.num b = flt.num (a + b) := rfl

theorem flt_add_nan (x : flt) : x + flt.nan = flt.nan := by cases x <;> rfl

theorem flt_nan_add (x : flt) : flt.nan + x = flt.nan := by cases x <;> rfl

theorem flt_num_mul (a b : ℚ) : flt.num a * flt.num b = flt.num (a * b) := rfl

theorem flt_mul_nan (x : flt) : x * flt.nan = flt.nan := by cases x <;> rfl

theorem flt_nan_mul (x : flt) : flt.nan * x = flt.nan := by cases x <;> rfl

theorem flt_num_div (a b : ℚ) : flt.num a / flt.num b = flt.num (a / b) := rfl

end nan_arith

/-! ### The claims -/


section create_theorems

open mha_gpt

variable {F : Type} [Field F]

/-- C5. The attention engine's `create` returns false exactly when `qkv_precision` is neither
bf16 nor s8 or `dst_precision` is neither bf16 nor s8, and a call that returns false leaves
the whole engine object (stored configuration, `head_size_aligned`, buffer sizes, scratch
buffers) as it was. -/
theorem mha_create_false_iff (self : mha_gpt_impl_amx F) (param : create_param F)
    (numThreads : Nat) (fresh : Nat → F) :
    ((self.create param numThreads fresh).1 = false ↔
      ((param.qkv_precision ≠ dnnl_bf16 ∧ param.qkv_precision ≠ dnnl_s8) ∨
        (param.dst_precision ≠ dnnl_bf16 ∧ param.dst_precision ≠ dnnl_s8))) ∧
    ((self.create param numThreads fresh).1 = false →
      (self.create param numThreads fresh).2 = self) := by
  unfold mha_gpt_impl_amx.create
  by_cases h1 : param.qkv_precision ≠ dnnl_bf16 ∧ param.qkv_precision ≠ dnnl_s8
  · simp [h1]
  · by_cases h2 : param.dst_precision ≠ dnnl_bf16 ∧ param.dst_precision ≠ dnnl_s8
    · simp [h1, h2]
    · simp [h1, h2]

/-- The rejected configuration `cfg_dst_f32` leaves the engine object `engine0` unchanged. -/
theorem mha_create_false_iff_witness :
    (examples.engine0.create examples.cfg_dst_f32 4 (fun _ => 0)).2 = examples.engine0 :=
  (mha_create_false_iff examples.engine0 examples.cfg_dst_f32 4 (fun _ => 0)).2 rfl

/-- C6. The cache writer's `create` returns false exactly when `qkv_precision` is not bf16,
whatever `dst_precision` is, and a call that returns false leaves every field of the writer
object as it was. -/
theorem emb_create_false_iff (self : emb_gpt_impl_avx512) (param : emb_gpt.create_param) :
    ((self.create param).1 = false ↔ param.qkv_precision ≠ dnnl_bf16) ∧
    ((self.create param).1 = false → (self.create param).2 = self) := by
  unfold emb_gpt_impl_avx512.create
  by_cases h1 : param.qkv_precision ≠ dnnl_bf16
  · simp [h1]
  · simp [h1]

/-- The rejected configuration `emb_cfg_qkv_s8` leaves the writer object `writer0`
unchanged. -/
theorem emb_create_false_iff_witness :
    (examples.writer0.create examples.emb_cfg_qkv_s8).2 = examples.writer0 :=
  (emb_create_false_iff examples.writer0 examples.emb_cfg_qkv_s8).2 rfl

end create_theorems

section exec_theorems

open mha_gpt mha_gpt_impl_amx

variable {F : Type} [Field F]

/-- C7. When one of `q`, `k`, `v` is not of rank 4, or `k` or `v` differs from `q` in extent
0, 1 or 3, or `k` and `v` differ in extent 2, the engine's `exec` ends at one of its two
early returns, runs no pipeline and leaves the engine object (with its scratch buffers) and
the output memory as they were; in every other case `exec` is the precision dispatch. -/
theorem exec_shape_check (nm : numerics F) (env : parallel_env) (self : mha_gpt_impl_amx F)
    (param : exec_param F) :
    ((param.q.m_rank ≠ 4 ∨ param.k.m_rank ≠ 4 ∨ param.v.m_rank ≠ 4 ∨
        param.k.m_dims 0 ≠ param.q.m_dims 0 ∨ param.v.m_dims 0 ≠ param.q.m_dims 0 ∨
        param.k.m_dims 1 ≠ param.q.m_dims 1 ∨ param.v.m_dims 1 ≠ param.q.m_dims 1 ∨
        param.k.m_dims 3 ≠ param.q.m_dims 3 ∨ param.v.m_dims 3 ≠ param.q.m_dims 3 ∨
        param.k.m_dims 2 ≠ param.v.m_dims 2) →
      ((exec nm env self param).1 = exec_path.rank_mismatch ∨
          (exec nm env self param).1 = exec_path.dim_mismatch) ∧
        (exec nm env self param).2 = some (self, param.attn_output.m_ptr)) ∧
    (¬ (param.q.m_rank ≠ 4 ∨ param.k.m_rank ≠ 4 ∨ param.v.m_rank ≠ 4 ∨
        param.k.m_dims 0 ≠ param.q.m_dims 0 ∨ param.v.m_dims 0 ≠ param.q.m_dims 0 ∨
        param.k.m_dims 1 ≠ param.q.m_dims 1 ∨ param.v.m_dims 1 ≠ param.q.m_dims 1 ∨
        param.k.m_dims 3 ≠ param.q.m_dims 3 ∨ param.v.m_dims 3 ≠ param.q.m_dims 3 ∨
        param.k.m_dims 2 ≠ param.v.m_dims 2) →
      exec nm env self param = dispatch nm env self param) := by
  constructor
  · intro h
    unfold exec
    by_cases hr : rank_mismatch param = true
    · simp [hr]
    · have hd : dims_match param = false := by
        simp only [rank_mismatch, Bool.or_eq_true, decide_eq_true_eq, not_or, not_not] at hr
        simp only [dims_match, Bool.and_eq_false_iff, decide_eq_false_iff_not]
        omega
      simp [hr, hd]
  · intro h
    unfold exec
    have hr : rank_mismatch param = false := by
      simp only [rank_mismatch, Bool.or_eq_false_iff, decide_eq_false_iff_not]
      omega
    have hd : dims_match param = true := by
      simp only [dims_match, Bool.and_eq_true, decide_eq_true_eq]
      omega
    simp [hr, hd]

/-- On `param3_bad_rank` the call returns early with nothing written; on `param3` it is the
precision dispatch. -/
theorem exec_shape_check_witness :
    (((exec examples.nm0 examples.env2 examples.engine0 examples.param3_bad_rank).1 =
          exec_path.rank_mismatch ∨
        (exec examples.nm0 examples.env2 examples.engine0 examples.param3_bad_rank).1 =
          exec_path.dim_mismatch) ∧
      (exec examples.nm0 examples.env2 examples.engine0 examples.param3_bad_rank).2 =
        some (examples.engine0, examples.param3_bad_rank.attn_output.m_ptr)) ∧
    exec examples.nm0 examples.env2 examples.engine0 examples.param3 =
      dispatch examples.nm0 examples.env2 examples.engine0 examples.param3 :=
  ⟨(exec_shape_check examples.nm0 examples.env2 examples.engine0 examples.param3_bad_rank).1
      (by decide),
    (exec_shape_check examples.nm0 examples.env2 examples.engine0 examples.param3).2
      (by decide)⟩

/-- C9. After a `create` that returned true, every `exec` that passes the two shape checks
calls `mha_bf16` or `mha_i8`: the dispatch reaches neither of its two `assert(false)`. -/
theorem exec_after_create_dispatches (nm : numerics F) (env : parallel_env)
    (self : mha_gpt_impl_amx F) (cp : create_param F) (numThreads : Nat) (fresh : Nat → F)
    (param : exec_param F) (hc : (self.create cp numThreads fresh).1 = true)
    (hr : rank_mismatch param = false) (hd : dims_match param = true) :
    exec nm env (self.create cp numThreads fresh).2 param =
        (exec_path.run_bf16, mha_bf16 nm env (self.create cp numThreads fresh).2 param) ∨
      exec nm env (self.create cp numThreads fresh).2 param =
        (exec_path.run_i8, mha_i8 nm env (self.create cp numThreads fresh).2 param) := by
  have hcfg : (self.create cp numThreads fresh).2._create_param.qkv_precision = dnnl_bf16 ∨
      (self.create cp numThreads fresh).2._create_param.qkv_precision = dnnl_s8 := by
    revert hc
    unfold mha_gpt_impl_amx.create
    by_cases h1 : cp.qkv_precision ≠ dnnl_bf16 ∧ cp.qkv_precision ≠ dnnl_s8
    · simp [h1]
    · by_cases h2 : cp.dst_precision ≠ dnnl_bf16 ∧ cp.dst_precision ≠ dnnl_s8
      · simp [h1, h2]
      · intro _
        have h3 : cp.qkv_precision = dnnl_bf16 ∨ cp.qkv_precision = dnnl_s8 := by
          by_contra hne
          exact h1 ⟨fun h => hne (Or.inl h), fun h => hne (Or.inr h)⟩
        rw [if_neg h1, if_neg h2]
        by_cases h4 : cp.qkv_precision = dnnl_s8
        · right; simp [h4]
        · left
          simp only [if_neg h4]
          exact h3.resolve_right h4
  unfold exec dispatch
  rcases hcfg with h | h
  · left; simp [hr, hd, h]
  · right; simp [hr, hd, h]

/-- After `create` with `cfg_bf16`, the call on `param3` runs one of the two pipelines. -/
theorem exec_after_create_dispatches_witness :
    exec examples.nm0 examples.env2
        (examples.engine0.create examples.cfg_bf16 2 (fun _ => 0)).2 examples.param3 =
        (exec_path.run_bf16, mha_bf16 examples.nm0 examples.env2
          (examples.engine0.create examples.cfg_bf16 2 (fun _ => 0)).2 examples.param3) ∨
      exec examples.nm0 examples.env2
        (examples.engine0.create examples.cfg_bf16 2 (fun _ => 0)).2 examples.param3 =
        (exec_path.run_i8, mha_i8 examples.nm0 examples.env2
          (examples.engine0.create examples.cfg_bf16 2 (fun _ => 0)).2 examples.param3) :=
  exec_after_create_dispatches examples.nm0 examples.env2 examples.engine0 examples.cfg_bf16 2
    (fun _ => 0) examples.param3 rfl rfl rfl

end exec_theorems

section writer_theorems

open emb_gpt emb_gpt_impl_avx512

/-- A byte that `memcpy` changes lies in the destination range. -/
theorem memcpy_changed (m : heap) (dst src : ptr) (n b o : Nat)
    (h : memcpy m dst src n b o ≠ m b o) : b = dst.buf ∧ dst.off ≤ o ∧ o < dst.off + n := by
  unfold memcpy at h
  by_contra hc
  exact h (if_neg hc)

/-- A byte changed by a fold of heap updates was changed by one of the updates. -/
theorem foldl_changed {α : Type} (T : Nat → Nat → Prop) (f : heap → α → heap) (l : List α)
    (hf : ∀ x, x ∈ l → ∀ m b o, f m x b o ≠ m b o → T b o) :
    ∀ m b o, l.foldl f m b o ≠ m b o → T b o := by
  induction l with
  | nil => intro m b o h; exact absurd rfl h
  | cons x xs ih =>
    intro m b o h
    rw [List.foldl_cons] at h
    by_cases h1 : xs.foldl f (f m x) b o = f m x b o
    · rw [h1] at h
      exact hf x (List.mem_cons_self x xs) m b o h
    · exact ih (fun y hy => hf y (List.mem_cons_of_mem x hy)) (f m x) b o h1

/-- A byte changed by `parallel_for3d` was changed by the body at an index triple of the
iteration space. -/
theorem parallel_for3d_changed (T : Nat → Nat → Prop) (D0 D1 D2 : Nat)
    (body : Nat → Nat → Nat → heap → heap)
    (hbody : ∀ b, b < D0 → ∀ h, h < D1 → ∀ s, s < D2 →
      ∀ m x o, body b h s m x o ≠ m x o → T x o) :
    ∀ m x o, parallel_for3d D0 D1 D2 body m x o ≠ m x o → T x o := by
  unfold parallel_for3d
  apply foldl_changed
  intro b hb
  apply foldl_changed
  intro h hh
  apply foldl_changed
  intro s hs
  exact hbody b (List.mem_range.mp hb) h (List.mem_range.mp hh) s (List.mem_range.mp hs)

/-- Every byte that `memcpyPastKV` changes is a byte of the slot of a cached position
`s < past_seq_len` of some head in a destination key or value cache. -/
theorem memcpyPastKV_changed (self : emb_gpt_impl_avx512)
    (pastk_src pastv_src pastk_dst pastv_dst : Nat → ptr)
    (batch past_seq_len head_stride_in_kv : Nat) (m : heap) (x o : Nat)
    (h : memcpyPastKV self pastk_src pastv_src pastk_dst pastv_dst batch past_seq_len
      head_stride_in_kv m x o ≠ m x o) :
    ∃ b, b < batch ∧ ∃ hd, hd < self._head_num ∧ ∃ s, s < past_seq_len ∧
      ∃ j, j < self._output_type_size * self._size_per_head ∧
        ((x = (pastk_dst b).buf ∧
            o = (pastk_dst b).off + s * self._size_per_head_aligned * self._output_type_size +
              hd * head_stride_in_kv * self._output_type_size + j) ∨
          (x = (pastv_dst b).buf ∧
            o = (pastv_dst b).off + s * self._size_per_head_aligned * self._output_type_size +
              hd * head_stride_in_kv * self._output_type_size + j)) := by
  revert h
  unfold memcpyPastKV
  apply parallel_for3d_changed
  intro b hb hd hhd s hs m x o hne
  refine ⟨b, hb, hd, hhd, s, hs, ?_⟩
  simp only [ptr.add] at hne
  by_cases h1 : memcpy m ⟨(pastk_dst b).buf,
      (pastk_dst b).off + s * self._size_per_head_aligned * self._output_type_size +
        hd * head_stride_in_kv * self._output_type_size⟩
      ⟨(pastk_src b).buf,
        (pastk_src b).off + s * self._size_per_head_aligned * self._output_type_size +
          hd * past_seq_len * self._size_per_head_aligned * self._output_type_size⟩
      (self._output_type_size * self._size_per_head) x o = m x o
  · rw [← h1] at hne
    obtain ⟨e1, e2, e3⟩ := memcpy_changed _ _ _ _ _ _ hne
    simp only at e1 e2 e3
    exact ⟨o - ((pastv_dst b).off + s * self._size_per_head_aligned * self._output_type_size +
        hd * head_stride_in_kv * self._output_type_size), by omega, Or.inr ⟨e1, by omega⟩⟩
  · obtain ⟨e1, e2, e3⟩ := memcpy_changed _ _ _ _ _ _ h1
    simp only at e1 e2 e3
    exact ⟨o - ((pastk_dst b).off + s * self._size_per_head_aligned * self._output_type_size +
        hd * head_stride_in_kv * self._output_type_size), by omega, Or.inl ⟨e1, by omega⟩⟩

/-- C10. The cache writer's `create` accepts `qkv_precision = bf16` with
`dst_precision = s8`, and every `exec` of the object it leaves ends at `assert(false)`; the
only bytes such a call changes are those of the carry-forward copy, each of them byte
`j < head_size` of the slot of a cached position `s < past_seq_len` in a destination key or
value cache: no write is made through the query destination pointer and none at the slots of
the new positions. -/
theorem emb_exec_s8_asserts (self : emb_gpt_impl_avx512) (cp : emb_gpt.create_param)
    (hq : cp.qkv_precision = dnnl_bf16) (hd : cp.dst_precision = dnnl_s8) :
    (self.create cp).1 = true ∧
    ∀ (C : Type) (rot : Nat → (Nat → C) → (Nat → C) → (Nat → bf16) → Nat → bf16)
      (param : exec_param C) (m : heap),
      (exec (self.create cp).2 rot param m).1 = exec_path.assert_false ∧
      (exec (self.create cp).2 rot param m).2 = exec_copy (self.create cp).2 param m ∧
      ∀ x o, (exec (self.create cp).2 rot param m).2 x o ≠ m x o →
        copies_past param = true ∧
        ∃ b, b < param.batch ∧ ∃ h, h < cp.num_heads ∧ ∃ s, s < param.past_seq_len ∧
          ∃ j, j < cp.head_size ∧
            ((x = (param.layer_past_key_dst b).buf ∧
                o = (param.layer_past_key_dst b).off + s * cp.head_size_aligned +
                  h * param.head_stride_in_kv + j) ∨
              (x = (param.layer_past_value_dst b).buf ∧
                o = (param.layer_past_value_dst b).off + s * cp.head_size_aligned +
                  h * param.head_stride_in_kv + j)) := by
  have hcr : self.create cp = (true,
      { _create_param := cp
        _head_num := cp.num_heads
        _size_per_head := cp.head_size
        _size_per_head_aligned := cp.head_size_aligned
        _hidden_size := cp.head_size * cp.num_heads
        _rotary_dim := cp.rotary_dims
        _input_type_size := 2
        _output_type_size := 1
        _use_position2d := cp.use_position2d }) := by
    unfold emb_gpt_impl_avx512.create
    simp [hq, hd]
  rw [hcr]
  refine ⟨rfl, ?_⟩
  intro C rot param m
  have hex : ∀ st : emb_gpt_impl_avx512, st._create_param.dst_precision = dnnl_s8 →
      exec st rot param m = (exec_path.assert_false, exec_copy st param m) := by
    intro st hst
    unfold exec
    simp [hst]
  rw [hex _ hd]
  refine ⟨rfl, rfl, ?_⟩
  intro x o hne
  simp only at hne
  unfold exec_copy at hne
  cases hsrc : param.layer_past_key_src with
  | none =>
    rw [hsrc] at hne
    exact absurd rfl hne
  | some key_src =>
    rw [hsrc] at hne
    simp only at hne
    by_cases hcp : copies_past param = true
    · rw [if_pos hcp] at hne
      refine ⟨hcp, ?_⟩
      obtain ⟨b, hb, h, hh, s, hs, j, hj, hcase⟩ := memcpyPastKV_changed _ _ _ _ _ _ _ _ _ _ _ hne
      simp only [Nat.mul_one, Nat.one_mul] at hj hcase
      exact ⟨b, hb, h, hh, s, hs, j, hj, hcase⟩
    · rw [if_neg hcp] at hne
      exact absurd rfl hne

/-- With the configuration `emb_cfg_s8`, `create` succeeds and the call on `emb_param` ends
at `assert(false)`. -/
theorem emb_exec_s8_asserts_witness :
    (examples.writer0.create examples.emb_cfg_s8).1 = true ∧
    (exec (examples.writer0.create examples.emb_cfg_s8).2 (fun _ _ _ src i => src i)
      examples.emb_param (fun _ _ => 0)).1 = exec_path.assert_false :=
  ⟨(emb_exec_s8_asserts examples.writer0 examples.emb_cfg_s8 rfl rfl).1,
    ((emb_exec_s8_asserts examples.writer0 examples.emb_cfg_s8 rfl rfl).2 ℚ
      (fun _ _ _ src i => src i) examples.emb_param (fun _ _ => 0)).1⟩

/-- A byte of the destination range of `memcpy` holds the source byte. -/
theorem memcpy_in (m : heap) (dst src : ptr) (n o : Nat) (h1 : dst.off ≤ o)
    (h2 : o < dst.off + n) :
    memcpy m dst src n dst.buf o = m src.buf (src.off + (o - dst.off)) := by
  unfold memcpy
  rw [if_pos ⟨rfl, h1, h2⟩]

/-- A byte outside the destination range of `memcpy` is kept. -/
theorem memcpy_out (m : heap) (dst src : ptr) (n x o : Nat)
    (h : x ≠ dst.buf ∨ o < dst.off ∨ dst.off + n ≤ o) : memcpy m dst src n x o = m x o := by
  unfold memcpy
  rw [if_neg]
  rintro ⟨e1, e2, e3⟩
  rcases h with h | h | h
  · exact h e1
  · omega
  · omega

/-- A byte of the destination range of `store_bf16` holds a byte of the stored element. -/
theorem store_bf16_in (m : heap) (dst : ptr) (n : Nat) (vals : Nat → bf16) (o : Nat)
    (h1 : dst.off ≤ o) (h2 : o < dst.off + 2 * n) :
    store_bf16 m dst n vals dst.buf o =
      if (o - dst.off) % 2 = 0 then (vals ((o - dst.off) / 2)).1
      else (vals ((o - dst.off) / 2)).2 := by
  unfold store_bf16
  rw [if_pos ⟨rfl, h1, h2⟩]

/-- A byte outside the destination range of `store_bf16` is kept. -/
theorem store_bf16_out (m : heap) (dst : ptr) (n : Nat) (vals : Nat → bf16) (x o : Nat)
    (h : x ≠ dst.buf ∨ o < dst.off ∨ dst.off + 2 * n ≤ o) :
    store_bf16 m dst n vals x o = m x o := by
  unfold store_bf16
  rw [if_neg]
  rintro ⟨e1, e2, e3⟩
  rcases h with h | h | h
  · exact h e1
  · omega
  · omega

/-- A byte that `store_bf16` changes lies in the destination range. -/
theorem store_bf16_changed (m : heap) (dst : ptr) (n : Nat) (vals : Nat → bf16) (b o : Nat)
    (h : store_bf16 m dst n vals b o ≠ m b o) :
    b = dst.buf ∧ dst.off ≤ o ∧ o < dst.off + 2 * n := by
  by_contra hc
  apply h
  apply store_bf16_out
  by_cases e1 : b = dst.buf
  · by_cases e2 : dst.off ≤ o
    · right; right
      by_contra e3
      exact hc ⟨e1, e2, by omega⟩
    · right; left; omega
  · exact Or.inl e1

/-- A byte that `rotary_avx512` changes lies in one of its two destination ranges. -/
theorem rotary_avx512_changed {C : Type}
    (rot : Nat → (Nat → C) → (Nat → C) → (Nat → bf16) → Nat → bf16) (N : Nat)
    (cos sin : Nat → C) (q_src k_src q_dst k_dst : ptr) (m : heap) (x o : Nat)
    (h : rotary_avx512 rot N cos sin q_src k_src q_dst k_dst m x o ≠ m x o) :
    (x = q_dst.buf ∧ q_dst.off ≤ o ∧ o < q_dst.off + 2 * N) ∨
      (x = k_dst.buf ∧ k_dst.off ≤ o ∧ o < k_dst.off + 2 * N) := by
  unfold rotary_avx512 at h
  by_cases h1 : store_bf16 (store_bf16 m q_dst N (rot N cos sin (load_bf16 m q_src))) k_dst N
      (rot N cos sin (load_bf16 m k_src)) x o =
      store_bf16 m q_dst N (rot N cos sin (load_bf16 m q_src)) x o
  · rw [h1] at h
    exact Or.inl (store_bf16_changed _ _ _ _ _ _ h)
  · exact Or.inr (store_bf16_changed _ _ _ _ _ _ h1)

/-- A fold of updates, observed through `val`: an invariant `P` is kept; the observation ends
at `v` when some update covers it, and is kept when none does. -/
theorem foldl_observe {σ ι α : Type} (f : σ → ι → σ) (P : σ → Prop) (val : σ → α) (v : α)
    (covers : ι → Prop) (l : List ι)
    (hP : ∀ x, x ∈ l → ∀ m, P m → P (f m x))
    (hc : ∀ x, x ∈ l → covers x → ∀ m, P m → val (f m x) = v)
    (hn : ∀ x, x ∈ l → ¬ covers x → ∀ m, P m → val (f m x) = val m) :
    ∀ m, P m → P (l.foldl f m) ∧
      ((∃ x, x ∈ l ∧ covers x) → val (l.foldl f m) = v) ∧
      ((∀ x, x ∈ l → ¬ covers x) → val (l.foldl f m) = val m) ∧
      (val m = v → val (l.foldl f m) = v) := by
  induction l with
  | nil =>
    intro m hm
    refine ⟨hm, ?_, fun _ => rfl, fun h => h⟩
    rintro ⟨x, hx, _⟩
    exact absurd hx (List.not_mem_nil x)
  | cons y ys ih =>
    intro m hm
    have hPy := hP y (List.mem_cons_self y ys) m hm
    obtain ⟨i1, i2, i3, i4⟩ := ih (fun x hx => hP x (List.mem_cons_of_mem y hx))
      (fun x hx => hc x (List.mem_cons_of_mem y hx))
      (fun x hx => hn x (List.mem_cons_of_mem y hx)) (f m y) hPy
    rw [List.foldl_cons]
    have keep : val (f m y) = v → val (ys.foldl f (f m y)) = v := i4
    refine ⟨i1, ?_, ?_, ?_⟩
    · rintro ⟨x, hx, hcx⟩
      by_cases hy : covers y
      · exact keep (hc y (List.mem_cons_self y ys) hy m hm)
      · rcases List.mem_cons.mp hx with e | e
        · exact absurd (e ▸ hcx) hy
        · exact i2 ⟨x, e, hcx⟩
    · intro hall
      rw [i3 (fun x hx => hall x (List.mem_cons_of_mem y hx)),
        hn y (List.mem_cons_self y ys) (hall y (List.mem_cons_self y ys)) m hm]
    · intro hv
      by_cases hy : covers y
      · exact keep (hc y (List.mem_cons_self y ys) hy m hm)
      · exact keep ((hn y (List.mem_cons_self y ys) hy m hm).trans hv)

/-- The loop `parallel_for3d`, observed through `val`: when the body keeps an invariant `P`,
sets the observation to `v` at the index triple `(b, h, s)` and keeps it at every other
triple, the observation is `v` after the loop. -/
theorem parallel_for3d_observe {σ α : Type} (D0 D1 D2 : Nat)
    (body : Nat → Nat → Nat → σ → σ) (P : σ → Prop) (val : σ → α) (v : α) (b h s : Nat)
    (hb : b < D0) (hh : h < D1) (hs : s < D2)
    (hP : ∀ b2, b2 < D0 → ∀ h2, h2 < D1 → ∀ s2, s2 < D2 → ∀ m, P m → P (body b2 h2 s2 m))
    (hc : ∀ m, P m → val (body b h s m) = v)
    (hn : ∀ b2, b2 < D0 → ∀ h2, h2 < D1 → ∀ s2, s2 < D2 → ¬ (b2 = b ∧ h2 = h ∧ s2 = s) →
      ∀ m, P m → val (body b2 h2 s2 m) = val m) :
    ∀ m, P m → P (parallel_for3d D0 D1 D2 body m) ∧
      val (parallel_for3d D0 D1 D2 body m) = v := by
  have inner : ∀ b2, b2 < D0 → ∀ h2, h2 < D1 → ∀ m, P m →
      P ((List.range D2).foldl (fun m2 s2 => body b2 h2 s2 m2) m) ∧
      ((∃ x, x ∈ List.range D2 ∧ (b2 = b ∧ h2 = h ∧ x = s)) →
        val ((List.range D2).foldl (fun m2 s2 => body b2 h2 s2 m2) m) = v) ∧
      ((∀ x, x ∈ List.range D2 → ¬ (b2 = b ∧ h2 = h ∧ x = s)) →
        val ((List.range D2).foldl (fun m2 s2 => body b2 h2 s2 m2) m) = val m) ∧
      (val m = v → val ((List.range D2).foldl (fun m2 s2 => body b2 h2 s2 m2) m) = v) := by
    intro b2 hb2 h2 hh2
    apply foldl_observe (fun m2 s2 => body b2 h2 s2 m2) P val v
      (fun x => b2 = b ∧ h2 = h ∧ x = s)
    · intro x hx m hm
      exact hP b2 hb2 h2 hh2 x (List.mem_range.mp hx) m hm
    · rintro x _ ⟨e1, e2, e3⟩ m hm
      subst e1 e2 e3
      exact hc m hm
    · intro x hx hne m hm
      exact hn b2 hb2 h2 hh2 x (List.mem_range.mp hx) hne m hm
  have middle : ∀ b2, b2 < D0 → ∀ m, P m →
      P ((List.range D1).foldl
        (fun m1 h2 => (List.range D2).foldl (fun m2 s2 => body b2 h2 s2 m2) m1) m) ∧
      ((∃ x, x ∈ List.range D1 ∧ (b2 = b ∧ x = h)) →
        val ((List.range D1).foldl
          (fun m1 h2 => (List.range D2).foldl (fun m2 s2 => body b2 h2 s2 m2) m1) m) = v) ∧
      ((∀ x, x ∈ List.range D1 → ¬ (b2 = b ∧ x = h)) →
        val ((List.range D1).foldl
          (fun m1 h2 => (List.range D2).foldl (fun m2 s2 => body b2 h2 s2 m2) m1) m) =
            val m) ∧
      (val m = v → val ((List.range D1).foldl
          (fun m1 h2 => (List.range D2).foldl (fun m2 s2 => body b2 h2 s2 m2) m1) m) = v) := by
    intro b2 hb2
    apply foldl_observe
      (fun m1 h2 => (List.range D2).foldl (fun m2 s2 => body b2 h2 s2 m2) m1) P val v
      (fun x => b2 = b ∧ x = h)
    · intro x hx m hm
      exact (inner b2 hb2 x (List.mem_range.mp hx) m hm).1
    · rintro x hx ⟨e1, e2⟩ m hm
      exact (inner b2 hb2 x (List.mem_range.mp hx) m hm).2.1
        ⟨s, List.mem_range.mpr hs, e1, e2, rfl⟩
    · intro x hx hne m hm
      exact (inner b2 hb2 x (List.mem_range.mp hx) m hm).2.2.1
        (fun y _ hy => hne ⟨hy.1, hy.2.1⟩)
  intro m hm
  unfold parallel_for3d
  obtain ⟨o1, o2, _, _⟩ := foldl_observe
    (fun m0 b2 => (List.range D1).foldl
      (fun m1 h2 => (List.range D2).foldl (fun m2 s2 => body b2 h2 s2 m2) m1) m0) P val v
    (fun x => x = b) (List.range D0)
    (fun x hx m hm => (middle x (List.mem_range.mp hx) m hm).1)
    (fun x hx e m hm => (middle x (List.mem_range.mp hx) m hm).2.1
      ⟨h, List.mem_range.mpr hh, e, rfl⟩)
    (fun x hx hne m hm => (middle x (List.mem_range.mp hx) m hm).2.2.1
      (fun y _ hy => hne hy.1)) m hm
  exact ⟨o1, o2 ⟨b, List.mem_range.mpr hb, rfl⟩⟩

/-- The difference of two `size_t` is the difference of the numbers when it does not
wrap. -/
theorem size_sub_eq (a b : Nat) (h : b ≤ a) (ha : a < 2 ^ 64) : size_sub a b = a - b := by
  unfold size_sub
  have e : a + 2 ^ 64 - b = (a - b) + 2 ^ 64 := by omega
  rw [e, Nat.add_mod_right, Nat.mod_eq_of_lt (by omega)]

/-- The body of the one-track writer with two-byte elements, in terms of the pointers of the
index triple. -/
theorem applyRotaryPosEmbMemcpy_body_eq {C : Type} (st : emb_gpt_impl_avx512)
    (rot : Nat → (Nat → C) → (Nat → C) → (Nat → bf16) → Nat → bf16)
    (q k v : ptr) (ldq ldk ldv : Nat) (qd : ptr) (kd vd : Nat → ptr)
    (n past stride : Nat) (cos sin : Nat → C) (b h s : Nat) (m : heap)
    (hi : st._input_type_size = 2) (ho : st._output_type_size = 2) :
    applyRotaryPosEmbMemcpy_body st rot q k v ldq ldk ldv qd kd vd n stride
      (st._output_type_size * past * st._size_per_head_aligned)
      (fun i => cos (past * st._rotary_dim + i)) (fun i => sin (past * st._rotary_dim + i))
      b h s m =
    rotary_writes rot st._rotary_dim (2 * size_sub st._size_per_head st._rotary_dim)
      (2 * st._size_per_head)
      (table_row cos st._rotary_dim (past + s)) (table_row sin st._rotary_dim (past + s))
      (q.add (2 * (((b * n + s) * st._head_num + h) * ldq)))
      (k.add (2 * (((b * n + s) * st._head_num + h) * ldk)))
      (v.add (2 * (((b * n + s) * st._head_num + h) * ldv)))
      (qd.add (2 * (((b * st._head_num + h) * n + s) * st._size_per_head_aligned)))
      ((kd b).add (2 * (h * stride + (past + s) * st._size_per_head_aligned)))
      ((vd b).add (2 * (h * stride + (past + s) * st._size_per_head_aligned))) m := by
  unfold applyRotaryPosEmbMemcpy_body rotary_writes table_row
  simp only [ptr.add, hi, ho]
  have e1 : q.off + b * st._head_num * ldq * n * 2 + s * st._head_num * ldq * 2 + h * ldq * 2
      = q.off + 2 * (((b * n + s) * st._head_num + h) * ldq) := by ring
  have e2 : k.off + b * st._head_num * ldk * n * 2 + s * st._head_num * ldk * 2 + h * ldk * 2
      = k.off + 2 * (((b * n + s) * st._head_num + h) * ldk) := by ring
  have e3 : v.off + b * st._head_num * ldv * n * 2 + s * st._head_num * ldv * 2 + h * ldv * 2
      = v.off + 2 * (((b * n + s) * st._head_num + h) * ldv) := by ring
  have e4 : qd.off + b * st._head_num * n * st._size_per_head_aligned * 2 +
      s * st._size_per_head_aligned * 2 + h * n * st._size_per_head_aligned * 2
      = qd.off + 2 * (((b * st._head_num + h) * n + s) * st._size_per_head_aligned) := by ring
  have e5 : ∀ p : ptr, p.off + 2 * past * st._size_per_head_aligned +
      s * st._size_per_head_aligned * 2 + h * stride * 2
      = p.off + 2 * (h * stride + (past + s) * st._size_per_head_aligned) := by
    intro p; ring
  have e6 : ∀ (t : Nat → C) (i : Nat), t (past * st._rotary_dim + (s * st._rotary_dim + i)) =
      t ((past + s) * st._rotary_dim + i) := by
    intro t i; congr 1; ring
  have e7 : st._rotary_dim * 2 = 2 * st._rotary_dim := Nat.mul_comm _ _
  have e8 : st._size_per_head * 2 = 2 * st._size_per_head := Nat.mul_comm _ _
  simp only [e1, e2, e3, e4, e5, e6, e7, e8]

/-- The body of the two-track writer with two-byte elements, in terms of the pointers of the
index triple. -/
theorem applyRotaryPosEmbMemcpyWithPosition2d_body_eq {C : Type} (st : emb_gpt_impl_avx512)
    (rot : Nat → (Nat → C) → (Nat → C) → (Nat → bf16) → Nat → bf16)
    (q k v : ptr) (ldq ldk ldv : Nat) (qd : ptr) (kd vd : Nat → ptr)
    (n past stride : Nat) (ids : Nat → Int) (cos sin : Nat → C) (b h s : Nat) (m : heap)
    (hi : st._input_type_size = 2) (ho : st._output_type_size = 2) :
    applyRotaryPosEmbMemcpyWithPosition2d_body st rot q k v ldq ldk ldv qd kd vd n ids stride
      (st._output_type_size * past * st._size_per_head_aligned) cos sin b h s m =
    rotary_writes2d rot st._rotary_dim (2 * st._size_per_head)
      (table_row cos st._rotary_dim (id_to_size_t (ids ((b * 2 + 0) * n + s))))
      (table_row sin st._rotary_dim (id_to_size_t (ids ((b * 2 + 0) * n + s))))
      (table_row cos st._rotary_dim (id_to_size_t (ids ((b * 2 + 1) * n + s))))
      (table_row sin st._rotary_dim (id_to_size_t (ids ((b * 2 + 1) * n + s))))
      (q.add (2 * (((b * n + s) * st._head_num + h) * ldq)))
      (k.add (2 * (((b * n + s) * st._head_num + h) * ldk)))
      (v.add (2 * (((b * n + s) * st._head_num + h) * ldv)))
      (qd.add (2 * (((b * st._head_num + h) * n + s) * st._size_per_head_aligned)))
      ((kd b).add (2 * (h * stride + (past + s) * st._size_per_head_aligned)))
      ((vd b).add (2 * (h * stride + (past + s) * st._size_per_head_aligned))) m := by
  unfold applyRotaryPosEmbMemcpyWithPosition2d_body rotary_writes2d table_row
  simp only [ptr.add, hi, ho]
  have e1 : q.off + b * st._head_num * ldq * n * 2 + s * st._head_num * ldq * 2 + h * ldq * 2
      = q.off + 2 * (((b * n + s) * st._head_num + h) * ldq) := by ring
  have e2 : k.off + b * st._head_num * ldk * n * 2 + s * st._head_num * ldk * 2 + h * ldk * 2
      = k.off + 2 * (((b * n + s) * st._head_num + h) * ldk) := by ring
  have e3 : v.off + b * st._head_num * ldv * n * 2 + s * st._head_num * ldv * 2 + h * ldv * 2
      = v.off + 2 * (((b * n + s) * st._head_num + h) * ldv) := by ring
  have e4 : qd.off + b * st._head_num * n * st._size_per_head_aligned * 2 +
      s * st._size_per_head_aligned * 2 + h * n * st._size_per_head_aligned * 2
      = qd.off + 2 * (((b * st._head_num + h) * n + s) * st._size_per_head_aligned) := by ring
  have e5 : ∀ p : ptr, p.off + 2 * past * st._size_per_head_aligned +
      s * st._size_per_head_aligned * 2 + h * stride * 2
      = p.off + 2 * (h * stride + (past + s) * st._size_per_head_aligned) := by
    intro p; ring
  have e6 : b * 2 * n + s = (b * 2 + 0) * n + s := by ring
  have e7 : b * 2 * n + (n + s) = (b * 2 + 1) * n + s := by ring
  have e8 : st._size_per_head * 2 = 2 * st._size_per_head := Nat.mul_comm _ _
  simp only [e1, e2, e3, e4, e5, e6, e7, e8]

/-- Element `i` of a store of at least `i + 1` elements is the stored element. -/
theorem load_store_bf16 (m : heap) (dst : ptr) (n : Nat) (vals : Nat → bf16) (i : Nat)
    (h : i < n) : load_bf16 (store_bf16 m dst n vals) dst i = vals i := by
  unfold load_bf16
  rw [store_bf16_in _ _ _ _ _ (by omega) (by omega),
    store_bf16_in _ _ _ _ _ (by omega) (by omega)]
  have e1 : (dst.off + 2 * i - dst.off) % 2 = 0 := by omega
  have e2 : (dst.off + 2 * i - dst.off) / 2 = i := by omega
  have e3 : ¬ (dst.off + 2 * i + 1 - dst.off) % 2 = 0 := by omega
  have e4 : (dst.off + 2 * i + 1 - dst.off) / 2 = i := by omega
  rw [if_pos e1, if_neg e3, e2, e4]

/-- An element that does not meet the destination range of `store_bf16` is kept. -/
theorem load_store_out (m : heap) (dst : ptr) (n : Nat) (vals : Nat → bf16) (p : ptr) (i : Nat)
    (h : p.buf ≠ dst.buf ∨ p.off + 2 * i + 2 ≤ dst.off ∨ dst.off + 2 * n ≤ p.off + 2 * i) :
    load_bf16 (store_bf16 m dst n vals) p i = load_bf16 m p i := by
  unfold load_bf16
  rw [store_bf16_out, store_bf16_out]
  · rcases h with h | h | h
    · exact Or.inl h
    · right; left; omega
    · right; right; omega
  · rcases h with h | h | h
    · exact Or.inl h
    · right; left; omega
    · right; right; omega

/-- An element that does not meet the destination range of `memcpy` is kept. -/
theorem load_memcpy_out (m : heap) (dst src : ptr) (n : Nat) (p : ptr) (i : Nat)
    (h : p.buf ≠ dst.buf ∨ p.off + 2 * i + 2 ≤ dst.off ∨ dst.off + n ≤ p.off + 2 * i) :
    load_bf16 (memcpy m dst src n) p i = load_bf16 m p i := by
  unfold load_bf16
  rw [memcpy_out, memcpy_out]
  · rcases h with h | h | h
    · exact Or.inl h
    · right; left; omega
    · right; right; omega
  · rcases h with h | h | h
    · exact Or.inl h
    · right; left; omega
    · right; right; omega

/-- An element inside the destination range of `memcpy` is the source element at the same
distance from the source pointer. -/
theorem load_memcpy_in (m : heap) (dst src : ptr) (n : Nat) (p : ptr) (i k : Nat)
    (hb : p.buf = dst.buf) (hk : p.off + 2 * i = dst.off + 2 * k) (hn : 2 * k + 2 ≤ n) :
    load_bf16 (memcpy m dst src n) p i = load_bf16 m src k := by
  unfold load_bf16
  rw [hb, memcpy_in _ _ _ _ _ (by omega) (by omega), memcpy_in _ _ _ _ _ (by omega) (by omega)]
  have e1 : src.off + (p.off + 2 * i - dst.off) = src.off + 2 * k := by omega
  have e2 : src.off + (p.off + 2 * i + 1 - dst.off) = src.off + 2 * k + 1 := by omega
  rw [e1, e2]

/-- Elements of a buffer that `rotary_avx512` does not write are kept. -/
theorem load_rotary_buf {C : Type}
    (rot : Nat → (Nat → C) → (Nat → C) → (Nat → bf16) → Nat → bf16) (N : Nat)
    (cos sin : Nat → C) (q_src k_src q_dst k_dst : ptr) (m : heap) (p : ptr)
    (h1 : p.buf ≠ q_dst.buf) (h2 : p.buf ≠ k_dst.buf) :
    load_bf16 (rotary_avx512 rot N cos sin q_src k_src q_dst k_dst m) p = load_bf16 m p := by
  funext i
  unfold rotary_avx512
  rw [load_store_out _ _ _ _ _ _ (Or.inl h2), load_store_out _ _ _ _ _ _ (Or.inl h1)]

/-- Elements of a buffer other than the destination of `memcpy` are kept. -/
theorem load_memcpy_buf (m : heap) (dst src : ptr) (n : Nat) (p : ptr) (h : p.buf ≠ dst.buf) :
    load_bf16 (memcpy m dst src n) p = load_bf16 m p := by
  funext i
  exact load_memcpy_out _ _ _ _ _ _ (Or.inl h)

/-- Element `i` after `k` elements is element `k + i`. -/
theorem load_add (m : heap) (p : ptr) (k i : Nat) :
    load_bf16 m (p.add (2 * k)) i = load_bf16 m p (k + i) := by
  unfold load_bf16 ptr.add
  have e : p.off + 2 * k + 2 * i = p.off + 2 * (k + i) := by ring
  simp only [e]

/-- A byte changed by the later of two updates or by the earlier one. -/
theorem changed_cases (m1 m2 m3 : heap) (x o : Nat) (h : m3 x o ≠ m1 x o) :
    m3 x o ≠ m2 x o ∨ m2 x o ≠ m1 x o := by
  by_cases e : m3 x o = m2 x o
  · right; rw [← e]; exact h
  · exact Or.inl e

/-- Every byte the writes of an index triple of the one-track writer change lies in the
first `2 * rd + n_copy` bytes at the query or key destination or in the first `n_value` bytes
at the value destination. -/
theorem rotary_writes_changed {C : Type}
    (rot : Nat → (Nat → C) → (Nat → C) → (Nat → bf16) → Nat → bf16)
    (rd nc nv : Nat) (cr sr : Nat → C) (QS KS VS QD KD VD : ptr) (m : heap) (x o : Nat)
    (h : rotary_writes rot rd nc nv cr sr QS KS VS QD KD VD m x o ≠ m x o) :
    (x = QD.buf ∧ QD.off ≤ o ∧ o < QD.off + (2 * rd + nc)) ∨
      (x = KD.buf ∧ KD.off ≤ o ∧ o < KD.off + (2 * rd + nc)) ∨
      (x = VD.buf ∧ VD.off ≤ o ∧ o < VD.off + nv) := by
  unfold rotary_writes at h
  rcases changed_cases _ _ _ x o h with h1 | h1
  · exact Or.inr (Or.inr (memcpy_changed _ _ _ _ _ _ h1))
  · rcases changed_cases _ _ _ x o h1 with h2 | h2
    · obtain ⟨e1, e2, e3⟩ := memcpy_changed _ _ _ _ _ _ h2
      simp only [ptr.add] at e1 e2 e3
      exact Or.inr (Or.inl ⟨e1, by omega, by omega⟩)
    · rcases changed_cases _ _ _ x o h2 with h3 | h3
      · obtain ⟨e1, e2, e3⟩ := memcpy_changed _ _ _ _ _ _ h3
        simp only [ptr.add] at e1 e2 e3
        exact Or.inl ⟨e1, by omega, by omega⟩
      · rcases rotary_avx512_changed _ _ _ _ _ _ _ _ _ _ _ h3 with ⟨e1, e2, e3⟩ | ⟨e1, e2, e3⟩
        · exact Or.inl ⟨e1, e2, by omega⟩
        · exact Or.inr (Or.inl ⟨e1, e2, by omega⟩)

/-- Every byte the writes of an index triple of the two-track writer change lies in the
first `4 * rd` bytes at the query or key destination or in the first `n_value` bytes at the
value destination. -/
theorem rotary_writes2d_changed {C : Type}
    (rot : Nat → (Nat → C) → (Nat → C) → (Nat → bf16) → Nat → bf16)
    (rd nv : Nat) (c0 s0 c1 s1 : Nat → C) (QS KS VS QD KD VD : ptr) (m : heap) (x o : Nat)
    (h : rotary_writes2d rot rd nv c0 s0 c1 s1 QS KS VS QD KD VD m x o ≠ m x o) :
    (x = QD.buf ∧ QD.off ≤ o ∧ o < QD.off + 4 * rd) ∨
      (x = KD.buf ∧ KD.off ≤ o ∧ o < KD.off + 4 * rd) ∨
      (x = VD.buf ∧ VD.off ≤ o ∧ o < VD.off + nv) := by
  unfold rotary_writes2d at h
  rcases changed_cases _ _ _ x o h with h1 | h1
  · exact Or.inr (Or.inr (memcpy_changed _ _ _ _ _ _ h1))
  · rcases changed_cases _ _ _ x o h1 with h2 | h2
    · rcases rotary_avx512_changed _ _ _ _ _ _ _ _ _ _ _ h2 with ⟨e1, e2, e3⟩ | ⟨e1, e2, e3⟩
      · simp only [ptr.add] at e1 e2 e3
        exact Or.inl ⟨e1, by omega, by omega⟩
      · simp only [ptr.add] at e1 e2 e3
        exact Or.inr (Or.inl ⟨e1, by omega, by omega⟩)
    · rcases rotary_avx512_changed _ _ _ _ _ _ _ _ _ _ _ h2 with ⟨e1, e2, e3⟩ | ⟨e1, e2, e3⟩
      · exact Or.inl ⟨e1, e2, by omega⟩
      · exact Or.inr (Or.inl ⟨e1, e2, by omega⟩)

/-- The value elements an index triple of the one-track writer stores are the source
elements. -/
theorem rotary_writes_v {C : Type}
    (rot : Nat → (Nat → C) → (Nat → C) → (Nat → bf16) → Nat → bf16)
    (rd nc nv : Nat) (cr sr : Nat → C) (QS KS VS QD KD VD : ptr) (m : heap) (i : Nat)
    (h1 : VS.buf ≠ QD.buf) (h2 : VS.buf ≠ KD.buf) (hi : 2 * i + 2 ≤ nv) :
    load_bf16 (rotary_writes rot rd nc nv cr sr QS KS VS QD KD VD m) VD i =
      load_bf16 m VS i := by
  unfold rotary_writes
  rw [load_memcpy_in _ _ _ _ _ i i rfl rfl hi, load_memcpy_buf _ (KD.add (2 * rd)) _ _ _ h2,
    load_memcpy_buf _ (QD.add (2 * rd)) _ _ _ h1, load_rotary_buf _ _ _ _ _ _ _ _ _ _ h1 h2]

/-- The first `rd` query elements an index triple of the one-track writer stores are the
rotated source elements. -/
theorem rotary_writes_q_rot {C : Type}
    (rot : Nat → (Nat → C) → (Nat → C) → (Nat → bf16) → Nat → bf16)
    (rd nc nv : Nat) (cr sr : Nat → C) (QS KS VS QD KD VD : ptr) (m : heap) (i : Nat)
    (h1 : QD.buf ≠ KD.buf) (h2 : QD.buf ≠ VD.buf) (hi : i < rd) :
    load_bf16 (rotary_writes rot rd nc nv cr sr QS KS VS QD KD VD m) QD i =
      rot rd cr sr (load_bf16 m QS) i := by
  unfold rotary_writes
  rw [load_memcpy_buf _ _ _ _ _ h2, load_memcpy_buf _ (KD.add (2 * rd)) _ _ _ h1,
    load_memcpy_out _ _ _ _ _ _ (Or.inr (Or.inl (by simp only [ptr.add]; omega)))]
  unfold rotary_avx512
  rw [load_store_out _ _ _ _ _ _ (Or.inl h1), load_store_bf16 _ _ _ _ _ hi]

/-- The query elements from `rd` on that an index triple of the one-track writer stores are
the source elements. -/
theorem rotary_writes_q_copy {C : Type}
    (rot : Nat → (Nat → C) → (Nat → C) → (Nat → bf16) → Nat → bf16)
    (rd nc nv : Nat) (cr sr : Nat → C) (QS KS VS QD KD VD : ptr) (m : heap) (i : Nat)
    (h1 : QD.buf ≠ KD.buf) (h2 : QD.buf ≠ VD.buf) (h3 : QS.buf ≠ QD.buf) (h4 : QS.buf ≠ KD.buf)
    (hi : rd ≤ i) (hi2 : 2 * i + 2 ≤ 2 * rd + nc) :
    load_bf16 (rotary_writes rot rd nc nv cr sr QS KS VS QD KD VD m) QD i =
      load_bf16 m QS i := by
  unfold rotary_writes
  rw [load_memcpy_buf _ _ _ _ _ h2, load_memcpy_buf _ (KD.add (2 * rd)) _ _ _ h1,
    load_memcpy_in _ (QD.add (2 * rd)) _ _ QD i (i - rd) rfl (by simp only [ptr.add]; omega)
      (by omega),
    load_add, load_rotary_buf _ _ _ _ _ _ _ _ _ _ h3 h4]
  congr 1
  omega

/-- The first `rd` key elements an index triple of the one-track writer stores are the
rotated source elements. -/
theorem rotary_writes_k_rot {C : Type}
    (rot : Nat → (Nat → C) → (Nat → C) → (Nat → bf16) → Nat → bf16)
    (rd nc nv : Nat) (cr sr : Nat → C) (QS KS VS QD KD VD : ptr) (m : heap) (i : Nat)
    (h1 : KD.buf ≠ QD.buf) (h2 : KD.buf ≠ VD.buf) (hi : i < rd) :
    load_bf16 (rotary_writes rot rd nc nv cr sr QS KS VS QD KD VD m) KD i =
      rot rd cr sr (load_bf16 m KS) i := by
  unfold rotary_writes
  rw [load_memcpy_buf _ _ _ _ _ h2,
    load_memcpy_out _ _ _ _ _ _ (Or.inr (Or.inl (by simp only [ptr.add]; omega))),
    load_memcpy_buf _ (QD.add (2 * rd)) _ _ _ h1]
  unfold rotary_avx512
  rw [load_store_bf16 _ _ _ _ _ hi]

/-- The key elements from `rd` on that an index triple of the one-track writer stores are
the source elements. -/
theorem rotary_writes_k_copy {C : Type}
    (rot : Nat → (Nat → C) → (Nat → C) → (Nat → bf16) → Nat → bf16)
    (rd nc nv : Nat) (cr sr : Nat → C) (QS KS VS QD KD VD : ptr) (m : heap) (i : Nat)
    (h2 : KD.buf ≠ VD.buf) (h3 : KS.buf ≠ QD.buf) (h4 : KS.buf ≠ KD.buf)
    (hi : rd ≤ i) (hi2 : 2 * i + 2 ≤ 2 * rd + nc) :
    load_bf16 (rotary_writes rot rd nc nv cr sr QS KS VS QD KD VD m) KD i =
      load_bf16 m KS i := by
  unfold rotary_writes
  rw [load_memcpy_buf _ _ _ _ _ h2,
    load_memcpy_in _ (KD.add (2 * rd)) _ _ KD i (i - rd) rfl (by simp only [ptr.add]; omega)
      (by omega),
    load_add, load_memcpy_buf _ (QD.add (2 * rd)) _ _ _ h3,
    load_rotary_buf _ _ _ _ _ _ _ _ _ _ h3 h4]
  congr 1
  omega

/-- The value elements an index triple of the two-track writer stores are the source
elements. -/
theorem rotary_writes2d_v {C : Type}
    (rot : Nat → (Nat → C) → (Nat → C) → (Nat → bf16) → Nat → bf16)
    (rd nv : Nat) (c0 s0 c1 s1 : Nat → C) (QS KS VS QD KD VD : ptr) (m : heap) (i : Nat)
    (h1 : VS.buf ≠ QD.buf) (h2 : VS.buf ≠ KD.buf) (hi : 2 * i + 2 ≤ nv) :
    load_bf16 (rotary_writes2d rot rd nv c0 s0 c1 s1 QS KS VS QD KD VD m) VD i =
      load_bf16 m VS i := by
  unfold rotary_writes2d
  rw [load_memcpy_in _ _ _ _ _ i i rfl rfl hi,
    load_rotary_buf _ _ _ _ _ _ (QD.add (2 * rd)) (KD.add (2 * rd)) _ _ h1 h2,
    load_rotary_buf _ _ _ _ _ _ _ _ _ _ h1 h2]

/-- The first `rd` query elements an index triple of the two-track writer stores are the
source elements rotated by the rows of the first track. -/
theorem rotary_writes2d_q0 {C : Type}
    (rot : Nat → (Nat → C) → (Nat → C) → (Nat → bf16) → Nat → bf16)
    (rd nv : Nat) (c0 s0 c1 s1 : Nat → C) (QS KS VS QD KD VD : ptr) (m : heap) (i : Nat)
    (h1 : QD.buf ≠ KD.buf) (h2 : QD.buf ≠ VD.buf) (hi : i < rd) :
    load_bf16 (rotary_writes2d rot rd nv c0 s0 c1 s1 QS KS VS QD KD VD m) QD i =
      rot rd c0 s0 (load_bf16 m QS) i := by
  unfold rotary_writes2d
  rw [load_memcpy_buf _ _ _ _ _ h2]
  unfold rotary_avx512
  rw [load_store_out _ (KD.add (2 * rd)) _ _ _ _ (Or.inl h1),
    load_store_out _ _ _ _ _ _ (Or.inr (Or.inl (by simp only [ptr.add]; omega))),
    load_store_out _ _ _ _ _ _ (Or.inl h1), load_store_bf16 _ _ _ _ _ hi]

/-- The query elements `rd .. 2 * rd - 1` an index triple of the two-track writer stores
are the source elements `rd .. 2 * rd - 1` rotated by the rows of the second track. -/
theorem rotary_writes2d_q1 {C : Type}
    (rot : Nat → (Nat → C) → (Nat → C) → (Nat → bf16) → Nat → bf16)
    (rd nv : Nat) (c0 s0 c1 s1 : Nat → C) (QS KS VS QD KD VD : ptr) (m : heap) (i : Nat)
    (h1 : QD.buf ≠ KD.buf) (h2 : QD.buf ≠ VD.buf) (h3 : QS.buf ≠ QD.buf) (h4 : QS.buf ≠ KD.buf)
    (hi : i < rd) :
    load_bf16 (rotary_writes2d rot rd nv c0 s0 c1 s1 QS KS VS QD KD VD m) QD (rd + i) =
      rot rd c1 s1 (load_bf16 m (QS.add (2 * rd))) i := by
  unfold rotary_writes2d
  rw [load_memcpy_buf _ _ _ _ _ h2, ← load_add]
  have e : load_bf16 (rotary_avx512 rot rd c0 s0 QS KS QD KD m) (QS.add (2 * rd)) =
      load_bf16 m (QS.add (2 * rd)) := load_rotary_buf _ _ _ _ _ _ _ _ _ _ h3 h4
  unfold rotary_avx512 at e ⊢
  rw [load_store_out _ (KD.add (2 * rd)) _ _ (QD.add (2 * rd)) _ (Or.inl h1),
    load_store_bf16 _ _ _ _ _ hi, e]

/-- The first `rd` key elements an index triple of the two-track writer stores are the
source elements rotated by the rows of the first track. -/
theorem rotary_writes2d_k0 {C : Type}
    (rot : Nat → (Nat → C) → (Nat → C) → (Nat → bf16) → Nat → bf16)
    (rd nv : Nat) (c0 s0 c1 s1 : Nat → C) (QS KS VS QD KD VD : ptr) (m : heap) (i : Nat)
    (h1 : KD.buf ≠ QD.buf) (h2 : KD.buf ≠ VD.buf) (hi : i < rd) :
    load_bf16 (rotary_writes2d rot rd nv c0 s0 c1 s1 QS KS VS QD KD VD m) KD i =
      rot rd c0 s0 (load_bf16 m KS) i := by
  unfold rotary_writes2d
  rw [load_memcpy_buf _ _ _ _ _ h2]
  unfold rotary_avx512
  rw [load_store_out _ _ _ _ _ _ (Or.inr (Or.inl (by simp only [ptr.add]; omega))),
    load_store_out _ (QD.add (2 * rd)) _ _ _ _ (Or.inl h1), load_store_bf16 _ _ _ _ _ hi]

/-- The key elements `rd .. 2 * rd - 1` an index triple of the two-track writer stores are
the source elements `rd .. 2 * rd - 1` rotated by the rows of the second track. -/
theorem rotary_writes2d_k1 {C : Type}
    (rot : Nat → (Nat → C) → (Nat → C) → (Nat → bf16) → Nat → bf16)
    (rd nv : Nat) (c0 s0 c1 s1 : Nat → C) (QS KS VS QD KD VD : ptr) (m : heap) (i : Nat)
    (h3 : KS.buf ≠ QD.buf) (h4 : KS.buf ≠ KD.buf) (h2 : KD.buf ≠ VD.buf)
    (hi : i < rd) :
    load_bf16 (rotary_writes2d rot rd nv c0 s0 c1 s1 QS KS VS QD KD VD m) KD (rd + i) =
      rot rd c1 s1 (load_bf16 m (KS.add (2 * rd))) i := by
  unfold rotary_writes2d
  rw [load_memcpy_buf _ _ _ _ _ h2, ← load_add]
  have e : load_bf16 (rotary_avx512 rot rd c0 s0 QS KS QD KD m) (KS.add (2 * rd)) =
      load_bf16 m (KS.add (2 * rd)) := load_rotary_buf _ _ _ _ _ _ _ _ _ _ h3 h4
  unfold rotary_avx512 at e ⊢
  rw [load_store_bf16 _ _ _ _ _ hi, e]

/-- Slots of a cache are disjoint: with elements of `w` bytes, slots of `hsa` elements and a
head stride that holds `T` slots, a byte lies in the slot of one head and position only. -/
theorem kv_slot_inj (w hsa stride T h p h2 p2 j j2 : Nat) (hT : T * hsa ≤ stride)
    (hp : p < T) (hp2 : p2 < T) (hj : j < w * hsa) (hj2 : j2 < w * hsa)
    (e : w * (h * stride + p * hsa) + j = w * (h2 * stride + p2 * hsa) + j2) :
    h = h2 ∧ p = p2 ∧ j = j2 := by
  have b1 : (p + 1) * hsa ≤ T * hsa := Nat.mul_le_mul_right _ hp
  have b2 : (p2 + 1) * hsa ≤ T * hsa := Nat.mul_le_mul_right _ hp2
  have c1 : w * ((p + 1) * hsa) ≤ w * stride := Nat.mul_le_mul_left _ (le_trans b1 hT)
  have c2 : w * ((p2 + 1) * hsa) ≤ w * stride := Nat.mul_le_mul_left _ (le_trans b2 hT)
  have d1 : w * ((p + 1) * hsa) = p * (w * hsa) + w * hsa := by ring
  have d2 : w * ((p2 + 1) * hsa) = p2 * (w * hsa) + w * hsa := by ring
  have e1 : w * (h * stride + p * hsa) + j = h * (w * stride) + (p * (w * hsa) + j) := by ring
  have e2 : w * (h2 * stride + p2 * hsa) + j2 =
      h2 * (w * stride) + (p2 * (w * hsa) + j2) := by ring
  rw [e1, e2] at e
  obtain ⟨r1, r2⟩ := mha_gpt.radix_inj (w * stride) h (p * (w * hsa) + j) h2 (p2 * (w * hsa) + j2)
    (by omega) (by omega) e
  obtain ⟨r3, r4⟩ := mha_gpt.radix_inj (w * hsa) p j p2 j2 hj hj2 r2
  exact ⟨r1, r3, r4⟩

/-- Slots of the query destination are disjoint: a byte lies in the slot of one index triple
only. -/
theorem q_slot_inj (nh n hsa b h s b2 h2 s2 j j2 : Nat) (hh : h < nh) (hh2 : h2 < nh)
    (hs : s < n) (hs2 : s2 < n) (hj : j < 2 * hsa) (hj2 : j2 < 2 * hsa)
    (e : 2 * (((b * nh + h) * n + s) * hsa) + j = 2 * (((b2 * nh + h2) * n + s2) * hsa) + j2) :
    b = b2 ∧ h = h2 ∧ s = s2 ∧ j = j2 := by
  have e1 : 2 * (((b * nh + h) * n + s) * hsa) + j =
      ((b * nh + h) * n + s) * (2 * hsa) + j := by ring
  have e2 : 2 * (((b2 * nh + h2) * n + s2) * hsa) + j2 =
      ((b2 * nh + h2) * n + s2) * (2 * hsa) + j2 := by ring
  rw [e1, e2] at e
  obtain ⟨r1, r2⟩ := mha_gpt.radix_inj (2 * hsa) _ j _ j2 hj hj2 e
  obtain ⟨r3, r4⟩ := mha_gpt.radix_inj n _ s _ s2 hs hs2 r1
  obtain ⟨r5, r6⟩ := mha_gpt.radix_inj nh b h b2 h2 hh hh2 r3
  exact ⟨r5, r6, r4, r2⟩

/-- The ranges of two index triples meet only when the triples are equal: a byte in a range
of at most one slot of `(b, h, s)` and in a range of at most one slot of `(b2, h2, s2)`. A
range length of the first triple may be `0` in place of the bound on both lengths. -/
theorem slots_disjoint (qd : ptr) (kd vd : Nat → ptr)
    (batch nh hsa n past stride L1 L2 L3 L4 b h s b2 h2 s2 x o : Nat)
    (hsep : dst_separate batch qd kd vd) (hlay : (past + n) * hsa ≤ stride)
    (hL1 : L1 = 0 ∨ (L1 ≤ 2 * hsa ∧ L3 ≤ 2 * hsa))
    (hL2 : L2 = 0 ∨ (L2 ≤ 2 * hsa ∧ L4 ≤ 2 * hsa))
    (hb : b < batch) (hh : h < nh) (hs : s < n)
    (hb2 : b2 < batch) (hh2 : h2 < nh) (hs2 : s2 < n)
    (t1 : in_slots qd kd vd nh hsa n past stride L1 L2 b h s x o)
    (t2 : in_slots qd kd vd nh hsa n past stride L3 L4 b2 h2 s2 x o) :
    b = b2 ∧ h = h2 ∧ s = s2 := by
  obtain ⟨s1, s2', s3, s4⟩ := hsep
  have kv : ∀ (p : Nat → ptr) (L L' : Nat), (L = 0 ∨ (L ≤ 2 * hsa ∧ L' ≤ 2 * hsa)) →
      (p b).buf = (p b2).buf → ((p b).buf = (p b2).buf → b = b2) →
      (p b).off + 2 * (h * stride + (past + s) * hsa) ≤ o →
      o < (p b).off + 2 * (h * stride + (past + s) * hsa) + L →
      (p b2).off + 2 * (h2 * stride + (past + s2) * hsa) ≤ o →
      o < (p b2).off + 2 * (h2 * stride + (past + s2) * hsa) + L' →
      b = b2 ∧ h = h2 ∧ s = s2 := by
    intro p L L' hL eb inj a1 a2 a3 a4
    have hbb := inj eb
    subst hbb
    rcases hL with hL | ⟨hL, hL'⟩
    · omega
    · obtain ⟨r1, r2, _⟩ := kv_slot_inj 2 hsa stride (past + n) h (past + s) h2 (past + s2)
        (o - ((p b).off + 2 * (h * stride + (past + s) * hsa)))
        (o - ((p b).off + 2 * (h2 * stride + (past + s2) * hsa))) hlay (by omega) (by omega)
        (by omega) (by omega) (by omega)
      exact ⟨rfl, r1, by omega⟩
  rcases t1 with ⟨x1, a1, a2⟩ | ⟨x1, a1, a2⟩ | ⟨x1, a1, a2⟩
  · rcases t2 with ⟨x2, a3, a4⟩ | ⟨x2, a3, a4⟩ | ⟨x2, a3, a4⟩
    · rcases hL1 with hL | ⟨hL, hL'⟩
      · omega
      · obtain ⟨r1, r2, r3, _⟩ := q_slot_inj nh n hsa b h s b2 h2 s2
          (o - (qd.off + 2 * (((b * nh + h) * n + s) * hsa)))
          (o - (qd.off + 2 * (((b2 * nh + h2) * n + s2) * hsa))) hh hh2 hs hs2
          (by omega) (by omega) (by omega)
        exact ⟨r1, r2, r3⟩
    · exact absurd (x1.symm.trans x2) (s1 b2 hb2).1
    · exact absurd (x1.symm.trans x2) (s1 b2 hb2).2
  · rcases t2 with ⟨x2, a3, a4⟩ | ⟨x2, a3, a4⟩ | ⟨x2, a3, a4⟩
    · exact absurd (x2.symm.trans x1) (s1 b hb).1
    · exact kv kd L1 L3 hL1 (x1.symm.trans x2) (s3 b hb b2 hb2) a1 a2 a3 a4
    · exact absurd (x1.symm.trans x2) (s2' b hb b2 hb2)
  · rcases t2 with ⟨x2, a3, a4⟩ | ⟨x2, a3, a4⟩ | ⟨x2, a3, a4⟩
    · exact absurd (x2.symm.trans x1) (s1 b hb).2
    · exact absurd (x2.symm.trans x1) (s2' b2 hb2 b hb)
    · exact kv vd L2 L4 hL2 (x1.symm.trans x2) (s4 b hb b2 hb2) a1 a2 a3 a4

/-- A byte of the slot of a cached position `s < past` of a key or value cache lies in the
range of no index triple. -/
theorem cached_not_in_slots (qd : ptr) (kd vd : Nat → ptr)
    (batch nh hsa n past stride L1 L2 b h s j b2 h2 s2 : Nat)
    (hsep : dst_separate batch qd kd vd) (hlay : (past + n) * hsa ≤ stride)
    (hL1 : L1 ≤ 2 * hsa) (hL2 : L2 ≤ 2 * hsa) (hb : b < batch) (hs : s < past)
    (hj : j < 2 * hsa) (hb2 : b2 < batch) (hs2 : s2 < n) :
    ¬ in_slots qd kd vd nh hsa n past stride L1 L2 b2 h2 s2 (kd b).buf
        ((kd b).off + 2 * (h * stride + s * hsa) + j) ∧
    ¬ in_slots qd kd vd nh hsa n past stride L1 L2 b2 h2 s2 (vd b).buf
        ((vd b).off + 2 * (h * stride + s * hsa) + j) := by
  obtain ⟨s1, s2', s3, s4⟩ := hsep
  have kv : ∀ (p : Nat → ptr) (L : Nat), L ≤ 2 * hsa → (p b).buf = (p b2).buf →
      ((p b).buf = (p b2).buf → b = b2) →
      (p b2).off + 2 * (h2 * stride + (past + s2) * hsa) ≤
        (p b).off + 2 * (h * stride + s * hsa) + j →
      (p b).off + 2 * (h * stride + s * hsa) + j <
        (p b2).off + 2 * (h2 * stride + (past + s2) * hsa) + L → False := by
    intro p L hL eb inj a1 a2
    have hbb := inj eb
    subst hbb
    obtain ⟨_, r2, _⟩ := kv_slot_inj 2 hsa stride (past + n) h s h2 (past + s2) j
      ((p b).off + 2 * (h * stride + s * hsa) + j -
        ((p b).off + 2 * (h2 * stride + (past + s2) * hsa))) hlay (by omega) (by omega)
      hj (by omega) (by omega)
    omega
  constructor
  · rintro (⟨x2, a3, a4⟩ | ⟨x2, a3, a4⟩ | ⟨x2, a3, a4⟩)
    · exact (s1 b hb).1 x2.symm
    · exact kv kd L1 hL1 x2 (s3 b hb b2 hb2) a3 a4
    · exact s2' b hb b2 hb2 x2
  · rintro (⟨x2, a3, a4⟩ | ⟨x2, a3, a4⟩ | ⟨x2, a3, a4⟩)
    · exact (s1 b hb).2 x2.symm
    · exact s2' b2 hb2 b hb x2.symm
    · exact kv vd L2 hL2 x2 (s4 b hb b2 hb2) a3 a4

/-- A loop over the index triples whose body changes only bytes of the ranges of its triple,
observed at an element `i` of a pointer `p` that lies in a range of the triple `(b, h, s)`:
the element after the loop is the one the body of `(b, h, s)` leaves, as long as the body
determines it from the buffers `S`, none of which is a destination. -/
theorem writer_run_observe (body : Nat → Nat → Nat → heap → heap) (qd : ptr)
    (kd vd : Nat → ptr) (batch nh hsa n past stride L1 L2 L3 L4 : Nat) (S : Nat → Prop)
    (hsep : dst_separate batch qd kd vd) (hS : ∀ x, S x → src_separate batch x qd kd vd)
    (hlay : (past + n) * hsa ≤ stride)
    (hL1 : L1 = 0 ∨ (L1 ≤ 2 * hsa ∧ L3 ≤ 2 * hsa))
    (hL2 : L2 = 0 ∨ (L2 ≤ 2 * hsa ∧ L4 ≤ 2 * hsa))
    (hfoot : ∀ b, b < batch → ∀ h, h < nh → ∀ s, s < n → ∀ m x o,
      body b h s m x o ≠ m x o → in_slots qd kd vd nh hsa n past stride L3 L4 b h s x o)
    (m0 : heap) (b h s : Nat) (hb : b < batch) (hh : h < nh) (hs : s < n) (p : ptr) (i : Nat)
    (ht0 : in_slots qd kd vd nh hsa n past stride L1 L2 b h s p.buf (p.off + 2 * i))
    (ht1 : in_slots qd kd vd nh hsa n past stride L1 L2 b h s p.buf (p.off + 2 * i + 1))
    (v : bf16)
    (hc : ∀ m, (∀ x, S x → ∀ o, m x o = m0 x o) → load_bf16 (body b h s m) p i = v)
    (m : heap) (hm : ∀ x, S x → ∀ o, m x o = m0 x o) :
    load_bf16 (parallel_for3d batch nh n body m) p i = v := by
  refine (parallel_for3d_observe batch nh n body (fun m => ∀ x, S x → ∀ o, m x o = m0 x o)
    (fun m => load_bf16 m p i) v b h s hb hh hs ?_ hc ?_ m hm).2
  · intro b2 hb2 h2 hh2 s2 hs2 m1 hm1 x hx o
    rw [← hm1 x hx o]
    by_contra hne
    have hin := hfoot b2 hb2 h2 hh2 s2 hs2 m1 x o hne
    obtain ⟨q1, q2⟩ := hS x hx
    rcases hin with ⟨x2, _, _⟩ | ⟨x2, _, _⟩ | ⟨x2, _, _⟩
    · exact q1 x2
    · exact (q2 b2 hb2).1 x2
    · exact (q2 b2 hb2).2 x2
  · intro b2 hb2 h2 hh2 s2 hs2 hne m1 _
    have key : ∀ o, in_slots qd kd vd nh hsa n past stride L1 L2 b h s p.buf o →
        body b2 h2 s2 m1 p.buf o = m1 p.buf o := by
      intro o ht
      by_contra hch
      have hin := hfoot b2 hb2 h2 hh2 s2 hs2 m1 p.buf o hch
      obtain ⟨r1, r2, r3⟩ := slots_disjoint qd kd vd batch nh hsa n past stride L1 L2 L3 L4
        b h s b2 h2 s2 p.buf o hsep hlay hL1 hL2 hb hh hs hb2 hh2 hs2 ht hin
      exact hne ⟨r1.symm, r2.symm, r3.symm⟩
    show load_bf16 (body b2 h2 s2 m1) p i = load_bf16 m1 p i
    unfold load_bf16
    rw [key _ ht0, key _ ht1]

/-- A byte changed by a loop over the index triples lies in a range of one of them. -/
theorem writer_run_changed (body : Nat → Nat → Nat → heap → heap) (qd : ptr)
    (kd vd : Nat → ptr) (batch nh hsa n past stride L3 L4 : Nat)
    (hfoot : ∀ b, b < batch → ∀ h, h < nh → ∀ s, s < n → ∀ m x o,
      body b h s m x o ≠ m x o → in_slots qd kd vd nh hsa n past stride L3 L4 b h s x o)
    (m : heap) (x o : Nat) (hne : parallel_for3d batch nh n body m x o ≠ m x o) :
    ∃ b, b < batch ∧ ∃ h, h < nh ∧ ∃ s, s < n ∧
      in_slots qd kd vd nh hsa n past stride L3 L4 b h s x o := by
  revert hne
  apply parallel_for3d_changed
    (fun x o => ∃ b, b < batch ∧ ∃ h, h < nh ∧ ∃ s, s < n ∧
      in_slots qd kd vd nh hsa n past stride L3 L4 b h s x o)
  intro b hb h hh s hs m1 x1 o1 hch
  exact ⟨b, hb, h, hh, s, hs, hfoot b hb h hh s hs m1 x1 o1 hch⟩

/-- The one-track writer with two-byte elements is the loop of `rotary_writes` over the
index triples, each with row `past + s` of the tables. -/
theorem applyRotaryPosEmbMemcpy_eq {C : Type} (st : emb_gpt_impl_avx512)
    (rot : Nat → (Nat → C) → (Nat → C) → (Nat → bf16) → Nat → bf16)
    (q k v : ptr) (ldq ldk ldv : Nat) (qd : ptr) (kd vd : Nat → ptr)
    (batch n past stride : Nat) (cos sin : Nat → C) (m : heap)
    (hi : st._input_type_size = 2) (ho : st._output_type_size = 2) :
    applyRotaryPosEmbMemcpy st rot q k v ldq ldk ldv qd kd vd batch n past stride cos sin m =
    parallel_for3d batch st._head_num n (fun b h s =>
      rotary_writes rot st._rotary_dim (2 * size_sub st._size_per_head st._rotary_dim)
        (2 * st._size_per_head)
        (table_row cos st._rotary_dim (past + s)) (table_row sin st._rotary_dim (past + s))
        (q.add (2 * (((b * n + s) * st._head_num + h) * ldq)))
        (k.add (2 * (((b * n + s) * st._head_num + h) * ldk)))
        (v.add (2 * (((b * n + s) * st._head_num + h) * ldv)))
        (qd.add (2 * (((b * st._head_num + h) * n + s) * st._size_per_head_aligned)))
        ((kd b).add (2 * (h * stride + (past + s) * st._size_per_head_aligned)))
        ((vd b).add (2 * (h * stride + (past + s) * st._size_per_head_aligned)))) m := by
  unfold applyRotaryPosEmbMemcpy
  simp only
  congr 1
  funext b h s m1
  exact applyRotaryPosEmbMemcpy_body_eq st rot q k v ldq ldk ldv qd kd vd n past stride cos sin
    b h s m1 hi ho

/-- The two-track writer with two-byte elements is the loop of `rotary_writes2d` over the
index triples, with the rows of the two position ids of `(b, s)`. -/
theorem applyRotaryPosEmbMemcpyWithPosition2d_eq {C : Type} (st : emb_gpt_impl_avx512)
    (rot : Nat → (Nat → C) → (Nat → C) → (Nat → bf16) → Nat → bf16)
    (q k v : ptr) (ldq ldk ldv : Nat) (qd : ptr) (kd vd : Nat → ptr)
    (batch n past stride : Nat) (ids : Nat → Int) (cos sin : Nat → C) (m : heap)
    (hi : st._input_type_size = 2) (ho : st._output_type_size = 2) :
    applyRotaryPosEmbMemcpyWithPosition2d st rot q k v ldq ldk ldv qd kd vd batch n past ids
      stride cos sin m =
    parallel_for3d batch st._head_num n (fun b h s =>
      rotary_writes2d rot st._rotary_dim (2 * st._size_per_head)
        (table_row cos st._rotary_dim (id_to_size_t (ids ((b * 2 + 0) * n + s))))
        (table_row sin st._rotary_dim (id_to_size_t (ids ((b * 2 + 0) * n + s))))
        (table_row cos st._rotary_dim (id_to_size_t (ids ((b * 2 + 1) * n + s))))
        (table_row sin st._rotary_dim (id_to_size_t (ids ((b * 2 + 1) * n + s))))
        (q.add (2 * (((b * n + s) * st._head_num + h) * ldq)))
        (k.add (2 * (((b * n + s) * st._head_num + h) * ldk)))
        (v.add (2 * (((b * n + s) * st._head_num + h) * ldv)))
        (qd.add (2 * (((b * st._head_num + h) * n + s) * st._size_per_head_aligned)))
        ((kd b).add (2 * (h * stride + (past + s) * st._size_per_head_aligned)))
        ((vd b).add (2 * (h * stride + (past + s) * st._size_per_head_aligned)))) m := by
  unfold applyRotaryPosEmbMemcpyWithPosition2d
  simp only
  congr 1
  funext b h s m1
  exact applyRotaryPosEmbMemcpyWithPosition2d_body_eq st rot q k v ldq ldk ldv qd kd vd n past
    stride ids cos sin b h s m1 hi ho

/-- The writes of `rotary_writes` at the pointers of an index triple lie in the ranges of
the triple. -/
theorem rotary_writes_in_slots {C : Type}
    (rot : Nat → (Nat → C) → (Nat → C) → (Nat → bf16) → Nat → bf16)
    (rd nc nv : Nat) (cr sr : Nat → C) (QS KS VS qd : ptr) (kd vd : Nat → ptr)
    (nh hsa n past stride b h s : Nat) (m : heap) (x o : Nat)
    (hne : rotary_writes rot rd nc nv cr sr QS KS VS
      (qd.add (2 * (((b * nh + h) * n + s) * hsa)))
      ((kd b).add (2 * (h * stride + (past + s) * hsa)))
      ((vd b).add (2 * (h * stride + (past + s) * hsa))) m x o ≠ m x o) :
    in_slots qd kd vd nh hsa n past stride (2 * rd + nc) nv b h s x o := by
  have := rotary_writes_changed _ _ _ _ _ _ _ _ _ _ _ _ _ _ _ hne
  simp only [ptr.add] at this
  exact this

/-- The writes of `rotary_writes2d` at the pointers of an index triple lie in the ranges of
the triple. -/
theorem rotary_writes2d_in_slots {C : Type}
    (rot : Nat → (Nat → C) → (Nat → C) → (Nat → bf16) → Nat → bf16)
    (rd nv : Nat) (c0 s0 c1 s1 : Nat → C) (QS KS VS qd : ptr) (kd vd : Nat → ptr)
    (nh hsa n past stride b h s : Nat) (m : heap) (x o : Nat)
    (hne : rotary_writes2d rot rd nv c0 s0 c1 s1 QS KS VS
      (qd.add (2 * (((b * nh + h) * n + s) * hsa)))
      ((kd b).add (2 * (h * stride + (past + s) * hsa)))
      ((vd b).add (2 * (h * stride + (past + s) * hsa))) m x o ≠ m x o) :
    in_slots qd kd vd nh hsa n past stride (4 * rd) nv b h s x o := by
  have := rotary_writes2d_changed _ _ _ _ _ _ _ _ _ _ _ _ _ _ _ _ hne
  simp only [ptr.add] at this
  exact this

/-- An element of a slot of the query destination lies in the query range of its index
triple, with both bytes. -/
theorem q_elem_in_slots (qd : ptr) (kd vd : Nat → ptr) (nh hsa n past stride b h s i t : Nat)
    (hi : i < hsa) (ht : t < 2) :
    in_slots qd kd vd nh hsa n past stride (2 * hsa) 0 b h s
      (qd.add (2 * (((b * nh + h) * n + s) * hsa))).buf
      ((qd.add (2 * (((b * nh + h) * n + s) * hsa))).off + 2 * i + t) := by
  refine Or.inl ⟨rfl, ?_, ?_⟩ <;> simp only [ptr.add] <;> omega

/-- An element of a slot of a key cache lies in the key range of its index triple, with
both bytes. -/
theorem k_elem_in_slots (qd : ptr) (kd vd : Nat → ptr) (nh hsa n past stride b h s i t : Nat)
    (hi : i < hsa) (ht : t < 2) :
    in_slots qd kd vd nh hsa n past stride (2 * hsa) 0 b h s
      ((kd b).add (2 * (h * stride + (past + s) * hsa))).buf
      (((kd b).add (2 * (h * stride + (past + s) * hsa))).off + 2 * i + t) := by
  refine Or.inr (Or.inl ⟨rfl, ?_, ?_⟩) <;> simp only [ptr.add] <;> omega

/-- An element of a slot of a value cache lies in the value range of its index triple, with
both bytes. -/
theorem v_elem_in_slots (qd : ptr) (kd vd : Nat → ptr) (nh hsa n past stride b h s i t : Nat)
    (hi : i < hsa) (ht : t < 2) :
    in_slots qd kd vd nh hsa n past stride 0 (2 * hsa) b h s
      ((vd b).add (2 * (h * stride + (past + s) * hsa))).buf
      (((vd b).add (2 * (h * stride + (past + s) * hsa))).off + 2 * i + t) := by
  refine Or.inr (Or.inr ⟨rfl, ?_, ?_⟩) <;> simp only [ptr.add] <;> omega

/-- After the one-track writer, the value elements of the slot of `(b, h, s)` are the source
value elements. -/
theorem applyRotaryPosEmbMemcpy_v {C : Type} (st : emb_gpt_impl_avx512)
    (rot : Nat → (Nat → C) → (Nat → C) → (Nat → bf16) → Nat → bf16)
    (q k v : ptr) (ldq ldk ldv : Nat) (qd : ptr) (kd vd : Nat → ptr)
    (batch n past stride : Nat) (cos sin : Nat → C) (m0 m : heap)
    (hi : st._input_type_size = 2) (ho : st._output_type_size = 2)
    (hsep : dst_separate batch qd kd vd) (hsrc : src_separate batch v.buf qd kd vd)
    (hlay : (past + n) * st._size_per_head_aligned ≤ stride)
    (hsz : st._size_per_head ≤ st._size_per_head_aligned)
    (hm : ∀ o, m v.buf o = m0 v.buf o)
    (b h s i : Nat) (hb : b < batch) (hh : h < st._head_num) (hs : s < n)
    (hlt : i < st._size_per_head) :
    load_bf16 (applyRotaryPosEmbMemcpy st rot q k v ldq ldk ldv qd kd vd batch n past stride
        cos sin m)
      ((vd b).add (2 * (h * stride + (past + s) * st._size_per_head_aligned))) i =
    load_bf16 m0 (v.add (2 * (((b * n + s) * st._head_num + h) * ldv))) i := by
  rw [applyRotaryPosEmbMemcpy_eq _ _ _ _ _ _ _ _ _ _ _ _ _ _ _ _ _ _ hi ho]
  refine writer_run_observe _ qd kd vd batch st._head_num st._size_per_head_aligned n past
    stride 0 (2 * st._size_per_head_aligned) _ (2 * st._size_per_head) (fun x => x = v.buf)
    hsep (fun x hx => hx ▸ hsrc) hlay (Or.inl rfl) (Or.inr ⟨le_refl _, by omega⟩)
    (fun b2 _ h2 _ s2 _ m1 x o hne => rotary_writes_in_slots _ _ _ _ _ _ _ _ _ _ _ _ _ _ _ _ _
      _ _ _ _ _ _ hne)
    m0 b h s hb hh hs _ i
    (v_elem_in_slots qd kd vd _ _ n past stride b h s i 0 (by omega) (by omega))
    (v_elem_in_slots qd kd vd _ _ n past stride b h s i 1 (by omega) (by omega)) _ ?_ m
    (fun x hx o => hx ▸ hm o)
  intro m1 hm1
  change load_bf16 (rotary_writes _ _ _ _ _ _ _ _ _ _ _ _ m1) _ i = _
  rw [rotary_writes_v rot _ _ _ _ _ _ _ (v.add _) (qd.add _) ((kd b).add _) _ m1 i hsrc.1
    (hsrc.2 b hb).1 (by omega)]
  unfold load_bf16
  simp only [ptr.add, hm1 v.buf rfl]

/-- Pointers into a buffer on which two heaps agree load the same elements. -/
theorem load_congr_buf (m1 m2 : heap) (p : ptr) (h : ∀ o, m1 p.buf o = m2 p.buf o) :
    load_bf16 m1 p = load_bf16 m2 p := by
  funext i
  unfold load_bf16
  rw [h, h]

/-- After the one-track writer, the first `rotary_dim` query elements of the slot of
`(b, h, s)` are the source elements rotated by row `past + s` of the tables. -/
theorem applyRotaryPosEmbMemcpy_q_rot {C : Type} (st : emb_gpt_impl_avx512)
    (rot : Nat → (Nat → C) → (Nat → C) → (Nat → bf16) → Nat → bf16)
    (q k v : ptr) (ldq ldk ldv : Nat) (qd : ptr) (kd vd : Nat → ptr)
    (batch n past stride : Nat) (cos sin : Nat → C) (m0 m : heap)
    (hi : st._input_type_size = 2) (ho : st._output_type_size = 2)
    (hsep : dst_separate batch qd kd vd) (hsrc : src_separate batch q.buf qd kd vd)
    (hlay : (past + n) * st._size_per_head_aligned ≤ stride)
    (hrd : st._rotary_dim ≤ st._size_per_head) (h64 : st._size_per_head < 2 ^ 64)
    (hsz : st._size_per_head ≤ st._size_per_head_aligned)
    (hm : ∀ o, m q.buf o = m0 q.buf o)
    (b h s i : Nat) (hb : b < batch) (hh : h < st._head_num) (hs : s < n)
    (hlt : i < st._rotary_dim) :
    load_bf16 (applyRotaryPosEmbMemcpy st rot q k v ldq ldk ldv qd kd vd batch n past stride
        cos sin m)
      (qd.add (2 * (((b * st._head_num + h) * n + s) * st._size_per_head_aligned))) i =
    rot st._rotary_dim (table_row cos st._rotary_dim (past + s))
        (table_row sin st._rotary_dim (past + s))
        (load_bf16 m0 (q.add (2 * (((b * n + s) * st._head_num + h) * ldq)))) i := by
  have e64 := size_sub_eq _ _ hrd h64
  rw [applyRotaryPosEmbMemcpy_eq _ _ _ _ _ _ _ _ _ _ _ _ _ _ _ _ _ _ hi ho]
  refine writer_run_observe _ qd kd vd batch st._head_num st._size_per_head_aligned n past
    stride (2 * st._size_per_head_aligned) 0 _ (2 * st._size_per_head) (fun x => x = q.buf)
    hsep (fun x hx => hx ▸ hsrc) hlay (Or.inr ⟨le_refl _, by omega⟩) (Or.inl rfl)
    (fun b2 _ h2 _ s2 _ m1 x o hne => rotary_writes_in_slots _ _ _ _ _ _ _ _ _ _ _ _ _ _ _ _ _
      _ _ _ _ _ _ hne)
    m0 b h s hb hh hs _ i
    (q_elem_in_slots qd kd vd _ _ n past stride b h s i 0 (by omega) (by omega))
    (q_elem_in_slots qd kd vd _ _ n past stride b h s i 1 (by omega) (by omega)) _ ?_ m
    (fun x hx o => hx ▸ hm o)
  intro m1 hm1
  change load_bf16 (rotary_writes _ _ _ _ _ _ _ _ _ _ _ _ m1) _ i = _
  rw [rotary_writes_q_rot rot _ _ _ _ _ (q.add _) (k.add _) (v.add _) (qd.add _) ((kd b).add _)
    ((vd b).add _) m1 i (hsep.1 b hb).1 (hsep.1 b hb).2 hlt]
  rw [load_congr_buf m1 m0 (q.add _) (fun o => hm1 q.buf rfl o)]

/-- After the one-track writer, the query elements `rotary_dim .. head_size - 1` of the slot
of `(b, h, s)` are the source elements. -/
theorem applyRotaryPosEmbMemcpy_q_copy {C : Type} (st : emb_gpt_impl_avx512)
    (rot : Nat → (Nat → C) → (Nat → C) → (Nat → bf16) → Nat → bf16)
    (q k v : ptr) (ldq ldk ldv : Nat) (qd : ptr) (kd vd : Nat → ptr)
    (batch n past stride : Nat) (cos sin : Nat → C) (m0 m : heap)
    (hi : st._input_type_size = 2) (ho : st._output_type_size = 2)
    (hsep : dst_separate batch qd kd vd) (hsrc : src_separate batch q.buf qd kd vd)
    (hlay : (past + n) * st._size_per_head_aligned ≤ stride)
    (hrd : st._rotary_dim ≤ st._size_per_head) (h64 : st._size_per_head < 2 ^ 64)
    (hsz : st._size_per_head ≤ st._size_per_head_aligned)
    (hm : ∀ o, m q.buf o = m0 q.buf o)
    (b h s i : Nat) (hb : b < batch) (hh : h < st._head_num) (hs : s < n)
    (hge : st._rotary_dim ≤ i) (hlt : i < st._size_per_head) :
    load_bf16 (applyRotaryPosEmbMemcpy st rot q k v ldq ldk ldv qd kd vd batch n past stride
        cos sin m)
      (qd.add (2 * (((b * st._head_num + h) * n + s) * st._size_per_head_aligned))) i =
    load_bf16 m0 (q.add (2 * (((b * n + s) * st._head_num + h) * ldq))) i := by
  have e64 := size_sub_eq _ _ hrd h64
  rw [applyRotaryPosEmbMemcpy_eq _ _ _ _ _ _ _ _ _ _ _ _ _ _ _ _ _ _ hi ho]
  refine writer_run_observe _ qd kd vd batch st._head_num st._size_per_head_aligned n past
    stride (2 * st._size_per_head_aligned) 0 _ (2 * st._size_per_head) (fun x => x = q.buf)
    hsep (fun x hx => hx ▸ hsrc) hlay (Or.inr ⟨le_refl _, by omega⟩) (Or.inl rfl)
    (fun b2 _ h2 _ s2 _ m1 x o hne => rotary_writes_in_slots _ _ _ _ _ _ _ _ _ _ _ _ _ _ _ _ _
      _ _ _ _ _ _ hne)
    m0 b h s hb hh hs _ i
    (q_elem_in_slots qd kd vd _ _ n past stride b h s i 0 (by omega) (by omega))
    (q_elem_in_slots qd kd vd _ _ n past stride b h s i 1 (by omega) (by omega)) _ ?_ m
    (fun x hx o => hx ▸ hm o)
  intro m1 hm1
  change load_bf16 (rotary_writes _ _ _ _ _ _ _ _ _ _ _ _ m1) _ i = _
  rw [rotary_writes_q_copy rot _ _ _ _ _ (q.add _) (k.add _) (v.add _) (qd.add _) ((kd b).add _)
    ((vd b).add _) m1 i (hsep.1 b hb).1 (hsep.1 b hb).2 hsrc.1 (hsrc.2 b hb).1 hge
    (by omega)]
  rw [load_congr_buf m1 m0 (q.add _) (fun o => hm1 q.buf rfl o)]

/-- After the one-track writer, the first `rotary_dim` key elements of the slot of
`(b, h, s)` are the source elements rotated by row `past + s` of the tables. -/
theorem applyRotaryPosEmbMemcpy_k_rot {C : Type} (st : emb_gpt_impl_avx512)
    (rot : Nat → (Nat → C) → (Nat → C) → (Nat → bf16) → Nat → bf16)
    (q k v : ptr) (ldq ldk ldv : Nat) (qd : ptr) (kd vd : Nat → ptr)
    (batch n past stride : Nat) (cos sin : Nat → C) (m0 m : heap)
    (hi : st._input_type_size = 2) (ho : st._output_type_size = 2)
    (hsep : dst_separate batch qd kd vd) (hsrc : src_separate batch k.buf qd kd vd)
    (hlay : (past + n) * st._size_per_head_aligned ≤ stride)
    (hrd : st._rotary_dim ≤ st._size_per_head) (h64 : st._size_per_head < 2 ^ 64)
    (hsz : st._size_per_head ≤ st._size_per_head_aligned)
    (hm : ∀ o, m k.buf o = m0 k.buf o)
    (b h s i : Nat) (hb : b < batch) (hh : h < st._head_num) (hs : s < n)
    (hlt : i < st._rotary_dim) :
    load_bf16 (applyRotaryPosEmbMemcpy st rot q k v ldq ldk ldv qd kd vd batch n past stride
        cos sin m)
      ((kd b).add (2 * (h * stride + (past + s) * st._size_per_head_aligned))) i =
    rot st._rotary_dim (table_row cos st._rotary_dim (past + s))
        (table_row sin st._rotary_dim (past + s))
        (load_bf16 m0 (k.add (2 * (((b * n + s) * st._head_num + h) * ldk)))) i := by
  have e64 := size_sub_eq _ _ hrd h64
  rw [applyRotaryPosEmbMemcpy_eq _ _ _ _ _ _ _ _ _ _ _ _ _ _ _ _ _ _ hi ho]
  refine writer_run_observe _ qd kd vd batch st._head_num st._size_per_head_aligned n past
    stride (2 * st._size_per_head_aligned) 0 _ (2 * st._size_per_head) (fun x => x = k.buf)
    hsep (fun x hx => hx ▸ hsrc) hlay (Or.inr ⟨le_refl _, by omega⟩) (Or.inl rfl)
    (fun b2 _ h2 _ s2 _ m1 x o hne => rotary_writes_in_slots _ _ _ _ _ _ _ _ _ _ _ _ _ _ _ _ _
      _ _ _ _ _ _ hne)
    m0 b h s hb hh hs _ i
    (k_elem_in_slots qd kd vd _ _ n past stride b h s i 0 (by omega) (by omega))
    (k_elem_in_slots qd kd vd _ _ n past stride b h s i 1 (by omega) (by omega)) _ ?_ m
    (fun x hx o => hx ▸ hm o)
  intro m1 hm1
  change load_bf16 (rotary_writes _ _ _ _ _ _ _ _ _ _ _ _ m1) _ i = _
  rw [rotary_writes_k_rot rot _ _ _ _ _ (q.add _) (k.add _) (v.add _) (qd.add _) ((kd b).add _)
    ((vd b).add _) m1 i (Ne.symm (hsep.1 b hb).1) (hsep.2.1 b hb b hb) hlt]
  rw [load_congr_buf m1 m0 (k.add _) (fun o => hm1 k.buf rfl o)]

/-- After the one-track writer, the key elements `rotary_dim .. head_size - 1` of the slot of
`(b, h, s)` are the source elements. -/
theorem applyRotaryPosEmbMemcpy_k_copy {C : Type} (st : emb_gpt_impl_avx512)
    (rot : Nat → (Nat → C) → (Nat → C) → (Nat → bf16) → Nat → bf16)
    (q k v : ptr) (ldq ldk ldv : Nat) (qd : ptr) (kd vd : Nat → ptr)
    (batch n past stride : Nat) (cos sin : Nat → C) (m0 m : heap)
    (hi : st._input_type_size = 2) (ho : st._output_type_size = 2)
    (hsep : dst_separate batch qd kd vd) (hsrc : src_separate batch k.buf qd kd vd)
    (hlay : (past + n) * st._size_per_head_aligned ≤ stride)
    (hrd : st._rotary_dim ≤ st._size_per_head) (h64 : st._size_per_head < 2 ^ 64)
    (hsz : st._size_per_head ≤ st._size_per_head_aligned)
    (hm : ∀ o, m k.buf o = m0 k.buf o)
    (b h s i : Nat) (hb : b < batch) (hh : h < st._head_num) (hs : s < n)
    (hge : st._rotary_dim ≤ i) (hlt : i < st._size_per_head) :
    load_bf16 (applyRotaryPosEmbMemcpy st rot q k v ldq ldk ldv qd kd vd batch n past stride
        cos sin m)
      ((kd b).add (2 * (h * stride + (past + s) * st._size_per_head_aligned))) i =
    load_bf16 m0 (k.add (2 * (((b * n + s) * st._head_num + h) * ldk))) i := by
  have e64 := size_sub_eq _ _ hrd h64
  rw [applyRotaryPosEmbMemcpy_eq _ _ _ _ _ _ _ _ _ _ _ _ _ _ _ _ _ _ hi ho]
  refine writer_run_observe _ qd kd vd batch st._head_num st._size_per_head_aligned n past
    stride (2 * st._size_per_head_aligned) 0 _ (2 * st._size_per_head) (fun x => x = k.buf)
    hsep (fun x hx => hx ▸ hsrc) hlay (Or.inr ⟨le_refl _, by omega⟩) (Or.inl rfl)
    (fun b2 _ h2 _ s2 _ m1 x o hne => rotary_writes_in_slots _ _ _ _ _ _ _ _ _ _ _ _ _ _ _ _ _
      _ _ _ _ _ _ hne)
    m0 b h s hb hh hs _ i
    (k_elem_in_slots qd kd vd _ _ n past stride b h s i 0 (by omega) (by omega))
    (k_elem_in_slots qd kd vd _ _ n past stride b h s i 1 (by omega) (by omega)) _ ?_ m
    (fun x hx o => hx ▸ hm o)
  intro m1 hm1
  change load_bf16 (rotary_writes _ _ _ _ _ _ _ _ _ _ _ _ m1) _ i = _
  rw [rotary_writes_k_copy rot _ _ _ _ _ (q.add _) (k.add _) (v.add _) (qd.add _) ((kd b).add _)
    ((vd b).add _) m1 i (hsep.2.1 b hb b hb) hsrc.1 (hsrc.2 b hb).1 hge (by omega)]
  rw [load_congr_buf m1 m0 (k.add _) (fun o => hm1 k.buf rfl o)]

/-- After the two-track writer, the value elements of the slot of `(b, h, s)` are the source
value elements. -/
theorem applyRotaryPosEmbMemcpyWithPosition2d_v {C : Type} (st : emb_gpt_impl_avx512)
    (rot : Nat → (Nat → C) → (Nat → C) → (Nat → bf16) → Nat → bf16)
    (q k v : ptr) (ldq ldk ldv : Nat) (qd : ptr) (kd vd : Nat → ptr)
    (batch n past stride : Nat) (ids : Nat → Int) (cos sin : Nat → C) (m0 m : heap)
    (hi : st._input_type_size = 2) (ho : st._output_type_size = 2)
    (hsep : dst_separate batch qd kd vd) (hsrc : src_separate batch v.buf qd kd vd)
    (hlay : (past + n) * st._size_per_head_aligned ≤ stride)
    (hsz : st._size_per_head ≤ st._size_per_head_aligned)
    (hm : ∀ o, m v.buf o = m0 v.buf o)
    (b h s i : Nat) (hb : b < batch) (hh : h < st._head_num) (hs : s < n)
    (hlt : i < st._size_per_head) :
    load_bf16 (applyRotaryPosEmbMemcpyWithPosition2d st rot q k v ldq ldk ldv qd kd vd batch n
        past ids stride cos sin m)
      ((vd b).add (2 * (h * stride + (past + s) * st._size_per_head_aligned))) i =
    load_bf16 m0 (v.add (2 * (((b * n + s) * st._head_num + h) * ldv))) i := by
  rw [applyRotaryPosEmbMemcpyWithPosition2d_eq _ _ _ _ _ _ _ _ _ _ _ _ _ _ _ _ _ _ _ hi ho]
  refine writer_run_observe _ qd kd vd batch st._head_num st._size_per_head_aligned n past
    stride 0 (2 * st._size_per_head_aligned) _ (2 * st._size_per_head) (fun x => x = v.buf)
    hsep (fun x hx => hx ▸ hsrc) hlay (Or.inl rfl) (Or.inr ⟨le_refl _, by omega⟩)
    (fun b2 _ h2 _ s2 _ m1 x o hne => rotary_writes2d_in_slots _ _ _ _ _ _ _ _ _ _ _ _ _ _ _ _
      _ _ _ _ _ _ _ _ hne)
    m0 b h s hb hh hs _ (i)
    (v_elem_in_slots qd kd vd _ _ n past stride b h s (i) 0 (by omega) (by omega))
    (v_elem_in_slots qd kd vd _ _ n past stride b h s (i) 1 (by omega) (by omega)) _ ?_ m
    (fun x hx o => hx ▸ hm o)
  intro m1 hm1
  change load_bf16 (rotary_writes2d _ _ _ _ _ _ _ _ _ _ _ _ _ m1) _ (i) = _
  rw [rotary_writes2d_v rot _ _ _ _ _ _ (q.add _) (k.add _) (v.add _) (qd.add _) ((kd b).add _)
    ((vd b).add _) m1 i hsrc.1 (hsrc.2 b hb).1 (by omega)]
  rw [load_congr_buf m1 m0 (v.add _) (fun o => hm1 v.buf rfl o)]

/-- After the two-track writer, the first `rotary_dim` query elements of the slot of
`(b, h, s)` are the source elements rotated by the table row of the first position id. -/
theorem applyRotaryPosEmbMemcpyWithPosition2d_q0 {C : Type} (st : emb_gpt_impl_avx512)
    (rot : Nat → (Nat → C) → (Nat → C) → (Nat → bf16) → Nat → bf16)
    (q k v : ptr) (ldq ldk ldv : Nat) (qd : ptr) (kd vd : Nat → ptr)
    (batch n past stride : Nat) (ids : Nat → Int) (cos sin : Nat → C) (m0 m : heap)
    (hi : st._input_type_size = 2) (ho : st._output_type_size = 2)
    (hsep : dst_separate batch qd kd vd) (hsrc : src_separate batch q.buf qd kd vd)
    (hlay : (past + n) * st._size_per_head_aligned ≤ stride)
    (h2rd : 2 * st._rotary_dim ≤ st._size_per_head_aligned)
    (hm : ∀ o, m q.buf o = m0 q.buf o)
    (b h s i : Nat) (hb : b < batch) (hh : h < st._head_num) (hs : s < n)
    (hlt : i < st._rotary_dim) :
    load_bf16 (applyRotaryPosEmbMemcpyWithPosition2d st rot q k v ldq ldk ldv qd kd vd batch n
        past ids stride cos sin m)
      (qd.add (2 * (((b * st._head_num + h) * n + s) * st._size_per_head_aligned))) i =
    rot st._rotary_dim (table_row cos st._rotary_dim (id_to_size_t (ids ((b * 2 + 0) * n + s))))
        (table_row sin st._rotary_dim (id_to_size_t (ids ((b * 2 + 0) * n + s))))
        (load_bf16 m0 (q.add (2 * (((b * n + s) * st._head_num + h) * ldq)))) i := by
  rw [applyRotaryPosEmbMemcpyWithPosition2d_eq _ _ _ _ _ _ _ _ _ _ _ _ _ _ _ _ _ _ _ hi ho]
  refine writer_run_observe _ qd kd vd batch st._head_num st._size_per_head_aligned n past
    stride (2 * st._size_per_head_aligned) 0 _ (2 * st._size_per_head) (fun x => x = q.buf)
    hsep (fun x hx => hx ▸ hsrc) hlay (Or.inr ⟨le_refl _, by omega⟩) (Or.inl rfl)
    (fun b2 _ h2 _ s2 _ m1 x o hne => rotary_writes2d_in_slots _ _ _ _ _ _ _ _ _ _ _ _ _ _ _ _
      _ _ _ _ _ _ _ _ hne)
    m0 b h s hb hh hs _ (i)
    (q_elem_in_slots qd kd vd _ _ n past stride b h s (i) 0 (by omega) (by omega))
    (q_elem_in_slots qd kd vd _ _ n past stride b h s (i) 1 (by omega) (by omega)) _ ?_ m
    (fun x hx o => hx ▸ hm o)
  intro m1 hm1
  change load_bf16 (rotary_writes2d _ _ _ _ _ _ _ _ _ _ _ _ _ m1) _ (i) = _
  rw [rotary_writes2d_q0 rot _ _ _ _ _ _ (q.add _) (k.add _) (v.add _) (qd.add _) ((kd b).add _)
    ((vd b).add _) m1 i (hsep.1 b hb).1 (hsep.1 b hb).2 hlt]
  rw [load_congr_buf m1 m0 (q.add _) (fun o => hm1 q.buf rfl o)]

/-- After the two-track writer, the query elements `rotary_dim .. 2 * rotary_dim - 1` of the
slot of `(b, h, s)` are the source elements of these indices rotated by the table row of the
second position id. -/
theorem applyRotaryPosEmbMemcpyWithPosition2d_q1 {C : Type} (st : emb_gpt_impl_avx512)
    (rot : Nat → (Nat → C) → (Nat → C) → (Nat → bf16) → Nat → bf16)
    (q k v : ptr) (ldq ldk ldv : Nat) (qd : ptr) (kd vd : Nat → ptr)
    (batch n past stride : Nat) (ids : Nat → Int) (cos sin : Nat → C) (m0 m : heap)
    (hi : st._input_type_size = 2) (ho : st._output_type_size = 2)
    (hsep : dst_separate batch qd kd vd) (hsrc : src_separate batch q.buf qd kd vd)
    (hlay : (past + n) * st._size_per_head_aligned ≤ stride)
    (h2rd : 2 * st._rotary_dim ≤ st._size_per_head_aligned)
    (hm : ∀ o, m q.buf o = m0 q.buf o)
    (b h s i : Nat) (hb : b < batch) (hh : h < st._head_num) (hs : s < n)
    (hlt : i < st._rotary_dim) :
    load_bf16 (applyRotaryPosEmbMemcpyWithPosition2d st rot q k v ldq ldk ldv qd kd vd batch n
        past ids stride cos sin m)
      (qd.add (2 * (((b * st._head_num + h) * n + s) * st._size_per_head_aligned))) (st._rotary_dim + i) =
    rot st._rotary_dim (table_row cos st._rotary_dim (id_to_size_t (ids ((b * 2 + 1) * n + s))))
        (table_row sin st._rotary_dim (id_to_size_t (ids ((b * 2 + 1) * n + s))))
        (load_bf16 m0 ((q.add (2 * (((b * n + s) * st._head_num + h) * ldq))).add (2 * st._rotary_dim))) i := by
  rw [applyRotaryPosEmbMemcpyWithPosition2d_eq _ _ _ _ _ _ _ _ _ _ _ _ _ _ _ _ _ _ _ hi ho]
  refine writer_run_observe _ qd kd vd batch st._head_num st._size_per_head_aligned n past
    stride (2 * st._size_per_head_aligned) 0 _ (2 * st._size_per_head) (fun x => x = q.buf)
    hsep (fun x hx => hx ▸ hsrc) hlay (Or.inr ⟨le_refl _, by omega⟩) (Or.inl rfl)
    (fun b2 _ h2 _ s2 _ m1 x o hne => rotary_writes2d_in_slots _ _ _ _ _ _ _ _ _ _ _ _ _ _ _ _
      _ _ _ _ _ _ _ _ hne)
    m0 b h s hb hh hs _ (st._rotary_dim + i)
    (q_elem_in_slots qd kd vd _ _ n past stride b h s (st._rotary_dim + i) 0 (by omega) (by omega))
    (q_elem_in_slots qd kd vd _ _ n past stride b h s (st._rotary_dim + i) 1 (by omega) (by omega)) _ ?_ m
    (fun x hx o => hx ▸ hm o)
  intro m1 hm1
  change load_bf16 (rotary_writes2d _ _ _ _ _ _ _ _ _ _ _ _ _ m1) _ (st._rotary_dim + i) = _
  rw [rotary_writes2d_q1 rot _ _ _ _ _ _ (q.add _) (k.add _) (v.add _) (qd.add _) ((kd b).add _)
    ((vd b).add _) m1 i (hsep.1 b hb).1 (hsep.1 b hb).2 hsrc.1 (hsrc.2 b hb).1 hlt]
  rw [load_congr_buf m1 m0 ((q.add _).add _) (fun o => hm1 q.buf rfl o)]

/-- After the two-track writer, the first `rotary_dim` key elements of the slot of
`(b, h, s)` are the source elements rotated by the table row of the first position id. -/
theorem applyRotaryPosEmbMemcpyWithPosition2d_k0 {C : Type} (st : emb_gpt_impl_avx512)
    (rot : Nat → (Nat → C) → (Nat → C) → (Nat → bf16) → Nat → bf16)
    (q k v : ptr) (ldq ldk ldv : Nat) (qd : ptr) (kd vd : Nat → ptr)
    (batch n past stride : Nat) (ids : Nat → Int) (cos sin : Nat → C) (m0 m : heap)
    (hi : st._input_type_size = 2) (ho : st._output_type_size = 2)
    (hsep : dst_separate batch qd kd vd) (hsrc : src_separate batch k.buf qd kd vd)
    (hlay : (past + n) * st._size_per_head_aligned ≤ stride)
    (h2rd : 2 * st._rotary_dim ≤ st._size_per_head_aligned)
    (hm : ∀ o, m k.buf o = m0 k.buf o)
    (b h s i : Nat) (hb : b < batch) (hh : h < st._head_num) (hs : s < n)
    (hlt : i < st._rotary_dim) :
    load_bf16 (applyRotaryPosEmbMemcpyWithPosition2d st rot q k v ldq ldk ldv qd kd vd batch n
        past ids stride cos sin m)
      ((kd b).add (2 * (h * stride + (past + s) * st._size_per_head_aligned))) i =
    rot st._rotary_dim (table_row cos st._rotary_dim (id_to_size_t (ids ((b * 2 + 0) * n + s))))
        (table_row sin st._rotary_dim (id_to_size_t (ids ((b * 2 + 0) * n + s))))
        (load_bf16 m0 (k.add (2 * (((b * n + s) * st._head_num + h) * ldk)))) i := by
  rw [applyRotaryPosEmbMemcpyWithPosition2d_eq _ _ _ _ _ _ _ _ _ _ _ _ _ _ _ _ _ _ _ hi ho]
  refine writer_run_observe _ qd kd vd batch st._head_num st._size_per_head_aligned n past
    stride (2 * st._size_per_head_aligned) 0 _ (2 * st._size_per_head) (fun x => x = k.buf)
    hsep (fun x hx => hx ▸ hsrc) hlay (Or.inr ⟨le_refl _, by omega⟩) (Or.inl rfl)
    (fun b2 _ h2 _ s2 _ m1 x o hne => rotary_writes2d_in_slots _ _ _ _ _ _ _ _ _ _ _ _ _ _ _ _
      _ _ _ _ _ _ _ _ hne)
    m0 b h s hb hh hs _ (i)
    (k_elem_in_slots qd kd vd _ _ n past stride b h s (i) 0 (by omega) (by omega))
    (k_elem_in_slots qd kd vd _ _ n past stride b h s (i) 1 (by omega) (by omega)) _ ?_ m
    (fun x hx o => hx ▸ hm o)
  intro m1 hm1
  change load_bf16 (rotary_writes2d _ _ _ _ _ _ _ _ _ _ _ _ _ m1) _ (i) = _
  rw [rotary_writes2d_k0 rot _ _ _ _ _ _ (q.add _) (k.add _) (v.add _) (qd.add _) ((kd b).add _)
    ((vd b).add _) m1 i (Ne.symm (hsep.1 b hb).1) (hsep.2.1 b hb b hb) hlt]
  rw [load_congr_buf m1 m0 (k.add _) (fun o => hm1 k.buf rfl o)]

/-- After the two-track writer, the key elements `rotary_dim .. 2 * rotary_dim - 1` of the
slot of `(b, h, s)` are the source elements of these indices rotated by the table row of the
second position id. -/
theorem applyRotaryPosEmbMemcpyWithPosition2d_k1 {C : Type} (st : emb_gpt_impl_avx512)
    (rot : Nat → (Nat → C) → (Nat → C) → (Nat → bf16) → Nat → bf16)
    (q k v : ptr) (ldq ldk ldv : Nat) (qd : ptr) (kd vd : Nat → ptr)
    (batch n past stride : Nat) (ids : Nat → Int) (cos sin : Nat → C) (m0 m : heap)
    (hi : st._input_type_size = 2) (ho : st._output_type_size = 2)
    (hsep : dst_separate batch qd kd vd) (hsrc : src_separate batch k.buf qd kd vd)
    (hlay : (past + n) * st._size_per_head_aligned ≤ stride)
    (h2rd : 2 * st._rotary_dim ≤ st._size_per_head_aligned)
    (hm : ∀ o, m k.buf o = m0 k.buf o)
    (b h s i : Nat) (hb : b < batch) (hh : h < st._head_num) (hs : s < n)
    (hlt : i < st._rotary_dim) :
    load_bf16 (applyRotaryPosEmbMemcpyWithPosition2d st rot q k v ldq ldk ldv qd kd vd batch n
        past ids stride cos sin m)
      ((kd b).add (2 * (h * stride + (past + s) * st._size_per_head_aligned))) (st._rotary_dim + i) =
    rot st._rotary_dim (table_row cos st._rotary_dim (id_to_size_t (ids ((b * 2 + 1) * n + s))))
        (table_row sin st._rotary_dim (id_to_size_t (ids ((b * 2 + 1) * n + s))))
        (load_bf16 m0 ((k.add (2 * (((b * n + s) * st._head_num + h) * ldk))).add (2 * st._rotary_dim))) i := by
  rw [applyRotaryPosEmbMemcpyWithPosition2d_eq _ _ _ _ _ _ _ _ _ _ _ _ _ _ _ _ _ _ _ hi ho]
  refine writer_run_observe _ qd kd vd batch st._head_num st._size_per_head_aligned n past
    stride (2 * st._size_per_head_aligned) 0 _ (2 * st._size_per_head) (fun x => x = k.buf)
    hsep (fun x hx => hx ▸ hsrc) hlay (Or.inr ⟨le_refl _, by omega⟩) (Or.inl rfl)
    (fun b2 _ h2 _ s2 _ m1 x o hne => rotary_writes2d_in_slots _ _ _ _ _ _ _ _ _ _ _ _ _ _ _ _
      _ _ _ _ _ _ _ _ hne)
    m0 b h s hb hh hs _ (st._rotary_dim + i)
    (k_elem_in_slots qd kd vd _ _ n past stride b h s (st._rotary_dim + i) 0 (by omega) (by omega))
    (k_elem_in_slots qd kd vd _ _ n past stride b h s (st._rotary_dim + i) 1 (by omega) (by omega)) _ ?_ m
    (fun x hx o => hx ▸ hm o)
  intro m1 hm1
  change load_bf16 (rotary_writes2d _ _ _ _ _ _ _ _ _ _ _ _ _ m1) _ (st._rotary_dim + i) = _
  rw [rotary_writes2d_k1 rot _ _ _ _ _ _ (q.add _) (k.add _) (v.add _) (qd.add _) ((kd b).add _)
    ((vd b).add _) m1 i hsrc.1 (hsrc.2 b hb).1 (hsep.2.1 b hb b hb) hlt]
  rw [load_congr_buf m1 m0 ((k.add _).add _) (fun o => hm1 k.buf rfl o)]

/-- The object `create` leaves when the input precision is bf16. -/
theorem emb_create_state (self : emb_gpt_impl_avx512) (cp : emb_gpt.create_param)
    (hq : cp.qkv_precision = dnnl_bf16) :
    (self.create cp).2 =
      { _create_param := cp
        _head_num := cp.num_heads
        _size_per_head := cp.head_size
        _size_per_head_aligned := cp.head_size_aligned
        _hidden_size := cp.head_size * cp.num_heads
        _rotary_dim := cp.rotary_dims
        _input_type_size := 2
        _output_type_size := if cp.dst_precision = dnnl_s8 then 1 else 2
        _use_position2d := cp.use_position2d } := by
  unfold emb_gpt_impl_avx512.create
  simp [hq]

/-- The carry-forward copy changes no byte outside the destination caches. -/
theorem exec_copy_keeps {C : Type} (st : emb_gpt_impl_avx512) (param : exec_param C)
    (m : heap) (x o : Nat)
    (hx : ∀ b, b < param.batch →
      x ≠ (param.layer_past_key_dst b).buf ∧ x ≠ (param.layer_past_value_dst b).buf) :
    exec_copy st param m x o = m x o := by
  by_contra hne
  unfold exec_copy at hne
  cases hsrc : param.layer_past_key_src with
  | none =>
    rw [hsrc] at hne
    exact hne rfl
  | some key_src =>
    rw [hsrc] at hne
    simp only at hne
    by_cases hcp : copies_past param = true
    · rw [if_pos hcp] at hne
      obtain ⟨b, hb, _, _, _, _, _, _, hcase⟩ := memcpyPastKV_changed _ _ _ _ _ _ _ _ _ _ _ hne
      rcases hcase with ⟨e, _⟩ | ⟨e, _⟩
      · exact (hx b hb).1 e
      · exact (hx b hb).2 e
    · rw [if_neg hcp] at hne
      exact hne rfl

/-- Without an int8 destination, `exec` is the carry-forward copy followed by one of the two
writers. -/
theorem exec_writer_eq {C : Type} (st : emb_gpt_impl_avx512)
    (rot : Nat → (Nat → C) → (Nat → C) → (Nat → bf16) → Nat → bf16)
    (param : exec_param C) (m : heap) (hd : st._create_param.dst_precision ≠ dnnl_s8) :
    exec st rot param m =
      if st._use_position2d then
        (exec_path.position2d,
          applyRotaryPosEmbMemcpyWithPosition2d st rot param.q param.k param.v param.ldq
            param.ldk param.ldv param.query_dst param.layer_past_key_dst
            param.layer_past_value_dst param.batch param.query_seq_len param.past_seq_len
            param.position2d_ids param.head_stride_in_kv param.cos param.sin
            (exec_copy st param m))
      else
        (exec_path.rotary,
          applyRotaryPosEmbMemcpy st rot param.q param.k param.v param.ldq param.ldk param.ldv
            param.query_dst param.layer_past_key_dst param.layer_past_value_dst param.batch
            param.query_seq_len param.past_seq_len param.head_stride_in_kv param.cos param.sin
            (exec_copy st param m)) := by
  unfold exec
  simp only [if_neg hd]

/-- Every byte the writer stage of `exec` changes lies in a range of an index triple: the
first `n_qk` bytes of a slot of the query destination or of a key cache, with `n_qk` the
bytes of `head_size` elements for the one-track writer and of `2 * rotary_dim` elements for
the two-track writer, or the first `head_size` elements of a slot of a value cache. -/
theorem exec_writer_changed {C : Type} (st : emb_gpt_impl_avx512)
    (rot : Nat → (Nat → C) → (Nat → C) → (Nat → bf16) → Nat → bf16)
    (param : exec_param C) (m : heap) (hd : st._create_param.dst_precision ≠ dnnl_s8)
    (hi : st._input_type_size = 2) (ho : st._output_type_size = 2) (x o : Nat)
    (hne : (exec st rot param m).2 x o ≠ exec_copy st param m x o) :
    ∃ b, b < param.batch ∧ ∃ h, h < st._head_num ∧ ∃ s, s < param.query_seq_len ∧
      in_slots param.query_dst param.layer_past_key_dst param.layer_past_value_dst
        st._head_num st._size_per_head_aligned param.query_seq_len param.past_seq_len
        param.head_stride_in_kv
        (if st._use_position2d then 4 * st._rotary_dim
          else 2 * st._rotary_dim + 2 * size_sub st._size_per_head st._rotary_dim)
        (2 * st._size_per_head) b h s x o := by
  rw [exec_writer_eq st rot param m hd] at hne
  by_cases h2 : st._use_position2d = true
  · rw [if_pos h2] at hne ⊢
    simp only at hne
    rw [applyRotaryPosEmbMemcpyWithPosition2d_eq _ _ _ _ _ _ _ _ _ _ _ _ _ _ _ _ _ _ _ hi ho]
      at hne
    exact writer_run_changed _ _ _ _ _ _ _ _ _ _ _ _
      (fun b2 _ h2 _ s2 _ m1 x o hne => rotary_writes2d_in_slots _ _ _ _ _ _ _ _ _ _ _ _ _ _ _
        _ _ _ _ _ _ _ _ _ hne) _ _ _ hne
  · rw [if_neg h2] at hne ⊢
    simp only at hne
    rw [applyRotaryPosEmbMemcpy_eq _ _ _ _ _ _ _ _ _ _ _ _ _ _ _ _ _ _ hi ho] at hne
    exact writer_run_changed _ _ _ _ _ _ _ _ _ _ _ _
      (fun b2 _ h2 _ s2 _ m1 x o hne => rotary_writes_in_slots _ _ _ _ _ _ _ _ _ _ _ _ _ _ _ _
        _ _ _ _ _ _ _ hne) _ _ _ hne

/-- The fields of the object `create` leaves when the input precision is bf16. -/
theorem emb_create_fields (self : emb_gpt_impl_avx512) (cp : emb_gpt.create_param)
    (hq : cp.qkv_precision = dnnl_bf16) :
    (self.create cp).2._create_param = cp ∧
    (self.create cp).2._head_num = cp.num_heads ∧
    (self.create cp).2._size_per_head = cp.head_size ∧
    (self.create cp).2._size_per_head_aligned = cp.head_size_aligned ∧
    (self.create cp).2._rotary_dim = cp.rotary_dims ∧
    (self.create cp).2._input_type_size = 2 ∧
    (self.create cp).2._output_type_size = (if cp.dst_precision = dnnl_s8 then 1 else 2) ∧
    (self.create cp).2._use_position2d = cp.use_position2d := by
  rw [emb_create_state self cp hq]
  exact ⟨rfl, rfl, rfl, rfl, rfl, rfl, rfl, rfl⟩

/-- A range of an index triple lies in every longer range of the triple. -/
theorem in_slots_mono (qd : ptr) (kd vd : Nat → ptr)
    (nh hsa n past stride L1 L2 L3 L4 b h s x o : Nat) (h1 : L1 ≤ L3) (h2 : L2 ≤ L4)
    (t : in_slots qd kd vd nh hsa n past stride L1 L2 b h s x o) :
    in_slots qd kd vd nh hsa n past stride L3 L4 b h s x o := by
  rcases t with ⟨e, a1, a2⟩ | ⟨e, a1, a2⟩ | ⟨e, a1, a2⟩
  · exact Or.inl ⟨e, a1, by omega⟩
  · exact Or.inr (Or.inl ⟨e, a1, by omega⟩)
  · exact Or.inr (Or.inr ⟨e, a1, by omega⟩)

/-- Without previous caches, or with previous caches that are the destination caches, `exec`
copies nothing. -/
theorem exec_copy_same {C : Type} (st : emb_gpt_impl_avx512) (param : exec_param C) (m : heap)
    (hsrc : param.layer_past_key_src = none ∨
      ∃ ks, param.layer_past_key_src = some ks ∧
        ∀ b, b < param.batch → ks b = param.layer_past_key_dst b) :
    exec_copy st param m = m := by
  unfold exec_copy
  rcases hsrc with h | ⟨ks, h, hks⟩
  · rw [h]
  · rw [h]
    simp only
    by_cases hb : 0 < param.batch
    · have hcp : copies_past param = false := by
        unfold copies_past
        rw [h]
        simp [hks 0 hb]
      rw [hcp]
      rfl
    · have hb0 : param.batch = 0 := by omega
      split
      · unfold memcpyPastKV
        rw [hb0]
        rfl
      · rfl

/-- The destination buffers of the call parameters `emb_param` are separate. -/
theorem emb_param_dst_separate :
    dst_separate examples.emb_param.batch examples.emb_param.query_dst
      examples.emb_param.layer_past_key_dst examples.emb_param.layer_past_value_dst := by
  unfold dst_separate
  decide

/-- The source buffer of the call parameters `emb_param` is none of the destination
buffers. -/
theorem emb_param_src_separate :
    src_separate examples.emb_param.batch 0 examples.emb_param.query_dst
      examples.emb_param.layer_past_key_dst examples.emb_param.layer_past_value_dst := by
  unfold src_separate
  decide

/-- C13. On an object left by `create`: when no previous caches are given, or the previous
key caches are the destination key caches, and `rotary_dims ≤ head_size ≤ head_size_aligned`,
the head stride holds `past_seq_len + query_seq_len` slots (and `2 * rotary_dims ≤
head_size_aligned` for the two-track writer), with the destination buffers separate
allocations, every byte `exec` changes lies in the slot of a new position
`past_seq_len + s` of the query destination, a key cache or a value cache, and every byte of
the slot of a cached position `s < past_seq_len` of every head of every key and value cache
is left as it was (`w` is the width of a destination element). -/
theorem emb_exec_keeps_cached (self : emb_gpt_impl_avx512) (cp : emb_gpt.create_param)
    (C : Type) (rot : Nat → (Nat → C) → (Nat → C) → (Nat → bf16) → Nat → bf16)
    (param : exec_param C) (m : heap)
    (hq : cp.qkv_precision = dnnl_bf16)
    (hsrc : param.layer_past_key_src = none ∨
      ∃ ks, param.layer_past_key_src = some ks ∧
        ∀ b, b < param.batch → ks b = param.layer_past_key_dst b)
    (hrd : cp.rotary_dims ≤ cp.head_size) (hsz : cp.head_size ≤ cp.head_size_aligned)
    (h64 : cp.head_size < 2 ^ 64)
    (hlay : (param.past_seq_len + param.query_seq_len) * cp.head_size_aligned ≤
      param.head_stride_in_kv)
    (h2d : cp.use_position2d = true → 2 * cp.rotary_dims ≤ cp.head_size_aligned)
    (hsep : dst_separate param.batch param.query_dst param.layer_past_key_dst
      param.layer_past_value_dst) :
    (∀ x o, (exec (self.create cp).2 rot param m).2 x o ≠ m x o →
      ∃ b, b < param.batch ∧ ∃ h, h < cp.num_heads ∧ ∃ s, s < param.query_seq_len ∧
        in_slots param.query_dst param.layer_past_key_dst param.layer_past_value_dst
          cp.num_heads cp.head_size_aligned param.query_seq_len param.past_seq_len
          param.head_stride_in_kv (2 * cp.head_size_aligned) (2 * cp.head_size_aligned)
          b h s x o) ∧
    ∀ w, w = (self.create cp).2._output_type_size →
      ∀ b, b < param.batch → ∀ h s, s < param.past_seq_len →
        ∀ j, j < w * cp.head_size_aligned →
          (exec (self.create cp).2 rot param m).2 (param.layer_past_key_dst b).buf
              ((param.layer_past_key_dst b).off +
                w * (h * param.head_stride_in_kv + s * cp.head_size_aligned) + j) =
            m (param.layer_past_key_dst b).buf
              ((param.layer_past_key_dst b).off +
                w * (h * param.head_stride_in_kv + s * cp.head_size_aligned) + j) ∧
          (exec (self.create cp).2 rot param m).2 (param.layer_past_value_dst b).buf
              ((param.layer_past_value_dst b).off +
                w * (h * param.head_stride_in_kv + s * cp.head_size_aligned) + j) =
            m (param.layer_past_value_dst b).buf
              ((param.layer_past_value_dst b).off +
                w * (h * param.head_stride_in_kv + s * cp.head_size_aligned) + j) := by
  obtain ⟨f1, f2, f3, f4, f5, f6, f7, f8⟩ := emb_create_fields self cp hq
  have hcopy := exec_copy_same (self.create cp).2 param m hsrc
  by_cases hd : cp.dst_precision = dnnl_s8
  · have hex : (exec (self.create cp).2 rot param m).2 = m := by
      unfold exec
      simp only [f1, hd, if_true, hcopy]
    rw [hex]
    exact ⟨fun x o hne => absurd rfl hne, fun _ _ _ _ _ _ _ _ _ => ⟨rfl, rfl⟩⟩
  · rw [if_neg hd] at f7
    have foot : ∀ x o, (exec (self.create cp).2 rot param m).2 x o ≠ m x o →
        ∃ b, b < param.batch ∧ ∃ h, h < cp.num_heads ∧ ∃ s, s < param.query_seq_len ∧
          in_slots param.query_dst param.layer_past_key_dst param.layer_past_value_dst
            cp.num_heads cp.head_size_aligned param.query_seq_len param.past_seq_len
            param.head_stride_in_kv (2 * cp.head_size_aligned) (2 * cp.head_size_aligned)
            b h s x o := by
      intro x o hne
      have hne2 : (exec (self.create cp).2 rot param m).2 x o ≠
          exec_copy (self.create cp).2 param m x o := by rw [hcopy]; exact hne
      obtain ⟨b, hb, h, hh, s, hs, hin⟩ := exec_writer_changed (self.create cp).2 rot param m
        (by rw [f1]; exact hd) f6 f7 x o hne2
      rw [f2, f3, f4, f5, f8] at hin
      rw [f2] at hh
      refine ⟨b, hb, h, hh, s, hs, in_slots_mono _ _ _ _ _ _ _ _ _ _ _ _ _ _ _ _ _ ?_ ?_ hin⟩
      · have e64 := size_sub_eq _ _ hrd h64
        split
        · rename_i h2
          have := h2d h2
          omega
        · omega
      · omega
    refine ⟨foot, ?_⟩
    intro w hw b hb h s hs j hj
    rw [f7] at hw
    subst hw
    have hno := fun b2 hb2 h2 s2 hs2 => cached_not_in_slots param.query_dst
      param.layer_past_key_dst param.layer_past_value_dst param.batch cp.num_heads
      cp.head_size_aligned param.query_seq_len param.past_seq_len param.head_stride_in_kv
      (2 * cp.head_size_aligned) (2 * cp.head_size_aligned) b h s j b2 h2 s2 hsep hlay
      (le_refl _) (le_refl _) hb hs hj hb2 hs2
    constructor
    · by_contra hne
      obtain ⟨b2, hb2, h2, _, s2, hs2, hin⟩ := foot _ _ hne
      exact (hno b2 hb2 h2 s2 hs2).1 hin
    · by_contra hne
      obtain ⟨b2, hb2, h2, _, s2, hs2, hin⟩ := foot _ _ hne
      exact (hno b2 hb2 h2 s2 hs2).2 hin

/-- The call `emb_param_fresh` on the one-track configuration `emb_cfg_bf16`: the four bytes
of the first two key elements of the cached position of head 1 of batch element 1 are
left as they were. -/
theorem emb_exec_keeps_cached_witness :
    (exec (examples.writer0.create examples.emb_cfg_bf16).2 examples.rot_mark
        examples.emb_param_fresh examples.emb_heap).2 31 (0 + 2 * (1 * 8 + 0 * 4) + 3) =
      examples.emb_heap 31 (0 + 2 * (1 * 8 + 0 * 4) + 3) :=
  ((emb_exec_keeps_cached examples.writer0 examples.emb_cfg_bf16 ℚ examples.rot_mark
    examples.emb_param_fresh examples.emb_heap rfl (Or.inl rfl) (by decide) (by decide)
    (by decide) (by decide) (by decide) emb_param_dst_separate).2 2 rfl 1 (by decide) 1 0 (by decide) 3
    (by decide)).1

/-- After `memcpyPastKV`, with slots that hold a head vector, a head stride that holds the
cached positions, separate destination caches and previous caches that are none of them,
every byte of the first `head_size` elements of the slot of a cached position of a
destination cache is the byte of the previous cache, read there with the head stride
`past_seq_len * head_size_aligned`. -/
theorem memcpyPastKV_copies (st : emb_gpt_impl_avx512) (ks vs kd vd : Nat → ptr) (qd : ptr)
    (batch past stride : Nat) (m : heap)
    (hsz : st._size_per_head ≤ st._size_per_head_aligned)
    (hlay : past * st._size_per_head_aligned ≤ stride)
    (hsep : dst_separate batch qd kd vd)
    (hprev : ∀ b, b < batch → ∀ b2, b2 < batch →
      (ks b).buf ≠ (kd b2).buf ∧ (ks b).buf ≠ (vd b2).buf ∧
      (vs b).buf ≠ (kd b2).buf ∧ (vs b).buf ≠ (vd b2).buf)
    (b h s j : Nat) (hb : b < batch) (hh : h < st._head_num) (hs : s < past)
    (hj : j < st._output_type_size * st._size_per_head) :
    memcpyPastKV st ks vs kd vd batch past stride m (kd b).buf
        ((kd b).off + st._output_type_size * (h * stride + s * st._size_per_head_aligned) + j) =
      m (ks b).buf ((ks b).off + st._output_type_size *
        (h * (past * st._size_per_head_aligned) + s * st._size_per_head_aligned) + j) ∧
    memcpyPastKV st ks vs kd vd batch past stride m (vd b).buf
        ((vd b).off + st._output_type_size * (h * stride + s * st._size_per_head_aligned) + j) =
      m (vs b).buf ((vs b).off + st._output_type_size *
        (h * (past * st._size_per_head_aligned) + s * st._size_per_head_aligned) + j) := by
  obtain ⟨_, s2', s3, s4⟩ := hsep
  have hw : st._output_type_size * st._size_per_head ≤
      st._output_type_size * st._size_per_head_aligned := Nat.mul_le_mul_left _ hsz
  have eoff : ∀ (p : ptr) (h s : Nat),
      p.off + s * st._size_per_head_aligned * st._output_type_size +
        h * stride * st._output_type_size =
      p.off + st._output_type_size * (h * stride + s * st._size_per_head_aligned) := by
    intro p h s; ring
  have esrc : ∀ (p : ptr) (h s : Nat),
      p.off + s * st._size_per_head_aligned * st._output_type_size +
        h * past * st._size_per_head_aligned * st._output_type_size =
      p.off + st._output_type_size *
        (h * (past * st._size_per_head_aligned) + s * st._size_per_head_aligned) := by
    intro p h s; ring
  have inj : ∀ (h2 s2 j2 : Nat), s2 < past →
      j2 < st._output_type_size * st._size_per_head_aligned →
      st._output_type_size * (h * stride + s * st._size_per_head_aligned) + j =
        st._output_type_size * (h2 * stride + s2 * st._size_per_head_aligned) + j2 →
      h = h2 ∧ s = s2 := by
    intro h2 s2 j2 hs2 hj2 e
    obtain ⟨r1, r2, _⟩ := kv_slot_inj st._output_type_size st._size_per_head_aligned stride
      past h s h2 s2 j j2 hlay hs hs2 (by omega) hj2 e
    exact ⟨r1, r2⟩
  unfold memcpyPastKV
  constructor
  · refine (parallel_for3d_observe batch st._head_num past _
      (fun m1 => ∀ b2, b2 < batch → ∀ o, m1 (ks b2).buf o = m (ks b2).buf o)
      (fun m1 => m1 (kd b).buf ((kd b).off +
        st._output_type_size * (h * stride + s * st._size_per_head_aligned) + j))
      _ b h s hb hh hs ?_ ?_ ?_ m (fun _ _ _ => rfl)).2
    · intro b2 hb2 h2 _ s2 _ m1 hm1 b3 hb3 o
      simp only [ptr.add]
      rw [memcpy_out, memcpy_out]
      · exact hm1 b3 hb3 o
      · exact Or.inl (hprev b3 hb3 b2 hb2).1
      · exact Or.inl (hprev b3 hb3 b2 hb2).2.1
    · intro m1 hm1
      simp only [ptr.add, eoff, esrc]
      rw [memcpy_out]
      · have e := memcpy_in m1 ⟨(kd b).buf, (kd b).off + st._output_type_size *
            (h * stride + s * st._size_per_head_aligned)⟩
          ⟨(ks b).buf, (ks b).off + st._output_type_size *
            (h * (past * st._size_per_head_aligned) + s * st._size_per_head_aligned)⟩
          (st._output_type_size * st._size_per_head)
          ((kd b).off + st._output_type_size *
            (h * stride + s * st._size_per_head_aligned) + j) (by simp only; omega)
          (by simp only; omega)
        simp only at e
        rw [e, hm1 b hb]
        congr 1
        omega
      · exact Or.inl (s2' b hb b hb)
    · intro b2 hb2 h2 _ s2 hs2 hne m1 _
      simp only [ptr.add, eoff, esrc]
      rw [memcpy_out, memcpy_out]
      rotate_left
      · exact Or.inl (s2' b hb b2 hb2)
      simp only
      by_cases eb : (kd b).buf = (kd b2).buf
      · have hbb := s3 b hb b2 hb2 eb
        subst hbb
        right
        by_contra hcon
        obtain ⟨r1, r2⟩ := inj h2 s2
          ((kd b).off + st._output_type_size * (h * stride + s * st._size_per_head_aligned) +
            j - ((kd b).off +
              st._output_type_size * (h2 * stride + s2 * st._size_per_head_aligned)))
          hs2 (by omega) (by omega)
        exact hne ⟨rfl, r1.symm, r2.symm⟩
      · exact Or.inl eb
  · refine (parallel_for3d_observe batch st._head_num past _
      (fun m1 => ∀ b2, b2 < batch → ∀ o, m1 (vs b2).buf o = m (vs b2).buf o)
      (fun m1 => m1 (vd b).buf ((vd b).off +
        st._output_type_size * (h * stride + s * st._size_per_head_aligned) + j))
      _ b h s hb hh hs ?_ ?_ ?_ m (fun _ _ _ => rfl)).2
    · intro b2 hb2 h2 _ s2 _ m1 hm1 b3 hb3 o
      simp only [ptr.add]
      rw [memcpy_out, memcpy_out]
      · exact hm1 b3 hb3 o
      · exact Or.inl (hprev b3 hb3 b2 hb2).2.2.1
      · exact Or.inl (hprev b3 hb3 b2 hb2).2.2.2
    · intro m1 hm1
      simp only [ptr.add, eoff, esrc]
      have e := memcpy_in (memcpy m1 ⟨(kd b).buf, (kd b).off + st._output_type_size *
            (h * stride + s * st._size_per_head_aligned)⟩
          ⟨(ks b).buf, (ks b).off + st._output_type_size *
            (h * (past * st._size_per_head_aligned) + s * st._size_per_head_aligned)⟩
          (st._output_type_size * st._size_per_head))
        ⟨(vd b).buf, (vd b).off + st._output_type_size *
          (h * stride + s * st._size_per_head_aligned)⟩
        ⟨(vs b).buf, (vs b).off + st._output_type_size *
          (h * (past * st._size_per_head_aligned) + s * st._size_per_head_aligned)⟩
        (st._output_type_size * st._size_per_head)
        ((vd b).off + st._output_type_size *
          (h * stride + s * st._size_per_head_aligned) + j) (by simp only; omega)
        (by simp only; omega)
      simp only at e
      rw [e, memcpy_out, hm1 b hb]
      · congr 1
        omega
      · exact Or.inl (hprev b hb b hb).2.2.1
    · intro b2 hb2 h2 _ s2 hs2 hne m1 _
      simp only [ptr.add, eoff, esrc]
      rw [memcpy_out, memcpy_out]
      · exact Or.inl (Ne.symm (s2' b2 hb2 b hb))
      simp only
      by_cases eb : (vd b).buf = (vd b2).buf
      · have hbb := s4 b hb b2 hb2 eb
        subst hbb
        right
        by_contra hcon
        obtain ⟨r1, r2⟩ := inj h2 s2
          ((vd b).off + st._output_type_size * (h * stride + s * st._size_per_head_aligned) +
            j - ((vd b).off +
              st._output_type_size * (h2 * stride + s2 * st._size_per_head_aligned)))
          hs2 (by omega) (by omega)
        exact hne ⟨rfl, r1.symm, r2.symm⟩
      · exact Or.inl eb

/-- When the test of `exec` holds, the first statement of `exec` is `memcpyPastKV` over
every batch element. -/
theorem exec_copy_triggered {C : Type} (st : emb_gpt_impl_avx512) (param : exec_param C)
    (m : heap) (ks : Nat → ptr) (hks : param.layer_past_key_src = some ks)
    (hcp : copies_past param = true) :
    exec_copy st param m = memcpyPastKV st ks param.layer_past_value_src
      param.layer_past_key_dst param.layer_past_value_dst param.batch param.past_seq_len
      param.head_stride_in_kv m := by
  unfold exec_copy
  rw [hks]
  simp only [hcp, if_true]

/-- The test of `exec` that starts the carry-forward copy, spelled out. -/
theorem copies_past_iff {C : Type} (param : exec_param C) :
    copies_past param = true ↔
      ∃ ks, param.layer_past_key_src = some ks ∧ ks 0 ≠ param.layer_past_key_dst 0 ∧
        param.past_seq_len ≠ 0 := by
  unfold copies_past
  cases h : param.layer_past_key_src with
  | none => simp
  | some ks => simp

/-- C11 (amended). The writer's `exec` decides the carry-forward copy once per call and from
batch element 0 alone: the copy runs exactly when the array of previous key caches is not
null, the previous and the destination key cache of batch element 0 are different pointers
and `past_seq_len` is not `0`. When this test fails `exec` does what it does without previous
caches, so no batch element is copied, whatever the pointers of the elements `b ≥ 1`; when it
holds the copy is `memcpyPastKV` over every batch element. -/
theorem exec_copy_decided_by_element0 (self : emb_gpt_impl_avx512) (C : Type)
    (rot : Nat → (Nat → C) → (Nat → C) → (Nat → bf16) → Nat → bf16)
    (param : exec_param C) (m : heap) :
    (copies_past param = true ↔
      ∃ ks, param.layer_past_key_src = some ks ∧ ks 0 ≠ param.layer_past_key_dst 0 ∧
        param.past_seq_len ≠ 0) ∧
    (copies_past param = false → exec self rot param m = exec self rot (without_past param) m) ∧
    (∀ ks, param.layer_past_key_src = some ks → copies_past param = true →
      exec_copy self param m = memcpyPastKV self ks param.layer_past_value_src
        param.layer_past_key_dst param.layer_past_value_dst param.batch param.past_seq_len
        param.head_stride_in_kv m) := by
  refine ⟨copies_past_iff param, ?_, fun ks hks hcp => exec_copy_triggered self param m ks hks hcp⟩
  intro hcp
  have e1 : exec_copy self param m = m := by
    unfold exec_copy
    cases h : param.layer_past_key_src with
    | none => rfl
    | some ks => simp only [hcp]; rfl
  have e2 : exec_copy self (without_past param) m = m := rfl
  unfold exec
  rw [e1, e2]
  rfl

/-- C11 (counterexample). The call `emb_param_alias` on the one-track configuration
`emb_cfg_bf16`: batch element 1 has a previous key cache other than its destination cache and
`past_seq_len = 1`, but the test of `exec` fails on batch element 0, and after `exec` the
first element of the cached position of the destination key cache of batch element 1 is not
the element of its previous cache. -/
theorem emb_exec_skips_copy_of_element1 :
    examples.emb_param_alias.layer_past_key_src = some examples.emb_key_src_alias ∧
    2 ≤ examples.emb_param_alias.batch ∧
    examples.emb_key_src_alias 0 = examples.emb_param_alias.layer_past_key_dst 0 ∧
    (examples.emb_key_src_alias 1).buf ≠ (examples.emb_param_alias.layer_past_key_dst 1).buf ∧
    0 < examples.emb_param_alias.past_seq_len ∧
    load_bf16 (exec (examples.writer0.create examples.emb_cfg_bf16).2 examples.rot_id
        examples.emb_param_alias examples.emb_heap).2
      (examples.emb_param_alias.layer_past_key_dst 1) 0 ≠
    load_bf16 examples.emb_heap (examples.emb_key_src_alias 1) 0 := by
  refine ⟨rfl, ?_⟩
  decide

/-- C12 (amended). On an object left by `create`: when the carry-forward copy is triggered
(the array of previous key caches is not null, the previous and the destination key cache of
batch element 0 are different pointers, `past_seq_len` is not `0`),
`rotary_dims ≤ head_size ≤ head_size_aligned`, the head stride holds
`past_seq_len + query_seq_len` slots, `2 * rotary_dims ≤ head_size_aligned` for the two-track
writer, the destination buffers are separate allocations and no previous cache is a
destination cache, then after `exec` every byte of the first `head_size` elements of the
slot of every cached position of every head of every destination key and value cache is the
byte of the previous cache, read with the head stride `past_seq_len * head_size_aligned`
(`w` is the width of a destination element). -/
theorem emb_exec_copies_cached (self : emb_gpt_impl_avx512) (cp : emb_gpt.create_param)
    (C : Type) (rot : Nat → (Nat → C) → (Nat → C) → (Nat → bf16) → Nat → bf16)
    (param : exec_param C) (m : heap) (ks : Nat → ptr)
    (hq : cp.qkv_precision = dnnl_bf16)
    (hks : param.layer_past_key_src = some ks)
    (htrig : ks 0 ≠ param.layer_past_key_dst 0) (hpast : param.past_seq_len ≠ 0)
    (hrd : cp.rotary_dims ≤ cp.head_size) (hsz : cp.head_size ≤ cp.head_size_aligned)
    (h64 : cp.head_size < 2 ^ 64)
    (hlay : (param.past_seq_len + param.query_seq_len) * cp.head_size_aligned ≤
      param.head_stride_in_kv)
    (h2d : cp.use_position2d = true → 2 * cp.rotary_dims ≤ cp.head_size_aligned)
    (hsep : dst_separate param.batch param.query_dst param.layer_past_key_dst
      param.layer_past_value_dst)
    (hprev : ∀ b, b < param.batch → ∀ b2, b2 < param.batch →
      (ks b).buf ≠ (param.layer_past_key_dst b2).buf ∧
      (ks b).buf ≠ (param.layer_past_value_dst b2).buf ∧
      (param.layer_past_value_src b).buf ≠ (param.layer_past_key_dst b2).buf ∧
      (param.layer_past_value_src b).buf ≠ (param.layer_past_value_dst b2).buf) :
    ∀ w, w = (self.create cp).2._output_type_size →
      ∀ b, b < param.batch → ∀ h, h < cp.num_heads → ∀ s, s < param.past_seq_len →
        ∀ j, j < w * cp.head_size →
          (exec (self.create cp).2 rot param m).2 (param.layer_past_key_dst b).buf
              ((param.layer_past_key_dst b).off +
                w * (h * param.head_stride_in_kv + s * cp.head_size_aligned) + j) =
            m (ks b).buf ((ks b).off + w * (h * (param.past_seq_len * cp.head_size_aligned) +
              s * cp.head_size_aligned) + j) ∧
          (exec (self.create cp).2 rot param m).2 (param.layer_past_value_dst b).buf
              ((param.layer_past_value_dst b).off +
                w * (h * param.head_stride_in_kv + s * cp.head_size_aligned) + j) =
            m (param.layer_past_value_src b).buf ((param.layer_past_value_src b).off +
              w * (h * (param.past_seq_len * cp.head_size_aligned) +
                s * cp.head_size_aligned) + j) := by
  obtain ⟨f1, f2, f3, f4, f5, f6, f7, f8⟩ := emb_create_fields self cp hq
  intro w hw b hb h hh s hs j hj
  have hcp : copies_past param = true :=
    (copies_past_iff param).mpr ⟨ks, hks, htrig, hpast⟩
  have hcopy := exec_copy_triggered (self.create cp).2 param m ks hks hcp
  have hlay2 : param.past_seq_len * cp.head_size_aligned ≤ param.head_stride_in_kv :=
    le_trans (Nat.mul_le_mul_right _ (Nat.le_add_right _ _)) hlay
  have hval := memcpyPastKV_copies (self.create cp).2 ks param.layer_past_value_src
    param.layer_past_key_dst param.layer_past_value_dst param.query_dst param.batch
    param.past_seq_len param.head_stride_in_kv m (by rw [f3, f4]; exact hsz)
    (by rw [f4]; exact hlay2) hsep hprev b h s j hb (by rw [f2]; exact hh) hs
    (by rw [f3, ← hw]; exact hj)
  rw [← hcopy, ← hw, f4] at hval
  rw [← hval.1, ← hval.2]
  by_cases hd : cp.dst_precision = dnnl_s8
  · have hex : (exec (self.create cp).2 rot param m).2 = exec_copy (self.create cp).2 param m := by
      unfold exec
      simp only [f1, hd, if_true]
    rw [hex]
    exact ⟨rfl, rfl⟩
  · rw [if_neg hd] at f7
    rw [f7] at hw
    subst hw
    have hj2 : j < 2 * cp.head_size_aligned := by omega
    have hno := fun b2 hb2 h2 s2 hs2 => cached_not_in_slots param.query_dst
      param.layer_past_key_dst param.layer_past_value_dst param.batch cp.num_heads
      cp.head_size_aligned param.query_seq_len param.past_seq_len param.head_stride_in_kv
      (2 * cp.head_size_aligned) (2 * cp.head_size_aligned) b h s j b2 h2 s2 hsep hlay
      (le_refl _) (le_refl _) hb hs hj2 hb2 hs2
    have foot : ∀ x o, (exec (self.create cp).2 rot param m).2 x o ≠
        exec_copy (self.create cp).2 param m x o →
        ∃ b, b < param.batch ∧ ∃ h, h < cp.num_heads ∧ ∃ s, s < param.query_seq_len ∧
          in_slots param.query_dst param.layer_past_key_dst param.layer_past_value_dst
            cp.num_heads cp.head_size_aligned param.query_seq_len param.past_seq_len
            param.head_stride_in_kv (2 * cp.head_size_aligned) (2 * cp.head_size_aligned)
            b h s x o := by
      intro x o hne
      obtain ⟨b, hb, h, hh, s, hs, hin⟩ := exec_writer_changed (self.create cp).2 rot param m
        (by rw [f1]; exact hd) f6 f7 x o hne
      rw [f2, f3, f4, f5, f8] at hin
      rw [f2] at hh
      refine ⟨b, hb, h, hh, s, hs, in_slots_mono _ _ _ _ _ _ _ _ _ _ _ _ _ _ _ _ _ ?_ ?_ hin⟩
      · have e64 := size_sub_eq _ _ hrd h64
        split
        · rename_i h2
          have := h2d h2
          omega
        · omega
      · omega
    constructor
    · by_contra hne
      obtain ⟨b2, hb2, h2, _, s2, hs2, hin⟩ := foot _ _ hne
      exact (hno b2 hb2 h2 s2 hs2).1 hin
    · by_contra hne
      obtain ⟨b2, hb2, h2, _, s2, hs2, hin⟩ := foot _ _ hne
      exact (hno b2 hb2 h2 s2 hs2).2 hin

/-- The call `emb_param` on the one-track configuration `emb_cfg_bf16`: after `exec`, byte 1
of element 1 of the cached position of head 1 of the destination key cache of batch
element 1 is the byte of the previous cache. -/
theorem emb_exec_copies_cached_witness :
    (exec (examples.writer0.create examples.emb_cfg_bf16).2 examples.rot_mark
        examples.emb_param examples.emb_heap).2 31 (0 + 2 * (1 * 8 + 0 * 4) + 3) =
      examples.emb_heap 11 (0 + 2 * (1 * (1 * 4) + 0 * 4) + 3) :=
  ((emb_exec_copies_cached examples.writer0 examples.emb_cfg_bf16 ℚ examples.rot_mark
    examples.emb_param examples.emb_heap (fun b => ⟨10 + b, 0⟩) rfl rfl (by decide)
    (by decide) (by decide) (by decide) (by decide) (by decide) (by decide)
    emb_param_dst_separate (by decide)) 2 rfl 1 (by decide) 1 (by decide) 0 (by decide) 3
    (by decide)).1

/-- C12 (counterexample). The call `emb_param` on the two-track configuration
`emb_cfg_2d_full`, where `rotary_dims = head_size = head_size_aligned = 4`: the copy is
triggered, `head_size ≤ head_size_aligned` and the head stride holds the two positions, but
after `exec` element 0 of the cached position of head 1 of the destination key cache of batch
element 0 is not the element of the previous cache: the second rotation of the new position
of head 0 has written it. -/
theorem emb_exec_2d_overwrites_cached :
    copies_past examples.emb_param = true ∧
    examples.emb_cfg_2d_full.head_size ≤ examples.emb_cfg_2d_full.head_size_aligned ∧
    (examples.emb_param.past_seq_len + examples.emb_param.query_seq_len) *
      examples.emb_cfg_2d_full.head_size_aligned ≤ examples.emb_param.head_stride_in_kv ∧
    load_bf16 (exec (examples.writer0.create examples.emb_cfg_2d_full).2 examples.rot_id
        examples.emb_param examples.emb_heap).2
      ((examples.emb_param.layer_past_key_dst 0).add (2 * (1 * 8 + 0 * 4))) 0 ≠
    load_bf16 examples.emb_heap ((⟨10, 0⟩ : ptr).add (2 * (1 * (1 * 4) + 0 * 4))) 0 := by
  decide

/-- C14. On an object left by `create` without an int8 destination, `exec` is the
carry-forward copy followed by a loop over the index triples `(b, h, s)`. With the one-track
writer the rotation of a triple, of the query and of the key alike, is handed row
`past_seq_len + s` of the cosine and sine tables (the entries from
`(past_seq_len + s) * rotary_dims` on), whatever `b` and `h` are. With the two-track writer
the first rotation is handed the row of the id `position2d_ids[b][0][s]` and the second one
the row of `position2d_ids[b][1][s]`, the ids laid out `[batch, 2, query_seq_len]`, no
`past_seq_len` added. -/
theorem emb_exec_table_rows (self : emb_gpt_impl_avx512) (cp : emb_gpt.create_param)
    (C : Type) (rot : Nat → (Nat → C) → (Nat → C) → (Nat → bf16) → Nat → bf16)
    (param : exec_param C) (m : heap)
    (hq : cp.qkv_precision = dnnl_bf16) (hd : cp.dst_precision ≠ dnnl_s8) :
    (cp.use_position2d = false →
      exec (self.create cp).2 rot param m =
        (exec_path.rotary,
          parallel_for3d param.batch cp.num_heads param.query_seq_len (fun b h s =>
            rotary_writes rot cp.rotary_dims (2 * size_sub cp.head_size cp.rotary_dims)
              (2 * cp.head_size)
              (table_row param.cos cp.rotary_dims (param.past_seq_len + s))
              (table_row param.sin cp.rotary_dims (param.past_seq_len + s))
              (param.q.add (2 * (((b * param.query_seq_len + s) * cp.num_heads + h) * param.ldq)))
              (param.k.add (2 * (((b * param.query_seq_len + s) * cp.num_heads + h) * param.ldk)))
              (param.v.add (2 * (((b * param.query_seq_len + s) * cp.num_heads + h) * param.ldv)))
              (param.query_dst.add
                (2 * (((b * cp.num_heads + h) * param.query_seq_len + s) * cp.head_size_aligned)))
              ((param.layer_past_key_dst b).add (2 * (h * param.head_stride_in_kv +
                (param.past_seq_len + s) * cp.head_size_aligned)))
              ((param.layer_past_value_dst b).add (2 * (h * param.head_stride_in_kv +
                (param.past_seq_len + s) * cp.head_size_aligned))))
            (exec_copy (self.create cp).2 param m))) ∧
    (cp.use_position2d = true →
      exec (self.create cp).2 rot param m =
        (exec_path.position2d,
          parallel_for3d param.batch cp.num_heads param.query_seq_len (fun b h s =>
            rotary_writes2d rot cp.rotary_dims (2 * cp.head_size)
              (table_row param.cos cp.rotary_dims
                (id_to_size_t (param.position2d_ids ((b * 2 + 0) * param.query_seq_len + s))))
              (table_row param.sin cp.rotary_dims
                (id_to_size_t (param.position2d_ids ((b * 2 + 0) * param.query_seq_len + s))))
              (table_row param.cos cp.rotary_dims
                (id_to_size_t (param.position2d_ids ((b * 2 + 1) * param.query_seq_len + s))))
              (table_row param.sin cp.rotary_dims
                (id_to_size_t (param.position2d_ids ((b * 2 + 1) * param.query_seq_len + s))))
              (param.q.add (2 * (((b * param.query_seq_len + s) * cp.num_heads + h) * param.ldq)))
              (param.k.add (2 * (((b * param.query_seq_len + s) * cp.num_heads + h) * param.ldk)))
              (param.v.add (2 * (((b * param.query_seq_len + s) * cp.num_heads + h) * param.ldv)))
              (param.query_dst.add
                (2 * (((b * cp.num_heads + h) * param.query_seq_len + s) * cp.head_size_aligned)))
              ((param.layer_past_key_dst b).add (2 * (h * param.head_stride_in_kv +
                (param.past_seq_len + s) * cp.head_size_aligned)))
              ((param.layer_past_value_dst b).add (2 * (h * param.head_stride_in_kv +
                (param.past_seq_len + s) * cp.head_size_aligned))))
            (exec_copy (self.create cp).2 param m))) := by
  obtain ⟨f1, f2, f3, f4, f5, f6, f7, f8⟩ := emb_create_fields self cp hq
  rw [if_neg hd] at f7
  have hd2 : (self.create cp).2._create_param.dst_precision ≠ dnnl_s8 := by rw [f1]; exact hd
  constructor
  · intro h1
    rw [exec_writer_eq _ rot param m hd2, f8, h1]
    simp only [Bool.false_eq_true, if_false]
    rw [applyRotaryPosEmbMemcpy_eq _ _ _ _ _ _ _ _ _ _ _ _ _ _ _ _ _ _ f6 f7, f2, f3, f4, f5]
  · intro h1
    rw [exec_writer_eq _ rot param m hd2, f8, h1]
    simp only [if_true]
    rw [applyRotaryPosEmbMemcpyWithPosition2d_eq _ _ _ _ _ _ _ _ _ _ _ _ _ _ _ _ _ _ _ f6 f7,
      f2, f3, f4, f5]

/-- The call `emb_param` on the one-track configuration `emb_cfg_bf16` ends in the one-track
writer. -/
theorem emb_exec_table_rows_witness :
    (exec (examples.writer0.create examples.emb_cfg_bf16).2 examples.rot_id
      examples.emb_param examples.emb_heap).1 = exec_path.rotary :=
  congrArg Prod.fst ((emb_exec_table_rows examples.writer0 examples.emb_cfg_bf16 ℚ
    examples.rot_id examples.emb_param examples.emb_heap rfl (by decide)).1 rfl)

/-- C16. On an object left by `create` without an int8 destination, with either writer: when
`head_size ≤ head_size_aligned`, the head stride holds `past_seq_len + query_seq_len` slots,
the destination buffers are separate allocations and the value source is none of them, then
after `exec`, for every batch element `b`, head `h`, new position `s` and `i < head_size`,
element `h * head_stride_in_kv + (past_seq_len + s) * head_size_aligned + i` of the value
cache of `b` is element `((b * query_seq_len + s) * num_heads + h) * ldv + i` of the value
source, with both bytes. -/
theorem emb_exec_value_copy (self : emb_gpt_impl_avx512) (cp : emb_gpt.create_param)
    (C : Type) (rot : Nat → (Nat → C) → (Nat → C) → (Nat → bf16) → Nat → bf16)
    (param : exec_param C) (m : heap)
    (hq : cp.qkv_precision = dnnl_bf16) (hd : cp.dst_precision ≠ dnnl_s8)
    (hsz : cp.head_size ≤ cp.head_size_aligned)
    (hlay : (param.past_seq_len + param.query_seq_len) * cp.head_size_aligned ≤
      param.head_stride_in_kv)
    (hsep : dst_separate param.batch param.query_dst param.layer_past_key_dst
      param.layer_past_value_dst)
    (hsrc : src_separate param.batch param.v.buf param.query_dst param.layer_past_key_dst
      param.layer_past_value_dst) :
    ∀ b, b < param.batch → ∀ h, h < cp.num_heads → ∀ s, s < param.query_seq_len →
      ∀ i, i < cp.head_size →
        load_bf16 (exec (self.create cp).2 rot param m).2
          ((param.layer_past_value_dst b).add (2 * (h * param.head_stride_in_kv +
            (param.past_seq_len + s) * cp.head_size_aligned))) i =
        load_bf16 m
          (param.v.add (2 * (((b * param.query_seq_len + s) * cp.num_heads + h) * param.ldv)))
          i := by
  obtain ⟨f1, f2, f3, f4, f5, f6, f7, f8⟩ := emb_create_fields self cp hq
  rw [if_neg hd] at f7
  have hd2 : (self.create cp).2._create_param.dst_precision ≠ dnnl_s8 := by rw [f1]; exact hd
  intro b hb h hh s hs i hi
  have hm : ∀ o, exec_copy (self.create cp).2 param m param.v.buf o = m param.v.buf o :=
    fun o => exec_copy_keeps _ param m _ o hsrc.2
  rw [exec_writer_eq _ rot param m hd2]
  by_cases h2 : (self.create cp).2._use_position2d = true
  · rw [if_pos h2]
    have := applyRotaryPosEmbMemcpyWithPosition2d_v (self.create cp).2 rot param.q param.k
      param.v param.ldq param.ldk param.ldv param.query_dst param.layer_past_key_dst
      param.layer_past_value_dst param.batch param.query_seq_len param.past_seq_len
      param.head_stride_in_kv param.position2d_ids param.cos param.sin m
      (exec_copy (self.create cp).2 param m) f6 f7 hsep hsrc (by rw [f4]; exact hlay)
      (by rw [f3, f4]; exact hsz) hm b h s i hb (by rw [f2]; exact hh) hs (by rw [f3]; exact hi)
    rw [f2, f4] at this
    exact this
  · rw [if_neg h2]
    have := applyRotaryPosEmbMemcpy_v (self.create cp).2 rot param.q param.k
      param.v param.ldq param.ldk param.ldv param.query_dst param.layer_past_key_dst
      param.layer_past_value_dst param.batch param.query_seq_len param.past_seq_len
      param.head_stride_in_kv param.cos param.sin m
      (exec_copy (self.create cp).2 param m) f6 f7 hsep hsrc (by rw [f4]; exact hlay)
      (by rw [f3, f4]; exact hsz) hm b h s i hb (by rw [f2]; exact hh) hs (by rw [f3]; exact hi)
    rw [f2, f4] at this
    exact this

/-- The call `emb_param` on the one-track configuration `emb_cfg_bf16` and on the two-track
configuration `emb_cfg_2d`: element 3 of the value slot of head 1 of batch element 1 is the
source element. -/
theorem emb_exec_value_copy_witness :
    load_bf16 (exec (examples.writer0.create examples.emb_cfg_bf16).2 examples.rot_mark
        examples.emb_param examples.emb_heap).2
      ((⟨41, 0⟩ : ptr).add (2 * (1 * 8 + (1 + 0) * 4))) 3 =
      load_bf16 examples.emb_heap ((⟨0, 16⟩ : ptr).add (2 * (((1 * 1 + 0) * 2 + 1) * 12))) 3 ∧
    load_bf16 (exec (examples.writer0.create examples.emb_cfg_2d).2 examples.rot_mark
        examples.emb_param examples.emb_heap).2
      ((⟨41, 0⟩ : ptr).add (2 * (1 * 8 + (1 + 0) * 4))) 3 =
      load_bf16 examples.emb_heap ((⟨0, 16⟩ : ptr).add (2 * (((1 * 1 + 0) * 2 + 1) * 12))) 3 :=
  ⟨emb_exec_value_copy examples.writer0 examples.emb_cfg_bf16 ℚ examples.rot_mark
      examples.emb_param examples.emb_heap rfl (by decide) (by decide) (by decide)
      emb_param_dst_separate emb_param_src_separate 1 (by decide) 1 (by decide) 0 (by decide) 3
      (by decide),
    emb_exec_value_copy examples.writer0 examples.emb_cfg_2d ℚ examples.rot_mark
      examples.emb_param examples.emb_heap rfl (by decide) (by decide) (by decide)
      emb_param_dst_separate emb_param_src_separate 1 (by decide) 1 (by decide) 0 (by decide) 3
      (by decide)⟩

/-- C17. On an object left by `create` without an int8 destination and with the one-track
writer, under `rotary_dims ≤ head_size ≤ head_size_aligned`, a head stride that holds
`past_seq_len + query_seq_len` slots, separate destination buffers and query and key sources
that are none of them: for every index triple `(b, h, s)` the query and key head vectors are
read at element `((b * query_seq_len + s) * num_heads + h) * ld` of their sources and
written at element `((b * num_heads + h) * query_seq_len + s) * head_size_aligned` of the
query destination and at element
`h * head_stride_in_kv + (past_seq_len + s) * head_size_aligned` of the key cache of `b`:
the first `rotary_dims` elements there are the rotated source elements and the elements up
to `head_size` the source elements. Every byte the writer changes lies in the first
`head_size` elements of the slot of an index triple, and these ranges of different index
triples are disjoint. -/
theorem emb_exec_rotary_layout (self : emb_gpt_impl_avx512) (cp : emb_gpt.create_param)
    (C : Type) (rot : Nat → (Nat → C) → (Nat → C) → (Nat → bf16) → Nat → bf16)
    (param : exec_param C) (m : heap)
    (hq : cp.qkv_precision = dnnl_bf16) (hd : cp.dst_precision ≠ dnnl_s8)
    (h1 : cp.use_position2d = false)
    (hrd : cp.rotary_dims ≤ cp.head_size) (hsz : cp.head_size ≤ cp.head_size_aligned)
    (h64 : cp.head_size < 2 ^ 64)
    (hlay : (param.past_seq_len + param.query_seq_len) * cp.head_size_aligned ≤
      param.head_stride_in_kv)
    (hsep : dst_separate param.batch param.query_dst param.layer_past_key_dst
      param.layer_past_value_dst)
    (hsrcq : src_separate param.batch param.q.buf param.query_dst param.layer_past_key_dst
      param.layer_past_value_dst)
    (hsrck : src_separate param.batch param.k.buf param.query_dst param.layer_past_key_dst
      param.layer_past_value_dst) :
    (∀ b, b < param.batch → ∀ h, h < cp.num_heads → ∀ s, s < param.query_seq_len →
      (∀ i, i < cp.rotary_dims →
        load_bf16 (exec (self.create cp).2 rot param m).2
          (param.query_dst.add
            (2 * (((b * cp.num_heads + h) * param.query_seq_len + s) * cp.head_size_aligned))) i =
          rot cp.rotary_dims (table_row param.cos cp.rotary_dims (param.past_seq_len + s))
            (table_row param.sin cp.rotary_dims (param.past_seq_len + s))
            (load_bf16 m (param.q.add
            (2 * (((b * param.query_seq_len + s) * cp.num_heads + h) * param.ldq)))) i ∧
        load_bf16 (exec (self.create cp).2 rot param m).2
          ((param.layer_past_key_dst b).add (2 * (h * param.head_stride_in_kv +
            (param.past_seq_len + s) * cp.head_size_aligned))) i =
          rot cp.rotary_dims (table_row param.cos cp.rotary_dims (param.past_seq_len + s))
            (table_row param.sin cp.rotary_dims (param.past_seq_len + s))
            (load_bf16 m (param.k.add
            (2 * (((b * param.query_seq_len + s) * cp.num_heads + h) * param.ldk)))) i) ∧
      (∀ i, cp.rotary_dims ≤ i → i < cp.head_size →
        load_bf16 (exec (self.create cp).2 rot param m).2
          (param.query_dst.add
            (2 * (((b * cp.num_heads + h) * param.query_seq_len + s) * cp.head_size_aligned))) i =
          load_bf16 m (param.q.add
            (2 * (((b * param.query_seq_len + s) * cp.num_heads + h) * param.ldq))) i ∧
        load_bf16 (exec (self.create cp).2 rot param m).2
          ((param.layer_past_key_dst b).add (2 * (h * param.head_stride_in_kv +
            (param.past_seq_len + s) * cp.head_size_aligned))) i =
          load_bf16 m (param.k.add
            (2 * (((b * param.query_seq_len + s) * cp.num_heads + h) * param.ldk))) i)) ∧
    (∀ x o, (exec (self.create cp).2 rot param m).2 x o ≠ exec_copy (self.create cp).2 param m x o →
      ∃ b, b < param.batch ∧ ∃ h, h < cp.num_heads ∧ ∃ s, s < param.query_seq_len ∧
        in_slots param.query_dst param.layer_past_key_dst param.layer_past_value_dst
          cp.num_heads cp.head_size_aligned param.query_seq_len param.past_seq_len
          param.head_stride_in_kv (2 * cp.head_size) (2 * cp.head_size) b h s x o) ∧
    (∀ b h s b2 h2 s2 x o, b < param.batch → h < cp.num_heads → s < param.query_seq_len →
      b2 < param.batch → h2 < cp.num_heads → s2 < param.query_seq_len →
      in_slots param.query_dst param.layer_past_key_dst param.layer_past_value_dst
          cp.num_heads cp.head_size_aligned param.query_seq_len param.past_seq_len
          param.head_stride_in_kv (2 * cp.head_size) (2 * cp.head_size) b h s x o →
      in_slots param.query_dst param.layer_past_key_dst param.layer_past_value_dst
          cp.num_heads cp.head_size_aligned param.query_seq_len param.past_seq_len
          param.head_stride_in_kv (2 * cp.head_size) (2 * cp.head_size) b2 h2 s2 x o →
      b = b2 ∧ h = h2 ∧ s = s2) := by
  obtain ⟨f1, f2, f3, f4, f5, f6, f7, f8⟩ := emb_create_fields self cp hq
  rw [if_neg hd] at f7
  have hd2 : (self.create cp).2._create_param.dst_precision ≠ dnnl_s8 := by rw [f1]; exact hd
  have hmq : ∀ o, exec_copy (self.create cp).2 param m param.q.buf o = m param.q.buf o :=
    fun o => exec_copy_keeps _ param m _ o hsrcq.2
  have hmk : ∀ o, exec_copy (self.create cp).2 param m param.k.buf o = m param.k.buf o :=
    fun o => exec_copy_keeps _ param m _ o hsrck.2
  have hex : (exec (self.create cp).2 rot param m).2 =
      applyRotaryPosEmbMemcpy (self.create cp).2 rot param.q param.k param.v param.ldq param.ldk
        param.ldv param.query_dst param.layer_past_key_dst param.layer_past_value_dst
        param.batch param.query_seq_len param.past_seq_len param.head_stride_in_kv param.cos
        param.sin (exec_copy (self.create cp).2 param m) := by
    rw [exec_writer_eq _ rot param m hd2, f8, h1]
    rfl
  have hlay' : (param.past_seq_len + param.query_seq_len) *
      (self.create cp).2._size_per_head_aligned ≤ param.head_stride_in_kv := by
    rw [f4]; exact hlay
  have hrd' : (self.create cp).2._rotary_dim ≤ (self.create cp).2._size_per_head := by
    rw [f3, f5]; exact hrd
  have h64' : (self.create cp).2._size_per_head < 2 ^ 64 := by rw [f3]; exact h64
  have hsz' : (self.create cp).2._size_per_head ≤ (self.create cp).2._size_per_head_aligned := by
    rw [f3, f4]; exact hsz
  refine ⟨?_, ?_, ?_⟩
  · intro b hb h hh s hs
    have hh' : h < (self.create cp).2._head_num := by rw [f2]; exact hh
    constructor
    · intro i hi
      have hi' : i < (self.create cp).2._rotary_dim := by rw [f5]; exact hi
      have a1 := applyRotaryPosEmbMemcpy_q_rot (self.create cp).2 rot param.q param.k
        param.v param.ldq param.ldk param.ldv param.query_dst param.layer_past_key_dst
        param.layer_past_value_dst param.batch param.query_seq_len param.past_seq_len
        param.head_stride_in_kv param.cos param.sin m
        (exec_copy (self.create cp).2 param m) f6 f7 hsep hsrcq hlay' hrd' h64' hsz' hmq
        b h s i hb hh' hs hi'
      have a2 := applyRotaryPosEmbMemcpy_k_rot (self.create cp).2 rot param.q param.k
        param.v param.ldq param.ldk param.ldv param.query_dst param.layer_past_key_dst
        param.layer_past_value_dst param.batch param.query_seq_len param.past_seq_len
        param.head_stride_in_kv param.cos param.sin m
        (exec_copy (self.create cp).2 param m) f6 f7 hsep hsrck hlay' hrd' h64' hsz' hmk
        b h s i hb hh' hs hi'
      rw [f2, f4, f5] at a1 a2
      rw [hex]
      exact ⟨a1, a2⟩
    · intro i hge hi
      have hge' : (self.create cp).2._rotary_dim ≤ i := by rw [f5]; exact hge
      have hi' : i < (self.create cp).2._size_per_head := by rw [f3]; exact hi
      have a1 := applyRotaryPosEmbMemcpy_q_copy (self.create cp).2 rot param.q param.k
        param.v param.ldq param.ldk param.ldv param.query_dst param.layer_past_key_dst
        param.layer_past_value_dst param.batch param.query_seq_len param.past_seq_len
        param.head_stride_in_kv param.cos param.sin m
        (exec_copy (self.create cp).2 param m) f6 f7 hsep hsrcq hlay' hrd' h64' hsz' hmq
        b h s i hb hh' hs hge' hi'
      have a2 := applyRotaryPosEmbMemcpy_k_copy (self.create cp).2 rot param.q param.k
        param.v param.ldq param.ldk param.ldv param.query_dst param.layer_past_key_dst
        param.layer_past_value_dst param.batch param.query_seq_len param.past_seq_len
        param.head_stride_in_kv param.cos param.sin m
        (exec_copy (self.create cp).2 param m) f6 f7 hsep hsrck hlay' hrd' h64' hsz' hmk
        b h s i hb hh' hs hge' hi'
      rw [f2, f4] at a1 a2
      rw [hex]
      exact ⟨a1, a2⟩
  · intro x o hne
    obtain ⟨b, hb, h, hh, s, hs, hin⟩ := exec_writer_changed (self.create cp).2 rot param m
      hd2 f6 f7 x o hne
    rw [f2, f3, f4, f5, f8, h1] at hin
    rw [f2] at hh
    have e64 := size_sub_eq _ _ hrd h64
    refine ⟨b, hb, h, hh, s, hs, in_slots_mono _ _ _ _ _ _ _ _ _ _ _ _ _ _ _ _ _ ?_ ?_ hin⟩
    · simp only [Bool.false_eq_true, if_false]
      omega
    · exact le_refl _
  · intro b h s b2 h2 s2 x o hb hh hs hb2 hh2 hs2 t1 t2
    exact slots_disjoint _ _ _ _ _ _ _ _ _ _ _ _ _ _ _ _ _ _ _ _ _ hsep hlay
      (Or.inr ⟨by omega, by omega⟩) (Or.inr ⟨by omega, by omega⟩) hb hh hs hb2 hh2 hs2 t1 t2

/-- The call `emb_param` on the one-track configuration `emb_cfg_bf16`: of the query slot of
head 1 of batch element 1, element 1 is the rotated source element and element 3 the source
element. -/
theorem emb_exec_rotary_layout_witness :
    load_bf16 (exec (examples.writer0.create examples.emb_cfg_bf16).2 examples.rot_mark
        examples.emb_param examples.emb_heap).2
      ((⟨1, 0⟩ : ptr).add (2 * (((1 * 2 + 1) * 1 + 0) * 4))) 1 =
      examples.rot_mark 2 (table_row examples.emb_param.cos 2 (1 + 0))
        (table_row examples.emb_param.sin 2 (1 + 0))
        (load_bf16 examples.emb_heap ((⟨0, 0⟩ : ptr).add (2 * (((1 * 1 + 0) * 2 + 1) * 12)))) 1 ∧
    load_bf16 (exec (examples.writer0.create examples.emb_cfg_bf16).2 examples.rot_mark
        examples.emb_param examples.emb_heap).2
      ((⟨1, 0⟩ : ptr).add (2 * (((1 * 2 + 1) * 1 + 0) * 4))) 3 =
      load_bf16 examples.emb_heap ((⟨0, 0⟩ : ptr).add (2 * (((1 * 1 + 0) * 2 + 1) * 12))) 3 :=
  ⟨(((emb_exec_rotary_layout examples.writer0 examples.emb_cfg_bf16 ℚ examples.rot_mark
      examples.emb_param examples.emb_heap rfl (by decide) rfl (by decide) (by decide)
      (by decide) (by decide) emb_param_dst_separate emb_param_src_separate
      emb_param_src_separate).1 1 (by decide) 1 (by decide) 0 (by decide)).1 1 (by decide)).1,
    (((emb_exec_rotary_layout examples.writer0 examples.emb_cfg_bf16 ℚ examples.rot_mark
      examples.emb_param examples.emb_heap rfl (by decide) rfl (by decide) (by decide)
      (by decide) (by decide) emb_param_dst_separate emb_param_src_separate
      emb_param_src_separate).1 1 (by decide) 1 (by decide) 0 (by decide)).2 3 (by decide)
      (by decide)).1⟩

/-- C18 (amended). On an object left by `create` without an int8 destination and with the
two-track writer, under `2 * rotary_dims ≤ head_size_aligned`, a head stride that holds
`past_seq_len + query_seq_len` slots, separate destination buffers and query and key sources
that are none of them: the rotated region of every query and key head vector is its first
`2 * rotary_dims` elements, in two segments of `rotary_dims` elements each: the elements
`0 .. rotary_dims - 1` are the source elements rotated by the table row of the first
position id, the elements `rotary_dims .. 2 * rotary_dims - 1` the source elements of these
indices rotated by the table row of the second position id; no byte of a query or key slot
from element `2 * rotary_dims` on is written. -/
theorem emb_exec_2d_rotated_region (self : emb_gpt_impl_avx512) (cp : emb_gpt.create_param)
    (C : Type) (rot : Nat → (Nat → C) → (Nat → C) → (Nat → bf16) → Nat → bf16)
    (param : exec_param C) (m : heap)
    (hq : cp.qkv_precision = dnnl_bf16) (hd : cp.dst_precision ≠ dnnl_s8)
    (h2 : cp.use_position2d = true)
    (h2rd : 2 * cp.rotary_dims ≤ cp.head_size_aligned)
    (hlay : (param.past_seq_len + param.query_seq_len) * cp.head_size_aligned ≤
      param.head_stride_in_kv)
    (hsep : dst_separate param.batch param.query_dst param.layer_past_key_dst
      param.layer_past_value_dst)
    (hsrcq : src_separate param.batch param.q.buf param.query_dst param.layer_past_key_dst
      param.layer_past_value_dst)
    (hsrck : src_separate param.batch param.k.buf param.query_dst param.layer_past_key_dst
      param.layer_past_value_dst) :
    (∀ b, b < param.batch → ∀ h, h < cp.num_heads → ∀ s, s < param.query_seq_len →
      ∀ i, i < cp.rotary_dims →
        load_bf16 (exec (self.create cp).2 rot param m).2
          (param.query_dst.add
            (2 * (((b * cp.num_heads + h) * param.query_seq_len + s) * cp.head_size_aligned))) i =
          rot cp.rotary_dims (table_row param.cos cp.rotary_dims
              (id_to_size_t (param.position2d_ids ((b * 2 + 0) * param.query_seq_len + s))))
            (table_row param.sin cp.rotary_dims
              (id_to_size_t (param.position2d_ids ((b * 2 + 0) * param.query_seq_len + s))))
            (load_bf16 m (param.q.add
            (2 * (((b * param.query_seq_len + s) * cp.num_heads + h) * param.ldq)))) i ∧
        load_bf16 (exec (self.create cp).2 rot param m).2
          (param.query_dst.add
            (2 * (((b * cp.num_heads + h) * param.query_seq_len + s) * cp.head_size_aligned))) (cp.rotary_dims + i) =
          rot cp.rotary_dims (table_row param.cos cp.rotary_dims
              (id_to_size_t (param.position2d_ids ((b * 2 + 1) * param.query_seq_len + s))))
            (table_row param.sin cp.rotary_dims
              (id_to_size_t (param.position2d_ids ((b * 2 + 1) * param.query_seq_len + s))))
            (load_bf16 m ((param.q.add
            (2 * (((b * param.query_seq_len + s) * cp.num_heads + h) * param.ldq))).add (2 * cp.rotary_dims))) i ∧
        load_bf16 (exec (self.create cp).2 rot param m).2
          ((param.layer_past_key_dst b).add (2 * (h * param.head_stride_in_kv +
            (param.past_seq_len + s) * cp.head_size_aligned))) i =
          rot cp.rotary_dims (table_row param.cos cp.rotary_dims
              (id_to_size_t (param.position2d_ids ((b * 2 + 0) * param.query_seq_len + s))))
            (table_row param.sin cp.rotary_dims
              (id_to_size_t (param.position2d_ids ((b * 2 + 0) * param.query_seq_len + s))))
            (load_bf16 m (param.k.add
            (2 * (((b * param.query_seq_len + s) * cp.num_heads + h) * param.ldk)))) i ∧
        load_bf16 (exec (self.create cp).2 rot param m).2
          ((param.layer_past_key_dst b).add (2 * (h * param.head_stride_in_kv +
            (param.past_seq_len + s) * cp.head_size_aligned))) (cp.rotary_dims + i) =
          rot cp.rotary_dims (table_row param.cos cp.rotary_dims
              (id_to_size_t (param.position2d_ids ((b * 2 + 1) * param.query_seq_len + s))))
            (table_row param.sin cp.rotary_dims
              (id_to_size_t (param.position2d_ids ((b * 2 + 1) * param.query_seq_len + s))))
            (load_bf16 m ((param.k.add
            (2 * (((b * param.query_seq_len + s) * cp.num_heads + h) * param.ldk))).add (2 * cp.rotary_dims))) i) ∧
    (∀ x o, (exec (self.create cp).2 rot param m).2 x o ≠ exec_copy (self.create cp).2 param m x o →
      ∃ b, b < param.batch ∧ ∃ h, h < cp.num_heads ∧ ∃ s, s < param.query_seq_len ∧
        in_slots param.query_dst param.layer_past_key_dst param.layer_past_value_dst
          cp.num_heads cp.head_size_aligned param.query_seq_len param.past_seq_len
          param.head_stride_in_kv (4 * cp.rotary_dims) (2 * cp.head_size) b h s x o) := by
  obtain ⟨f1, f2, f3, f4, f5, f6, f7, f8⟩ := emb_create_fields self cp hq
  rw [if_neg hd] at f7
  have hd2 : (self.create cp).2._create_param.dst_precision ≠ dnnl_s8 := by rw [f1]; exact hd
  have hmq : ∀ o, exec_copy (self.create cp).2 param m param.q.buf o = m param.q.buf o :=
    fun o => exec_copy_keeps _ param m _ o hsrcq.2
  have hmk : ∀ o, exec_copy (self.create cp).2 param m param.k.buf o = m param.k.buf o :=
    fun o => exec_copy_keeps _ param m _ o hsrck.2
  have hex : (exec (self.create cp).2 rot param m).2 =
      applyRotaryPosEmbMemcpyWithPosition2d (self.create cp).2 rot param.q param.k param.v
        param.ldq param.ldk param.ldv param.query_dst param.layer_past_key_dst
        param.layer_past_value_dst param.batch param.query_seq_len param.past_seq_len
        param.position2d_ids param.head_stride_in_kv param.cos param.sin
        (exec_copy (self.create cp).2 param m) := by
    rw [exec_writer_eq _ rot param m hd2, f8, h2]
    rfl
  have hlay' : (param.past_seq_len + param.query_seq_len) *
      (self.create cp).2._size_per_head_aligned ≤ param.head_stride_in_kv := by
    rw [f4]; exact hlay
  have h2rd' : 2 * (self.create cp).2._rotary_dim ≤
      (self.create cp).2._size_per_head_aligned := by
    rw [f4, f5]; exact h2rd
  refine ⟨?_, ?_⟩
  · intro b hb h hh s hs i hi
    have hh' : h < (self.create cp).2._head_num := by rw [f2]; exact hh
    have hi' : i < (self.create cp).2._rotary_dim := by rw [f5]; exact hi
    have a1 := applyRotaryPosEmbMemcpyWithPosition2d_q0 (self.create cp).2 rot param.q
        param.k param.v param.ldq param.ldk param.ldv param.query_dst param.layer_past_key_dst
        param.layer_past_value_dst param.batch param.query_seq_len param.past_seq_len
        param.head_stride_in_kv param.position2d_ids param.cos param.sin m
        (exec_copy (self.create cp).2 param m) f6 f7 hsep hsrcq hlay' h2rd' hmq
      b h s i hb hh' hs hi'
    have a2 := applyRotaryPosEmbMemcpyWithPosition2d_q1 (self.create cp).2 rot param.q
        param.k param.v param.ldq param.ldk param.ldv param.query_dst param.layer_past_key_dst
        param.layer_past_value_dst param.batch param.query_seq_len param.past_seq_len
        param.head_stride_in_kv param.position2d_ids param.cos param.sin m
        (exec_copy (self.create cp).2 param m) f6 f7 hsep hsrcq hlay' h2rd' hmq
      b h s i hb hh' hs hi'
    have a3 := applyRotaryPosEmbMemcpyWithPosition2d_k0 (self.create cp).2 rot param.q
        param.k param.v param.ldq param.ldk param.ldv param.query_dst param.layer_past_key_dst
        param.layer_past_value_dst param.batch param.query_seq_len param.past_seq_len
        param.head_stride_in_kv param.position2d_ids param.cos param.sin m
        (exec_copy (self.create cp).2 param m) f6 f7 hsep hsrck hlay' h2rd' hmk
      b h s i hb hh' hs hi'
    have a4 := applyRotaryPosEmbMemcpyWithPosition2d_k1 (self.create cp).2 rot param.q
        param.k param.v param.ldq param.ldk param.ldv param.query_dst param.layer_past_key_dst
        param.layer_past_value_dst param.batch param.query_seq_len param.past_seq_len
        param.head_stride_in_kv param.position2d_ids param.cos param.sin m
        (exec_copy (self.create cp).2 param m) f6 f7 hsep hsrck hlay' h2rd' hmk
      b h s i hb hh' hs hi'
    rw [f2, f4, f5] at a1 a2 a3 a4
    rw [hex]
    exact ⟨a1, a2, a3, a4⟩
  · intro x o hne
    obtain ⟨b, hb, h, hh, s, hs, hin⟩ := exec_writer_changed (self.create cp).2 rot param m
      hd2 f6 f7 x o hne
    rw [f2, f3, f4, f5, f8, h2] at hin
    rw [f2] at hh
    simp only [if_true] at hin
    exact ⟨b, hb, h, hh, s, hs, hin⟩

/-- A position id that is a natural number below `2 ^ 64` converts to itself. -/
theorem id_to_size_t_cast (x : Nat) (h : x < 2 ^ 64) : id_to_size_t (x : Int) = x := by
  unfold id_to_size_t
  have e : ((x : Int) % (2 : Int) ^ 64) = (x : Int) := by
    apply Int.emod_eq_of_lt
    · exact Int.natCast_nonneg x
    · exact_mod_cast h
  rw [e, Int.toNat_natCast]

/-- The destination buffers of the call parameters `emb_param_tracks` are separate. -/
theorem emb_param_tracks_dst_separate :
    dst_separate examples.emb_param_tracks.batch examples.emb_param_tracks.query_dst
      examples.emb_param_tracks.layer_past_key_dst
      examples.emb_param_tracks.layer_past_value_dst := by
  unfold dst_separate
  decide

/-- The source buffer of the call parameters `emb_param_tracks` is none of the destination
buffers. -/
theorem emb_param_tracks_src_separate :
    src_separate examples.emb_param_tracks.batch 0 examples.emb_param_tracks.query_dst
      examples.emb_param_tracks.layer_past_key_dst
      examples.emb_param_tracks.layer_past_value_dst := by
  unfold src_separate
  decide

/-- The call `emb_param_tracks` on the two-track configuration `emb_cfg_2d`: of the query
slot of head 1 of batch element 1, element 1 is rotated with the row of the first position
id and element 2 with the row of the second one. -/
theorem emb_exec_2d_rotated_region_witness :
    load_bf16 (exec (examples.writer0.create examples.emb_cfg_2d).2 examples.rot_tag
        examples.emb_param_tracks examples.emb_heap).2
      ((⟨1, 0⟩ : ptr).add (2 * (((1 * 2 + 1) * 1 + 0) * 4))) 1 =
      examples.rot_tag 2
        (table_row examples.emb_param_tracks.cos 2
          (id_to_size_t (examples.emb_param_tracks.position2d_ids ((1 * 2 + 0) * 1 + 0))))
        (table_row examples.emb_param_tracks.sin 2
          (id_to_size_t (examples.emb_param_tracks.position2d_ids ((1 * 2 + 0) * 1 + 0))))
        (load_bf16 examples.emb_heap ((⟨0, 0⟩ : ptr).add (2 * (((1 * 1 + 0) * 2 + 1) * 12)))) 1 ∧
    load_bf16 (exec (examples.writer0.create examples.emb_cfg_2d).2 examples.rot_tag
        examples.emb_param_tracks examples.emb_heap).2
      ((⟨1, 0⟩ : ptr).add (2 * (((1 * 2 + 1) * 1 + 0) * 4))) (2 + 0) =
      examples.rot_tag 2
        (table_row examples.emb_param_tracks.cos 2
          (id_to_size_t (examples.emb_param_tracks.position2d_ids ((1 * 2 + 1) * 1 + 0))))
        (table_row examples.emb_param_tracks.sin 2
          (id_to_size_t (examples.emb_param_tracks.position2d_ids ((1 * 2 + 1) * 1 + 0))))
        (load_bf16 examples.emb_heap
          (((⟨0, 0⟩ : ptr).add (2 * (((1 * 1 + 0) * 2 + 1) * 12))).add (2 * 2))) 0 :=
  ⟨((emb_exec_2d_rotated_region examples.writer0 examples.emb_cfg_2d Nat examples.rot_tag
      examples.emb_param_tracks examples.emb_heap rfl (by decide) rfl (by decide) (by decide)
      emb_param_tracks_dst_separate emb_param_tracks_src_separate
      emb_param_tracks_src_separate).1 1 (by decide) 1 (by decide) 0 (by decide) 1
      (by decide)).1,
    ((emb_exec_2d_rotated_region examples.writer0 examples.emb_cfg_2d Nat examples.rot_tag
      examples.emb_param_tracks examples.emb_heap rfl (by decide) rfl (by decide) (by decide)
      emb_param_tracks_dst_separate emb_param_tracks_src_separate
      emb_param_tracks_src_separate).1 1 (by decide) 1 (by decide) 0 (by decide) 0
      (by decide)).2.1⟩

/-- C18 (counterexample). The call `emb_param_tracks` on the two-track configuration
`emb_cfg_2d`, where `rotary_dims = 2` and the position ids of every new position are `3` and
`5`: element 1 of the first query slot, in the second half of the first `rotary_dims`
elements, is rotated with row `3` and not with row `5`, and element 2, at index
`rotary_dims`, is rotated with row `5` and is not the source element. -/
theorem emb_exec_2d_rotates_past_rotary_dims :
    examples.emb_cfg_2d.rotary_dims = 2 ∧
    load_bf16 (exec (examples.writer0.create examples.emb_cfg_2d).2 examples.rot_tag
        examples.emb_param_tracks examples.emb_heap).2 examples.emb_param_tracks.query_dst 1 =
      examples.rot_tag 2 (table_row examples.emb_param_tracks.cos 2 3)
        (table_row examples.emb_param_tracks.sin 2 3)
        (load_bf16 examples.emb_heap examples.emb_param_tracks.q) 1 ∧
    load_bf16 (exec (examples.writer0.create examples.emb_cfg_2d).2 examples.rot_tag
        examples.emb_param_tracks examples.emb_heap).2 examples.emb_param_tracks.query_dst 1 ≠
      examples.rot_tag 2 (table_row examples.emb_param_tracks.cos 2 5)
        (table_row examples.emb_param_tracks.sin 2 5)
        (load_bf16 examples.emb_heap examples.emb_param_tracks.q) 1 ∧
    load_bf16 (exec (examples.writer0.create examples.emb_cfg_2d).2 examples.rot_tag
        examples.emb_param_tracks examples.emb_heap).2 examples.emb_param_tracks.query_dst 2 =
      examples.rot_tag 2 (table_row examples.emb_param_tracks.cos 2 5)
        (table_row examples.emb_param_tracks.sin 2 5)
        (load_bf16 examples.emb_heap (examples.emb_param_tracks.q.add (2 * 2))) 0 ∧
    load_bf16 (exec (examples.writer0.create examples.emb_cfg_2d).2 examples.rot_tag
        examples.emb_param_tracks examples.emb_heap).2 examples.emb_param_tracks.query_dst 2 ≠
      load_bf16 examples.emb_heap examples.emb_param_tracks.q 2 := by
  decide

/-- C19 (amended). On an object left by `create` without an int8 destination, run from the
same memory on the same sources and tables with both position ids of every new position
equal to `past_seq_len + s`, under `rotary_dims ≤ head_size ≤ head_size_aligned`,
`2 * rotary_dims ≤ head_size_aligned`, a head stride that holds
`past_seq_len + query_seq_len` slots, separate destination buffers and sources that are none
of them: the two-track writer leaves the same value elements and the same first
`rotary_dims` elements of every query and key slot as the one-track writer. The elements
`rotary_dims .. 2 * rotary_dims - 1` it rotates with row `past_seq_len + s`, where the
one-track writer copies the source elements from `rotary_dims` on. -/
theorem writers_agree_on_first_segment (self : emb_gpt_impl_avx512)
    (cp : emb_gpt.create_param) (C : Type)
    (rot : Nat → (Nat → C) → (Nat → C) → (Nat → bf16) → Nat → bf16)
    (param : exec_param C) (m : heap)
    (hq : cp.qkv_precision = dnnl_bf16) (hd : cp.dst_precision ≠ dnnl_s8)
    (hids : ∀ b, b < param.batch → ∀ s, s < param.query_seq_len →
      param.position2d_ids ((b * 2 + 0) * param.query_seq_len + s) =
        ((param.past_seq_len + s : Nat) : Int) ∧
      param.position2d_ids ((b * 2 + 1) * param.query_seq_len + s) =
        ((param.past_seq_len + s : Nat) : Int))
    (hpos : param.past_seq_len + param.query_seq_len ≤ 2 ^ 64)
    (hrd : cp.rotary_dims ≤ cp.head_size) (hsz : cp.head_size ≤ cp.head_size_aligned)
    (h64 : cp.head_size < 2 ^ 64) (h2rd : 2 * cp.rotary_dims ≤ cp.head_size_aligned)
    (hlay : (param.past_seq_len + param.query_seq_len) * cp.head_size_aligned ≤
      param.head_stride_in_kv)
    (hsep : dst_separate param.batch param.query_dst param.layer_past_key_dst
      param.layer_past_value_dst)
    (hsrcq : src_separate param.batch param.q.buf param.query_dst param.layer_past_key_dst
      param.layer_past_value_dst)
    (hsrck : src_separate param.batch param.k.buf param.query_dst param.layer_past_key_dst
      param.layer_past_value_dst)
    (hsrcv : src_separate param.batch param.v.buf param.query_dst param.layer_past_key_dst
      param.layer_past_value_dst) :
    ∀ b, b < param.batch → ∀ h, h < cp.num_heads → ∀ s, s < param.query_seq_len →
      (∀ i, i < cp.head_size →
        load_bf16 (applyRotaryPosEmbMemcpyWithPosition2d (self.create cp).2 rot param.q param.k param.v
            param.ldq param.ldk param.ldv param.query_dst param.layer_past_key_dst
            param.layer_past_value_dst param.batch param.query_seq_len param.past_seq_len
            param.position2d_ids param.head_stride_in_kv param.cos param.sin m)
          ((param.layer_past_value_dst b).add (2 * (h * param.head_stride_in_kv +
            (param.past_seq_len + s) * cp.head_size_aligned))) i =
        load_bf16 (applyRotaryPosEmbMemcpy (self.create cp).2 rot param.q param.k param.v param.ldq
            param.ldk param.ldv param.query_dst param.layer_past_key_dst
            param.layer_past_value_dst param.batch param.query_seq_len param.past_seq_len
            param.head_stride_in_kv param.cos param.sin m)
          ((param.layer_past_value_dst b).add (2 * (h * param.head_stride_in_kv +
            (param.past_seq_len + s) * cp.head_size_aligned))) i) ∧
      (∀ i, i < cp.rotary_dims →
        load_bf16 (applyRotaryPosEmbMemcpyWithPosition2d (self.create cp).2 rot param.q param.k param.v
            param.ldq param.ldk param.ldv param.query_dst param.layer_past_key_dst
            param.layer_past_value_dst param.batch param.query_seq_len param.past_seq_len
            param.position2d_ids param.head_stride_in_kv param.cos param.sin m)
          (param.query_dst.add
            (2 * (((b * cp.num_heads + h) * param.query_seq_len + s) * cp.head_size_aligned))) i =
        load_bf16 (applyRotaryPosEmbMemcpy (self.create cp).2 rot param.q param.k param.v param.ldq
            param.ldk param.ldv param.query_dst param.layer_past_key_dst
            param.layer_past_value_dst param.batch param.query_seq_len param.past_seq_len
            param.head_stride_in_kv param.cos param.sin m)
          (param.query_dst.add
            (2 * (((b * cp.num_heads + h) * param.query_seq_len + s) * cp.head_size_aligned))) i ∧
        load_bf16 (applyRotaryPosEmbMemcpyWithPosition2d (self.create cp).2 rot param.q param.k param.v
            param.ldq param.ldk param.ldv param.query_dst param.layer_past_key_dst
            param.layer_past_value_dst param.batch param.query_seq_len param.past_seq_len
            param.position2d_ids param.head_stride_in_kv param.cos param.sin m)
          ((param.layer_past_key_dst b).add (2 * (h * param.head_stride_in_kv +
            (param.past_seq_len + s) * cp.head_size_aligned))) i =
        load_bf16 (applyRotaryPosEmbMemcpy (self.create cp).2 rot param.q param.k param.v param.ldq
            param.ldk param.ldv param.query_dst param.layer_past_key_dst
            param.layer_past_value_dst param.batch param.query_seq_len param.past_seq_len
            param.head_stride_in_kv param.cos param.sin m)
          ((param.layer_past_key_dst b).add (2 * (h * param.head_stride_in_kv +
            (param.past_seq_len + s) * cp.head_size_aligned))) i ∧
        load_bf16 (applyRotaryPosEmbMemcpyWithPosition2d (self.create cp).2 rot param.q param.k param.v
            param.ldq param.ldk param.ldv param.query_dst param.layer_past_key_dst
            param.layer_past_value_dst param.batch param.query_seq_len param.past_seq_len
            param.position2d_ids param.head_stride_in_kv param.cos param.sin m)
          (param.query_dst.add
            (2 * (((b * cp.num_heads + h) * param.query_seq_len + s) * cp.head_size_aligned))) (cp.rotary_dims + i) =
          rot cp.rotary_dims (table_row param.cos cp.rotary_dims (param.past_seq_len + s))
            (table_row param.sin cp.rotary_dims (param.past_seq_len + s))
            (load_bf16 m ((param.q.add
            (2 * (((b * param.query_seq_len + s) * cp.num_heads + h) * param.ldq))).add (2 * cp.rotary_dims))) i ∧
        load_bf16 (applyRotaryPosEmbMemcpyWithPosition2d (self.create cp).2 rot param.q param.k param.v
            param.ldq param.ldk param.ldv param.query_dst param.layer_past_key_dst
            param.layer_past_value_dst param.batch param.query_seq_len param.past_seq_len
            param.position2d_ids param.head_stride_in_kv param.cos param.sin m)
          ((param.layer_past_key_dst b).add (2 * (h * param.head_stride_in_kv +
            (param.past_seq_len + s) * cp.head_size_aligned))) (cp.rotary_dims + i) =
          rot cp.rotary_dims (table_row param.cos cp.rotary_dims (param.past_seq_len + s))
            (table_row param.sin cp.rotary_dims (param.past_seq_len + s))
            (load_bf16 m ((param.k.add
            (2 * (((b * param.query_seq_len + s) * cp.num_heads + h) * param.ldk))).add (2 * cp.rotary_dims))) i) ∧
      (∀ i, cp.rotary_dims ≤ i → i < cp.head_size →
        load_bf16 (applyRotaryPosEmbMemcpy (self.create cp).2 rot param.q param.k param.v param.ldq
            param.ldk param.ldv param.query_dst param.layer_past_key_dst
            param.layer_past_value_dst param.batch param.query_seq_len param.past_seq_len
            param.head_stride_in_kv param.cos param.sin m)
          (param.query_dst.add
            (2 * (((b * cp.num_heads + h) * param.query_seq_len + s) * cp.head_size_aligned))) i =
          load_bf16 m (param.q.add
            (2 * (((b * param.query_seq_len + s) * cp.num_heads + h) * param.ldq))) i ∧
        load_bf16 (applyRotaryPosEmbMemcpy (self.create cp).2 rot param.q param.k param.v param.ldq
            param.ldk param.ldv param.query_dst param.layer_past_key_dst
            param.layer_past_value_dst param.batch param.query_seq_len param.past_seq_len
            param.head_stride_in_kv param.cos param.sin m)
          ((param.layer_past_key_dst b).add (2 * (h * param.head_stride_in_kv +
            (param.past_seq_len + s) * cp.head_size_aligned))) i =
          load_bf16 m (param.k.add
            (2 * (((b * param.query_seq_len + s) * cp.num_heads + h) * param.ldk))) i) := by
  obtain ⟨f1, f2, f3, f4, f5, f6, f7, f8⟩ := emb_create_fields self cp hq
  rw [if_neg hd] at f7
  have hlay' : (param.past_seq_len + param.query_seq_len) *
      (self.create cp).2._size_per_head_aligned ≤ param.head_stride_in_kv := by
    rw [f4]; exact hlay
  have hrd' : (self.create cp).2._rotary_dim ≤ (self.create cp).2._size_per_head := by
    rw [f3, f5]; exact hrd
  have h64' : (self.create cp).2._size_per_head < 2 ^ 64 := by rw [f3]; exact h64
  have hsz' : (self.create cp).2._size_per_head ≤ (self.create cp).2._size_per_head_aligned := by
    rw [f3, f4]; exact hsz
  have h2rd' : 2 * (self.create cp).2._rotary_dim ≤
      (self.create cp).2._size_per_head_aligned := by
    rw [f4, f5]; exact h2rd
  intro b hb h hh s hs
  have hh' : h < (self.create cp).2._head_num := by rw [f2]; exact hh
  obtain ⟨id0, id1⟩ := hids b hb s hs
  have c0 : id_to_size_t (param.position2d_ids ((b * 2 + 0) * param.query_seq_len + s)) =
      param.past_seq_len + s := by
    rw [id0]; exact id_to_size_t_cast _ (by omega)
  have c1 : id_to_size_t (param.position2d_ids ((b * 2 + 1) * param.query_seq_len + s)) =
      param.past_seq_len + s := by
    rw [id1]; exact id_to_size_t_cast _ (by omega)
  refine ⟨?_, ?_, ?_⟩
  · intro i hi
    have hi' : i < (self.create cp).2._size_per_head := by rw [f3]; exact hi
    have a1 := applyRotaryPosEmbMemcpyWithPosition2d_v (self.create cp).2 rot param.q
      param.k param.v param.ldq param.ldk param.ldv param.query_dst param.layer_past_key_dst
      param.layer_past_value_dst param.batch param.query_seq_len param.past_seq_len
      param.head_stride_in_kv param.position2d_ids param.cos param.sin m m f6 f7 hsep hsrcv hlay' hsz'
      (fun _ => rfl) b h s i hb hh' hs hi'
    have a2 := applyRotaryPosEmbMemcpy_v (self.create cp).2 rot param.q param.k
      param.v param.ldq param.ldk param.ldv param.query_dst param.layer_past_key_dst
      param.layer_past_value_dst param.batch param.query_seq_len param.past_seq_len
      param.head_stride_in_kv param.cos param.sin m m f6 f7 hsep hsrcv hlay' hsz'
      (fun _ => rfl) b h s i hb hh' hs hi'
    rw [f2, f4] at a1 a2
    rw [a1, a2]
  · intro i hi
    have hi' : i < (self.create cp).2._rotary_dim := by rw [f5]; exact hi
    have a1 := applyRotaryPosEmbMemcpyWithPosition2d_q0 (self.create cp).2 rot param.q
      param.k param.v param.ldq param.ldk param.ldv param.query_dst param.layer_past_key_dst
      param.layer_past_value_dst param.batch param.query_seq_len param.past_seq_len
      param.head_stride_in_kv param.position2d_ids param.cos param.sin m m f6 f7 hsep hsrcq hlay' h2rd'
      (fun _ => rfl) b h s i hb hh' hs hi'
    have a2 := applyRotaryPosEmbMemcpy_q_rot (self.create cp).2 rot param.q param.k
      param.v param.ldq param.ldk param.ldv param.query_dst param.layer_past_key_dst
      param.layer_past_value_dst param.batch param.query_seq_len param.past_seq_len
      param.head_stride_in_kv param.cos param.sin m m f6 f7 hsep hsrcq hlay' hrd' h64' hsz'
      (fun _ => rfl) b h s i hb hh' hs hi'
    have a3 := applyRotaryPosEmbMemcpyWithPosition2d_k0 (self.create cp).2 rot param.q
      param.k param.v param.ldq param.ldk param.ldv param.query_dst param.layer_past_key_dst
      param.layer_past_value_dst param.batch param.query_seq_len param.past_seq_len
      param.head_stride_in_kv param.position2d_ids param.cos param.sin m m f6 f7 hsep hsrck hlay' h2rd'
      (fun _ => rfl) b h s i hb hh' hs hi'
    have a4 := applyRotaryPosEmbMemcpy_k_rot (self.create cp).2 rot param.q param.k
      param.v param.ldq param.ldk param.ldv param.query_dst param.layer_past_key_dst
      param.layer_past_value_dst param.batch param.query_seq_len param.past_seq_len
      param.head_stride_in_kv param.cos param.sin m m f6 f7 hsep hsrck hlay' hrd' h64' hsz'
      (fun _ => rfl) b h s i hb hh' hs hi'
    have a5 := applyRotaryPosEmbMemcpyWithPosition2d_q1 (self.create cp).2 rot param.q
      param.k param.v param.ldq param.ldk param.ldv param.query_dst param.layer_past_key_dst
      param.layer_past_value_dst param.batch param.query_seq_len param.past_seq_len
      param.head_stride_in_kv param.position2d_ids param.cos param.sin m m f6 f7 hsep hsrcq hlay' h2rd'
      (fun _ => rfl) b h s i hb hh' hs hi'
    have a6 := applyRotaryPosEmbMemcpyWithPosition2d_k1 (self.create cp).2 rot param.q
      param.k param.v param.ldq param.ldk param.ldv param.query_dst param.layer_past_key_dst
      param.layer_past_value_dst param.batch param.query_seq_len param.past_seq_len
      param.head_stride_in_kv param.position2d_ids param.cos param.sin m m f6 f7 hsep hsrck hlay' h2rd'
      (fun _ => rfl) b h s i hb hh' hs hi'
    rw [c0] at a1 a3
    rw [c1] at a5 a6
    rw [f2, f4, f5] at a1 a2 a3 a4 a5 a6
    exact ⟨a1.trans a2.symm, a3.trans a4.symm, a5, a6⟩
  · intro i hge hi
    have hge' : (self.create cp).2._rotary_dim ≤ i := by rw [f5]; exact hge
    have hi' : i < (self.create cp).2._size_per_head := by rw [f3]; exact hi
    have a1 := applyRotaryPosEmbMemcpy_q_copy (self.create cp).2 rot param.q param.k
      param.v param.ldq param.ldk param.ldv param.query_dst param.layer_past_key_dst
      param.layer_past_value_dst param.batch param.query_seq_len param.past_seq_len
      param.head_stride_in_kv param.cos param.sin m m f6 f7 hsep hsrcq hlay' hrd' h64' hsz'
      (fun _ => rfl) b h s i hb hh' hs hge' hi'
    have a2 := applyRotaryPosEmbMemcpy_k_copy (self.create cp).2 rot param.q param.k
      param.v param.ldq param.ldk param.ldv param.query_dst param.layer_past_key_dst
      param.layer_past_value_dst param.batch param.query_seq_len param.past_seq_len
      param.head_stride_in_kv param.cos param.sin m m f6 f7 hsep hsrck hlay' hrd' h64' hsz'
      (fun _ => rfl) b h s i hb hh' hs hge' hi'
    rw [f2, f4] at a1 a2
    exact ⟨a1, a2⟩

/-- The call parameters `emb_param_seq` on the configuration `emb_cfg_bf16`: the two writers
leave the same element 1 in the query slot of head 1 of batch element 1. -/
theorem writers_agree_on_first_segment_witness :
    load_bf16 (applyRotaryPosEmbMemcpyWithPosition2d (examples.writer0.create examples.emb_cfg_bf16).2 examples.rot_mark
          examples.emb_param_seq.q examples.emb_param_seq.k examples.emb_param_seq.v examples.emb_param_seq.ldq examples.emb_param_seq.ldk
          examples.emb_param_seq.ldv examples.emb_param_seq.query_dst examples.emb_param_seq.layer_past_key_dst
          examples.emb_param_seq.layer_past_value_dst examples.emb_param_seq.batch examples.emb_param_seq.query_seq_len
          examples.emb_param_seq.past_seq_len
          examples.emb_param_seq.position2d_ids examples.emb_param_seq.head_stride_in_kv
          examples.emb_param_seq.cos examples.emb_param_seq.sin examples.emb_heap)
      ((⟨1, 0⟩ : ptr).add (2 * (((1 * 2 + 1) * 1 + 0) * 4))) 1 =
    load_bf16 (applyRotaryPosEmbMemcpy (examples.writer0.create examples.emb_cfg_bf16).2 examples.rot_mark
          examples.emb_param_seq.q examples.emb_param_seq.k examples.emb_param_seq.v examples.emb_param_seq.ldq examples.emb_param_seq.ldk
          examples.emb_param_seq.ldv examples.emb_param_seq.query_dst examples.emb_param_seq.layer_past_key_dst
          examples.emb_param_seq.layer_past_value_dst examples.emb_param_seq.batch examples.emb_param_seq.query_seq_len
          examples.emb_param_seq.past_seq_len examples.emb_param_seq.head_stride_in_kv
          examples.emb_param_seq.cos examples.emb_param_seq.sin examples.emb_heap)
      ((⟨1, 0⟩ : ptr).add (2 * (((1 * 2 + 1) * 1 + 0) * 4))) 1 :=
  (((writers_agree_on_first_segment examples.writer0 examples.emb_cfg_bf16 ℚ examples.rot_mark
    examples.emb_param_seq examples.emb_heap rfl (by decide)
    (fun b _ s hs => by
      have e : s = 0 := Nat.lt_one_iff.mp hs
      subst e
      exact ⟨rfl, rfl⟩)
    (by decide) (by decide) (by decide) (by decide) (by decide) (by decide)
    emb_param_dst_separate emb_param_src_separate emb_param_src_separate
    emb_param_src_separate) 1 (by decide) 1 (by decide) 0 (by decide)).2.1 1 (by decide)).1

/-- C19 (counterexample). The call parameters `emb_param_seq`, whose position ids are all
`past_seq_len + 0 = 1`, on the configuration `emb_cfg_bf16` (`rotary_dims = 2`,
`head_size = 4`) with a kernel that changes every element: the two-track writer leaves the
rotated source element at index 2 of the first query slot, the one-track writer the source
element. And on the configuration `emb_cfg_wide` (`head_size = 8`) with the same position ids
and a kernel that leaves every element as it is, the two writers differ at index 4 of the
first query slot, which only the one-track writer writes. -/
theorem writers_differ_on_second_segment :
    (∀ b, b < examples.emb_param_seq.batch → ∀ s, s < examples.emb_param_seq.query_seq_len →
      examples.emb_param_seq.position2d_ids
          ((b * 2 + 0) * examples.emb_param_seq.query_seq_len + s) =
        ((examples.emb_param_seq.past_seq_len + s : Nat) : Int) ∧
      examples.emb_param_seq.position2d_ids
          ((b * 2 + 1) * examples.emb_param_seq.query_seq_len + s) =
        ((examples.emb_param_seq.past_seq_len + s : Nat) : Int)) ∧
    load_bf16 (applyRotaryPosEmbMemcpyWithPosition2d (examples.writer0.create examples.emb_cfg_bf16).2 examples.rot_mark
          examples.emb_param_seq.q examples.emb_param_seq.k examples.emb_param_seq.v examples.emb_param_seq.ldq examples.emb_param_seq.ldk
          examples.emb_param_seq.ldv examples.emb_param_seq.query_dst examples.emb_param_seq.layer_past_key_dst
          examples.emb_param_seq.layer_past_value_dst examples.emb_param_seq.batch examples.emb_param_seq.query_seq_len
          examples.emb_param_seq.past_seq_len
          examples.emb_param_seq.position2d_ids examples.emb_param_seq.head_stride_in_kv
          examples.emb_param_seq.cos examples.emb_param_seq.sin examples.emb_heap)
      examples.emb_param_seq.query_dst 2 ≠
    load_bf16 (applyRotaryPosEmbMemcpy (examples.writer0.create examples.emb_cfg_bf16).2 examples.rot_mark
          examples.emb_param_seq.q examples.emb_param_seq.k examples.emb_param_seq.v examples.emb_param_seq.ldq examples.emb_param_seq.ldk
          examples.emb_param_seq.ldv examples.emb_param_seq.query_dst examples.emb_param_seq.layer_past_key_dst
          examples.emb_param_seq.layer_past_value_dst examples.emb_param_seq.batch examples.emb_param_seq.query_seq_len
          examples.emb_param_seq.past_seq_len examples.emb_param_seq.head_stride_in_kv
          examples.emb_param_seq.cos examples.emb_param_seq.sin examples.emb_heap)
      examples.emb_param_seq.query_dst 2 ∧
    load_bf16 (applyRotaryPosEmbMemcpyWithPosition2d (examples.writer0.create examples.emb_cfg_wide).2 examples.rot_id
          examples.emb_param_wide.q examples.emb_param_wide.k examples.emb_param_wide.v examples.emb_param_wide.ldq examples.emb_param_wide.ldk
          examples.emb_param_wide.ldv examples.emb_param_wide.query_dst examples.emb_param_wide.layer_past_key_dst
          examples.emb_param_wide.layer_past_value_dst examples.emb_param_wide.batch examples.emb_param_wide.query_seq_len
          examples.emb_param_wide.past_seq_len
          examples.emb_param_wide.position2d_ids examples.emb_param_wide.head_stride_in_kv
          examples.emb_param_wide.cos examples.emb_param_wide.sin examples.emb_heap)
      examples.emb_param_wide.query_dst 4 ≠
    load_bf16 (applyRotaryPosEmbMemcpy (examples.writer0.create examples.emb_cfg_wide).2 examples.rot_id
          examples.emb_param_wide.q examples.emb_param_wide.k examples.emb_param_wide.v examples.emb_param_wide.ldq examples.emb_param_wide.ldk
          examples.emb_param_wide.ldv examples.emb_param_wide.query_dst examples.emb_param_wide.layer_past_key_dst
          examples.emb_param_wide.layer_past_value_dst examples.emb_param_wide.batch examples.emb_param_wide.query_seq_len
          examples.emb_param_wide.past_seq_len examples.emb_param_wide.head_stride_in_kv
          examples.emb_param_wide.cos examples.emb_param_wide.sin examples.emb_heap)
      examples.emb_param_wide.query_dst 4 := by
  refine ⟨?_, ?_⟩
  · intro b _ s hs
    have e : s = 0 := Nat.lt_one_iff.mp hs
    subst e
    exact ⟨rfl, rfl⟩
  · decide

/-- C15. The call `emb_param_wide` on the two-track configuration `emb_cfg_2d_wide`
(`rotary_dims = 2`, `head_size = 8`), with a kernel that leaves every element as it is:
after `exec`, element 4 of the first query slot is what the query destination held before
the call and not the source element, and element 4 of the slot of the new position of the
first key cache is not the source element either. On the one-track configuration
`emb_cfg_wide` the same call leaves the source elements there. -/
theorem emb_exec_2d_leaves_suffix :
    load_bf16 (exec (examples.writer0.create examples.emb_cfg_2d_wide).2 examples.rot_id
        examples.emb_param_wide examples.emb_heap).2 examples.emb_param_wide.query_dst 4 =
      load_bf16 examples.emb_heap examples.emb_param_wide.query_dst 4 ∧
    load_bf16 (exec (examples.writer0.create examples.emb_cfg_2d_wide).2 examples.rot_id
        examples.emb_param_wide examples.emb_heap).2 examples.emb_param_wide.query_dst 4 ≠
      load_bf16 examples.emb_heap examples.emb_param_wide.q 4 ∧
    load_bf16 (exec (examples.writer0.create examples.emb_cfg_2d_wide).2 examples.rot_id
        examples.emb_param_wide examples.emb_heap).2
      ((examples.emb_param_wide.layer_past_key_dst 0).add (2 * (0 * 16 + (1 + 0) * 8))) 4 ≠
      load_bf16 examples.emb_heap examples.emb_param_wide.k 4 ∧
    load_bf16 (exec (examples.writer0.create examples.emb_cfg_wide).2 examples.rot_id
        examples.emb_param_wide examples.emb_heap).2 examples.emb_param_wide.query_dst 4 =
      load_bf16 examples.emb_heap examples.emb_param_wide.q 4 ∧
    load_bf16 (exec (examples.writer0.create examples.emb_cfg_wide).2 examples.rot_id
        examples.emb_param_wide examples.emb_heap).2
      ((examples.emb_param_wide.layer_past_key_dst 0).add (2 * (0 * 16 + (1 + 0) * 8))) 4 =
      load_bf16 examples.emb_heap examples.emb_param_wide.k 4 := by
  decide

end writer_theorems

section blocked_theorems

open mha_gpt mha_gpt_impl_amx

variable {F : Type} [Field F]

/-- C2. In the blocked strategy of the bf16 pipeline without `is_causal_in_attention`,
without the bloom scheme and with `key_seq_len ≥ query_seq_len`: when the scaled scores plus
mask of query row `r` of batch `b` and head `h` are all equal on the row's window of
`key_seq_len - query_seq_len + r + 1` keys, output row `r` is the arithmetic mean of the
value rows of that window. -/
theorem blocked_uniform_mean [CharZero F] (nm : numerics F) (env : parallel_env)
    (self0 : mha_gpt_impl_amx F) (cp : create_param F) (n : Nat) (fresh : Nat → F)
    (param : exec_param F) (hc : (self0.create cp n fresh).1 = true)
    (hq : cp.qkv_precision = dnnl_bf16) (hbloom : cp.is_bloom = false)
    (hblk : is_vector_bf16 (self0.create cp n fresh).2 param = false)
    (hci : param.is_causal_in_attention = false)
    (hle : param.query_seq_len ≤ param.key_seq_len) (h64 : param.key_seq_len < 2 ^ 64)
    (hthr : env.getTotalThreads ≤ n)
    (hcov : ∀ i, i < param.batch * cp.num_heads * (rndup param.query_seq_len 32 / 32) →
      ∃ t, t < env.getTotalThreads ∧
        (env.splitter (param.batch * cp.num_heads * (rndup param.query_seq_len 32 / 32))
          env.getTotalThreads t).1 ≤ i ∧
        i < (env.splitter (param.batch * cp.num_heads * (rndup param.query_seq_len 32 / 32))
          env.getTotalThreads t).2)
    (hqs : param.q.m_strides 3 = 2) (hks : param.k.m_strides 3 = 2)
    (hvs : param.v.m_strides 3 = 2)
    (b h r : Nat) (hb : b < param.batch) (hh : h < cp.num_heads)
    (hr : r < param.query_seq_len) (x0 : F) (hexp : nm.expf x0 ≠ 0)
    (heq : ∀ c, c < param.key_seq_len - param.query_seq_len + r + 1 →
      cp.normal_factor * raw_score param cp.head_size b h r c +
        param.attention_mask.data_f32 (b * param.key_seq_len + c) = x0) :
    ∃ st out, mha_bf16 nm env (self0.create cp n fresh).2 param = some (st, out) ∧
      ∀ d, d < cp.head_size →
        out ((((b * param.query_seq_len + r) * cp.num_heads + h) * cp.head_size + d) * 2) =
          (∑ c in Finset.range (param.key_seq_len - param.query_seq_len + r + 1),
            param.v.at4 b h c d) /
            ((param.key_seq_len - param.query_seq_len + r + 1 : Nat) : F) := by
  obtain ⟨st, out, hrun, hval, -⟩ := mha_bf16_blocked_run nm env self0 cp n fresh param
    hc hq hblk (fun _ => ⟨hle, h64⟩) hthr hqs (by rw [hbloom]; exact hks) hvs
  refine ⟨st, out, hrun, ?_⟩
  intro d hd
  rw [hval b hb h hh r hr d hd
    (hcov _ (work_index_lt _ _ _ b h (r / 32) hb hh (seq_lt_of_row _ _ hr)))]
  obtain ⟨hcp, -⟩ := create_bf16_state self0 cp n fresh hc hq
  unfold naive_row row_len row_logit window_logit
  rw [hcp]
  simp only [hci, hbloom, Bool.false_eq_true, if_false, Bool.not_false, if_true,
    cmos_eq param hle h64]
  apply attn_row_uniform nm.expf _ _ _ _ x0 (by omega) (by omega) _ hexp
  intro c hc2
  rw [mul_comm]
  exact heq c hc2

/-- The scenario of one batch, one head of size 4 and three query rows against three
identical keys under a zero mask (`param3`): output row `r` is the mean of the value rows
`0 .. r`, for `r = 0, 1, 2`. -/
theorem blocked_uniform_mean_witness :
    (∃ st out, mha_bf16 examples.nm0 examples.env2
        (examples.engine0.create examples.cfg_bf16 2 (fun _ => 0)).2 examples.param3 =
        some (st, out) ∧
      ∀ d, d < 4 → out ((((0 * 3 + 0) * 1 + 0) * 4 + d) * 2) =
        (∑ c in Finset.range (3 - 3 + 0 + 1), examples.param3.v.at4 0 0 c d) /
          ((3 - 3 + 0 + 1 : Nat) : ℚ)) ∧
    (∃ st out, mha_bf16 examples.nm0 examples.env2
        (examples.engine0.create examples.cfg_bf16 2 (fun _ => 0)).2 examples.param3 =
        some (st, out) ∧
      ∀ d, d < 4 → out ((((0 * 3 + 1) * 1 + 0) * 4 + d) * 2) =
        (∑ c in Finset.range (3 - 3 + 1 + 1), examples.param3.v.at4 0 0 c d) /
          ((3 - 3 + 1 + 1 : Nat) : ℚ)) ∧
    (∃ st out, mha_bf16 examples.nm0 examples.env2
        (examples.engine0.create examples.cfg_bf16 2 (fun _ => 0)).2 examples.param3 =
        some (st, out) ∧
      ∀ d, d < 4 → out ((((0 * 3 + 2) * 1 + 0) * 4 + d) * 2) =
        (∑ c in Finset.range (3 - 3 + 2 + 1), examples.param3.v.at4 0 0 c d) /
          ((3 - 3 + 2 + 1 : Nat) : ℚ)) :=
  ⟨blocked_uniform_mean examples.nm0 examples.env2 examples.engine0 examples.cfg_bf16 2
      (fun _ => 0) examples.param3 rfl rfl rfl rfl rfl (by decide) (by decide) (by decide)
      (by decide) rfl rfl rfl 0 0 0 (by decide) (by decide) (by decide) 12
      (by norm_num [examples.nm0])
      (fun c _ => by
        norm_num [raw_score, tensor.at4, tensor.data_f32, examples.param3, examples.dense4,
          examples.cfg_bf16, Finset.sum_range_succ]),
    blocked_uniform_mean examples.nm0 examples.env2 examples.engine0 examples.cfg_bf16 2
      (fun _ => 0) examples.param3 rfl rfl rfl rfl rfl (by decide) (by decide) (by decide)
      (by decide) rfl rfl rfl 0 0 1 (by decide) (by decide) (by decide) 44
      (by norm_num [examples.nm0])
      (fun c _ => by
        norm_num [raw_score, tensor.at4, tensor.data_f32, examples.param3, examples.dense4,
          examples.cfg_bf16, Finset.sum_range_succ]),
    blocked_uniform_mean examples.nm0 examples.env2 examples.engine0 examples.cfg_bf16 2
      (fun _ => 0) examples.param3 rfl rfl rfl rfl rfl (by decide) (by decide) (by decide)
      (by decide) rfl rfl rfl 0 0 2 (by decide) (by decide) (by decide) 76
      (by norm_num [examples.nm0])
      (fun c _ => by
        norm_num [raw_score, tensor.at4, tensor.data_f32, examples.param3, examples.dense4,
          examples.cfg_bf16, Finset.sum_range_succ])⟩

end blocked_theorems

section decode_theorems

open mha_gpt mha_gpt_impl_amx

variable {F : Type} [Field F]

/-- C1. Every `exec` of a bf16 engine that takes the decode strategy writes, for every batch
`b` and head `h`, at element offset `(b * num_heads + h) * head_size` of the output (elements
of 2 bytes) the naive attention of the single query row: the softmax over the keys `c` of
`normal_factor * sum_d Q[b,h,0,d] * K[b,h,c,d] + mask[b * key_seq_len + c]` as weights of
the value rows `V[b,h,c,.]`. -/
theorem decode_bf16_naive (nm : numerics F) (env : parallel_env) (self0 : mha_gpt_impl_amx F)
    (cp : create_param F) (n : Nat) (fresh : Nat → F) (param : exec_param F)
    (hc : (self0.create cp n fresh).1 = true) (hq : cp.qkv_precision = dnnl_bf16)
    (hrank : rank_mismatch param = false) (hdims : dims_match param = true)
    (hvec : is_vector_bf16 (self0.create cp n fresh).2 param = true)
    (hthr : ∀ i0, i0 < param.batch → ∀ i1, i1 < cp.num_heads →
      env.thread2d param.batch cp.num_heads i0 i1 < n)
    (hqs : param.q.m_strides 3 = 2) (hks : param.k.m_strides 3 = 2)
    (hvs : param.v.m_strides 3 = 2) :
    ∃ st out, exec nm env (self0.create cp n fresh).2 param =
        (exec_path.run_bf16, some (st, out)) ∧
      ∀ b, b < param.batch → ∀ h, h < cp.num_heads → ∀ d, d < cp.head_size →
        out (((b * cp.num_heads + h) * cp.head_size + d) * 2) =
          ∑ c in Finset.range param.key_seq_len,
            softmax nm.expf param.key_seq_len
              (fun j => cp.normal_factor * raw_score param cp.head_size b h 0 j +
                param.attention_mask.data_f32 (b * param.key_seq_len + j)) c *
              param.v.at4 b h c d := by
  obtain ⟨st, out, hrun, hval⟩ := mha_bf16_vector_run nm env self0 cp n fresh param hc hq hvec
    hthr hqs hks hvs
  obtain ⟨hcp, -⟩ := create_bf16_state self0 cp n fresh hc hq
  refine ⟨st, out, ?_, hval⟩
  unfold exec dispatch
  simp [hrank, hdims, hcp, hq, hrun]

/-- The decode theorem on `param_decode`: one head of size 32 against two keys. -/
theorem decode_bf16_naive_witness :
    ∃ st out, exec examples.nm0 examples.env2
        (examples.engine0.create examples.cfg_decode 2 (fun _ => 0)).2 examples.param_decode =
        (exec_path.run_bf16, some (st, out)) ∧
      ∀ b, b < 1 → ∀ h, h < 1 → ∀ d, d < 32 →
        out (((b * 1 + h) * 32 + d) * 2) =
          ∑ c in Finset.range 2,
            softmax examples.nm0.expf 2
              (fun j => 1 * raw_score examples.param_decode 32 b h 0 j +
                examples.param_decode.attention_mask.data_f32 (b * 2 + j)) c *
              examples.param_decode.v.at4 b h c d :=
  decode_bf16_naive examples.nm0 examples.env2 examples.engine0 examples.cfg_decode 2
    (fun _ => 0) examples.param_decode rfl rfl rfl rfl rfl (by decide) rfl rfl rfl

end decode_theorems

section mask_theorems

open mha_gpt mha_gpt_impl_amx

variable {F : Type} [Field F]

/-- C8, as the code has it. The engine's `exec` reads the memory of the attention mask and
nothing else of it: with another rank, other extents and other strides recorded for the
mask, the call ends on the same path with the same engine object and output. -/
theorem exec_ignores_mask_shape (nm : numerics F) (env : parallel_env)
    (self : mha_gpt_impl_amx F) (param : exec_param F) (rank : Nat) (dims strides : Nat → Nat) :
    exec nm env self (param.with_mask_shape rank dims strides) = exec nm env self param := by
  rfl

/-- C8 fails on `param3_bad_mask`: the mask is recorded with rank 2, its first extent is
not the batch extent of `q` and none of its extents is `key_seq_len`, yet `exec` runs the
bf16 pipeline and writes the output (cell 2 becomes 2). -/
theorem exec_runs_on_mask_mismatch :
    examples.param3_bad_mask.attention_mask.m_rank ≠ 4 ∧
    examples.param3_bad_mask.attention_mask.m_dims 0 ≠ examples.param3_bad_mask.q.m_dims 0 ∧
    (∀ i, examples.param3_bad_mask.attention_mask.m_dims i ≠
      examples.param3_bad_mask.key_seq_len) ∧
    ∃ st out, exec examples.nm0 examples.env2
        (examples.engine0.create examples.cfg_bf16 2 (fun _ => 0)).2
        examples.param3_bad_mask = (exec_path.run_bf16, some (st, out)) ∧
      out 2 = 2 ∧ examples.param3_bad_mask.attn_output.m_ptr 2 = 0 := by
  obtain ⟨st, out, hrun, hval, -⟩ := mha_bf16_blocked_run examples.nm0 examples.env2
    examples.engine0 examples.cfg_bf16 2 (fun _ => 0) examples.param3_bad_mask rfl rfl rfl
    (fun _ => ⟨by decide, by decide⟩) (by decide) rfl rfl rfl
  refine ⟨by decide, by decide, ?_, st, out, ?_, ?_, rfl⟩
  · intro i
    have h3 : examples.param3_bad_mask.key_seq_len = 3 := rfl
    have hd : examples.param3_bad_mask.attention_mask.m_dims i = [5, 7].getD i 0 := rfl
    rw [h3, hd]
    rcases i with _ | _ | i <;> simp
  · have h1 : rank_mismatch examples.param3_bad_mask = false := rfl
    have h2 : dims_match examples.param3_bad_mask = true := rfl
    have h3 : (examples.engine0.create examples.cfg_bf16 2
        (fun _ => 0)).2._create_param.qkv_precision = dnnl_bf16 := rfl
    unfold exec dispatch
    simp [h1, h2, h3, hrun]
  · have h := hval 0 (by decide) 0 (by decide) 0 (by decide) 1 (by decide)
      ⟨0, by decide, by decide, by decide⟩
    have hA : (((0 * examples.param3_bad_mask.query_seq_len + 0) *
        examples.cfg_bf16.num_heads + 0) * examples.cfg_bf16.head_size + 1) * 2 = 2 := rfl
    rw [hA] at h
    rw [h]
    have hn : naive_row examples.nm0 (examples.engine0.create examples.cfg_bf16 2
        (fun _ => 0)).2 examples.param3_bad_mask id examples.cfg_bf16.normal_factor 0 0 0 1 =
        attn_row examples.nm0.expf id 3 1
          (fun c => raw_score examples.param3_bad_mask 4 0 0 0 c * 1 +
            examples.param3_bad_mask.attention_mask.data_f32 (0 * 3 + c))
          (fun c => examples.param3_bad_mask.v.at4 0 0 c 1) := rfl
    rw [hn, attn_row_uniform examples.nm0.expf 3 1 _ _ 12 (by decide) (by decide)
      (fun c hc => by
        have hc0 : c = 0 := by omega
        subst hc0
        norm_num [raw_score, tensor.at4, tensor.data_f32, examples.param3_bad_mask,
          exec_param.with_mask_shape, examples.param3, examples.dense4,
          Finset.sum_range_succ])
      (by norm_num [examples.nm0])]
    norm_num [tensor.at4, examples.param3_bad_mask, exec_param.with_mask_shape,
      examples.param3, examples.dense4, Finset.sum_range_succ]

end mask_theorems

section window_theorems

open mha_gpt mha_gpt_impl_amx

variable {F : Type} [AddCommMonoid F] [Mul F] [Div F]

/-- C3, as the code has it. In the blocked strategy without `is_causal_in_attention` and
with `key_seq_len ≥ query_seq_len`, two runs of `exec` whose inputs differ only in the key
rows and value rows of batch `b`, head `h` at positions from
`key_seq_len - query_seq_len + r + 1` on leave the same values in the output cells of query
row `r` of `(b, h)` (or both stop at a thread without kernel object), provided the value
entries at these positions give the same product with zero in both runs, as all finite
numbers do: the second multiply of a work item takes the zeroed probabilities times every
value row. The arithmetic is any multiplication and division and any addition that is
associative and commutative and has a zero, so the statement covers numbers with a NaN. The
cells are those the code stores the row to: byte
`(((b * query_seq_len + r) * num_heads + h) * head_size + d) * 2` in the bf16 pipeline, and
in the quantized pipeline the block offset scaled by the size of `dst_precision` plus
`(r % 32) * num_heads * head_size + d`. -/
theorem window_ignores_later_rows (nm : numerics F) (env : parallel_env)
    (self0 : mha_gpt_impl_amx F) (cp : create_param F) (n : Nat) (fresh : Nat → F)
    (param : exec_param F) (kmem2 vmem2 : Mem F) (b h r : Nat)
    (hc : (self0.create cp n fresh).1 = true)
    (hci : param.is_causal_in_attention = false)
    (hle : param.query_seq_len ≤ param.key_seq_len) (h64 : param.key_seq_len < 2 ^ 64)
    (hb : b < param.batch) (hh : h < cp.num_heads) (hr : r < param.query_seq_len)
    (hK : ∀ b2, b2 < param.batch → ∀ h2, h2 < cp.num_heads → ∀ c, c < param.key_seq_len →
      ∀ e, e < cp.head_size →
        (b2 ≠ b ∨ h2 ≠ h ∨ c < param.key_seq_len - param.query_seq_len + r + 1) →
        (param.k.with_mem kmem2).at4 b2 h2 c e = param.k.at4 b2 h2 c e)
    (hV : ∀ b2, b2 < param.batch → ∀ h2, h2 < cp.num_heads → ∀ c, c < param.key_seq_len →
      ∀ e, e < cp.head_size →
        (b2 ≠ b ∨ h2 ≠ h ∨ c < param.key_seq_len - param.query_seq_len + r + 1) →
        (param.v.with_mem vmem2).at4 b2 h2 c e = param.v.at4 b2 h2 c e)
    (hVz : ∀ c, param.key_seq_len - param.query_seq_len + r + 1 ≤ c → c < param.key_seq_len →
      ∀ e, e < cp.head_size →
        (0 : F) * (param.v.with_mem vmem2).at4 b h c e = 0 * param.v.at4 b h c e) :
    (cp.qkv_precision = dnnl_bf16 →
      is_vector_bf16 (self0.create cp n fresh).2 param = false →
      param.q.m_strides 3 = 2 →
      (if cp.is_bloom then param.k.m_strides 2 = 2 else param.k.m_strides 3 = 2) →
      param.v.m_strides 3 = 2 →
      ∀ d, d < cp.head_size →
        (exec nm env (self0.create cp n fresh).2 param).2.map
            (fun s => s.2 ((((b * param.query_seq_len + r) * cp.num_heads + h) *
              cp.head_size + d) * 2)) =
          (exec nm env (self0.create cp n fresh).2 (param.with_kv kmem2 vmem2)).2.map
            (fun s => s.2 ((((b * param.query_seq_len + r) * cp.num_heads + h) *
              cp.head_size + d) * 2))) ∧
    (cp.qkv_precision = dnnl_s8 →
      is_vector_i8 (self0.create cp n fresh).2 param = false →
      param.q.m_strides 3 = 1 →
      (if cp.is_bloom then param.k.m_strides 2 = 1 else param.k.m_strides 3 = 1) →
      param.v.m_strides 3 = 1 →
      ∀ d, d < cp.head_size →
        (exec nm env (self0.create cp n fresh).2 param).2.map
            (fun s => s.2 ((b * (cp.head_size * cp.num_heads * param.query_seq_len) +
                h * cp.head_size + r / 32 * 32 * cp.head_size * cp.num_heads) *
                get_precision_size cp.dst_precision +
              r % 32 * (cp.num_heads * cp.head_size) + d * 1)) =
          (exec nm env (self0.create cp n fresh).2 (param.with_kv kmem2 vmem2)).2.map
            (fun s => s.2 ((b * (cp.head_size * cp.num_heads * param.query_seq_len) +
                h * cp.head_size + r / 32 * 32 * cp.head_size * cp.num_heads) *
                get_precision_size cp.dst_precision +
              r % 32 * (cp.num_heads * cp.head_size) + d * 1))) := by
  have hcm := cmos_eq param hle h64
  have hrl : causal_mask_offset_start param + r + 1 ≤ param.key_seq_len := by omega
  have hexec : ∀ st : mha_gpt_impl_amx F, ∀ A : Nat,
      (dispatch nm env st param).2.map (fun s => s.2 A) =
        (dispatch nm env st (param.with_kv kmem2 vmem2)).2.map (fun s => s.2 A) →
      (exec nm env st param).2.map (fun s => s.2 A) =
        (exec nm env st (param.with_kv kmem2 vmem2)).2.map (fun s => s.2 A) := by
    intro st A hdisp
    have e1 : rank_mismatch (param.with_kv kmem2 vmem2) = rank_mismatch param := rfl
    have e2 : dims_match (param.with_kv kmem2 vmem2) = dims_match param := rfl
    have e3 : (param.with_kv kmem2 vmem2).attn_output = param.attn_output := rfl
    unfold exec
    rw [e1, e2, e3]
    by_cases h1 : rank_mismatch param = true
    · simp only [h1, if_true]
    · by_cases h2 : dims_match param = true
      · simp only [h1, h2, Bool.not_true, Bool.false_eq_true, if_false]
        exact hdisp
      · simp only [h1, h2, Bool.not_eq_true, Bool.false_eq_true, if_false, Bool.not_false,
          if_true]
  constructor
  · intro hq hblk hqs hks hvs d hd
    obtain ⟨hcp, hhsa, _, hg1, hg2⟩ := create_bf16_state self0 cp n fresh hc hq
    generalize (self0.create cp n fresh).2 = st at *
    apply hexec
    have hprec : st._create_param.qkv_precision = dnnl_bf16 := by rw [hcp]; exact hq
    have hblk2 : is_vector_bf16 st (param.with_kv kmem2 vmem2) = false := hblk
    unfold dispatch mha_bf16
    simp only [hprec, hblk, hblk2, Bool.false_eq_true, if_false, if_true, Option.map_map,
      show (dnnl_bf16 = dnnl_f32) = False from by simp]
    subst hcp
    exact blocked_loop_sim env param.batch st._create_param.num_heads param.query_seq_len
      (mha_bf16_block_body nm st param) (mha_bf16_block_body nm st (param.with_kv kmem2 vmem2))
      (fun w => w.pout ((((b * param.query_seq_len + r) * st._create_param.num_heads + h) *
        st._create_param.head_size + d) * 2))
      (fun t i0 i1 seq _ hi1 hseq w w2 hw =>
        mha_bf16_block_body_sim nm st param kmem2 vmem2 n t i0 i1 seq w w2 hg1 hg2 hprec
          (by rw [hhsa]; unfold rndup; omega) hqs hks hvs hci
          (window_bounds param seq hle h64 hseq) hi1 b h r d hh hr hd
          (fun c hc2 e he => hK b hb h hh c (by omega) e he
            (Or.inr (Or.inr (by omega))))
          (fun c hc2 e he => hV b hb h hh c (by omega) e he
            (Or.inr (Or.inr (by omega))))
          (fun c hc2 hc3 e he => hVz c (by omega) hc3 e he) hw)
      _ _ rfl
  · intro hq hblk hqs hks hvs d hd
    obtain ⟨hcp, hhsa, _, hg1, hg2, hdst⟩ := create_s8_state self0 cp n fresh hc hq
    generalize (self0.create cp n fresh).2 = st at *
    apply hexec
    have hprec : st._create_param.qkv_precision = dnnl_s8 := by rw [hcp]; exact hq
    have hblk2 : is_vector_i8 st (param.with_kv kmem2 vmem2) = false := hblk
    have hqb : prepare_qkvQuantBuf st (param.with_kv kmem2 vmem2) =
        prepare_qkvQuantBuf st param := rfl
    unfold dispatch mha_i8
    simp only [hprec, hblk, hblk2, hqb, Bool.false_eq_true, if_false, if_true, Option.map_map,
      show (dnnl_s8 = dnnl_f32) = False from by simp,
      show (dnnl_s8 = dnnl_bf16) = False from by simp]
    subst hcp
    exact blocked_loop_sim env param.batch st._create_param.num_heads param.query_seq_len
      (mha_i8_block_body nm st param (prepare_qkvQuantBuf st param))
      (mha_i8_block_body nm st (param.with_kv kmem2 vmem2) (prepare_qkvQuantBuf st param))
      (fun w => w.pout ((b * (st._create_param.head_size * st._create_param.num_heads *
            param.query_seq_len) + h * st._create_param.head_size +
          r / 32 * 32 * st._create_param.head_size * st._create_param.num_heads) *
          get_precision_size st._create_param.dst_precision +
        r % 32 * (st._create_param.num_heads * st._create_param.head_size) + d * 1))
      (fun t i0 i1 seq hi0 hi1 hseq w w2 hw =>
        mha_i8_block_body_sim nm st param kmem2 vmem2 _ n t i0 i1 seq w w2 hg1 hg2 hprec
          (by rcases hdst with e | e <;> rw [e] <;> simp [get_precision_size])
          (by rw [hhsa]; unfold rndup; omega) hqs hks hvs hci
          (window_bounds param seq hle h64 hseq) hi0 hi1 b h r d hh hr hd hrl
          (fun b2 hb2 h2 hh2 c hc2 e he hcond => hK b2 hb2 h2 hh2 c hc2 e he
            (by rw [hcm] at hcond; exact hcond))
          (fun b2 hb2 h2 hh2 c hc2 e he hcond => hV b2 hb2 h2 hh2 c hc2 e he
            (by rw [hcm] at hcond; exact hcond))
          (fun c hc2 hc3 e he => hVz c (by omega) hc3 e he) hw)
      _ _ rfl

/-- On `param3`, changing the key and value rows 1 and 2 leaves output row 0 as it is (shown
for its first and its last channel). -/
theorem window_ignores_later_rows_witness :
    (exec examples.nm0 examples.env2
        (examples.engine0.create examples.cfg_bf16 2 (fun _ => 0)).2 examples.param3).2.map
        (fun s => s.2 ((((0 * 3 + 0) * 1 + 0) * 4 + 0) * 2)) =
      (exec examples.nm0 examples.env2
        (examples.engine0.create examples.cfg_bf16 2 (fun _ => 0)).2
        (examples.param3.with_kv examples.kmem_late examples.vmem_late)).2.map
        (fun s => s.2 ((((0 * 3 + 0) * 1 + 0) * 4 + 0) * 2)) ∧
    (exec examples.nm0 examples.env2
        (examples.engine0.create examples.cfg_bf16 2 (fun _ => 0)).2 examples.param3).2.map
        (fun s => s.2 ((((0 * 3 + 0) * 1 + 0) * 4 + 3) * 2)) =
      (exec examples.nm0 examples.env2
        (examples.engine0.create examples.cfg_bf16 2 (fun _ => 0)).2
        (examples.param3.with_kv examples.kmem_late examples.vmem_late)).2.map
        (fun s => s.2 ((((0 * 3 + 0) * 1 + 0) * 4 + 3) * 2)) := by
  have key := (window_ignores_later_rows examples.nm0 examples.env2 examples.engine0
    examples.cfg_bf16 2 (fun _ => 0) examples.param3 examples.kmem_late examples.vmem_late
    0 0 0 rfl rfl (by decide) (by decide) (by decide) (by decide) (by decide)
    (fun b2 hb2 h2 hh2 c hc e he hcond => by
      have hb1 : b2 < 1 := hb2
      have hh1 : h2 < 1 := hh2
      have hcond1 : b2 ≠ 0 ∨ h2 ≠ 0 ∨ c < 1 := hcond
      have hb0 : b2 = 0 := by omega
      have hh0 : h2 = 0 := by omega
      have hc0 : c = 0 := by omega
      have he4 : e < 4 := he
      subst hb0 hh0 hc0
      have : e * 2 < 8 := by omega
      simp [tensor.at4, tensor.with_mem, examples.param3, examples.dense4, examples.kmem_late,
        this])
    (fun b2 hb2 h2 hh2 c hc e he hcond => by
      have hb1 : b2 < 1 := hb2
      have hh1 : h2 < 1 := hh2
      have hcond1 : b2 ≠ 0 ∨ h2 ≠ 0 ∨ c < 1 := hcond
      have hb0 : b2 = 0 := by omega
      have hh0 : h2 = 0 := by omega
      have hc0 : c = 0 := by omega
      have he4 : e < 4 := he
      subst hb0 hh0 hc0
      have : e * 2 < 8 := by omega
      simp [tensor.at4, tensor.with_mem, examples.param3, examples.dense4, examples.vmem_late,
        this])
    (fun c _ _ e _ => by simp)).1 rfl rfl rfl rfl rfl
  exact ⟨key 0 (by decide), key 3 (by decide)⟩

/-- C3 fails on `param3` over numbers with a NaN (blocked bf16 strategy, no
`is_causal_in_attention`, `key_seq_len = query_seq_len = 3`, row `r = 0`): the second run
has the keys of the first and its value row 0 (the bytes below 8) and holds NaN in the value
rows 1 and 2, the positions `≥ (key_seq_len - query_seq_len) + r + 1 = 1`; output row 0,
channel 1, is `2` in the first run and NaN in the second: the zeroed probabilities of the
columns 1 and 2 are multiplied with the value rows 1 and 2. -/
theorem nan_in_later_value_row_reaches_row :
    (∀ a, a < 8 → examples.vmem_nan a = (examples.lift_param examples.param3).v.m_ptr a) ∧
    ∃ st out st2 out2,
      exec examples.nm0_flt examples.env2
        (examples.engine0_flt.create examples.cfg_bf16_flt 2 (fun _ => 0)).2
        (examples.lift_param examples.param3) = (exec_path.run_bf16, some (st, out)) ∧
      exec examples.nm0_flt examples.env2
        (examples.engine0_flt.create examples.cfg_bf16_flt 2 (fun _ => 0)).2
        ((examples.lift_param examples.param3).with_kv
          (examples.lift_param examples.param3).k.m_ptr examples.vmem_nan) =
        (exec_path.run_bf16, some (st2, out2)) ∧
      out 2 = flt.num 2 ∧ out2 2 = flt.nan := by
  constructor
  · intro a ha
    simp [examples.vmem_nan, ha, examples.lift_param, examples.lift_tensor, examples.param3,
      examples.dense4]
  obtain ⟨st, out, hrun, hval, -⟩ := mha_bf16_blocked_run examples.nm0_flt examples.env2
    examples.engine0_flt examples.cfg_bf16_flt 2 (fun _ => 0)
    (examples.lift_param examples.param3) rfl rfl rfl
    (fun _ => ⟨by decide, by decide⟩) (by decide) rfl rfl rfl
  obtain ⟨st2, out2, hrun2, hval2, -⟩ := mha_bf16_blocked_run examples.nm0_flt examples.env2
    examples.engine0_flt examples.cfg_bf16_flt 2 (fun _ => 0)
    ((examples.lift_param examples.param3).with_kv
      (examples.lift_param examples.param3).k.m_ptr examples.vmem_nan) rfl rfl rfl
    (fun _ => ⟨by decide, by decide⟩) (by decide) rfl rfl rfl
  refine ⟨st, out, st2, out2, ?_, ?_, ?_, ?_⟩
  · have h1 : rank_mismatch (examples.lift_param examples.param3) = false := rfl
    have h2 : dims_match (examples.lift_param examples.param3) = true := rfl
    have h3 : (examples.engine0_flt.create examples.cfg_bf16_flt 2
        (fun _ => 0)).2._create_param.qkv_precision = dnnl_bf16 := rfl
    unfold exec dispatch
    simp [h1, h2, h3, hrun]
  · have h1 : rank_mismatch ((examples.lift_param examples.param3).with_kv
        (examples.lift_param examples.param3).k.m_ptr examples.vmem_nan) = false := rfl
    have h2 : dims_match ((examples.lift_param examples.param3).with_kv
        (examples.lift_param examples.param3).k.m_ptr examples.vmem_nan) = true := rfl
    have h3 : (examples.engine0_flt.create examples.cfg_bf16_flt 2
        (fun _ => 0)).2._create_param.qkv_precision = dnnl_bf16 := rfl
    unfold exec dispatch
    simp [h1, h2, h3, hrun2]
  · have h : out 2 = _ := hval 0 (by decide) 0 (by decide) 0 (by decide) 1 (by decide)
      ⟨0, by decide, by decide, by decide⟩
    rw [h]
    have hn : naive_row examples.nm0_flt (examples.engine0_flt.create examples.cfg_bf16_flt 2
        (fun _ => 0)).2 (examples.lift_param examples.param3) id
        examples.cfg_bf16_flt.normal_factor 0 0 0 1 =
        attn_row examples.nm0_flt.expf id 3 1
          (fun c => raw_score (examples.lift_param examples.param3) 4 0 0 0 c * flt.num 1 +
            (examples.lift_param examples.param3).attention_mask.data_f32 (0 * 3 + c))
          (fun c => (examples.lift_param examples.param3).v.at4 0 0 c 1) := rfl
    rw [hn]
    simp [attn_row, block_prob, softmax, raw_score, tensor.at4, tensor.data_f32,
      examples.lift_param, examples.lift_tensor, examples.param3, examples.dense4,
      examples.nm0_flt, Finset.sum_range_succ, flt_zero, flt_num_add, flt_num_mul,
      flt_num_div, flt_add_nan, flt_nan_add, flt_mul_nan, flt_nan_mul]
    norm_num
  · have h : out2 2 = _ := hval2 0 (by decide) 0 (by decide) 0 (by decide) 1 (by decide)
      ⟨0, by decide, by decide, by decide⟩
    rw [h]
    have hn : naive_row examples.nm0_flt (examples.engine0_flt.create examples.cfg_bf16_flt 2
        (fun _ => 0)).2 ((examples.lift_param examples.param3).with_kv
          (examples.lift_param examples.param3).k.m_ptr examples.vmem_nan) id
        examples.cfg_bf16_flt.normal_factor 0 0 0 1 =
        attn_row examples.nm0_flt.expf id 3 1
          (fun c => raw_score (examples.lift_param examples.param3) 4 0 0 0 c * flt.num 1 +
            (examples.lift_param examples.param3).attention_mask.data_f32 (0 * 3 + c))
          (fun c => examples.vmem_nan (c * 8 + 1 * 2)) := rfl
    rw [hn]
    simp [attn_row, block_prob, examples.vmem_nan, Finset.sum_range_succ, flt_zero,
      flt_add_nan, flt_nan_add, flt_mul_nan, flt_nan_mul]

end window_theorems

section strategy_theorems

open mha_gpt mha_gpt_impl_amx

variable {F : Type} [Field F]

/-- C20 (amended). The attention engine takes the decode (vector) strategy if and only if
`query_seq_len = 1`, `head_size` lies in the range of the pipeline (`32 .. 192` for bf16,
`64 .. 384` for int8) and the bloom flag of the configuration is off; in every other case,
so for every configuration with the bloom flag on, it takes the blocked strategy. -/
theorem strategy_selection (nm : numerics F) (env : parallel_env) (self : mha_gpt_impl_amx F)
    (param : exec_param F) :
    (is_vector_bf16 self param = true ↔
      param.query_seq_len = 1 ∧ 32 ≤ self._create_param.head_size ∧
        self._create_param.head_size ≤ 192 ∧ self._create_param.is_bloom = false) ∧
    (is_vector_i8 self param = true ↔
      param.query_seq_len = 1 ∧ 64 ≤ self._create_param.head_size ∧
        self._create_param.head_size ≤ 384 ∧ self._create_param.is_bloom = false) ∧
    mha_bf16 nm env self param =
      (if param.query_seq_len = 1 ∧ 32 ≤ self._create_param.head_size ∧
          self._create_param.head_size ≤ 192 ∧ self._create_param.is_bloom = false then
        parallel_for2d env param.batch self._create_param.num_heads
          (mha_bf16_vector_body nm self param)
          ⟨self.bufferMatMul0Out, self.bufferMatMul1Out, param.attn_output.m_ptr⟩
      else
        blocked_loop env param.batch self._create_param.num_heads param.query_seq_len
          (mha_bf16_block_body nm self param)
          ⟨self.bufferMatMul0Out, self.bufferMatMul1Out, param.attn_output.m_ptr⟩).map
        (fun w =>
          ({ self with
              bufferMatMul0Out := w.bufferMatMul0Out
              bufferMatMul1Out := w.bufferMatMul1Out },
            w.pout)) ∧
    mha_i8 nm env self param =
      (if param.query_seq_len = 1 ∧ 64 ≤ self._create_param.head_size ∧
          self._create_param.head_size ≤ 384 ∧ self._create_param.is_bloom = false then
        parallel_for2d env param.batch self._create_param.num_heads
          (mha_i8_vector_body nm self param (prepare_qkvQuantBuf self param))
          ⟨self.bufferMatMul0Out, self.bufferMatMul1Out, param.attn_output.m_ptr⟩
      else
        blocked_loop env param.batch self._create_param.num_heads param.query_seq_len
          (mha_i8_block_body nm self param (prepare_qkvQuantBuf self param))
          ⟨self.bufferMatMul0Out, self.bufferMatMul1Out, param.attn_output.m_ptr⟩).map
        (fun w =>
          ({ self with
              bufferMatMul0Out := w.bufferMatMul0Out
              bufferMatMul1Out := w.bufferMatMul1Out
              qkvQuantBuf := prepare_qkvQuantBuf self param },
            w.pout)) := by
  have e1 : is_vector_bf16 self param = true ↔
      param.query_seq_len = 1 ∧ 32 ≤ self._create_param.head_size ∧
        self._create_param.head_size ≤ 192 ∧ self._create_param.is_bloom = false := by
    unfold is_vector_bf16
    simp [and_assoc]
  have e2 : is_vector_i8 self param = true ↔
      param.query_seq_len = 1 ∧ 64 ≤ self._create_param.head_size ∧
        self._create_param.head_size ≤ 384 ∧ self._create_param.is_bloom = false := by
    unfold is_vector_i8
    simp [and_assoc]
  refine ⟨e1, e2, ?_, ?_⟩
  · unfold mha_bf16
    simp only [e1]
  · unfold mha_i8
    simp only [e2]

/-- C20 (counterexample). With the bloom flag on, `create` succeeds and the call on
`param_decode`, where `query_seq_len = 1` and `head_size = 32`, passes the shape checks and
runs the blocked loop of `mha_bf16`, not the decode strategy. -/
theorem bloom_decode_is_blocked :
    examples.param_decode.query_seq_len = 1 ∧
    32 ≤ examples.cfg_bloom_decode.head_size ∧ examples.cfg_bloom_decode.head_size ≤ 192 ∧
    (examples.engine0.create examples.cfg_bloom_decode 2 (fun _ => 0)).1 = true ∧
    is_vector_bf16 (examples.engine0.create examples.cfg_bloom_decode 2 (fun _ => 0)).2
      examples.param_decode = false ∧
    exec examples.nm0 examples.env2
        (examples.engine0.create examples.cfg_bloom_decode 2 (fun _ => 0)).2
        examples.param_decode =
      (exec_path.run_bf16,
        (blocked_loop examples.env2 examples.param_decode.batch
          examples.cfg_bloom_decode.num_heads examples.param_decode.query_seq_len
          (mha_bf16_block_body examples.nm0
            (examples.engine0.create examples.cfg_bloom_decode 2 (fun _ => 0)).2
            examples.param_decode)
          ⟨(examples.engine0.create examples.cfg_bloom_decode 2 (fun _ => 0)).2.bufferMatMul0Out,
            (examples.engine0.create examples.cfg_bloom_decode 2
              (fun _ => 0)).2.bufferMatMul1Out,
            examples.param_decode.attn_output.m_ptr⟩).map
          (fun w =>
            ({ (examples.engine0.create examples.cfg_bloom_decode 2 (fun _ => 0)).2 with
                bufferMatMul0Out := w.bufferMatMul0Out
                bufferMatMul1Out := w.bufferMatMul1Out },
              w.pout))) := by
  refine ⟨rfl, by decide, by decide, rfl, rfl, ?_⟩
  have hv : is_vector_bf16 (examples.engine0.create examples.cfg_bloom_decode 2 (fun _ => 0)).2
      examples.param_decode = false := rfl
  have hr : rank_mismatch examples.param_decode = false := rfl
  have hd : dims_match examples.param_decode = true := rfl
  have hp : (examples.engine0.create examples.cfg_bloom_decode 2
      (fun _ => 0)).2._create_param.qkv_precision = dnnl_bf16 := rfl
  unfold exec dispatch mha_bf16
  simp only [hr, hd, hp, hv]
  rfl

end strategy_theorems

section precision_theorems

open mha_gpt mha_gpt_impl_amx

variable {F : Type} [Field F]

end precision_theorems

section requant_theorems

open mha_gpt mha_gpt_impl_amx

variable {F : Type} [Field F]

/-- C22. In the quantized pipeline, with `qkv_quant` of length 1 or `head_size`, after the
per-call preparation every channel `i < head_size` of the requantization vector is
`qkv_quant[i] * v_dequant / qk_quant` when `qkv_quant` has more than one entry and
`qkv_quant[0] * v_dequant / qk_quant` when it has a single entry; these channels are the same
for every engine object with that `head_size`, whatever its requantization vector held
before; the prepared vector is the one the engine object holds after `mha_i8`. -/
theorem qkvQuantBuf_prepared (nm : numerics F) (env : parallel_env)
    (self : mha_gpt_impl_amx F) (param : exec_param F)
    (hlen : param.qkv_quant.length = 1 ∨
      param.qkv_quant.length = self._create_param.head_size) :
    (∀ i, i < self._create_param.head_size →
      prepare_qkvQuantBuf self param i =
        param.qkv_quant.getD (if param.qkv_quant.length = 1 then 0 else i) 0 *
          param.v_dequant / param.qk_quant) ∧
    (∀ self2 : mha_gpt_impl_amx F,
      self2._create_param.head_size = self._create_param.head_size →
      ∀ i, i < self._create_param.head_size →
        prepare_qkvQuantBuf self2 param i = prepare_qkvQuantBuf self param i) ∧
    (∀ st out, mha_i8 nm env self param = some (st, out) →
      st.qkvQuantBuf = prepare_qkvQuantBuf self param) := by
  have key : ∀ self2 : mha_gpt_impl_amx F,
      self2._create_param.head_size = self._create_param.head_size →
      ∀ i, i < self._create_param.head_size →
        prepare_qkvQuantBuf self2 param i =
          param.qkv_quant.getD (if param.qkv_quant.length = 1 then 0 else i) 0 *
            param.v_dequant / param.qk_quant := by
    intro self2 h2 i hi
    unfold prepare_qkvQuantBuf
    by_cases h1 : param.qkv_quant.length = 1
    · simp only [h1, if_true]
      by_cases hi1 : 1 ≤ i
      · rw [if_pos ⟨hi1, by omega⟩, if_pos (by omega)]
      · have : i = 0 := by omega
        subst this
        simp
    · have hl : param.qkv_quant.length = self._create_param.head_size := by
        rcases hlen with h | h
        · exact absurd h h1
        · exact h
      simp only [h1, if_false]
      rw [if_pos (by omega)]
  refine ⟨key self rfl, ?_, ?_⟩
  · intro self2 h2 i hi
    rw [key self2 h2 i hi, key self rfl i hi]
  · intro st out h
    unfold mha_i8 at h
    simp only [Option.map_eq_some'] at h
    obtain ⟨w, -, hw⟩ := h
    have := congrArg Prod.fst hw
    simp only at this
    rw [← this]

/-- The single scale `1` of `param_mask_s8` on the engine created from `cfg_s8` over fresh
memory holding `7`: the prepared channels 0 and 3 are `1`, whereas `create` left `0` in
channel 0 and `7` in channel 3. -/
theorem qkvQuantBuf_prepared_witness :
    prepare_qkvQuantBuf (examples.engine0.create examples.cfg_s8 2 (fun _ => 7)).2
        examples.param_mask_s8 0 = 1 ∧
    prepare_qkvQuantBuf (examples.engine0.create examples.cfg_s8 2 (fun _ => 7)).2
        examples.param_mask_s8 3 = 1 ∧
    (examples.engine0.create examples.cfg_s8 2 (fun _ => 7)).2.qkvQuantBuf 0 = 0 ∧
    (examples.engine0.create examples.cfg_s8 2 (fun _ => 7)).2.qkvQuantBuf 3 = 7 := by
  have h := (qkvQuantBuf_prepared examples.nm0 examples.env2
    (examples.engine0.create examples.cfg_s8 2 (fun _ => 7)).2 examples.param_mask_s8
    (Or.inl rfl)).1
  refine ⟨(h 0 (by decide)).trans ?_, (h 3 (by decide)).trans ?_, ?_, ?_⟩
  · norm_num [examples.param_mask_s8]
  · norm_num [examples.param_mask_s8]
  · norm_num [mha_gpt_impl_amx.create, examples.cfg_s8, examples.cfg_bf16]
  · norm_num [mha_gpt_impl_amx.create, examples.cfg_s8, examples.cfg_bf16]

end requant_theorems

section window_count_theorems

open mha_gpt mha_gpt_impl_amx

variable {F : Type} [Field F]

/-- C23. In the blocked strategy without `is_causal_in_attention` and with
`key_seq_len ≥ query_seq_len`, for every block `seq` and row `m` of it, with absolute row
`r = 32 * seq + m`: the running `valid_softmax_items` with which row `m` is scaled, biased
and normalised is `key_seq_len - query_seq_len + r + 1` in both pipelines, this number is at
most `key_seq_len`, and after the row loop the probability row holds the softmax over that
many logits in its leading entries and zero from there up to `key_seq_len - 1`. -/
theorem window_row_count (nm : numerics F) (self : mha_gpt_impl_amx F) (param : exec_param F)
    (i0 i1 seq base : Nat) (buf : Mem F)
    (hle : param.query_seq_len ≤ param.key_seq_len) (h64 : param.key_seq_len < 2 ^ 64)
    (hseq : seq < rndup param.query_seq_len 32 / 32) (m : Nat)
    (hm : m < min (seq * 32 + 32) param.query_seq_len - seq * 32) :
    param.key_seq_len - param.query_seq_len + (32 * seq + m) + 1 ≤ param.key_seq_len ∧
    ((List.range m).foldl (mha_bf16_window_row nm self param i0 i1 base)
        (buf, causal_mask_offset_start param + seq * 32 + 1)).2 =
      param.key_seq_len - param.query_seq_len + (32 * seq + m) + 1 ∧
    ((List.range m).foldl (mha_i8_window_row nm self param i0 i1 base)
        (buf, causal_mask_offset_start param + seq * 32 + 1)).2 =
      param.key_seq_len - param.query_seq_len + (32 * seq + m) + 1 ∧
    (self._create_param.qkv_precision = dnnl_bf16 → ∀ c, c < param.key_seq_len →
      mha_bf16_window_rows nm self param i0 i1 (seq * 32)
          (min (seq * 32 + 32) param.query_seq_len - seq * 32) base buf
          (base + m * rndup (param.key_seq_len * 2) 64 + c * 2) =
        if c < param.key_seq_len - param.query_seq_len + (32 * seq + m) + 1 then
          softmax nm.expf (param.key_seq_len - param.query_seq_len + (32 * seq + m) + 1)
            (fun j => window_logit self param self._create_param.normal_factor i0 i1 j
              (buf (base + m * rndup (param.key_seq_len * 4) 64 + j * 4))) c
        else 0) ∧
    (self._create_param.qkv_precision = dnnl_s8 → ∀ c, c < param.key_seq_len →
      mha_i8_window_rows nm self param i0 i1 (seq * 32)
          (min (seq * 32 + 32) param.query_seq_len - seq * 32) base buf
          (base + m * rndup (param.key_seq_len * 1) 64 + c * 1) =
        if c < param.key_seq_len - param.query_seq_len + (32 * seq + m) + 1 then
          nm.round_u8 (softmax nm.expf
            (param.key_seq_len - param.query_seq_len + (32 * seq + m) + 1)
            (fun j => window_logit self param
              (self._create_param.normal_factor * param.q_dequant * param.k_dequant) i0 i1 j
              (buf (base + m * rndup (param.key_seq_len * 4) 64 + j * 4))) c * param.qk_quant)
        else 0) := by
  obtain ⟨hv0, hn⟩ := window_bounds param seq hle h64 hseq
  obtain ⟨hlen, hbound⟩ := window_row_bounds param seq m hle h64 hm
  have hlens : ∀ k, k < min (seq * 32 + 32) param.query_seq_len - seq * 32 →
      causal_mask_offset_start param + seq * 32 + 1 + k ≤ param.key_seq_len :=
    fun k hk => by
      obtain ⟨e, h⟩ := window_row_bounds param seq k hle h64 hk
      omega
  refine ⟨hbound, ?_, ?_, ?_, ?_⟩
  · rw [mha_bf16_window_counter nm self param i0 i1 base _ m buf hv0 (by omega), ← hlen]
    exact Nat.min_eq_left (by omega)
  · rw [mha_i8_window_counter nm self param i0 i1 base _ m buf hv0 (by omega), ← hlen]
    exact Nat.min_eq_left (by omega)
  · intro hp c hc
    rw [mha_bf16_window_rows_eq nm self param i0 i1 (seq * 32) _ base buf hv0 hn,
      (rows_gen_spec nm.expf id 2 _ param.key_seq_len base _ _ buf _ (Or.inr rfl)
        (by rw [hp]; rfl) hlens).1 m hm c hc]
    unfold block_prob
    simp only [hlen, id]
  · intro hp c hc
    rw [mha_i8_window_rows_eq nm self param i0 i1 (seq * 32) _ base buf hv0 hn,
      (rows_gen_spec nm.expf _ 1 _ param.key_seq_len base _ _ buf _ (Or.inl rfl)
        (by rw [hp]; rfl) hlens).1 m hm c hc]
    unfold block_prob
    simp only [hlen]

/-- Row 2 of the single block of `param3` (three query rows, three keys): three leading
entries, in both pipelines. -/
theorem window_row_count_witness :
    3 - 3 + (32 * 0 + 2) + 1 ≤ 3 ∧
    ((List.range 2).foldl (mha_bf16_window_row examples.nm0
        (examples.engine0.create examples.cfg_bf16 2 (fun _ => 0)).2 examples.param3 0 0 0)
        (fun _ => 0, causal_mask_offset_start examples.param3 + 0 * 32 + 1)).2 =
      3 - 3 + (32 * 0 + 2) + 1 ∧
    ((List.range 2).foldl (mha_i8_window_row examples.nm0
        (examples.engine0.create examples.cfg_bf16 2 (fun _ => 0)).2 examples.param3 0 0 0)
        (fun _ => 0, causal_mask_offset_start examples.param3 + 0 * 32 + 1)).2 =
      3 - 3 + (32 * 0 + 2) + 1 :=
  have h := window_row_count examples.nm0
    (examples.engine0.create examples.cfg_bf16 2 (fun _ => 0)).2 examples.param3 0 0 0 0
    (fun _ => 0) (by decide) (by decide) (by decide) 2 (by decide)
  ⟨h.1, h.2.1, h.2.2.1⟩

end window_count_theorems

section mask_logit_theorems

open mha_gpt mha_gpt_impl_amx

variable {F : Type} [Field F]

/-- C24, as the code has it. In the row loop of the quantized blocked strategy with a
materialized mask, the value handed to the softmax for query row `r = 32 * seq + m` and key
`j` is `s * (s * raw[r, j] + mask[b, r, j]) + mask[b, r, j]` (plus the alibi entry of the
head in the bloom scheme), where `s = normal_factor * q_dequant * k_dequant`: the combined
scale and the mask are applied twice. -/
theorem i8_mask_applied_twice (nm : numerics F) (self : mha_gpt_impl_amx F)
    (param : exec_param F) (op : Matmul) (b h seq base : Nat) (buf : Mem F)
    (hop : op.transposeB = !self._create_param.is_bloom)
    (hprec : self._create_param.qkv_precision = dnnl_s8)
    (hqs : param.q.m_strides 3 = 1)
    (hks : if self._create_param.is_bloom then param.k.m_strides 2 = 1
      else param.k.m_strides 3 = 1)
    (m : Nat) (hm : m < min (seq * 32 + 32) param.query_seq_len - seq * 32)
    (c : Nat) (hc : c < param.key_seq_len) :
    mha_i8_mask_rows nm self param b h (seq * 32)
        (min (seq * 32 + 32) param.query_seq_len - seq * 32) base
        (block_scores self param op 1 b h (seq * 32)
          (min (seq * 32 + 32) param.query_seq_len - seq * 32) base buf)
        (base + m * rndup (param.key_seq_len * 1) 64 + c * 1) =
      nm.round_u8 (softmax nm.expf param.key_seq_len
        (fun j =>
          (self._create_param.normal_factor * param.q_dequant * param.k_dequant) *
            ((self._create_param.normal_factor * param.q_dequant * param.k_dequant) *
                raw_score param self._create_param.head_size b h (32 * seq + m) j +
              param.attention_mask.data_f32 (b * param.query_seq_len * param.key_seq_len +
                (32 * seq + m) * param.key_seq_len + j)) +
            param.attention_mask.data_f32 (b * param.query_seq_len * param.key_seq_len +
              (32 * seq + m) * param.key_seq_len + j) +
            (if self._create_param.is_bloom then
              param.alibi.data_f32
                ((b * self._create_param.num_heads + h) * param.key_seq_len + j)
            else 0)) c * param.qk_quant) := by
  rw [mha_i8_mask_rows_eq,
    (rows_gen_spec nm.expf _ 1 _ param.key_seq_len base _ _ _ _ (Or.inl rfl)
      (by rw [hprec]; rfl) (fun _ _ => le_refl _)).1 m hm c hc]
  unfold block_prob
  rw [if_pos hc]
  simp only
  congr 2
  apply softmax_congr _ _ _ _ _ _ hc
  intro j hj
  rw [block_scores_get self param op 1 b h (seq * 32) _ base buf hop hqs hks m j hm hj,
    Nat.mul_comm seq 32]
  unfold mask_logit
  cases self._create_param.is_bloom
  · simp only [Bool.not_false, if_true, Bool.false_eq_true, if_false]
    ring
  · simp only [Bool.not_true, Bool.false_eq_true, if_false, if_true]
    ring

/-- On `param_mask_s8` (raw scores 6 and 22, combined scale 2, mask 1) the first
probability of the row is `157 / 1850`, the softmax of the logits 27 and 91, whereas the
logits `2 * raw + 1`, that is 13 and 45, give `197 / 2314`. -/
theorem i8_mask_applied_twice_witness :
    mha_i8_mask_rows examples.nm0 (examples.engine0.create examples.cfg_s8 2 (fun _ => 0)).2
        examples.param_mask_s8 0 0 (0 * 32) (min (0 * 32 + 32) 1 - 0 * 32) 0
        (block_scores (examples.engine0.create examples.cfg_s8 2 (fun _ => 0)).2
          examples.param_mask_s8 ⟨false, true⟩ 1 0 0 (0 * 32) (min (0 * 32 + 32) 1 - 0 * 32) 0
          (fun _ => 0))
        (0 + 0 * rndup (2 * 1) 64 + 0 * 1) = 157 / 1850 ∧
    softmax examples.nm0.expf 2
      (fun j => (1 * 2 * 1 : ℚ) * raw_score examples.param_mask_s8 4 0 0 0 j +
        examples.param_mask_s8.attention_mask.data_f32 (0 * 1 * 2 + 0 * 2 + j)) 0 * 1 =
      197 / 2314 := by
  constructor
  · refine (i8_mask_applied_twice examples.nm0
      (examples.engine0.create examples.cfg_s8 2 (fun _ => 0)).2 examples.param_mask_s8
      ⟨false, true⟩ 0 0 0 0 (fun _ => 0) rfl rfl rfl rfl 0 (by decide) 0 (by decide)).trans ?_
    have hcp : (examples.engine0.create examples.cfg_s8 2 (fun _ => 0)).2._create_param =
        examples.cfg_s8 := rfl
    rw [hcp]
    norm_num [softmax, raw_score, tensor.at4, tensor.data_f32, examples.param_mask_s8,
      examples.dense4, examples.cfg_s8, examples.cfg_bf16, examples.nm0,
      Finset.sum_range_succ]
  · norm_num [softmax, raw_score, tensor.at4, tensor.data_f32, examples.param_mask_s8,
      examples.dense4, examples.nm0, Finset.sum_range_succ]

/-- C25. In the bf16 blocked strategy with a materialized mask, for every batch `b`, head
`h`, block `seq`, row `m` (absolute row `r = 32 * seq + m`) and column `c < key_seq_len`, the
probability the row loop stores is the softmax over all `key_seq_len` columns of
`normal_factor * raw[r, j] + mask[b * query_seq_len * key_seq_len + r * key_seq_len + j]`,
plus `alibi[(b * num_heads + h) * key_seq_len + j]` in the bloom scheme; and the output of
`mha_bf16` for row `r` is these probabilities as weights of the value rows. -/
theorem bf16_mask_logits (nm : numerics F) (env : parallel_env)
    (self0 : mha_gpt_impl_amx F) (cp : create_param F) (n : Nat) (fresh : Nat → F)
    (param : exec_param F) (hc : (self0.create cp n fresh).1 = true)
    (hq : cp.qkv_precision = dnnl_bf16)
    (hblk : is_vector_bf16 (self0.create cp n fresh).2 param = false)
    (hci : param.is_causal_in_attention = true)
    (hthr : env.getTotalThreads ≤ n)
    (hcov : ∀ i, i < param.batch * cp.num_heads * (rndup param.query_seq_len 32 / 32) →
      ∃ t, t < env.getTotalThreads ∧
        (env.splitter (param.batch * cp.num_heads * (rndup param.query_seq_len 32 / 32))
          env.getTotalThreads t).1 ≤ i ∧
        i < (env.splitter (param.batch * cp.num_heads * (rndup param.query_seq_len 32 / 32))
          env.getTotalThreads t).2)
    (hqs : param.q.m_strides 3 = 2)
    (hks : if cp.is_bloom then param.k.m_strides 2 = 2 else param.k.m_strides 3 = 2)
    (hvs : param.v.m_strides 3 = 2) :
    (∀ (op : Matmul) (b h seq base : Nat) (buf : Mem F),
      op.transposeB = !cp.is_bloom →
      ∀ m, m < min (seq * 32 + 32) param.query_seq_len - seq * 32 →
      ∀ c, c < param.key_seq_len →
        mha_bf16_mask_rows nm (self0.create cp n fresh).2 param b h (seq * 32)
            (min (seq * 32 + 32) param.query_seq_len - seq * 32) base
            (block_scores (self0.create cp n fresh).2 param op 2 b h (seq * 32)
              (min (seq * 32 + 32) param.query_seq_len - seq * 32) base buf)
            (base + m * rndup (param.key_seq_len * 2) 64 + c * 2) =
          softmax nm.expf param.key_seq_len
            (fun j => cp.normal_factor * raw_score param cp.head_size b h (32 * seq + m) j +
              param.attention_mask.data_f32 (b * param.query_seq_len * param.key_seq_len +
                (32 * seq + m) * param.key_seq_len + j) +
              (if cp.is_bloom then
                param.alibi.data_f32 ((b * cp.num_heads + h) * param.key_seq_len + j)
              else 0)) c) ∧
    ∃ st out, mha_bf16 nm env (self0.create cp n fresh).2 param = some (st, out) ∧
      ∀ b, b < param.batch → ∀ h, h < cp.num_heads → ∀ r, r < param.query_seq_len →
        ∀ d, d < cp.head_size →
        out ((((b * param.query_seq_len + r) * cp.num_heads + h) * cp.head_size + d) * 2) =
          ∑ c in Finset.range param.key_seq_len,
            softmax nm.expf param.key_seq_len
              (fun j => cp.normal_factor * raw_score param cp.head_size b h r j +
                param.attention_mask.data_f32 (b * param.query_seq_len * param.key_seq_len +
                  r * param.key_seq_len + j) +
                (if cp.is_bloom then
                  param.alibi.data_f32 ((b * cp.num_heads + h) * param.key_seq_len + j)
                else 0)) c * param.v.at4 b h c d := by
  obtain ⟨hcp, -⟩ := create_bf16_state self0 cp n fresh hc hq
  have hlogit : ∀ b h r j x, mask_logit (self0.create cp n fresh).2 param cp.normal_factor
      b h r j x = cp.normal_factor * x +
        param.attention_mask.data_f32 (b * param.query_seq_len * param.key_seq_len +
          r * param.key_seq_len + j) +
        (if cp.is_bloom then
          param.alibi.data_f32 ((b * cp.num_heads + h) * param.key_seq_len + j)
        else 0) := by
    intro b h r j x
    unfold mask_logit
    rw [hcp]
    cases cp.is_bloom
    · simp only [Bool.not_false, if_true, Bool.false_eq_true, if_false]
      ring
    · simp only [Bool.not_true, Bool.false_eq_true, if_false, if_true]
      ring
  constructor
  · intro op b h seq base buf hop m hm c hc2
    rw [mha_bf16_mask_rows_eq,
      (rows_gen_spec nm.expf id 2 _ param.key_seq_len base _ _ _ _ (Or.inr rfl)
        (by rw [hcp, hq]; rfl) (fun _ _ => le_refl _)).1 m hm c hc2]
    unfold block_prob
    rw [if_pos hc2]
    simp only [id]
    apply softmax_congr _ _ _ _ _ _ hc2
    intro j hj
    rw [block_scores_get (self0.create cp n fresh).2 param op 2 b h (seq * 32) _ base buf
      (by rw [hcp]; exact hop) hqs (by rw [hcp]; exact hks) m j hm hj, hcp, hlogit,
      Nat.mul_comm seq 32]
  · obtain ⟨st, out, hrun, hval, -⟩ := mha_bf16_blocked_run nm env self0 cp n fresh param
      hc hq hblk (fun h => by rw [hci] at h; exact absurd h (by decide)) hthr hqs hks hvs
    refine ⟨st, out, hrun, ?_⟩
    intro b hb h hh r hr d hd
    rw [hval b hb h hh r hr d hd
      (hcov _ (work_index_lt _ _ _ b h (r / 32) hb hh (seq_lt_of_row _ _ hr)))]
    unfold naive_row row_len row_logit attn_row
    simp only [hci, if_true]
    apply Finset.sum_congr rfl
    intro c hc2
    have hc3 : c < param.key_seq_len := Finset.mem_range.mp hc2
    unfold block_prob
    rw [if_pos hc3]
    simp only [id]
    congr 1
    apply softmax_congr _ _ _ _ _ _ hc3
    intro j _
    rw [hlogit, hcp]

/-- The three query rows of `param3_mask` under its mask of extents `1 × 1 × 3 × 3`. -/
theorem bf16_mask_logits_witness :
    ∃ st out, mha_bf16 examples.nm0 examples.env2
        (examples.engine0.create examples.cfg_bf16 2 (fun _ => 0)).2 examples.param3_mask =
        some (st, out) ∧
      ∀ b, b < 1 → ∀ h, h < 1 → ∀ r, r < 3 → ∀ d, d < 4 →
        out ((((b * 3 + r) * 1 + h) * 4 + d) * 2) =
          ∑ c in Finset.range 3,
            softmax examples.nm0.expf 3
              (fun j => 1 * raw_score examples.param3_mask 4 b h r j +
                examples.param3_mask.attention_mask.data_f32 (b * 3 * 3 + r * 3 + j) +
                (if examples.cfg_bf16.is_bloom then
                  examples.param3_mask.alibi.data_f32 ((b * 1 + h) * 3 + j)
                else 0)) c * examples.param3_mask.v.at4 b h c d :=
  (bf16_mask_logits examples.nm0 examples.env2 examples.engine0 examples.cfg_bf16 2
    (fun _ => 0) examples.param3_mask rfl rfl rfl rfl (by decide) (by decide) rfl rfl rfl).2

end mask_logit_theorems

section scratch_theorems

open mha_gpt mha_gpt_impl_amx

variable {F : Type} [Field F]

/-- C26. The blocked strategy uses `rndup(query_seq_len, 32) / 32 = ceil(query_seq_len / 32)`
query blocks, at least one when `query_seq_len ≥ 1`; block `seq` covers the rows
`[32 * seq, min(32 * seq + 32, query_seq_len))`, is not empty, has at most 32 rows and lies
in `[0, query_seq_len)`; two blocks that share a row are the same block; every row
`r < query_seq_len` lies in block `r / 32`; and the work items `i < batch * num_heads *
ceil(query_seq_len / 32)` correspond one to one to the triples of a batch, a head and a
block, the only coordinates on which the work loop runs its body.
The loop itself: when the splitter hands the threads the consecutive ranges
`[s t, s (t + 1))` of the `batch * num_heads * ceil(query_seq_len / 32)` work items
(`s 0 = 0`, `s` not decreasing, `s numThreads` the number of work items), the work loop runs
its body exactly once on every work item, in the order of the items: it is the one loop over
`i < batch * num_heads * ceil(query_seq_len / 32)` on the coordinates of item `i`, on the
thread `own i` whose range holds `i`. The body that records its coordinates returns the list
of these coordinates, which has `batch * num_heads * ceil(query_seq_len / 32)` entries, no
entry twice, and holds `(b, h, seq)` exactly when `b < batch`, `h < num_heads` and
`seq < ceil(query_seq_len / 32)`. Both pipelines, when they take the blocked strategy, are
this loop on their work item.
The rows of a block: on an engine that `create` accepted, the bf16 work item
`(i0, i1, seq)` returns, writes the entry `d` of output row `r` of `(b, h)` exactly when
`i0 = b`, `i1 = h` and `32 * seq ≤ r < min(32 * seq + 32, query_seq_len)`, with the attention
value of that row, and leaves it as it was otherwise; the int8 work item in the window mode
returns and stores exactly the `min(32 * seq + 32, query_seq_len) - 32 * seq` rows from row
`32 * seq` of `(i0, i1)` on, `head_size` entries each, row `m` of the store being the
attention row `32 * seq + m`. -/
theorem query_blocks_partition (qsl : Nat) :
    rndup qsl 32 / 32 = (qsl + 31) / 32 ∧
    (1 ≤ qsl → 1 ≤ rndup qsl 32 / 32) ∧
    (∀ seq, seq < rndup qsl 32 / 32 →
      seq * 32 < min (seq * 32 + 32) qsl ∧ min (seq * 32 + 32) qsl - seq * 32 ≤ 32 ∧
        min (seq * 32 + 32) qsl ≤ qsl) ∧
    (∀ seq seq2 r, seq * 32 ≤ r → r < min (seq * 32 + 32) qsl → seq2 * 32 ≤ r →
      r < min (seq2 * 32 + 32) qsl → seq = seq2) ∧
    (∀ r, r < qsl → r / 32 < rndup qsl 32 / 32 ∧ r / 32 * 32 ≤ r ∧
      r < min (r / 32 * 32 + 32) qsl) ∧
    (∀ batch nh i, i < batch * nh * (rndup qsl 32 / 32) →
      (parallel_it_init i batch nh (rndup qsl 32 / 32)).1 < batch ∧
      (parallel_it_init i batch nh (rndup qsl 32 / 32)).2.1 < nh ∧
      (parallel_it_init i batch nh (rndup qsl 32 / 32)).2.2 < rndup qsl 32 / 32 ∧
      ((parallel_it_init i batch nh (rndup qsl 32 / 32)).1 * nh +
          (parallel_it_init i batch nh (rndup qsl 32 / 32)).2.1) * (rndup qsl 32 / 32) +
        (parallel_it_init i batch nh (rndup qsl 32 / 32)).2.2 = i) ∧
    (∀ batch nh b h seq, b < batch → h < nh → seq < rndup qsl 32 / 32 →
      (b * nh + h) * (rndup qsl 32 / 32) + seq < batch * nh * (rndup qsl 32 / 32) ∧
      parallel_it_init ((b * nh + h) * (rndup qsl 32 / 32) + seq) batch nh
        (rndup qsl 32 / 32) = (b, h, seq)) ∧
    (∀ (σ : Type) (env : parallel_env) (batch nh : Nat)
      (body body2 : Nat → Nat → Nat → Nat → σ → Option σ) (w0 : σ),
      (∀ t i0 i1 seq, i0 < batch → i1 < nh → seq < rndup qsl 32 / 32 →
        body t i0 i1 seq = body2 t i0 i1 seq) →
      blocked_loop env batch nh qsl body w0 = blocked_loop env batch nh qsl body2 w0) ∧
    (∀ (env : parallel_env) (batch nh : Nat) (s : Nat → Nat), s 0 = 0 →
      (∀ t, t < env.getTotalThreads → s t ≤ s (t + 1)) →
      s env.getTotalThreads = batch * nh * (rndup qsl 32 / 32) →
      (∀ t, t < env.getTotalThreads →
        env.splitter (batch * nh * (rndup qsl 32 / 32)) env.getTotalThreads t =
          (s t, s (t + 1))) →
      (∃ own : Nat → Nat,
        (∀ i, i < batch * nh * (rndup qsl 32 / 32) →
          own i < env.getTotalThreads ∧ s (own i) ≤ i ∧ i < s (own i + 1)) ∧
        ∀ (σ : Type) (body : Nat → Nat → Nat → Nat → σ → Option σ) (w0 : σ),
          blocked_loop env batch nh qsl body w0 =
            (List.range (batch * nh * (rndup qsl 32 / 32))).foldlM (fun w i =>
              body (own i) (parallel_it_init i batch nh (rndup qsl 32 / 32)).1
                (parallel_it_init i batch nh (rndup qsl 32 / 32)).2.1
                (parallel_it_init i batch nh (rndup qsl 32 / 32)).2.2 w) w0) ∧
      blocked_loop env batch nh qsl
          (fun _ i0 i1 seq (acc : List (Nat × Nat × Nat)) => some (acc ++ [(i0, i1, seq)])) [] =
        some ((List.range (batch * nh * (rndup qsl 32 / 32))).map
          (fun i => parallel_it_init i batch nh (rndup qsl 32 / 32))) ∧
      ((List.range (batch * nh * (rndup qsl 32 / 32))).map
          (fun i => parallel_it_init i batch nh (rndup qsl 32 / 32))).length =
        batch * nh * (rndup qsl 32 / 32) ∧
      ((List.range (batch * nh * (rndup qsl 32 / 32))).map
          (fun i => parallel_it_init i batch nh (rndup qsl 32 / 32))).Nodup ∧
      ∀ b h seq, (b, h, seq) ∈ (List.range (batch * nh * (rndup qsl 32 / 32))).map
          (fun i => parallel_it_init i batch nh (rndup qsl 32 / 32)) ↔
        b < batch ∧ h < nh ∧ seq < rndup qsl 32 / 32) ∧
    (∀ (nm : numerics F) (env : parallel_env) (self : mha_gpt_impl_amx F)
      (param : exec_param F) (s : Nat → Nat), param.query_seq_len = qsl → s 0 = 0 →
      (∀ t, t < env.getTotalThreads → s t ≤ s (t + 1)) →
      s env.getTotalThreads =
        param.batch * self._create_param.num_heads * (rndup qsl 32 / 32) →
      (∀ t, t < env.getTotalThreads →
        env.splitter (param.batch * self._create_param.num_heads * (rndup qsl 32 / 32))
          env.getTotalThreads t = (s t, s (t + 1))) →
      ∃ own : Nat → Nat,
        (∀ i, i < param.batch * self._create_param.num_heads * (rndup qsl 32 / 32) →
          own i < env.getTotalThreads ∧ s (own i) ≤ i ∧ i < s (own i + 1)) ∧
        (is_vector_bf16 self param = false →
          mha_bf16 nm env self param =
            ((List.range (param.batch * self._create_param.num_heads *
                (rndup qsl 32 / 32))).foldlM (fun w i =>
              mha_bf16_block_body nm self param (own i)
                (parallel_it_init i param.batch self._create_param.num_heads
                  (rndup qsl 32 / 32)).1
                (parallel_it_init i param.batch self._create_param.num_heads
                  (rndup qsl 32 / 32)).2.1
                (parallel_it_init i param.batch self._create_param.num_heads
                  (rndup qsl 32 / 32)).2.2 w)
              ⟨self.bufferMatMul0Out, self.bufferMatMul1Out, param.attn_output.m_ptr⟩).map
              (fun w => ({ self with bufferMatMul0Out := w.bufferMatMul0Out,
                                     bufferMatMul1Out := w.bufferMatMul1Out }, w.pout))) ∧
        (is_vector_i8 self param = false →
          mha_i8 nm env self param =
            ((List.range (param.batch * self._create_param.num_heads *
                (rndup qsl 32 / 32))).foldlM (fun w i =>
              mha_i8_block_body nm self param (prepare_qkvQuantBuf self param) (own i)
                (parallel_it_init i param.batch self._create_param.num_heads
                  (rndup qsl 32 / 32)).1
                (parallel_it_init i param.batch self._create_param.num_heads
                  (rndup qsl 32 / 32)).2.1
                (parallel_it_init i param.batch self._create_param.num_heads
                  (rndup qsl 32 / 32)).2.2 w)
              ⟨self.bufferMatMul0Out, self.bufferMatMul1Out, param.attn_output.m_ptr⟩).map
              (fun w => ({ self with bufferMatMul0Out := w.bufferMatMul0Out,
                                     bufferMatMul1Out := w.bufferMatMul1Out,
                                     qkvQuantBuf := prepare_qkvQuantBuf self param },
                w.pout)))) ∧
    (∀ (nm : numerics F) (self0 : mha_gpt_impl_amx F) (cp : create_param F) (n : Nat)
      (fresh : Nat → F) (param : exec_param F),
      (self0.create cp n fresh).1 = true → cp.qkv_precision = dnnl_bf16 →
      param.query_seq_len = qsl →
      param.q.m_strides 3 = 2 →
      (if cp.is_bloom then param.k.m_strides 2 = 2 else param.k.m_strides 3 = 2) →
      param.v.m_strides 3 = 2 →
      (param.is_causal_in_attention = false →
        qsl ≤ param.key_seq_len ∧ param.key_seq_len < 2 ^ 64) →
      ∀ t i0 i1 seq, t < n → i1 < cp.num_heads → seq < rndup qsl 32 / 32 →
      ∀ b h r d (w : bufs F), r < qsl → h < cp.num_heads → d < cp.head_size →
      ∃ w1, mha_bf16_block_body nm (self0.create cp n fresh).2 param t i0 i1 seq w = some w1 ∧
        ((i0 = b ∧ i1 = h ∧ seq * 32 ≤ r ∧ r < min (seq * 32 + 32) qsl) →
          w1.pout ((((b * qsl + r) * cp.num_heads + h) * cp.head_size + d) * 2) =
            naive_row nm (self0.create cp n fresh).2 param id cp.normal_factor b h r d) ∧
        (¬ (i0 = b ∧ i1 = h ∧ seq * 32 ≤ r ∧ r < min (seq * 32 + 32) qsl) →
          w1.pout ((((b * qsl + r) * cp.num_heads + h) * cp.head_size + d) * 2) =
            w.pout ((((b * qsl + r) * cp.num_heads + h) * cp.head_size + d) * 2))) ∧
    (∀ (nm : numerics F) (self0 : mha_gpt_impl_amx F) (cp : create_param F) (n : Nat)
      (fresh : Nat → F) (param : exec_param F) (qbuf : Nat → F),
      (self0.create cp n fresh).1 = true → cp.qkv_precision = dnnl_s8 →
      param.query_seq_len = qsl →
      param.q.m_strides 3 = 1 →
      (if cp.is_bloom then param.k.m_strides 2 = 1 else param.k.m_strides 3 = 1) →
      param.v.m_strides 3 = 1 →
      param.is_causal_in_attention = false →
      qsl ≤ param.key_seq_len → param.key_seq_len < 2 ^ 64 →
      ∀ t i0 i1 seq (w : bufs F), t < n → seq < rndup qsl 32 / 32 →
      ∃ w1, mha_i8_block_body nm (self0.create cp n fresh).2 param qbuf t i0 i1 seq w =
          some w1 ∧
        w1.pout = store2d w.pout
          ((i0 * (cp.head_size * cp.num_heads * qsl) + i1 * cp.head_size +
            seq * 32 * cp.head_size * cp.num_heads) * get_precision_size cp.dst_precision)
          (cp.num_heads * cp.head_size) 1
          (min (seq * 32 + 32) qsl - seq * 32) cp.head_size
          (fun m d => nm.round_s8 (naive_row nm (self0.create cp n fresh).2 param
            (fun p => nm.round_u8 (p * param.qk_quant))
            (cp.normal_factor * param.q_dequant * param.k_dequant) i0 i1
            (seq * 32 + m) d * qbuf d))) := by
  refine ⟨rndup32_div qsl, ?_, ?_, ?_, ?_, ?_, ?_, ?_, ?_, ?_, ?_, ?_⟩
  · intro h
    rw [rndup32_div]
    omega
  · intro seq hseq
    rw [rndup32_div] at hseq
    omega
  · intro seq seq2 r h1 h2 h3 h4
    omega
  · intro r hr
    rw [rndup32_div]
    omega
  · intro batch nh i hi
    exact parallel_it_init_lt batch nh _ i hi
  · intro batch nh b h seq hb hh hs
    exact ⟨work_index_lt _ _ _ b h seq hb hh hs, parallel_it_init_of _ _ _ b h seq hb hh hs⟩
  · intro σ env batch nh body body2 w0 h
    exact blocked_loop_congr env batch nh qsl body body2 h w0
  · intro env batch nh s hs0 hmono hsT hsplit
    obtain ⟨own, ho1, ho2⟩ := chunk_owner s env.getTotalThreads hs0 hmono
    rw [hsT] at ho1
    refine ⟨⟨own, ho1, fun σ body w0 =>
        blocked_loop_owner env batch nh qsl body s own hs0 hmono hsT hsplit ho2 w0⟩,
      ?_, by simp, work_items_nodup batch nh _, work_items_mem batch nh _⟩
    rw [blocked_loop_owner env batch nh qsl _ s own hs0 hmono hsT hsplit ho2]
    exact (foldlM_record (fun i => parallel_it_init i batch nh (rndup qsl 32 / 32)) _ []).trans
      (by simp)
  · intro nm env self param s hqsl hs0 hmono hsT hsplit
    subst hqsl
    obtain ⟨own, ho1, ho2⟩ := chunk_owner s env.getTotalThreads hs0 hmono
    rw [hsT] at ho1
    refine ⟨own, ho1, ?_, ?_⟩
    · intro hvec
      unfold mha_bf16
      simp only [hvec, Bool.false_eq_true, if_false]
      rw [blocked_loop_owner env _ _ _ _ s own hs0 hmono hsT hsplit ho2]
    · intro hvec
      unfold mha_i8
      simp only [hvec, Bool.false_eq_true, if_false]
      rw [blocked_loop_owner env _ _ _ _ s own hs0 hmono hsT hsplit ho2]
  · intro nm self0 cp n fresh param hc hq hqsl hsq hsk hsv hwin t i0 i1 seq ht hi1 hseq b h r d
      w hr hh hd
    subst hqsl
    obtain ⟨e1, e2, -, e4, e5⟩ := create_bf16_state self0 cp n fresh hc hq
    have hop1 : ((self0.create cp n fresh).2.qKtrGemm_BF16xBF16)[t]? =
        some ⟨false, !cp.is_bloom⟩ := by
      rw [e4]
      simp [ht]
    have hop2 : ((self0.create cp n fresh).2.qKVGemm_BF16xBF16)[t]? = some ⟨false, false⟩ := by
      rw [e5]
      simp [ht]
    obtain ⟨w1, hw1, ha, hb⟩ := mha_bf16_block_body_target nm (self0.create cp n fresh).2 param
      t i0 i1 seq w _ _ hop1 hop2 (by rw [e1]) rfl (by rw [e1]; exact hq)
      (by rw [e1, e2]; unfold rndup; omega) hsq (by rw [e1]; exact hsk) hsv
      (fun hci => window_bounds param seq (hwin hci).1 (hwin hci).2 hseq)
      b h r d hr (by rw [e1]; exact hh) (by rw [e1]; exact hd) (by rw [e1]; exact hi1)
      (row_of_seq _ seq hseq)
    rw [e1] at ha hb
    have hiff : (i0 = b ∧ i1 = h ∧ seq = r / 32) ↔
        (i0 = b ∧ i1 = h ∧ seq * 32 ≤ r ∧ r < min (seq * 32 + 32) param.query_seq_len) := by
      constructor
      · rintro ⟨x1, x2, x3⟩
        exact ⟨x1, x2, by omega, by omega⟩
      · rintro ⟨x1, x2, x3, x4⟩
        exact ⟨x1, x2, by omega⟩
    exact ⟨w1, hw1, fun hx => ha (hiff.mpr hx), fun hx => hb (fun hy => hx (hiff.mp hy))⟩
  · intro nm self0 cp n fresh param qbuf hc hq hqsl hsq hsk hsv hci h1 h2 t i0 i1 seq w ht hseq
    subst hqsl
    obtain ⟨e1, e2, -, e4, e5, -⟩ := create_s8_state self0 cp n fresh hc hq
    have hop1 : ((self0.create cp n fresh).2.qKtrGemm_i8xi8)[t]? =
        some ⟨false, !cp.is_bloom⟩ := by
      rw [e4]
      simp [ht]
    have hop2 : ((self0.create cp n fresh).2.qKVGemm_u8xi8)[t]? = some ⟨false, false⟩ := by
      rw [e5]
      simp [ht]
    have hb := window_bounds param seq h1 h2 hseq
    obtain ⟨w1, hw1, hp⟩ := mha_i8_block_body_pout nm (self0.create cp n fresh).2 param qbuf
      t i0 i1 seq w _ _ hop1 hop2 (by rw [e1]) rfl (by rw [e1]; exact hq)
      (by rw [e1, e2]; unfold rndup; omega) hsq (by rw [e1]; exact hsk) hsv hci hb.1 hb.2
    rw [e1] at hp
    exact ⟨w1, hw1, hp⟩

/-- With two threads that split the work evenly, two batches, one head and 40 query rows the
work loop runs its body on the four work items in order; on `param3_batch2` the bf16 work
item of batch 1 writes output row 2 of batch 1 and leaves output row 2 of batch 0. -/
theorem query_blocks_partition_witness :
    rndup 40 32 / 32 = 2 ∧
    blocked_loop (examples.env_even 2) 2 1 40
        (fun _ i0 i1 seq (acc : List (Nat × Nat × Nat)) => some (acc ++ [(i0, i1, seq)])) [] =
      some [(0, 0, 0), (0, 0, 1), (1, 0, 0), (1, 0, 1)] ∧
    (∃ w1, mha_bf16_block_body examples.nm0
        (examples.engine0.create examples.cfg_bf16 2 (fun _ => 0)).2 examples.param3_batch2
        0 1 0 0 examples.bufs0 = some w1 ∧
      w1.pout 42 = naive_row examples.nm0
        (examples.engine0.create examples.cfg_bf16 2 (fun _ => 0)).2 examples.param3_batch2 id
        examples.cfg_bf16.normal_factor 1 0 2 1 ∧
      w1.pout 18 = 0) := by
  have h40 := (@query_blocks_partition ℚ _ 40).2.2.2.2.2.2.2.2.1 (examples.env_even 2) 2 1
    (fun t => t * 4 / 2) rfl
    (fun t _ => by
      show t * 4 / 2 ≤ (t + 1) * 4 / 2
      omega)
    rfl (fun t _ => rfl)
  have h3 := (@query_blocks_partition ℚ _ 3).2.2.2.2.2.2.2.2.2.2.1 examples.nm0 examples.engine0
    examples.cfg_bf16 2 (fun _ => 0) examples.param3_batch2 rfl rfl rfl rfl (by decide) rfl
    (fun _ => ⟨by decide, by decide⟩) 0 1 0 0 (by decide) (by decide) (by decide)
  refine ⟨by decide, h40.2.1.trans (by decide), ?_⟩
  obtain ⟨w1, hw1, ha, -⟩ := h3 1 0 2 1 examples.bufs0 (by decide) (by decide) (by decide)
  obtain ⟨w2, hw2, -, hb⟩ := h3 0 0 2 1 examples.bufs0 (by decide) (by decide) (by decide)
  have e : w2 = w1 := Option.some.inj (hw2.symm.trans hw1)
  subst e
  exact ⟨w2, hw1, ha ⟨rfl, rfl, by decide, by decide⟩, hb (fun hx => absurd hx.1 (by decide))⟩

/-- C27. On an engine that `create` accepted with `n` threads, for every `exec` with
`query_seq_len ≤ max_seq_len` and `key_seq_len ≤ max_seq_len`, every worker index `t < n` and
every block `seq`: the score block (the rows of the block, `rndup(key_seq_len * 4, 64)` bytes
each) lies inside the slice `[t * bufferMatMul0OutSize, (t + 1) * bufferMatMul0OutSize)`
of the first scratch buffer and the slice inside the `n` slices allocated; the output block
(rows of `head_size_aligned * 4` bytes) lies in the same way inside slice `t` of the second
scratch buffer; slices of distinct workers are disjoint; and the two matrix multiplies of
the work item leave every cell outside slice `t` as it was. -/
theorem scratch_slices_fit (self0 : mha_gpt_impl_amx F) (cp : create_param F) (n : Nat)
    (fresh : Nat → F) (param : exec_param F) (t seq : Nat)
    (hc : (self0.create cp n fresh).1 = true)
    (hq : param.query_seq_len ≤ cp.max_seq_len) (hk : param.key_seq_len ≤ cp.max_seq_len)
    (ht : t < n) :
    (t * (self0.create cp n fresh).2.bufferMatMul0OutSize +
        (min (seq * 32 + 32) param.query_seq_len - seq * 32) *
          rndup (param.key_seq_len * 4) 64 ≤
      (t + 1) * (self0.create cp n fresh).2.bufferMatMul0OutSize ∧
      (t + 1) * (self0.create cp n fresh).2.bufferMatMul0OutSize ≤
        n * (self0.create cp n fresh).2.bufferMatMul0OutSize) ∧
    (t * (self0.create cp n fresh).2.bufferMatMul1OutSize +
        (min (seq * 32 + 32) param.query_seq_len - seq * 32) *
          ((self0.create cp n fresh).2.head_size_aligned * 4) ≤
      (t + 1) * (self0.create cp n fresh).2.bufferMatMul1OutSize ∧
      (t + 1) * (self0.create cp n fresh).2.bufferMatMul1OutSize ≤
        n * (self0.create cp n fresh).2.bufferMatMul1OutSize) ∧
    (∀ t2, t2 ≠ t →
      ((t + 1) * (self0.create cp n fresh).2.bufferMatMul0OutSize ≤
          t2 * (self0.create cp n fresh).2.bufferMatMul0OutSize ∨
        (t2 + 1) * (self0.create cp n fresh).2.bufferMatMul0OutSize ≤
          t * (self0.create cp n fresh).2.bufferMatMul0OutSize) ∧
      ((t + 1) * (self0.create cp n fresh).2.bufferMatMul1OutSize ≤
          t2 * (self0.create cp n fresh).2.bufferMatMul1OutSize ∨
        (t2 + 1) * (self0.create cp n fresh).2.bufferMatMul1OutSize ≤
          t * (self0.create cp n fresh).2.bufferMatMul1OutSize)) ∧
    (∀ (op : Matmul) (elt i0 i1 : Nat) (buf : Mem F) (a : Nat),
      (a < t * (self0.create cp n fresh).2.bufferMatMul0OutSize ∨
        (t + 1) * (self0.create cp n fresh).2.bufferMatMul0OutSize < a + 4) →
      block_scores (self0.create cp n fresh).2 param op elt i0 i1 (seq * 32)
        (min (seq * 32 + 32) param.query_seq_len - seq * 32)
        (t * (self0.create cp n fresh).2.bufferMatMul0OutSize) buf a = buf a) ∧
    (∀ (op : Matmul) (matA matB : tensor2D F) (buf : Mem F) (a : Nat),
      matA.dims0 = min (seq * 32 + 32) param.query_seq_len - seq * 32 →
      (a < t * (self0.create cp n fresh).2.bufferMatMul1OutSize ∨
        (t + 1) * (self0.create cp n fresh).2.bufferMatMul1OutSize < a + 4) →
      Matmul.call op matA matB 0 cp.head_size buf
        (t * (self0.create cp n fresh).2.bufferMatMul1OutSize)
        ((self0.create cp n fresh).2.head_size_aligned * 4) a = buf a) := by
  obtain ⟨hcp, h0, h1, hsa⟩ := create_sizes self0 cp n fresh hc
  have hstr : rndup (param.key_seq_len * 4) 64 ≤ rndup (cp.max_seq_len * 4) 64 :=
    rndup_mono _ _ (by omega)
  have hA : (min (seq * 32 + 32) param.query_seq_len - seq * 32) *
      rndup (param.key_seq_len * 4) 64 ≤ (self0.create cp n fresh).2.bufferMatMul0OutSize := by
    rw [h0]
    exact Nat.mul_le_mul (by omega) hstr
  have hB : (min (seq * 32 + 32) param.query_seq_len - seq * 32) *
      ((self0.create cp n fresh).2.head_size_aligned * 4) ≤
      (self0.create cp n fresh).2.bufferMatMul1OutSize := by
    rw [h1, Nat.mul_assoc]
    exact Nat.mul_le_mul_right _ (by omega)
  have hhs : cp.head_size ≤ (self0.create cp n fresh).2.head_size_aligned := by
    rw [hsa]
    exact rndup_ge_any _ _ (by split <;> decide)
  refine ⟨slice_fits _ _ _ _ _ hA ht, slice_fits _ _ _ _ _ hB ht, ?_, ?_, ?_⟩
  · intro t2 h2
    exact ⟨slices_disjoint _ _ _ h2, slices_disjoint _ _ _ h2⟩
  · intro op elt i0 i1 buf a ha
    have hfit := (slice_fits t _ _ _ n hA ht).1
    have hrow : ∀ r, r < min (seq * 32 + 32) param.query_seq_len - seq * 32 →
        (r + 1) * rndup (param.key_seq_len * 4) 64 ≤
          (min (seq * 32 + 32) param.query_seq_len - seq * 32) *
            rndup (param.key_seq_len * 4) 64 := fun r hr => Nat.mul_le_mul_right _ hr
    have hge := rndup_ge (param.key_seq_len * 4)
    unfold block_scores Matmul.call
    simp only
    split
    all_goals
      apply store2d_not_written
      intro r hr c hc e
      have := hrow r hr
      rw [Nat.add_mul, one_mul] at this
      simp only [Nat.sub_zero] at hc
      omega
  · intro op matA matB buf a hd ha
    have hfit := (slice_fits t _ _ _ n hB ht).1
    have hrow : ∀ r, r < min (seq * 32 + 32) param.query_seq_len - seq * 32 →
        (r + 1) * ((self0.create cp n fresh).2.head_size_aligned * 4) ≤
          (min (seq * 32 + 32) param.query_seq_len - seq * 32) *
            ((self0.create cp n fresh).2.head_size_aligned * 4) :=
      fun r hr => Nat.mul_le_mul_right _ hr
    unfold Matmul.call
    apply store2d_not_written
    intro r hr c hc e
    rw [hd] at hr
    have := hrow r hr
    rw [Nat.add_mul, one_mul] at this
    simp only [Nat.sub_zero] at hc
    omega

/-- Slice 1 of the two slices of the engine created from `cfg_bf16` (`max_seq_len = 8`,
slices of 512 and 1024 bytes), for the block of the three query rows of `param3`. -/
theorem scratch_slices_fit_witness :
    (1 * 512 + (min (0 * 32 + 32) 3 - 0 * 32) * rndup (3 * 4) 64 ≤ (1 + 1) * 512 ∧
      (1 + 1) * 512 ≤ 2 * 512) ∧
    (1 * 1024 + (min (0 * 32 + 32) 3 - 0 * 32) * (32 * 4) ≤ (1 + 1) * 1024 ∧
      (1 + 1) * 1024 ≤ 2 * 1024) :=
  have h := scratch_slices_fit examples.engine0 examples.cfg_bf16 2 (fun _ => 0)
    examples.param3 1 0 rfl (by decide) (by decide) (by decide)
  ⟨h.1, h.2.1⟩

/-- C29. For every `key_seq_len`, element width `w` (2 for bf16, 1 for uint8), rows
`m < m2` and column `i`, with `S_p = rndup(key_seq_len * w, 64)` and
`S_s = rndup(key_seq_len * 4, 64)`: probability row `m` ends at or before the start
`m2 * S_s` of score row `m2`, and inside a row probability element `i` ends at or before
score element `i + 1` begins. Accordingly, in the row loops over a materialized mask of both
pipelines every probability row is the converted softmax of values that depend only on the
scores its own score row held before the loop. -/
theorem prob_rows_behind_scores (nm : numerics F) (self : mha_gpt_impl_amx F)
    (param : exec_param F) (i0 i1 seq_start base : Nat) (ksl w m m2 i : Nat)
    (hw : w = 2 ∨ w = 1) (hm : m < m2) :
    m * rndup (ksl * w) 64 + ksl * w ≤ m2 * rndup (ksl * 4) 64 ∧
    m * rndup (ksl * w) 64 + (i + 1) * w ≤ m * rndup (ksl * 4) 64 + (i + 1) * 4 ∧
    (∃ g : Nat → Nat → F → F, ∀ (n : Nat) (buf : Mem F) (r c : Nat), r < n →
      c < param.key_seq_len →
      mha_bf16_mask_rows nm self param i0 i1 seq_start n base buf
          (base + r * rndup (param.key_seq_len * 2) 64 + c * 2) =
        softmax nm.expf param.key_seq_len
          (fun j => g r j (buf (base + r * rndup (param.key_seq_len * 4) 64 + j * 4))) c) ∧
    (∃ g : Nat → Nat → F → F, ∀ (n : Nat) (buf : Mem F) (r c : Nat), r < n →
      c < param.key_seq_len →
      mha_i8_mask_rows nm self param i0 i1 seq_start n base buf
          (base + r * rndup (param.key_seq_len * 1) 64 + c * 1) =
        nm.round_u8 (softmax nm.expf param.key_seq_len
          (fun j => g r j (buf (base + r * rndup (param.key_seq_len * 4) 64 + j * 4))) c *
            param.qk_quant)) := by
  have h1 : ksl * w ≤ rndup (ksl * w) 64 := rndup_ge _
  have h2 : rndup (ksl * w) 64 ≤ rndup (ksl * 4) 64 :=
    rndup_mono _ _ (by rcases hw with h | h <;> subst h <;> omega)
  have h3 : m * rndup (ksl * w) 64 ≤ m * rndup (ksl * 4) 64 := Nat.mul_le_mul_left _ h2
  have h4 : (m + 1) * rndup (ksl * 4) 64 ≤ m2 * rndup (ksl * 4) 64 :=
    Nat.mul_le_mul_right _ hm
  have h5 : (i + 1) * w ≤ (i + 1) * 4 :=
    Nat.mul_le_mul_left _ (by rcases hw with h | h <;> subst h <;> omega)
  refine ⟨?_, by omega,
    ⟨fun r => mask_logit self param self._create_param.normal_factor i0 i1 (seq_start + r), ?_⟩,
    ⟨fun r j x => mask_logit self param
      (self._create_param.normal_factor * param.q_dequant * param.k_dequant) i0 i1
      (seq_start + r) j
      (x * (self._create_param.normal_factor * param.q_dequant * param.k_dequant) +
        param.attention_mask.data_f32 (i0 * param.query_seq_len * param.key_seq_len +
          (seq_start + r) * param.key_seq_len + j)), ?_⟩⟩
  · rw [Nat.add_mul, one_mul] at h4
    omega
  · intro n buf r c hr hc
    rw [mha_bf16_mask_rows_eq, rows_gen_full_len,
      (rows_gen_spec nm.expf id 2 2 param.key_seq_len base _ _ buf n (Or.inr rfl) rfl
        (fun _ _ => le_refl _)).1 r hr c hc]
    unfold block_prob
    rw [if_pos hc]
    rfl
  · intro n buf r c hr hc
    rw [mha_i8_mask_rows_eq, rows_gen_full_len,
      (rows_gen_spec nm.expf _ 1 1 param.key_seq_len base _ _ buf n (Or.inl rfl) rfl
        (fun _ _ => le_refl _)).1 r hr c hc]
    unfold block_prob
    rw [if_pos hc]

/-- Three keys in bf16: probability row 0 (6 bytes) ends before score row 1 starts at byte
64, and its first element ends at byte 2, before the second score starts at byte 4. -/
theorem prob_rows_behind_scores_witness :
    0 * rndup (3 * 2) 64 + 3 * 2 ≤ 1 * rndup (3 * 4) 64 ∧
    0 * rndup (3 * 2) 64 + (0 + 1) * 2 ≤ 0 * rndup (3 * 4) 64 + (0 + 1) * 4 :=
  have h := prob_rows_behind_scores examples.nm0
    (examples.engine0.create examples.cfg_bf16 2 (fun _ => 0)).2 examples.param3 0 0 0 0
    3 2 0 1 0 (Or.inl rfl) (by decide)
  ⟨h.1, h.2.1⟩

end scratch_theorems

section worker_theorems

open mha_gpt mha_gpt_impl_amx

variable {F : Type} [Field F]

/-- C28, as the code has it. The blocked strategy reads the thread count again at `exec`:
the workers it launches are the indices below the count the environment reports then (a
body may be replaced by any body that agrees with it on these indices). When that count is
at most the count `n` used at `create`, every worker index selects an existing kernel
object, so that both pipelines run to the end, and its scratch slices lie inside the `n`
slices allocated. -/
theorem blocked_workers_follow_exec_count (nm : numerics F) (env : parallel_env)
    (self0 : mha_gpt_impl_amx F) (cp : create_param F) (n : Nat) (fresh : Nat → F)
    (param : exec_param F) (hc : (self0.create cp n fresh).1 = true)
    (hthr : env.getTotalThreads ≤ n) :
    (∀ (body body2 : Nat → Nat → Nat → Nat → bufs F → Option (bufs F)) (w0 : bufs F),
      (∀ t, t < env.getTotalThreads → body t = body2 t) →
      blocked_loop env param.batch cp.num_heads param.query_seq_len body w0 =
        blocked_loop env param.batch cp.num_heads param.query_seq_len body2 w0) ∧
    (cp.qkv_precision = dnnl_bf16 →
      is_vector_bf16 (self0.create cp n fresh).2 param = false →
      ∃ st out, mha_bf16 nm env (self0.create cp n fresh).2 param = some (st, out)) ∧
    (cp.qkv_precision = dnnl_s8 →
      is_vector_i8 (self0.create cp n fresh).2 param = false →
      ∃ st out, mha_i8 nm env (self0.create cp n fresh).2 param = some (st, out)) ∧
    (∀ t, t < env.getTotalThreads →
      (t + 1) * (self0.create cp n fresh).2.bufferMatMul0OutSize ≤
        n * (self0.create cp n fresh).2.bufferMatMul0OutSize ∧
      (t + 1) * (self0.create cp n fresh).2.bufferMatMul1OutSize ≤
        n * (self0.create cp n fresh).2.bufferMatMul1OutSize) := by
  refine ⟨?_, ?_, ?_, ?_⟩
  · intro body body2 w0 h
    exact blocked_loop_ext env _ _ _ body body2 h w0
  · intro hq hblk
    obtain ⟨wf, hwf⟩ := blocked_loop_some env param.batch
      (self0.create cp n fresh).2._create_param.num_heads param.query_seq_len
      (mha_bf16_block_body nm (self0.create cp n fresh).2 param)
      (fun t ht i0 i1 seq w =>
        mha_bf16_block_body_some nm self0 cp n fresh param hc hq t (by omega) i0 i1 seq w)
      ⟨(self0.create cp n fresh).2.bufferMatMul0Out, (self0.create cp n fresh).2.bufferMatMul1Out,
        param.attn_output.m_ptr⟩
    unfold mha_bf16
    simp only [hblk, Bool.false_eq_true, if_false, hwf, Option.map_some']
    exact ⟨_, _, rfl⟩
  · intro hq hblk
    obtain ⟨wf, hwf⟩ := blocked_loop_some env param.batch
      (self0.create cp n fresh).2._create_param.num_heads param.query_seq_len
      (mha_i8_block_body nm (self0.create cp n fresh).2 param
        (prepare_qkvQuantBuf (self0.create cp n fresh).2 param))
      (fun t ht i0 i1 seq w =>
        mha_i8_block_body_some nm self0 cp n fresh param _ hc hq t (by omega) i0 i1 seq w)
      ⟨(self0.create cp n fresh).2.bufferMatMul0Out, (self0.create cp n fresh).2.bufferMatMul1Out,
        param.attn_output.m_ptr⟩
    unfold mha_i8
    simp only [hblk, Bool.false_eq_true, if_false, hwf, Option.map_some']
    exact ⟨_, _, rfl⟩
  · intro t ht
    exact ⟨Nat.mul_le_mul_right _ (by omega), Nat.mul_le_mul_right _ (by omega)⟩

/-- An engine created with two threads under a partitioner that reports two threads at
`exec`: the bf16 pipeline runs to the end on `param3`. -/
theorem blocked_workers_follow_exec_count_witness :
    ∃ st out, mha_bf16 examples.nm0 examples.env2
      (examples.engine0.create examples.cfg_bf16 2 (fun _ => 0)).2 examples.param3 =
      some (st, out) :=
  (blocked_workers_follow_exec_count examples.nm0 examples.env2 examples.engine0
    examples.cfg_bf16 2 (fun _ => 0) examples.param3 rfl (by decide)).2.1 rfl rfl

/-- C28 fails on an engine created with one thread when the environment reports two threads
at `exec` (`env_even 2` on the two work items of `param3_batch2`): the blocked strategy
launches worker 1 on the second work item, `create` made no kernel object for it, and the
call does not come to an end with an output; when the environment reports one thread at
`exec`, the same call on the same engine does. -/
theorem blocked_threads_read_at_exec :
    (examples.engine0.create examples.cfg_bf16 1 (fun _ => 0)).1 = true ∧
    (examples.engine0.create examples.cfg_bf16 1 (fun _ => 0)).2.qKtrGemm_BF16xBF16.length =
      1 ∧
    (examples.env_even 2).getTotalThreads = 2 ∧
    (examples.env_even 2).splitter 2 2 1 = (1, 2) ∧
    exec examples.nm0 (examples.env_even 2)
      (examples.engine0.create examples.cfg_bf16 1 (fun _ => 0)).2 examples.param3_batch2 =
      (exec_path.run_bf16, none) ∧
    ∃ st out, exec examples.nm0 (examples.env_even 1)
      (examples.engine0.create examples.cfg_bf16 1 (fun _ => 0)).2 examples.param3_batch2 =
      (exec_path.run_bf16, some (st, out)) := by
  refine ⟨rfl, rfl, rfl, rfl, rfl, ?_⟩
  obtain ⟨wf, hwf⟩ := blocked_loop_some (examples.env_even 1)
    examples.param3_batch2.batch examples.cfg_bf16.num_heads
    examples.param3_batch2.query_seq_len
    (mha_bf16_block_body examples.nm0
      (examples.engine0.create examples.cfg_bf16 1 (fun _ => 0)).2 examples.param3_batch2)
    (fun t ht i0 i1 seq w =>
      mha_bf16_block_body_some examples.nm0 examples.engine0 examples.cfg_bf16 1 (fun _ => 0)
        examples.param3_batch2 rfl rfl t ht i0 i1 seq w)
    ⟨(examples.engine0.create examples.cfg_bf16 1 (fun _ => 0)).2.bufferMatMul0Out,
      (examples.engine0.create examples.cfg_bf16 1 (fun _ => 0)).2.bufferMatMul1Out,
      examples.param3_batch2.attn_output.m_ptr⟩
  have h1 : rank_mismatch examples.param3_batch2 = false := rfl
  have h2 : dims_match examples.param3_batch2 = true := rfl
  have h3 : (examples.engine0.create examples.cfg_bf16 1
      (fun _ => 0)).2._create_param.qkv_precision = dnnl_bf16 := rfl
  have h4 : is_vector_bf16 (examples.engine0.create examples.cfg_bf16 1 (fun _ => 0)).2
      examples.param3_batch2 = false := rfl
  have h5 : (examples.engine0.create examples.cfg_bf16 1
      (fun _ => 0)).2._create_param.num_heads = examples.cfg_bf16.num_heads := rfl
  unfold exec dispatch mha_bf16
  simp only [h1, h2, h3, h4, h5, Bool.false_eq_true, if_false, Bool.not_true, if_true, hwf,
    Option.map_some']
  exact ⟨_, _, rfl⟩

end worker_theorems

end llmdnn
